import Mathlib

/-!
# AT-command WiFi driver (`drivers/wifi/at_driver.c`)

A shallow embedding of the AT protocol engine: the byte-received callback
(`at_callback`, `refresh_status`, `get_conn_id`, `process_ipd_msg`,
`at_sscanf`), the command formatter (`build_cmd`, `build_cmd_param`,
`at_sprintf`), the synchronous executor (`at_run_cmd` and its helpers), the entry into the
unvarnished mode (`enter_send_unvernished_mode`) and the exchange of the
destination buffer (`replace_buffer`).

Conventions of the embedding
* bytes are natural numbers (`'A'` is `65`); `uint32_t` values are naturals
  with explicit reduction modulo `2^32` wherever the C code can wrap;
* the two static arrays of `struct at_desc` are lists holding the bytes
  written so far; a cell that was never written reads as `0` (the descriptor
  is allocated with `calloc`);
* a function returns `none` when the C code would access memory outside the
  object it indexes (undefined behaviour);
* the serial transport, the application callback and the circular buffer are
  collaborators: their observable effects are recorded in fields of the state.
-/

namespace AtDriver

/-! ## Constants of `at_driver.h` / `at_driver.c` -/

def NB_RESPONSES : Nat := 4
def MAX_CONNECTIONS : Nat := 4
def CMD_BUFF_LEN : Nat := 120
def RESULT_BUFF_LEN : Nat := 500
def MODULE_TIMEOUT : Nat := 20000
def RESET_DELAY : Nat := 6000

/-- Number of values of a `uint32_t`. -/
def U32 : Nat := 4294967296

/-- Subtraction of `uint32_t` values (wraps around). -/
def sub32 (a b : Nat) : Nat :=
  if b % U32 ≤ a % U32 then a % U32 - b % U32 else U32 - (b % U32 - a % U32)

/-- Addition of `uint32_t` values (wraps around). -/
def add32 (a b : Nat) : Nat := (a + b) % U32

/-- Return codes of `error.h` (only the two names are used by the driver). -/
inductive ret_code where
  | SUCCESS
  | FAILURE
  deriving DecidableEq, Repr

/-- Type `enum UART_EVENT` of the transport; `OTHER` stands for every value that
reaches the `default:` label of `at_callback`. -/
inductive UART_EVENT where
  | WRITE_DONE
  | READ_DONE
  | ERROR
  | OTHER
  deriving DecidableEq, Repr

/-- Field `result_status` of `struct at_desc`. -/
inductive result_status_t where
  | WAITING_RESULT
  | RESULT_AVAILABE
  | RESULT_ERROR
  | OVERFLOW_ERROR
  deriving DecidableEq, Repr

/-- Field `callback_state` of `struct at_desc`. -/
inductive callback_state_t where
  | READING_MODULE_MSG
  | READING_PAYLOAD
  | READING_UNVARNISHED
  deriving DecidableEq, Repr

/-- Type `enum socket_type` of `at_params.h`. -/
inductive socket_type where
  | SOCKET_TCP
  | SOCKET_UDP
  deriving DecidableEq, Repr

/-- One entry of `desc->connections`. -/
structure connection where
  active : Bool
  type : socket_type
  deriving DecidableEq, Repr

/-- Field `app_data` of `struct at_desc`; `data_buff` holds the bytes the
transport stored in the application buffer, `data_len` is `data.len`. -/
structure app_data_t where
  data_buff : List Nat
  data_len : Nat
  size : Nat
  pending : Nat
  deriving DecidableEq, Repr

/-- Destination of an outstanding `uart_read`. -/
inductive read_target where
  | READ_CH
  | APP_BUFF
  deriving DecidableEq, Repr

/-- Modelled from the spec: the serial transport (`uart.h`, not part of the
source tree) is "byte-oriented asynchronous read/write with completion
callback". The handle records the outstanding read request (destination,
requested length, bytes received for it so far) and every buffer handed to
`uart_write`, oldest first. -/
structure uart_desc where
  rd_target : read_target
  rd_len : Nat
  rd_got : List Nat
  tx : List (List Nat)
  deriving DecidableEq, Repr

/-- Structure `struct at_desc`.
* `result_buff`/`result_len`: `buffers.result_buff` and `result.len`;
* `cmd_buff`/`cmd_len`: the bytes `cmd.buff` points to and `cmd.len`;
* `app_callback`: whether the application callback pointer is non-null;
* `app_notified`: the `len` argument of every `app_callback` call so far;
* `cb_response`: the content of the result circular buffer;
* `matched`: the index `i` of every response found complete by
  `refresh_status` so far (each time `match` was set), oldest first. -/
structure at_desc where
  result_buff : List Nat
  result_len : Nat
  cmd_buff : List Nat
  cmd_len : Nat
  app_data : app_data_t
  app_callback : Bool
  app_notified : List Nat
  cb_response : List Nat
  read_ch : Nat
  result_status : result_status_t
  callback_state : callback_state_t
  waiting_send : Bool
  is_reset : Bool
  match_idx : List Nat
  uart : uart_desc
  connections : List connection
  multiple_conections : Bool
  matched : List Nat
  deriving DecidableEq, Repr

/-! ## Buffer primitives -/

/-- Read `buff[i]` of an array of `cap` cells: `none` outside the array, `0`
for a cell never written. -/
def buff_read (cap : Nat) (buff : List Nat) (i : Nat) : Option Nat :=
  if i < cap then some (buff.getD i 0) else none

/-- Write `buff[i] = ch` (cells between the end of the list and `i` are zero). -/
def buff_write (buff : List Nat) (i : Nat) (ch : Nat) : List Nat :=
  if i < buff.length then buff.set i ch
  else buff ++ List.replicate (i - buff.length) 0 ++ [ch]

/-- The bytes `buff[i] .. buff[i + n - 1]`. -/
def buff_slice (buff : List Nat) (i n : Nat) : List Nat :=
  (List.range n).map (fun j => buff.getD (i + j) 0)

/-- The response buffer as the caller sees it: the first `result.len` bytes. -/
def result_view (desc : at_desc) : List Nat :=
  buff_slice desc.result_buff 0 desc.result_len

/-- Function `at_strcatch(&desc->result, ch)`; `none` when the write falls outside
`buffers.result_buff`. -/
def result_strcatch (desc : at_desc) (ch : Nat) : Option at_desc :=
  if desc.result_len < RESULT_BUFF_LEN then
    some { desc with
      result_buff := buff_write desc.result_buff desc.result_len ch
      result_len := add32 desc.result_len 1 }
  else none

/-! ## Response matcher -/

/-- Table `responses` of `refresh_status`:
`"\r\nERROR\r\n"`, `"\r\nOK\r\n"`, `"\r\nSEND OK\r\n"`, `"CLOSED\r\n"`. -/
def responses : Nat → List Nat
  | 0 => [13, 10, 69, 82, 82, 79, 82, 13, 10]
  | 1 => [13, 10, 79, 75, 13, 10]
  | 2 => [13, 10, 83, 69, 78, 68, 32, 79, 75, 13, 10]
  | 3 => [67, 76, 79, 83, 69, 68, 13, 10]
  | _ => []

/-- Function `get_conn_id`: returns the descriptor and `*id`. -/
def get_conn_id (desc : at_desc) : Option (at_desc × Nat) :=
  let id := U32 - 1
  let i := sub32 desc.result_len 2
  -- `i` is an `int32_t`: negative when the top bit is set
  if i ≥ 2147483648 then some (desc, id)
  else
    match buff_read RESULT_BUFF_LEN desc.result_buff i with
    | none => none
    | some ch =>
      if ch < 48 ∨ ch > 57 then some (desc, id)
      else some ({ desc with result_len := sub32 desc.result_len 2 }, ch - 48)

/-- Statement `connections[id].active = false`. -/
def conn_close (cs : List connection) (id : Nat) : List connection :=
  match cs.get? id with
  | none => cs
  | some c => cs.set id { c with active := false }

/-- Statements `connections[id].active = true; connections[id].type = t`. -/
def conn_open (cs : List connection) (id : Nat) (t : socket_type) : List connection :=
  cs.set id { active := true, type := t }

/-- The `switch (i)` of `refresh_status`, run when response `i` is complete. -/
def on_match (desc : at_desc) (i : Nat) : Option at_desc :=
  match i with
  | 0 => some { desc with result_status := result_status_t.RESULT_ERROR }
  | 1 => some { desc with result_status := result_status_t.RESULT_AVAILABE }
  | 2 => some { desc with result_status := result_status_t.RESULT_AVAILABE }
  | 3 =>
    let r := if desc.multiple_conections then get_conn_id desc else some (desc, 0)
    match r with
    | none => none
    | some (d, id) =>
      -- `connections[id].active = false`
      if id < MAX_CONNECTIONS then
        some { d with connections := conn_close d.connections id }
      else none
  | _ => some desc

/-- The `for` loop of `refresh_status`; `n` is `NB_RESPONSES - i`. The loop ends
when a response is complete (`match`) or on the early `return`. -/
def refresh_loop (last_char : Nat) : Nat → Nat → at_desc → Option at_desc
  | 0, _, desc => some desc
  | n + 1, i, desc =>
    let m := desc.match_idx.getD i 0
    if m > (responses i).length then some desc
    else if last_char = (responses i).getD m 0 then
      let m1 := add32 m 1
      let desc1 := { desc with match_idx := desc.match_idx.set i m1 }
      if m1 = (responses i).length then
        let desc2 := { desc1 with result_len := sub32 desc1.result_len m1 }
        match on_match desc2 i with
        | none => none
        | some desc3 =>
          some { desc3 with match_idx := [0, 0, 0, 0], matched := desc3.matched ++ [i] }
      else refresh_loop last_char n (i + 1) desc1
    else if last_char = (responses i).getD 0 0 then
      refresh_loop last_char n (i + 1) { desc with match_idx := desc.match_idx.set i 1 }
    else
      refresh_loop last_char n (i + 1) { desc with match_idx := desc.match_idx.set i 0 }

/-- Function `refresh_status`. -/
def refresh_status (desc : at_desc) : Option at_desc :=
  match buff_read RESULT_BUFF_LEN desc.result_buff (sub32 desc.result_len 1) with
  | none => none
  | some last_char => refresh_loop last_char NB_RESPONSES 0 desc

/-! ## Unsolicited payload extractor -/

/-- Predicate `isspace` of the C library ("C" locale). -/
def isspace (c : Nat) : Bool := c = 32 || (9 ≤ c && c ≤ 13)

/-- Value of a run of decimal digits, most significant first. -/
def digits_value (ds : List Nat) : Nat := ds.foldl (fun acc d => acc * 10 + (d - 48)) 0

/-- Function `strtol(buff, &aux, 10)` of the C library on the bytes of a
NUL-terminated string, for a 32-bit `long`: returns the value and `aux - buff`.
Leading white space and one optional sign are skipped; without any digit the
value is `0` and nothing is consumed; out-of-range values saturate. -/
def strtol (s : List Nat) : Int × Nat :=
  let ws := s.takeWhile isspace
  let s1 := s.dropWhile isspace
  let neg := s1.head? = some 45
  let sgn := if s1.head? = some 45 ∨ s1.head? = some 43 then 1 else 0
  let ds := (s1.drop sgn).takeWhile (fun c => 48 ≤ c && c ≤ 57)
  if ds.length = 0 then (0, 0)
  else
    let v := digits_value ds
    let used := ws.length + sgn + ds.length
    if neg then (if v > 2147483648 then (-2147483648, used) else (-(v : Int), used))
    else (if v > 2147483647 then (2147483647, used) else ((v : Int), used))

/-- Function `at_sscanf(src, fmt, ...)`: `i` is the read index, `out` the values
stored so far through the successive pointer arguments, in order. Returns the
stored values and whether the end of the format was reached (`false` is the
`failure:` label, which only prints). -/
def at_sscanf_loop (src : List Nat) : List Nat → Nat → List Int → List Int × Bool
  | [], _, out => (out, true)
  | f :: fmt, i, out =>
    if i ≥ src.length then (out, false)
    else if f ≠ src.getD i 0 then
      if f ≠ 37 then (out, false)
      else
        match fmt with
        | [] => (out, false)
        | 100 :: fmt1 =>
          -- case 'd'
          let n := min (src.length - i) 11
          let buff := ((src.drop i).take n).takeWhile (fun c => c ≠ 0)
          let r := strtol buff
          -- `i += aux - buff - 1;` then `fmt++; i++;`
          at_sscanf_loop src fmt1 (add32 (sub32 (add32 i r.2) 1) 1) (out ++ [r.1])
        | 115 :: fmt1 =>
          -- case 's': nothing is read
          at_sscanf_loop src fmt1 (add32 i 1) out
        | _ :: _ => (out, false)
    else at_sscanf_loop src fmt (add32 i 1) out

/-- Function `at_sscanf`. -/
def at_sscanf (src : List Nat) (fmt : List Nat) : List Int × Bool :=
  at_sscanf_loop src fmt 0 []

/-- A value stored through an `int32_t *` that points to a `uint32_t`. -/
def to_u32 (v : Int) : Nat := (v % (U32 : Int)).toNat

/-- Literal `at_ipd` of `process_ipd_msg`: `"+IPD,"`. -/
def at_ipd : List Nat := [43, 73, 80, 68, 44]

def max_ch_search : Nat := 13

/-- Format `"+IPD,%d,%d"`. -/
def fmt_ipd_multiple : List Nat := [43, 73, 80, 68, 44, 37, 100, 44, 37, 100]

/-- Format `"+IPD,%d"`. -/
def fmt_ipd_single : List Nat := [43, 73, 80, 68, 44, 37, 100]

/-- Inner loop of `process_ipd_msg` ("compare backwards ipd with response"):
`n` is `at_ipd.len - k`; returns the final `k`. -/
def ipd_cmp (result : List Nat) (i : Nat) : Nat → Nat → Option Nat
  | 0, k => some k
  | n + 1, k =>
    match buff_read RESULT_BUFF_LEN result (sub32 i k) with
    | none => none
    | some c =>
      if c = at_ipd.getD (at_ipd.length - k - 1) 0 then ipd_cmp result i n (k + 1)
      else some k

/-- Outer loop of `process_ipd_msg`; `n` is `max_ch_search - nb_ch`. Returns the
final `i` and `cmp` (`k` equals `at_ipd.len` exactly when `cmp` is set). -/
def ipd_scan (result : List Nat) : Nat → Nat → Option (Nat × Bool)
  | 0, i => some (i, false)
  | n + 1, i =>
    match buff_read RESULT_BUFF_LEN result i with
    | none => none
    | some c =>
      if (48 ≤ c ∧ c ≤ 57) ∨ c = 44 then
        if c = 44 then
          match ipd_cmp result i at_ipd.length 0 with
          | none => none
          | some k =>
            if k = at_ipd.length then some (sub32 i 1, true)
            else ipd_scan result n (sub32 i 1)
        else ipd_scan result n (sub32 i 1)
      else some (i, false)

/-- The two `at_sscanf` calls of `process_ipd_msg` on the header `aux`: the value
of `*len` afterwards (`len` itself when nothing was stored into it). -/
def ipd_sscanf (multiple : Bool) (aux : List Nat) (len : Nat) : Nat :=
  if multiple then
    match (at_sscanf aux fmt_ipd_multiple).1 with
    | _ :: l :: _ => to_u32 l
    | _ => len
  else
    match (at_sscanf aux fmt_ipd_single).1 with
    | l :: _ => to_u32 l
    | _ => len

/-- Function `process_ipd_msg(desc, &len)`; `len` is the value the caller's
variable holds on entry. Returns the code, the descriptor and `*len`. -/
def process_ipd_msg (desc : at_desc) (len : Nat) : Option (ret_code × at_desc × Nat) :=
  match ipd_scan desc.result_buff max_ch_search (sub32 desc.result_len 1) with
  | none => none
  | some (_, false) => some (ret_code.FAILURE, desc, len)
  | some (i0, true) =>
    -- `i = (i + 1) - (--k);` with `k == at_ipd.len`
    let i := sub32 (add32 i0 1) (at_ipd.length - 1)
    let aux := buff_slice desc.result_buff i (sub32 desc.result_len i)
    let len1 := ipd_sscanf desc.multiple_conections aux len
    let desc1 := { desc with
      result_len := sub32 i 2
      match_idx := desc.match_idx.map (fun m => if m ≥ 2 then m - 2 else m) }
    some (ret_code.SUCCESS, desc1, len1)

/-! ## Byte-received path -/

/-- Function `uart_read(desc->uart_desc, buf, n)`: a new read request. -/
def uart_read (u : uart_desc) (t : read_target) (n : Nat) : uart_desc :=
  { u with rd_target := t, rd_len := n, rd_got := [] }

/-- Function `uart_write(desc->uart_desc, data, len)`: the bytes are handed to the
transport. -/
def uart_write (u : uart_desc) (data : List Nat) : uart_desc :=
  { u with tx := u.tx ++ [data] }

/-- Call `desc->app_callback(desc->app_ctx, len)` when the pointer is set. The
application does not replace its buffer inside the call. -/
def call_app_callback (desc : at_desc) (len : Nat) : at_desc :=
  if desc.app_callback then { desc with app_notified := desc.app_notified ++ [len] }
  else desc

/-- Modelled from the spec: `cb_write` of the "fixed-capacity circular byte
buffer" (`circular_buffer.h`, not part of the source tree), created with
capacity `RESULT_BUFF_LEN`: the bytes are queued when they fit, otherwise the
call fails and queues nothing. -/
def cb_write (cb : List Nat) (data : List Nat) : ret_code × List Nat :=
  if cb.length + data.length ≤ RESULT_BUFF_LEN then (ret_code.SUCCESS, cb ++ data)
  else (ret_code.FAILURE, cb)

/-- The tail of the `READING_MODULE_MSG` case of `at_callback`, from the test of
`'>'` on. -/
def module_msg_char (desc : at_desc) : Option at_desc :=
  let r :=
    if desc.read_ch = 62 ∧ desc.waiting_send = true then
      some { desc with waiting_send := false }
    else if desc.result_len ≥ RESULT_BUFF_LEN then
      some { desc with result_status := result_status_t.OVERFLOW_ERROR }
    else
      match result_strcatch desc desc.read_ch with
      | none => none
      | some d => refresh_status d
  match r with
  | none => none
  | some d => some { d with uart := uart_read d.uart read_target.READ_CH 1 }

/-- Function `at_callback(desc, event, data)`; `len` is the indeterminate initial
value of its local variable `len`. -/
def at_callback (desc : at_desc) (event : UART_EVENT) (len : Nat) : Option at_desc :=
  match event with
  | UART_EVENT.WRITE_DONE => some { desc with cmd_len := 0 }
  | UART_EVENT.READ_DONE =>
    match desc.callback_state with
    | callback_state_t.READING_MODULE_MSG =>
      if desc.read_ch = 58 then
        match process_ipd_msg desc len with
        | none => none
        | some (ret_code.SUCCESS, d, len1) =>
          let len2 := min d.app_data.size len1
          some { d with
            app_data := { d.app_data with pending := sub32 len1 len2, data_len := len2 }
            uart := uart_read d.uart read_target.APP_BUFF len2
            callback_state := callback_state_t.READING_PAYLOAD }
        | some (ret_code.FAILURE, d, _) => module_msg_char d
      else module_msg_char desc
    | callback_state_t.READING_PAYLOAD =>
      if desc.app_data.pending = 0 then
        let d := call_app_callback desc desc.app_data.data_len
        some { d with
          callback_state := callback_state_t.READING_MODULE_MSG
          uart := uart_read d.uart read_target.READ_CH 1 }
      else
        let d := call_app_callback desc desc.app_data.data_len
        let len2 := min d.app_data.size d.app_data.pending
        some { d with
          uart := uart_read d.uart read_target.APP_BUFF len2
          app_data := { d.app_data with data_len := len2, pending := sub32 d.app_data.pending len2 } }
    | callback_state_t.READING_UNVARNISHED =>
      let cb := (cb_write desc.cb_response [desc.read_ch]).2
      let d := call_app_callback { desc with cb_response := cb } cb.length
      some { d with uart := uart_read d.uart read_target.READ_CH 1 }
  | UART_EVENT.ERROR =>
    some { desc with uart := uart_read desc.uart read_target.READ_CH 1, cmd_len := 0 }
  | UART_EVENT.OTHER =>
    some { desc with uart := uart_read desc.uart read_target.READ_CH 1, cmd_len := 0 }

/-- Modelled from the spec: the transport's receive side. A byte arriving on the
line is stored for the outstanding read request; when the request is complete
the bytes are in their destination (`read_ch` or the application buffer) and
the completion callback runs with `READ_DONE`. -/
def uart_rx_byte (desc : at_desc) (len : Nat) (b : Nat) : Option at_desc :=
  let got := desc.uart.rd_got ++ [b]
  if got.length < desc.uart.rd_len then
    some { desc with uart := { desc.uart with rd_got := got } }
  else
    match desc.uart.rd_target with
    | read_target.READ_CH =>
      at_callback { desc with read_ch := got.headD 0, uart := { desc.uart with rd_got := [] } }
        UART_EVENT.READ_DONE len
    | read_target.APP_BUFF =>
      at_callback { desc with
        app_data := { desc.app_data with data_buff := got }
        uart := { desc.uart with rd_got := [] } } UART_EVENT.READ_DONE len

/-- The module sends the bytes `bs`, one after the other. -/
def feed (len : Nat) : at_desc → List Nat → Option at_desc
  | desc, [] => some desc
  | desc, b :: bs =>
    match uart_rx_byte desc len b with
    | none => none
    | some d => feed len d bs

/-! ## Command table and parameters -/

/-- Type `enum at_cmd`. -/
inductive at_cmd where
  | AT_ATTENTION
  | AT_RESET
  | AT_DEEP_SLEEP
  | AT_GET_VERSION
  | AT_SET_OPERATION_MODE
  | AT_CONNECT_NETWORK
  | AT_GET_AVAILABLE_NETWORKS
  | AT_DISCONNECT_NETWORK
  | AT_SET_ACCESS_POINT
  | AT_GET_CONNECTED_IPS
  | AT_GET_STATUS
  | AT_START_CONNECTION
  | AT_SEND
  | AT_STOP_CONNECTION
  | AT_GET_IP
  | AT_SET_CONNECTION_TYPE
  | AT_SET_SERVER
  | AT_SET_TRANSPORT_MODE
  | AT_SET_CLIENT_TIMEOUT
  | AT_PING
  deriving DecidableEq, Repr

/-- Type `enum cmd_operation`. -/
inductive cmd_operation where
  | AT_TEST_OP
  | AT_QUERY_OP
  | AT_SET_OP
  | AT_EXECUTE_OP
  deriving DecidableEq, Repr

/-- The enumerator values `0x1`, `0x2`, `0x4`, `0x8`. -/
def cmd_operation.val : cmd_operation → Nat
  | cmd_operation.AT_TEST_OP => 1
  | cmd_operation.AT_QUERY_OP => 2
  | cmd_operation.AT_SET_OP => 4
  | cmd_operation.AT_EXECUTE_OP => 8

/-- Table `g_map`: the token of each command and its mask of allowed operations. -/
def g_map : at_cmd → List Nat × Nat
  | at_cmd.AT_ATTENTION => ([], 8)
  | at_cmd.AT_RESET => ([43, 82, 83, 84], 8)
  | at_cmd.AT_DEEP_SLEEP => ([43, 71, 83, 76, 80], 4)
  | at_cmd.AT_GET_VERSION => ([43, 71, 77, 82], 8)
  | at_cmd.AT_SET_OPERATION_MODE => ([43, 67, 87, 77, 79, 68, 69], 2 ||| 4 ||| 1)
  | at_cmd.AT_CONNECT_NETWORK => ([43, 67, 87, 74, 65, 80], 2 ||| 4)
  | at_cmd.AT_GET_AVAILABLE_NETWORKS => ([43, 67, 87, 76, 65, 80], 8)
  | at_cmd.AT_DISCONNECT_NETWORK => ([43, 67, 87, 81, 65, 80], 8)
  | at_cmd.AT_SET_ACCESS_POINT => ([43, 67, 87, 83, 65, 80], 2 ||| 4)
  | at_cmd.AT_GET_CONNECTED_IPS => ([43, 67, 87, 76, 73, 70], 8)
  | at_cmd.AT_GET_STATUS => ([43, 67, 73, 80, 83, 84, 65, 84, 85, 83], 8)
  | at_cmd.AT_START_CONNECTION => ([43, 67, 73, 80, 83, 84, 65, 82, 84], 1 ||| 4)
  | at_cmd.AT_SEND => ([43, 67, 73, 80, 83, 69, 78, 68], 4)
  | at_cmd.AT_STOP_CONNECTION => ([43, 67, 73, 80, 67, 76, 79, 83, 69], 8 ||| 4)
  | at_cmd.AT_GET_IP => ([43, 67, 73, 70, 83, 82], 8)
  | at_cmd.AT_SET_CONNECTION_TYPE => ([43, 67, 73, 80, 77, 85, 88], 2 ||| 4)
  | at_cmd.AT_SET_SERVER => ([43, 67, 73, 80, 83, 69, 82, 86, 69, 82], 4)
  | at_cmd.AT_SET_TRANSPORT_MODE => ([43, 67, 73, 80, 77, 79, 68, 69], 2 ||| 4)
  | at_cmd.AT_SET_CLIENT_TIMEOUT => ([43, 67, 73, 80, 83, 84, 79], 2 ||| 4)
  | at_cmd.AT_PING => ([43, 80, 73, 78, 71], 4)

/-- Type `enum cipmode_param` of `at_params.h`. -/
inductive cipmode_param where
  | NORMAL_MODE
  | UNVARNISHED_MODE
  deriving DecidableEq, Repr

/-- Modelled from the spec: the integer sent for a transport mode
(`at_params.h` is not part of the source tree); `AT+CIPMODE` takes `0` for the
normal mode and `1` for the unvarnished ("passthrough") mode. -/
def cipmode_param.val : cipmode_param → Int
  | cipmode_param.NORMAL_MODE => 0
  | cipmode_param.UNVARNISHED_MODE => 1

/-- Type `struct cwjap_param`. -/
structure cwjap_param where
  ssid : List Nat
  pwd : List Nat
  deriving DecidableEq, Repr

/-- Type `struct cwsap_param`. -/
structure cwsap_param where
  ssid : List Nat
  pwd : List Nat
  ch_id : Int
  encription : Int
  deriving DecidableEq, Repr

/-- Type `struct cipstart_param`. -/
structure cipstart_param where
  id : Nat
  soket_type : socket_type
  addr : List Nat
  port : Nat
  local_port : Nat
  udp_mode : Nat
  deriving DecidableEq, Repr

/-- Type `struct cipsend_param`. -/
structure cipsend_param where
  id : Nat
  data : List Nat
  remote_ip : List Nat
  remote_port : Nat
  deriving DecidableEq, Repr

/-- Type `struct cipserver_param`. -/
structure cipserver_param where
  action : Nat
  port : Nat
  deriving DecidableEq, Repr

/-- Type `union in_param`. The members of the C union share their storage; here
each member is a field of its own, so a command reads the member the source
names. Enumerations other than the transport mode and the socket type are kept
as their integer value. -/
structure in_param where
  deep_sleep_time_ms : Nat
  wifi_mode : Int
  network : cwjap_param
  ap : cwsap_param
  connection : cipstart_param
  send_data : cipsend_param
  conn_id : Nat
  conn_type : Nat
  server : cipserver_param
  transport_mode : cipmode_param
  timeout : Nat
  ping_ip : List Nat
  deriving DecidableEq, Repr

/-! ## Command formatter -/

/-- Read `desc->connections[id]`; `none` outside the table. -/
def conn_read (desc : at_desc) (id : Nat) : Option connection :=
  if id < MAX_CONNECTIONS then desc.connections.get? id else none

/-- Cast of a 32-bit unsigned value to `int32_t`. -/
def to_i32 (v : Nat) : Int :=
  if v % U32 < 2147483648 then ((v % U32 : Nat) : Int) else ((v % U32 : Nat) : Int) - (U32 : Int)

/-- The unsigned decimal numeral of `n`, as bytes. -/
def decimal (n : Nat) : List Nat := (Nat.toDigits 10 n).map Char.toNat

/-- Function `itoa(nb, buff, 10)`: signed decimal digits. -/
def itoa (nb : Int) : List Nat :=
  (if nb < 0 then [45] else []) ++ decimal nb.natAbs

/-- Function `at_strcatch(&desc->cmd, ch)`; `none` when the write falls outside
`buffers.cmd_buff`. -/
def cmd_strcatch (desc : at_desc) (ch : Nat) : Option at_desc :=
  if desc.cmd_len < CMD_BUFF_LEN then
    some { desc with
      cmd_buff := buff_write desc.cmd_buff desc.cmd_len ch
      cmd_len := add32 desc.cmd_len 1 }
  else none

/-- Function `at_strcat(&desc->cmd, src)`. -/
def cmd_strcat : at_desc → List Nat → Option at_desc
  | desc, [] => some desc
  | desc, ch :: src =>
    match cmd_strcatch desc ch with
    | none => none
    | some d => cmd_strcat d src

/-- The bytes appended for a string argument of `at_sprintf`, quotes excluded:
`"`, `,` and `\` are preceded by `\`. -/
def escape_str : List Nat → List Nat
  | [] => []
  | ch :: s =>
    (if ch = 34 ∨ ch = 44 ∨ ch = 92 then [92, ch] else [ch]) ++ escape_str s

/-- One variadic argument of `at_sprintf`. -/
inductive sprintf_arg where
  | int (nb : Int)
  | str (s : List Nat)
  deriving DecidableEq, Repr

/-- Function `at_sprintf(&desc->cmd, fmt, ...)`. -/
def at_sprintf : at_desc → List Nat → List sprintf_arg → Option at_desc
  | desc, [], _ => some desc
  | desc, f :: fmt, args =>
    let r : Option (at_desc × List sprintf_arg) :=
      match f, args with
      | 100, sprintf_arg.int nb :: rest =>
        (cmd_strcat desc (itoa nb)).map (fun d => (d, rest))
      | 115, sprintf_arg.str s :: rest =>
        (cmd_strcat desc ([34] ++ escape_str s ++ [34])).map (fun d => (d, rest))
      | _, _ => some (desc, args)
    match r with
    | none => none
    | some (d, rest) =>
      if fmt ≠ [] then
        match cmd_strcatch d 44 with
        | none => none
        | some d1 => at_sprintf d1 fmt rest
      else at_sprintf d fmt rest

/-- Bytes `"TCP"` and `"UDP"`. -/
def str_TCP : List Nat := [84, 67, 80]

def str_UDP : List Nat := [85, 68, 80]

/-- Function `build_cmd_param`. -/
def build_cmd_param (desc : at_desc) (id : at_cmd) (param : in_param) : Option at_desc :=
  match id with
  | at_cmd.AT_DEEP_SLEEP =>
    at_sprintf desc [100] [sprintf_arg.int (to_i32 param.deep_sleep_time_ms)]
  | at_cmd.AT_SET_OPERATION_MODE =>
    at_sprintf desc [100] [sprintf_arg.int param.wifi_mode]
  | at_cmd.AT_CONNECT_NETWORK =>
    at_sprintf desc [115, 115] [sprintf_arg.str param.network.ssid, sprintf_arg.str param.network.pwd]
  | at_cmd.AT_SET_ACCESS_POINT =>
    at_sprintf desc [115, 115, 100, 100]
      [sprintf_arg.str param.ap.ssid, sprintf_arg.str param.ap.pwd,
       sprintf_arg.int param.ap.ch_id, sprintf_arg.int param.ap.encription]
  | at_cmd.AT_START_CONNECTION =>
    if param.connection.soket_type = socket_type.SOCKET_TCP then
      if desc.multiple_conections then
        at_sprintf desc [100, 115, 115, 100]
          [sprintf_arg.int (to_i32 param.connection.id), sprintf_arg.str str_TCP,
           sprintf_arg.str param.connection.addr, sprintf_arg.int (to_i32 param.connection.port)]
      else
        at_sprintf desc [115, 115, 100]
          [sprintf_arg.str str_TCP, sprintf_arg.str param.connection.addr,
           sprintf_arg.int (to_i32 param.connection.port)]
    else
      if desc.multiple_conections then
        at_sprintf desc [100, 115, 115, 100, 100, 100]
          [sprintf_arg.int (to_i32 param.connection.id), sprintf_arg.str str_UDP,
           sprintf_arg.str param.connection.addr, sprintf_arg.int (to_i32 param.connection.port),
           sprintf_arg.int (to_i32 param.connection.local_port),
           sprintf_arg.int (to_i32 param.connection.udp_mode)]
      else
        at_sprintf desc [115, 115, 100, 100, 100]
          [sprintf_arg.str str_UDP, sprintf_arg.str param.connection.addr,
           sprintf_arg.int (to_i32 param.connection.port),
           sprintf_arg.int (to_i32 param.connection.local_port),
           sprintf_arg.int (to_i32 param.connection.udp_mode)]
  | at_cmd.AT_SEND =>
    let conn_id := if desc.multiple_conections then param.connection.id else 0
    match conn_read desc conn_id with
    | none => none
    | some c =>
      if c.type = socket_type.SOCKET_TCP then
        if desc.multiple_conections then
          at_sprintf desc [100, 100]
            [sprintf_arg.int (to_i32 param.send_data.id),
             sprintf_arg.int (to_i32 param.send_data.data.length)]
        else
          at_sprintf desc [100] [sprintf_arg.int (to_i32 param.send_data.data.length)]
      else
        if desc.multiple_conections then
          at_sprintf desc [100, 100, 115, 100]
            [sprintf_arg.int (to_i32 param.send_data.id),
             sprintf_arg.int (to_i32 param.send_data.data.length),
             sprintf_arg.str param.send_data.remote_ip,
             sprintf_arg.int (to_i32 param.send_data.remote_port)]
        else
          at_sprintf desc [100, 115, 100]
            [sprintf_arg.int (to_i32 param.send_data.data.length),
             sprintf_arg.str param.send_data.remote_ip,
             sprintf_arg.int (to_i32 param.send_data.remote_port)]
  | at_cmd.AT_STOP_CONNECTION =>
    at_sprintf desc [100] [sprintf_arg.int (to_i32 param.conn_id)]
  | at_cmd.AT_SET_CONNECTION_TYPE =>
    at_sprintf desc [100] [sprintf_arg.int (to_i32 param.conn_type)]
  | at_cmd.AT_SET_SERVER =>
    at_sprintf desc [100, 100]
      [sprintf_arg.int (to_i32 param.server.action), sprintf_arg.int (to_i32 param.server.port)]
  | at_cmd.AT_SET_TRANSPORT_MODE =>
    at_sprintf desc [100] [sprintf_arg.int param.transport_mode.val]
  | at_cmd.AT_SET_CLIENT_TIMEOUT =>
    at_sprintf desc [100] [sprintf_arg.int (to_i32 param.timeout)]
  | at_cmd.AT_PING =>
    at_sprintf desc [115] [sprintf_arg.str param.ping_ip]
  | _ => some desc

/-- Function `build_cmd`; `param` is `none` for a null pointer. -/
def build_cmd (desc : at_desc) (cmd : at_cmd) (op : cmd_operation)
    (param : Option in_param) : Option at_desc :=
  (cmd_strcatch { desc with cmd_len := 0 } 65).bind fun d1 =>
  (cmd_strcatch d1 84).bind fun d2 =>
  (cmd_strcat d2 (g_map cmd).1).bind fun d3 =>
  (if op = cmd_operation.AT_QUERY_OP then cmd_strcatch d3 63 else some d3).bind fun d4 =>
  (if op = cmd_operation.AT_TEST_OP then (cmd_strcatch d4 61).bind (fun d => cmd_strcatch d 63)
   else some d4).bind fun d5 =>
  (match param with
   | some p =>
     if op = cmd_operation.AT_SET_OP then
       (cmd_strcatch d5 61).bind (fun d => build_cmd_param d cmd p)
     else some d5
   | none => some d5).bind fun d6 =>
  (cmd_strcatch d6 13).bind fun d7 =>
  cmd_strcatch d7 10

/-! ## Command executor -/

/-- An interrupt raised by the transport while the executor waits. -/
inductive irq where
  | tx_done
  | rx (b : Nat)
  | err
  | other
  deriving DecidableEq, Repr

/-- Why a run of the executor gives no result: it waits forever, or the C code
has undefined behaviour (access outside an object, null pointer). -/
inductive fault where
  | HANG
  | UNDEFINED
  deriving DecidableEq, Repr

/-- The schedule of the interrupts: one batch for each millisecond (each turn of
a busy-wait loop); after the last batch nothing arrives any more. -/
abbrev schedule := List (List irq)

/-- Turn the `none` of undefined behaviour into a fault. -/
def lift_ub {α : Type} : Option α → Except fault α
  | none => Except.error fault.UNDEFINED
  | some a => Except.ok a

/-- Run the completion callback for one interrupt. -/
def deliver_irq (len : Nat) (desc : at_desc) : irq → Option at_desc
  | irq.tx_done => at_callback desc UART_EVENT.WRITE_DONE len
  | irq.rx b => uart_rx_byte desc len b
  | irq.err => at_callback desc UART_EVENT.ERROR len
  | irq.other => at_callback desc UART_EVENT.OTHER len

/-- Run the callbacks of one batch of interrupts. -/
def deliver (len : Nat) : at_desc → List irq → Option at_desc
  | desc, [] => some desc
  | desc, q :: qs =>
    match deliver_irq len desc q with
    | none => none
    | some d => deliver len d qs

/-- Function `mdelay(ms)`: the interrupts of the next `ms` batches are served. -/
def mdelay (len : Nat) : Nat → at_desc → schedule → Except fault (at_desc × schedule)
  | 0, desc, env => Except.ok (desc, env)
  | _ + 1, desc, [] => Except.ok (desc, [])
  | ms + 1, desc, batch :: env =>
    match deliver len desc batch with
    | none => Except.error fault.UNDEFINED
    | some d => mdelay len ms d env

/-- A busy-wait loop `while (cond) ;` on a volatile field: every turn lets one
batch of interrupts in; once the schedule is empty the field cannot change. -/
def busy_wait (len : Nat) (cond : at_desc → Bool) :
    at_desc → schedule → Except fault (at_desc × schedule)
  | desc, [] => if cond desc then Except.error fault.HANG else Except.ok (desc, [])
  | desc, batch :: env =>
    if cond desc then
      match deliver len desc batch with
      | none => Except.error fault.UNDEFINED
      | some d => busy_wait len cond d env
    else Except.ok (desc, batch :: env)

/-- Function `write_cmd`. -/
def write_cmd (len : Nat) (desc : at_desc) (env : schedule) :
    Except fault (at_desc × schedule) :=
  let d1 := { desc with result_status := result_status_t.WAITING_RESULT }
  let d2 := { d1 with uart := uart_write d1.uart (buff_slice d1.cmd_buff 0 d1.cmd_len) }
  busy_wait len (fun d => d.cmd_len ≠ 0) d2 env

/-- The `do ... while (timeout--)` loop of `wait_for_response`; `timeout` is the
value of the counter when the body starts. -/
def wait_for_response_loop (len : Nat) :
    Nat → at_desc → schedule → Except fault (at_desc × schedule)
  | 0, desc, env =>
    if desc.result_status ≠ result_status_t.WAITING_RESULT then Except.ok (desc, env)
    else mdelay len 1 desc env
  | timeout + 1, desc, env =>
    if desc.result_status ≠ result_status_t.WAITING_RESULT then Except.ok (desc, env)
    else
      match mdelay len 1 desc env with
      | Except.error e => Except.error e
      | Except.ok (d, env1) => wait_for_response_loop len timeout d env1

/-- Function `wait_for_response`. -/
def wait_for_response (len : Nat) (desc : at_desc) (env : schedule) :
    Except fault (at_desc × schedule) :=
  wait_for_response_loop len MODULE_TIMEOUT desc env

/-- Bytes `"ATE0\r\n"`. -/
def str_ATE0 : List Nat := [65, 84, 69, 48, 13, 10]

/-- Function `stop_echo`. -/
def stop_echo (len : Nat) (desc : at_desc) (env : schedule) :
    Except fault (ret_code × at_desc × schedule) :=
  let d1 := { desc with cmd_buff := str_ATE0 ++ desc.cmd_buff.drop 6, cmd_len := 6 }
  match write_cmd len d1 env with
  | Except.error e => Except.error e
  | Except.ok (d2, env2) =>
    match wait_for_response len d2 env2 with
    | Except.error e => Except.error e
    | Except.ok (d3, env3) =>
      let d4 := { d3 with result_len := 0 }
      if d4.result_status = result_status_t.RESULT_AVAILABE then
        Except.ok (ret_code.SUCCESS, d4, env3)
      else Except.ok (ret_code.FAILURE, d4, env3)

/-- Function `handle_special`. -/
def handle_special (len : Nat) (desc : at_desc) (cmd : at_cmd) (env : schedule) :
    Except fault (ret_code × at_desc × schedule) :=
  match cmd with
  | at_cmd.AT_RESET =>
    match write_cmd len { desc with is_reset := true } env with
    | Except.error e => Except.error e
    | Except.ok (d1, env1) =>
      match mdelay len RESET_DELAY d1 env1 with
      | Except.error e => Except.error e
      | Except.ok (d2, env2) =>
        match stop_echo len { d2 with result_len := 0 } env2 with
        | Except.error e => Except.error e
        | Except.ok (ret_code.SUCCESS, d3, env3) =>
          Except.ok (ret_code.SUCCESS, { d3 with is_reset := false }, env3)
        | Except.ok (ret_code.FAILURE, d3, env3) => Except.ok (ret_code.FAILURE, d3, env3)
  | at_cmd.AT_DEEP_SLEEP => Except.ok (ret_code.FAILURE, desc, env)
  | _ => Except.ok (ret_code.FAILURE, desc, env)

/-- Bytes `"WIFI DISCONNECT\r\n"` (`resp` of `parse_result`). -/
def str_WIFI_DISCONNECT : List Nat :=
  [87, 73, 70, 73, 32, 68, 73, 83, 67, 79, 78, 78, 69, 67, 84, 13, 10]

/-- The `do ... while (timeout--)` loop of `parse_result`; returns the value of
`timeout` after the loop (`U32 - 1` when the counter ran out). -/
def parse_wait_loop (len : Nat) :
    Nat → at_desc → schedule → Except fault (Nat × at_desc × schedule)
  | 0, desc, env =>
    if str_WIFI_DISCONNECT.length ≥ desc.result_len ∧
        buff_slice desc.result_buff 0 str_WIFI_DISCONNECT.length = str_WIFI_DISCONNECT then
      Except.ok (0, desc, env)
    else
      match mdelay len 100 desc env with
      | Except.error e => Except.error e
      | Except.ok (d, env1) => Except.ok (U32 - 1, d, env1)
  | timeout + 1, desc, env =>
    if str_WIFI_DISCONNECT.length ≥ desc.result_len ∧
        buff_slice desc.result_buff 0 str_WIFI_DISCONNECT.length = str_WIFI_DISCONNECT then
      Except.ok (timeout + 1, desc, env)
    else
      match mdelay len 100 desc env with
      | Except.error e => Except.error e
      | Except.ok (d, env1) => parse_wait_loop len timeout d env1

/-- Function `parse_result`. The output parameter is made to refer to
`desc->cb_response` on every path. -/
def parse_result (len : Nat) (desc : at_desc) (cmd : at_cmd) (env : schedule) :
    Except fault (ret_code × at_desc × schedule) :=
  let waited : Except fault (Nat × at_desc × schedule) :=
    if cmd = at_cmd.AT_DISCONNECT_NETWORK then parse_wait_loop len 10 desc env
    else Except.ok (1, desc, env)
  match waited with
  | Except.error e => Except.error e
  | Except.ok (timeout, d, env1) =>
    if cmd = at_cmd.AT_DISCONNECT_NETWORK ∧ timeout = 0 then
      Except.ok (ret_code.FAILURE, { d with result_len := 0 }, env1)
    else if d.result_len > 0 then
      if d.result_len ≤ RESULT_BUFF_LEN then
        let w := cb_write d.cb_response (result_view d)
        Except.ok (w.1, { d with cb_response := w.2, result_len := 0 }, env1)
      else Except.error fault.UNDEFINED
    else Except.ok (ret_code.SUCCESS, { d with result_len := 0 }, env1)

/-- What a call of `at_run_cmd` leaves: the return value, the descriptor, whether
`param->out.result` was set to the circular buffer, and the rest of the
schedule. -/
structure run_out where
  ret : ret_code
  desc : at_desc
  out_result : Bool
  env : schedule
  deriving DecidableEq, Repr

/-- The part of `at_run_cmd` after the response was received with
`RESULT_AVAILABE` ("Update param related with connections"). -/
def at_run_cmd_update (len : Nat) (desc : at_desc) (cmd : at_cmd) (op : cmd_operation)
    (param : Option in_param) (env : schedule) : Except fault run_out :=
  -- `desc->multiple_conections = param->in.conn_type`
  let r1 : Option at_desc :=
    if cmd = at_cmd.AT_SET_CONNECTION_TYPE then
      param.map (fun p => { desc with multiple_conections := decide (p.conn_type ≠ 0) })
    else some desc
  match r1 with
  | none => Except.error fault.UNDEFINED
  | some d1 =>
    let r2 : Option at_desc :=
      if cmd = at_cmd.AT_START_CONNECTION ∧ op = cmd_operation.AT_SET_OP then
        match param with
        | none => none
        | some p =>
          let id := if d1.multiple_conections then p.connection.id else 0
          if id < MAX_CONNECTIONS then
            some { d1 with connections := conn_open d1.connections id p.connection.soket_type }
          else none
      else some d1
    match r2 with
    | none => Except.error fault.UNDEFINED
    | some d2 =>
      let r3 : Option at_desc :=
        if cmd = at_cmd.AT_SET_TRANSPORT_MODE then
          param.map (fun p =>
            if p.transport_mode = cipmode_param.UNVARNISHED_MODE then
              { d2 with callback_state := callback_state_t.READING_UNVARNISHED }
            else d2)
        else some d2
      match r3 with
      | none => Except.error fault.UNDEFINED
      | some d3 =>
        match param with
        | some _ =>
          let cmd1 := if op = cmd_operation.AT_SET_OP then at_cmd.AT_GET_VERSION else cmd
          match parse_result len d3 cmd1 env with
          | Except.error e => Except.error e
          | Except.ok (ret, d4, env4) =>
            Except.ok { ret := ret, desc := d4, out_result := true, env := env4 }
        | none =>
          Except.ok { ret := ret_code.SUCCESS, desc := { d3 with result_len := 0 },
                      out_result := false, env := env }

/-- Function `at_run_cmd(desc, cmd, op, param)` for a non-null `desc`; `param` is
`none` for a null pointer, `env` is the schedule of the interrupts that arrive
while the function waits. -/
def at_run_cmd (len : Nat) (desc : at_desc) (cmd : at_cmd) (op : cmd_operation)
    (param : Option in_param) (env : schedule) : Except fault run_out :=
  if (g_map cmd).2 &&& op.val = 0 then
    Except.ok { ret := ret_code.FAILURE, desc := desc, out_result := false, env := env }
  else
    let gate : Except fault (Option at_desc) :=
      if desc.callback_state = callback_state_t.READING_UNVARNISHED then
        if cmd = at_cmd.AT_SET_TRANSPORT_MODE then
          match param with
          | none => Except.error fault.UNDEFINED
          | some p =>
            if p.transport_mode = cipmode_param.NORMAL_MODE then
              Except.ok (some { desc with callback_state := callback_state_t.READING_MODULE_MSG })
            else Except.ok none
        else Except.ok none
      else Except.ok (some desc)
    match gate with
    | Except.error e => Except.error e
    | Except.ok none =>
      Except.ok { ret := ret_code.FAILURE, desc := desc, out_result := false, env := env }
    | Except.ok (some d0) =>
      match build_cmd d0 cmd op param with
      | none => Except.error fault.UNDEFINED
      | some d1 =>
        if cmd = at_cmd.AT_DEEP_SLEEP ∨ cmd = at_cmd.AT_RESET then
          match handle_special len d1 cmd env with
          | Except.error e => Except.error e
          | Except.ok (ret, d, env1) =>
            Except.ok { ret := ret, desc := d, out_result := false, env := env1 }
        else
          match write_cmd len { d1 with waiting_send := true } env with
          | Except.error e => Except.error e
          | Except.ok (d2, env2) =>
            let sent : Except fault (at_desc × schedule) :=
              if cmd = at_cmd.AT_SEND then
                match busy_wait len (fun d => d.waiting_send) d2 env2 with
                | Except.error e => Except.error e
                | Except.ok (d3, env3) =>
                  match param with
                  | none => Except.error fault.UNDEFINED
                  | some p =>
                    -- `aux = desc->cmd; desc->cmd = param->in.send_data.data;`
                    match write_cmd len { d3 with cmd_buff := p.send_data.data,
                                                  cmd_len := p.send_data.data.length } env3 with
                    | Except.error e => Except.error e
                    | Except.ok (d4, env4) =>
                      Except.ok ({ d4 with cmd_buff := d3.cmd_buff, cmd_len := 0 }, env4)
              else Except.ok (d2, env2)
            match sent with
            | Except.error e => Except.error e
            | Except.ok (d5, env5) =>
              match wait_for_response len d5 env5 with
              | Except.error e => Except.error e
              | Except.ok (d6, env6) =>
                if d6.result_status ≠ result_status_t.RESULT_AVAILABE then
                  Except.ok { ret := ret_code.FAILURE, desc := d6, out_result := false,
                              env := env6 }
                else at_run_cmd_update len d6 cmd op param env6

/-- Function `enter_send_unvernished_mode`. -/
def enter_send_unvernished_mode (len : Nat) (desc : at_desc) (env : schedule) :
    Except fault (ret_code × at_desc × schedule) :=
  let refused : Option Bool :=
    if desc.multiple_conections then some true
    else
      match conn_read desc 0 with
      | none => none
      | some c => some (decide (c.type ≠ socket_type.SOCKET_TCP) || !c.active)
  match refused with
  | none => Except.error fault.UNDEFINED
  | some true => Except.ok (ret_code.FAILURE, desc, env)
  | some false =>
    match build_cmd desc at_cmd.AT_SEND cmd_operation.AT_EXECUTE_OP none with
    | none => Except.error fault.UNDEFINED
    | some d1 =>
      match write_cmd len { d1 with waiting_send := true } env with
      | Except.error e => Except.error e
      | Except.ok (d2, env2) =>
        match busy_wait len (fun d => d.waiting_send) d2 env2 with
        | Except.error e => Except.error e
        | Except.ok (d3, env3) =>
          Except.ok (ret_code.SUCCESS,
            { d3 with callback_state := callback_state_t.READING_UNVARNISHED }, env3)

/-- Function `replace_buffer`. `desc` and `in_buff` are `none` for null pointers;
`out_buff` and `out_size` tell whether the two output pointers are non-null.
Returns the code, the descriptor, and what was stored through `out_buff` and
`out_size` (`none` when nothing was stored). -/
def replace_buffer (desc : Option at_desc) (in_buff : Option (List Nat)) (in_size : Nat)
    (out_buff out_size : Bool) : ret_code × Option at_desc × Option (List Nat) × Option Nat :=
  match desc, in_buff with
  | some d, some b =>
    (ret_code.SUCCESS,
     some { d with app_data := { d.app_data with data_buff := b, data_len := 0, size := in_size } },
     (if out_buff then some d.app_data.data_buff else none),
     (if out_size then some d.app_data.data_len else none))
  | _, _ => (ret_code.FAILURE, desc, none, none)

/-! ## Notions used to state the properties -/

/-- Module-message mode with the one-byte read into `read_ch` outstanding: the
state in which the driver waits for the next character of the module. -/
def awaiting_char (d : at_desc) : Prop :=
  d.callback_state = callback_state_t.READING_MODULE_MSG ∧
  d.uart.rd_target = read_target.READ_CH ∧ d.uart.rd_len = 1 ∧ d.uart.rd_got = []

/-- The update of one progress counter by the loop body of `refresh_status`
(the three branches on `last_char`). -/
def ctr_step (pat : List Nat) (m b : Nat) : Nat :=
  if b = pat.getD m 0 then m + 1 else if b = pat.getD 0 0 then 1 else 0

/-- Counter `m` is the length of the longest proper beginning of `pat` that ends
the byte sequence `w`. -/
def Tracks (pat w : List Nat) (m : Nat) : Prop :=
  m < pat.length ∧ pat.take m <:+ w ∧ ∀ k, k < pat.length → pat.take k <:+ w → k ≤ m

/-- A beginning of `pat` that ends a longer beginning of `pat` is empty or is
followed in `pat` by the same byte as the longer one. -/
def border_ok (pat : List Nat) : Prop :=
  ∀ m < pat.length, ∀ j < m, pat.take j <:+ pat.take m → j = 0 ∨ pat.getD j 0 = pat.getD m 0

/-- The array after the bytes `w` were stored from index `n` on. -/
def buff_writes : List Nat → Nat → List Nat → List Nat
  | buff, _, [] => buff
  | buff, n, b :: w => buff_writes (buff_write buff n b) (n + 1) w

/-- The descriptor after the byte `b` was received and appended to the response
buffer. -/
def store_char (d : at_desc) (b : Nat) : at_desc :=
  { d with read_ch := b, result_buff := buff_write d.result_buff d.result_len b,
           result_len := d.result_len + 1 }

/-- The four progress counters follow the bytes `w`. -/
def ctrs_track (d : at_desc) (w : List Nat) : Prop :=
  ∃ m0 m1 m2 m3, d.match_idx = [m0, m1, m2, m3] ∧
    Tracks (responses 0) w m0 ∧ Tracks (responses 1) w m1 ∧
    Tracks (responses 2) w m2 ∧ Tracks (responses 3) w m3

/-- None of the four responses ends the byte sequence `w`. -/
def no_response_ends (w : List Nat) : Prop := ∀ i < 4, ¬ responses i <:+ w

/-- A descriptor at rest: module-message mode, empty buffers, no connection
open, the one-byte read outstanding, an application callback installed and a
destination buffer of `size` bytes; Result Status awaiting and the prompt flag
clear (`at_init` itself ends with Result Status available and the prompt flag
set, both of which the next dispatch overwrites). -/
def idle_desc (multiple : Bool) (size : Nat) : at_desc :=
  { result_buff := [], result_len := 0, cmd_buff := [], cmd_len := 0,
    app_data := { data_buff := [], data_len := 0, size := size, pending := 0 },
    app_callback := true, app_notified := [], cb_response := [], read_ch := 0,
    result_status := result_status_t.WAITING_RESULT,
    callback_state := callback_state_t.READING_MODULE_MSG,
    waiting_send := false, is_reset := false, match_idx := [0, 0, 0, 0],
    uart := { rd_target := read_target.READ_CH, rd_len := 1, rd_got := [], tx := [] },
    connections := List.replicate 4 { active := false, type := socket_type.SOCKET_TCP },
    multiple_conections := multiple, matched := [] }

/-- The unsolicited closure notice: `"<c>,CLOSED\r\n"` in multiplexed mode,
`"CLOSED\r\n"` otherwise. -/
def closed_notice (multiple : Bool) (c : Nat) : List Nat :=
  if multiple then [48 + c, 44] ++ responses 3 else responses 3

/-- What follows `"+IPD,"` in the header of unsolicited data: `"<c>,<len>"` in
multiplexed mode and `"<len>"` otherwise (`ds` is the numeral of the length). -/
def ipd_body (multiple : Bool) (c : Nat) (ds : List Nat) : List Nat :=
  if multiple then (48 + c) :: 44 :: ds else ds

/-- Payload-reading mode with a read of `cur` bytes into the application buffer
outstanding, of which the bytes `got` have arrived, and `rem` further bytes
pending after it. -/
def payload_state (d : at_desc) (cur rem : Nat) (got : List Nat) : Prop :=
  d.callback_state = callback_state_t.READING_PAYLOAD ∧
  d.uart.rd_target = read_target.APP_BUFF ∧ d.uart.rd_len = cur ∧ d.uart.rd_got = got ∧
  d.app_data.data_len = cur ∧ d.app_data.pending = rem

/-- The bytes one argument of `at_sprintf` is rendered to. -/
def render_arg : sprintf_arg → List Nat
  | sprintf_arg.int nb => itoa nb
  | sprintf_arg.str s => [34] ++ escape_str s ++ [34]

/-- The byte strings joined by one comma between neighbours. -/
def comma_join : List (List Nat) → List Nat
  | [] => []
  | [x] => x
  | x :: y :: r => x ++ [44] ++ comma_join (y :: r)

/-- The format string that names the kinds of the arguments. -/
def fmt_of : List sprintf_arg → List Nat
  | [] => []
  | sprintf_arg.int _ :: r => 100 :: fmt_of r
  | sprintf_arg.str _ :: r => 115 :: fmt_of r

/-- The suffix that names the operation on the wire. -/
def op_suffix : cmd_operation → List Nat
  | cmd_operation.AT_TEST_OP => [61, 63]
  | cmd_operation.AT_QUERY_OP => [63]
  | cmd_operation.AT_SET_OP => [61]
  | cmd_operation.AT_EXECUTE_OP => []

/-- The parameters of a command in the order in which they are sent. -/
def set_args (desc : at_desc) (cmd : at_cmd) (p : in_param) : List sprintf_arg :=
  match cmd with
  | at_cmd.AT_DEEP_SLEEP => [sprintf_arg.int (to_i32 p.deep_sleep_time_ms)]
  | at_cmd.AT_SET_OPERATION_MODE => [sprintf_arg.int p.wifi_mode]
  | at_cmd.AT_CONNECT_NETWORK => [sprintf_arg.str p.network.ssid, sprintf_arg.str p.network.pwd]
  | at_cmd.AT_SET_ACCESS_POINT =>
    [sprintf_arg.str p.ap.ssid, sprintf_arg.str p.ap.pwd,
     sprintf_arg.int p.ap.ch_id, sprintf_arg.int p.ap.encription]
  | at_cmd.AT_START_CONNECTION =>
    (if desc.multiple_conections then [sprintf_arg.int (to_i32 p.connection.id)] else []) ++
    [sprintf_arg.str (if p.connection.soket_type = socket_type.SOCKET_TCP then str_TCP
                      else str_UDP),
     sprintf_arg.str p.connection.addr, sprintf_arg.int (to_i32 p.connection.port)] ++
    (if p.connection.soket_type = socket_type.SOCKET_TCP then []
     else [sprintf_arg.int (to_i32 p.connection.local_port),
           sprintf_arg.int (to_i32 p.connection.udp_mode)])
  | at_cmd.AT_SEND =>
    (if desc.multiple_conections then [sprintf_arg.int (to_i32 p.send_data.id)] else []) ++
    [sprintf_arg.int (to_i32 p.send_data.data.length)] ++
    (if (conn_read desc (if desc.multiple_conections then p.connection.id else 0)).map
          (fun c => c.type) = some socket_type.SOCKET_TCP then []
     else [sprintf_arg.str p.send_data.remote_ip,
           sprintf_arg.int (to_i32 p.send_data.remote_port)])
  | at_cmd.AT_STOP_CONNECTION => [sprintf_arg.int (to_i32 p.conn_id)]
  | at_cmd.AT_SET_CONNECTION_TYPE => [sprintf_arg.int (to_i32 p.conn_type)]
  | at_cmd.AT_SET_SERVER =>
    [sprintf_arg.int (to_i32 p.server.action), sprintf_arg.int (to_i32 p.server.port)]
  | at_cmd.AT_SET_TRANSPORT_MODE => [sprintf_arg.int p.transport_mode.val]
  | at_cmd.AT_SET_CLIENT_TIMEOUT => [sprintf_arg.int (to_i32 p.timeout)]
  | at_cmd.AT_PING => [sprintf_arg.str p.ping_ip]
  | _ => []

/-- The command on the wire: `AT<token><suffix><params>\r\n`. -/
def wire_cmd (desc : at_desc) (cmd : at_cmd) (op : cmd_operation) (param : Option in_param) :
    List Nat :=
  [65, 84] ++ (g_map cmd).1 ++
    (match op, param with
     | cmd_operation.AT_SET_OP, some p =>
       op_suffix op ++ comma_join ((set_args desc cmd p).map render_arg)
     | cmd_operation.AT_SET_OP, none => []
     | _, _ => op_suffix op) ++ [13, 10]

/-- The descriptor once a built command was handed to the transport and its
transmission is complete: Result Status awaiting, the prompt flag set, the
command buffer released. -/
def dispatched (d1 : at_desc) : at_desc :=
  { d1 with waiting_send := true, result_status := result_status_t.WAITING_RESULT,
            uart := uart_write d1.uart (buff_slice d1.cmd_buff 0 d1.cmd_len), cmd_len := 0 }

/-- The schedule in which the module sends the byte strings `bs`, one string
per millisecond. -/
def env_rx (bs : List (List Nat)) : schedule := bs.map (List.map irq.rx)

/-- A parameter object with every member zero or empty. -/
def in_param_zero : in_param :=
  { deep_sleep_time_ms := 0, wifi_mode := 0, network := { ssid := [], pwd := [] },
    ap := { ssid := [], pwd := [], ch_id := 0, encription := 0 },
    connection := { id := 0, soket_type := socket_type.SOCKET_TCP, addr := [], port := 0,
                    local_port := 0, udp_mode := 0 },
    send_data := { id := 0, data := [], remote_ip := [], remote_port := 0 },
    conn_id := 0, conn_type := 0, server := { action := 0, port := 0 },
    transport_mode := cipmode_param.NORMAL_MODE, timeout := 0, ping_ip := [] }

/-- The decoder of the string serialization: a backslash is dropped and the byte
after it is kept. -/
def unescape : List Nat → List Nat
  | [] => []
  | [b] => [b]
  | a :: b :: r => if a = 92 then b :: unescape r else a :: unescape (b :: r)

/-- The string between the enclosing quotes, decoded. -/
def unquote (s : List Nat) : List Nat := unescape (s.drop 1).dropLast

/-- The descriptor after the answer `P ++ responses t` to a command was received
from an empty response buffer: `P` is in the buffer, the terminator is trimmed
and recorded, Result Status tells its kind. -/
def answered (d : at_desc) (P : List Nat) (t : Nat) : at_desc :=
  { d with read_ch := 10
           result_buff := buff_writes d.result_buff 0 (P ++ responses t)
           result_len := P.length
           match_idx := [0, 0, 0, 0]
           matched := d.matched ++ [t]
           result_status := if t = 0 then result_status_t.RESULT_ERROR
                            else result_status_t.RESULT_AVAILABE }

/-- The descriptor after the statements of `at_run_cmd` that follow a response
with Result Status available ("Update param related with connections"), for a
parameter object `p`. -/
def conn_update (d : at_desc) (cmd : at_cmd) (op : cmd_operation) (p : in_param) : at_desc :=
  let d1 : at_desc :=
    if cmd = at_cmd.AT_SET_CONNECTION_TYPE then
      { d with multiple_conections := decide (p.conn_type ≠ 0) }
    else d
  let d2 : at_desc :=
    if cmd = at_cmd.AT_START_CONNECTION ∧ op = cmd_operation.AT_SET_OP then
      let id := if d1.multiple_conections then p.connection.id else 0
      { d1 with connections := conn_open d1.connections id p.connection.soket_type }
    else d1
  if cmd = at_cmd.AT_SET_TRANSPORT_MODE ∧ p.transport_mode = cipmode_param.UNVARNISHED_MODE then
    { d2 with callback_state := callback_state_t.READING_UNVARNISHED }
  else d2

/-- The number of `OK` and `SEND OK` terminators completed so far. -/
def ok_count (d : at_desc) : Nat := d.matched.count 1 + d.matched.count 2

/-- What the byte-received path and the waits of the executor keep, from `d` to
`d1`: the multiplexed flag and the size of the connection table always; the
table itself as long as no closure notice is completed (the log of completed
responses gains no entry 3); and Result Status is available in `d1` only if it
was so in `d` or an `OK` or `SEND OK` was completed in between. -/
def conn_kept (d d1 : at_desc) : Prop :=
  d1.multiple_conections = d.multiple_conections ∧
  d1.connections.length = d.connections.length ∧
  d.matched.count 3 ≤ d1.matched.count 3 ∧
  (d1.matched.count 3 = d.matched.count 3 → d1.connections = d.connections) ∧
  ok_count d ≤ ok_count d1 ∧
  (d1.result_status = result_status_t.RESULT_AVAILABE →
    d.result_status = result_status_t.RESULT_AVAILABE ∨ ok_count d < ok_count d1)

/-- The two statements of `at_callback` that store a received byte and run the
matcher on it: `at_strcatch(&desc->result, *desc->read_ch); refresh_status(desc);`
(`none` when the byte does not fit the buffer). -/
def append_char (d : at_desc) (b : Nat) : Option at_desc :=
  (result_strcatch { d with read_ch := b } b).bind refresh_status

/-- The bytes `w` are appended to the response buffer, one after the other. -/
def append_chars : at_desc → List Nat → Option at_desc
  | d, [] => some d
  | d, b :: w => (append_char d b).bind (fun d1 => append_chars d1 w)

/-- Every progress counter is below the length of its pattern. -/
def ctrs_below (d : at_desc) : Prop :=
  ∃ m0 m1 m2 m3, d.match_idx = [m0, m1, m2, m3] ∧ m0 < 9 ∧ m1 < 6 ∧ m2 < 11 ∧ m3 < 8

/-- Whether the loop of `refresh_status` reaches the statement
`printf("Driver implementation error \n")`; same arguments as `refresh_loop`. -/
def reports_error (last_char : Nat) : Nat → Nat → at_desc → Bool
  | 0, _, _ => false
  | n + 1, i, desc =>
    let m := desc.match_idx.getD i 0
    if m > (responses i).length then true
    else if last_char = (responses i).getD m 0 then
      let m1 := add32 m 1
      let desc1 := { desc with match_idx := desc.match_idx.set i m1 }
      if m1 = (responses i).length then false
      else reports_error last_char n (i + 1) desc1
    else if last_char = (responses i).getD 0 0 then
      reports_error last_char n (i + 1) { desc with match_idx := desc.match_idx.set i 1 }
    else
      reports_error last_char n (i + 1) { desc with match_idx := desc.match_idx.set i 0 }

/-- The index `id` of the statement `desc->connections[id].active = false` of
`refresh_status` (case 3 of its `switch`), computed on the descriptor from which
the pattern was trimmed; `none` when `get_conn_id` reads outside the buffer. -/
def closed_index (desc : at_desc) : Option Nat :=
  if desc.multiple_conections then (get_conn_id desc).map (fun r => r.2) else some 0

/-- Unvarnished mode with the one-byte read into `read_ch` outstanding. -/
def awaiting_raw (d : at_desc) : Prop :=
  d.callback_state = callback_state_t.READING_UNVARNISHED ∧
  d.uart.rd_target = read_target.READ_CH ∧ d.uart.rd_len = 1 ∧ d.uart.rd_got = []

/-- What one received byte may do to Result Status: nothing; or the byte
completes `"\r\nERROR\r\n"`, `"\r\nOK\r\n"` or `"\r\nSEND OK\r\n"` (logged) and
the status is the verdict of that pattern; or the byte finds the response
buffer full in module-message mode and the status is overflow. -/
def status_step (d d1 : at_desc) : Prop :=
  d1.result_status = d.result_status ∨
  (∃ t < 3, d1.matched = d.matched ++ [t] ∧
    d1.result_status =
      if t = 0 then result_status_t.RESULT_ERROR else result_status_t.RESULT_AVAILABE) ∨
  (d1.matched = d.matched ∧ d1.result_status = result_status_t.OVERFLOW_ERROR ∧
    d.callback_state = callback_state_t.READING_MODULE_MSG ∧ RESULT_BUFF_LEN ≤ d.result_len)

/-- A descriptor in multiplexed mode with the bytes `"ab"` in the response
buffer and the four connections open, connection 2 as a UDP connection. -/
def open_desc : at_desc :=
  { idle_desc true 64 with
    result_buff := [97, 98], result_len := 2
    connections := [{ active := true, type := socket_type.SOCKET_TCP },
                    { active := true, type := socket_type.SOCKET_TCP },
                    { active := true, type := socket_type.SOCKET_UDP },
                    { active := true, type := socket_type.SOCKET_TCP }] }

/-! ## Lemmas on the buffers and on 32-bit arithmetic -/

theorem getD_buff_write_same (b : List Nat) (i ch : Nat) :
    (buff_write b i ch).getD i 0 = ch := by
  unfold buff_write
  split
  · rename_i h
    simp [List.getD_eq_getElem?_getD, List.getElem?_set, h]
  · rename_i h
    have h' : b.length ≤ i := Nat.le_of_not_lt h
    simp [List.getD_eq_getElem?_getD, List.getElem?_append_right, h']

theorem getD_buff_write_ne (b : List Nat) (i j ch : Nat) (hj : j ≠ i) :
    (buff_write b i ch).getD j 0 = b.getD j 0 := by
  unfold buff_write
  split
  · rename_i h
    simp [List.getD_eq_getElem?_getD, List.getElem?_set, hj.symm]
  · rename_i h
    have h' : b.length ≤ i := Nat.le_of_not_lt h
    simp only [List.getD_eq_getElem?_getD]
    by_cases h1 : j < b.length
    · simp [List.getElem?_append_left, h1]
    · have h2 : b.length ≤ j := Nat.le_of_not_lt h1
      rw [List.append_assoc, List.getElem?_append_right h2]
      rw [List.getElem?_eq_none (by omega : b.length ≤ j)]
      by_cases h3 : j - b.length < i - b.length
      · rw [List.getElem?_append_left (by simpa using h3)]
        simp [List.getElem?_replicate, h3]
      · rw [List.getElem?_append_right (by simpa using Nat.le_of_not_lt h3)]
        simp
        have : j - b.length - (i - b.length) ≠ 0 := by omega
        cases hh : j - b.length - (i - b.length) with
        | zero => omega
        | succ n => simp

theorem add32_small (a b : Nat) (h : a + b < U32) : add32 a b = a + b := by
  unfold add32; exact Nat.mod_eq_of_lt h

theorem sub32_small (a b : Nat) (hb : b ≤ a) (ha : a < U32) : sub32 a b = a - b := by
  unfold sub32
  have hb1 : b < U32 := by omega
  rw [Nat.mod_eq_of_lt ha, Nat.mod_eq_of_lt hb1, if_pos hb]

/-! ## The progress counters as a longest-match automaton -/

theorem border_ok_responses : ∀ i < 4, border_ok (responses i) := by
  intro i hi
  interval_cases i <;> (unfold border_ok; decide)

theorem take_succ_getD (pat : List Nat) (m : Nat) (h : m < pat.length) :
    pat.take (m + 1) = pat.take m ++ [pat.getD m 0] := by
  rw [List.take_succ]
  simp [List.getD_eq_getElem?_getD, List.getElem?_eq_getElem h]

theorem suffix_concat_iff (l w : List Nat) (b : Nat) :
    l <:+ w ++ [b] ↔ l = [] ∨ ∃ l1, l = l1 ++ [b] ∧ l1 <:+ w := by
  constructor
  · intro h
    rcases List.eq_nil_or_concat l with h0 | ⟨l1, c, hl⟩
    · exact Or.inl h0
    · right
      subst hl
      obtain ⟨t, ht⟩ := h
      rw [List.concat_eq_append, ← List.append_assoc] at ht
      have h1 := List.append_inj' ht (by simp)
      have h2 : c = b := by simpa using h1.2
      refine ⟨l1, by rw [List.concat_eq_append, h2], ⟨t, h1.1⟩⟩
  · rintro (rfl | ⟨l1, rfl, ⟨t, rfl⟩⟩)
    · exact List.nil_suffix
    · exact ⟨t, by simp⟩

theorem Tracks_nil (pat : List Nat) (h : 0 < pat.length) : Tracks pat [] 0 := by
  refine ⟨h, by simp, ?_⟩
  intro k hk hs
  have := List.eq_nil_of_suffix_nil hs
  have h2 : (pat.take k).length = k := by simp [List.length_take]; omega
  rw [this] at h2
  simp at h2
  omega

theorem take_suffix_concat (pat w : List Nat) (b k : Nat) (hk : k + 1 ≤ pat.length) :
    pat.take (k + 1) <:+ w ++ [b] ↔ pat.take k <:+ w ∧ pat.getD k 0 = b := by
  rw [take_succ_getD pat k (by omega), suffix_concat_iff]
  constructor
  · rintro (h | ⟨l1, h1, h2⟩)
    · simp at h
    · have h3 := List.append_inj' h1 (by simp)
      have h4 : pat.getD k 0 = b := by
        have := h3.2
        exact List.singleton_inj.1 this
      rw [h3.1]; exact ⟨h2, h4⟩
  · rintro ⟨h1, h2⟩
    right
    exact ⟨pat.take k, by rw [h2], h1⟩

theorem ctr_step_hit (pat : List Nat) (m b : Nat) (h : b = pat.getD m 0) :
    ctr_step pat m b = m + 1 := by
  unfold ctr_step; rw [if_pos h]

theorem ctr_step_first (pat : List Nat) (m b : Nat) (h : ¬ b = pat.getD m 0)
    (h0 : b = pat.getD 0 0) : ctr_step pat m b = 1 := by
  unfold ctr_step; rw [if_neg h, if_pos h0]

theorem ctr_step_miss (pat : List Nat) (m b : Nat) (h : ¬ b = pat.getD m 0)
    (h0 : ¬ b = pat.getD 0 0) : ctr_step pat m b = 0 := by
  unfold ctr_step; rw [if_neg h, if_neg h0]

theorem ctr_step_le (pat : List Nat) (m b : Nat) (h : ¬ b = pat.getD m 0) :
    ctr_step pat m b ≤ 1 := by
  by_cases h0 : b = pat.getD 0 0
  · rw [ctr_step_first pat m b h h0]
  · rw [ctr_step_miss pat m b h h0]; omega

theorem Tracks_step (pat w : List Nat) (m b : Nat) (hlen : 2 ≤ pat.length)
    (hb : border_ok pat) (ht : Tracks pat w m) (hno : ¬ pat <:+ w ++ [b]) :
    Tracks pat (w ++ [b]) (ctr_step pat m b) := by
  obtain ⟨hm, hs, hmax⟩ := ht
  have key : ∀ k, k ≤ pat.length → pat.take k <:+ w ++ [b] → k ≤ ctr_step pat m b := by
    intro k hk hks
    cases k with
    | zero => exact Nat.zero_le _
    | succ k =>
      rw [take_suffix_concat pat w b k hk] at hks
      obtain ⟨hk1, hk2⟩ := hks
      have hkm : k ≤ m := hmax k (by omega) hk1
      rcases Nat.lt_or_ge k m with hlt | hge
      · have hsuf : pat.take k <:+ pat.take m :=
          List.suffix_of_suffix_length_le hk1 hs (by simp [List.length_take]; omega)
        rcases hb m hm k hlt hsuf with h0 | heq
        · subst h0
          by_cases h1 : b = pat.getD m 0
          · rw [ctr_step_hit pat m b h1]; omega
          · rw [ctr_step_first pat m b h1 hk2.symm]
        · have : b = pat.getD m 0 := by rw [← heq, hk2]
          rw [ctr_step_hit pat m b this]; omega
      · have : k = m := by omega
        subst this
        rw [ctr_step_hit pat k b hk2.symm]
  refine ⟨?_, ?_, ?_⟩
  · by_contra hcon
    have hge : pat.length ≤ ctr_step pat m b := Nat.le_of_not_lt hcon
    by_cases h1 : b = pat.getD m 0
    · rw [ctr_step_hit pat m b h1] at hge
      have hm1 : m + 1 = pat.length := by omega
      apply hno
      have := (take_suffix_concat pat w b m (by omega)).2 ⟨hs, h1.symm⟩
      rw [hm1, List.take_length] at this
      exact this
    · have := ctr_step_le pat m b h1
      omega
  · by_cases h1 : b = pat.getD m 0
    · rw [ctr_step_hit pat m b h1]
      exact (take_suffix_concat pat w b m (by omega)).2 ⟨hs, h1.symm⟩
    · by_cases h2 : b = pat.getD 0 0
      · rw [ctr_step_first pat m b h1 h2]
        exact (take_suffix_concat pat w b 0 (by omega)).2 ⟨by simp, h2.symm⟩
      · rw [ctr_step_miss pat m b h1 h2]
        simp
  · intro k hk hks
    exact key k (by omega) hks

theorem Tracks_complete (pat w : List Nat) (m b : Nat) (hlen : 2 ≤ pat.length)
    (ht : Tracks pat w m) (hyes : pat <:+ w ++ [b]) :
    m + 1 = pat.length ∧ b = pat.getD m 0 := by
  obtain ⟨hm, hs, hmax⟩ := ht
  have h1 : pat.take (pat.length - 1 + 1) <:+ w ++ [b] := by
    rw [Nat.sub_add_cancel (by omega), List.take_length]; exact hyes
  rw [take_suffix_concat pat w b (pat.length - 1) (by omega)] at h1
  have := hmax (pat.length - 1) (by omega) h1.1
  have hm1 : m = pat.length - 1 := by omega
  subst hm1
  exact ⟨by omega, h1.2.symm⟩

/-! ## One turn of the loop of `refresh_status` -/

theorem refresh_loop_miss (desc : at_desc) (b n i : Nat)
    (hm : desc.match_idx.getD i 0 < (responses i).length)
    (hn : ctr_step (responses i) (desc.match_idx.getD i 0) b ≠ (responses i).length) :
    refresh_loop b (n + 1) i desc =
      refresh_loop b n (i + 1)
        { desc with
          match_idx := desc.match_idx.set i (ctr_step (responses i) (desc.match_idx.getD i 0) b) } := by
  have ha : add32 (desc.match_idx.getD i 0) 1 = desc.match_idx.getD i 0 + 1 := by
    apply add32_small
    have : (responses i).length ≤ 11 := by
      unfold responses; split <;> simp
    unfold U32; omega
  rw [refresh_loop]
  simp only []
  rw [if_neg (by omega)]
  by_cases h1 : b = (responses i).getD (desc.match_idx.getD i 0) 0
  · rw [ctr_step_hit _ _ _ h1] at hn ⊢
    rw [if_pos h1, ha, if_neg hn]
  · rw [if_neg h1]
    by_cases h2 : b = (responses i).getD 0 0
    · rw [if_pos h2, ctr_step_first _ _ _ h1 h2]
    · rw [if_neg h2, ctr_step_miss _ _ _ h1 h2]

theorem refresh_loop_hit (desc : at_desc) (b n i : Nat)
    (hm : desc.match_idx.getD i 0 + 1 = (responses i).length)
    (hb : b = (responses i).getD (desc.match_idx.getD i 0) 0) :
    refresh_loop b (n + 1) i desc =
      (on_match { desc with
          match_idx := desc.match_idx.set i (responses i).length
          result_len := sub32 desc.result_len (responses i).length } i).map
        (fun d => { d with match_idx := [0, 0, 0, 0], matched := d.matched ++ [i] }) := by
  have ha : add32 (desc.match_idx.getD i 0) 1 = (responses i).length := by
    rw [← hm]
    apply add32_small
    have : (responses i).length ≤ 11 := by
      unfold responses; split <;> simp
    unfold U32; omega
  rw [refresh_loop]
  simp only []
  rw [if_neg (by omega), if_pos hb, ha, if_pos rfl]
  cases on_match _ i <;> rfl

/-! ## One received byte in module-message mode -/

theorem uart_eta (u : uart_desc) (h1 : u.rd_target = read_target.READ_CH) (h2 : u.rd_len = 1)
    (h3 : u.rd_got = []) : uart_read u read_target.READ_CH 1 = u := by
  cases u; simp_all [uart_read]

theorem rx_awaiting (d : at_desc) (len b : Nat) (h : awaiting_char d) :
    uart_rx_byte d len b = at_callback { d with read_ch := b } UART_EVENT.READ_DONE len := by
  obtain ⟨rb, rl, cb, cl, ad, ac, an, cr, rc, rs, cs, ws, ir, mi, ⟨t, l, g, tx⟩, co, mc, ma⟩ := d
  obtain ⟨h1, h2, h3, h4⟩ := h
  simp only at h1 h2 h3 h4
  subst h1 h2 h3 h4
  simp [uart_rx_byte]

theorem refresh_status_store (d : at_desc) (b : Nat) (hlen : d.result_len < RESULT_BUFF_LEN) :
    refresh_status (store_char d b) = refresh_loop b NB_RESPONSES 0 (store_char d b) := by
  have h1 : sub32 (d.result_len + 1) 1 = d.result_len := by
    have h5 : d.result_len < 500 := hlen
    rw [sub32_small (d.result_len + 1) 1 (by omega) (by unfold U32; omega)]; omega
  have h2 : buff_read RESULT_BUFF_LEN (buff_write d.result_buff d.result_len b) d.result_len
      = some b := by
    unfold buff_read
    rw [if_pos hlen, getD_buff_write_same]
  unfold refresh_status
  simp only [store_char, h1, h2]

theorem at_callback_module (d : at_desc) (len : Nat)
    (h : d.callback_state = callback_state_t.READING_MODULE_MSG) (h58 : d.read_ch ≠ 58) :
    at_callback d UART_EVENT.READ_DONE len = module_msg_char d := by
  unfold at_callback
  simp only []
  rw [h]
  simp only []
  rw [if_neg h58]

theorem module_msg_char_ordinary (d : at_desc) (hlen : d.result_len < RESULT_BUFF_LEN)
    (h62 : d.read_ch ≠ 62 ∨ d.waiting_send = false) :
    module_msg_char d =
      (refresh_loop d.read_ch NB_RESPONSES 0 (store_char d d.read_ch)).map
        (fun d1 => { d1 with uart := uart_read d1.uart read_target.READ_CH 1 }) := by
  have hs : result_strcatch d d.read_ch = some (store_char d d.read_ch) := by
    unfold result_strcatch store_char
    have h5 : d.result_len < 500 := hlen
    have : add32 d.result_len 1 = d.result_len + 1 :=
      add32_small _ _ (by unfold U32; omega)
    rw [if_pos hlen, this]
  have hc : ¬ (d.read_ch = 62 ∧ d.waiting_send = true) := by
    rintro ⟨hb, hw⟩
    rcases h62 with h | h
    · exact h hb
    · rw [hw] at h; cases h
  unfold module_msg_char
  simp only []
  rw [if_neg hc, if_neg (Nat.not_le.2 hlen), hs]
  simp only [refresh_status_store d d.read_ch hlen]
  cases refresh_loop d.read_ch NB_RESPONSES 0 (store_char d d.read_ch) <;> rfl

theorem rx_ordinary (d : at_desc) (len b : Nat) (h : awaiting_char d)
    (hlen : d.result_len < RESULT_BUFF_LEN) (h58 : b ≠ 58)
    (h62 : b ≠ 62 ∨ d.waiting_send = false) :
    uart_rx_byte d len b =
      (refresh_loop b NB_RESPONSES 0 (store_char d b)).map
        (fun d1 => { d1 with uart := uart_read d1.uart read_target.READ_CH 1 }) := by
  rw [rx_awaiting d len b h,
    at_callback_module { d with read_ch := b } len h.1 h58,
    module_msg_char_ordinary { d with read_ch := b } hlen h62]
  rfl

theorem responses_length_le (i : Nat) : (responses i).length ≤ 11 := by
  unfold responses; split <;> simp

theorem rx_nomatch (d : at_desc) (len b m0 m1 m2 m3 : Nat) (h : awaiting_char d)
    (hlen : d.result_len < RESULT_BUFF_LEN) (h58 : b ≠ 58)
    (h62 : b ≠ 62 ∨ d.waiting_send = false)
    (hidx : d.match_idx = [m0, m1, m2, m3])
    (h0 : m0 < (responses 0).length) (h1 : m1 < (responses 1).length)
    (h2 : m2 < (responses 2).length) (h3 : m3 < (responses 3).length)
    (n0 : ctr_step (responses 0) m0 b ≠ (responses 0).length)
    (n1 : ctr_step (responses 1) m1 b ≠ (responses 1).length)
    (n2 : ctr_step (responses 2) m2 b ≠ (responses 2).length)
    (n3 : ctr_step (responses 3) m3 b ≠ (responses 3).length) :
    uart_rx_byte d len b = some { store_char d b with
      match_idx := [ctr_step (responses 0) m0 b, ctr_step (responses 1) m1 b,
                    ctr_step (responses 2) m2 b, ctr_step (responses 3) m3 b] } := by
  rw [rx_ordinary d len b h hlen h58 h62]
  have e0 : (store_char d b).match_idx = [m0, m1, m2, m3] := hidx
  rw [show NB_RESPONSES = 3 + 1 from rfl,
    refresh_loop_miss _ b 3 0 (by rw [e0]; exact h0) (by rw [e0]; exact n0)]
  simp only [e0, List.getD_cons_zero, List.set_cons_zero]
  rw [refresh_loop_miss _ b 2 1 (by exact h1) (by exact n1)]
  simp only [List.getD_cons_zero, List.getD_cons_succ, List.set_cons_zero, List.set_cons_succ]
  rw [refresh_loop_miss _ b 1 2 (by exact h2) (by exact n2)]
  simp only [List.getD_cons_zero, List.getD_cons_succ, List.set_cons_zero, List.set_cons_succ]
  rw [refresh_loop_miss _ b 0 3 (by exact h3) (by exact n3)]
  simp only [List.getD_cons_zero, List.getD_cons_succ, List.set_cons_zero, List.set_cons_succ,
    refresh_loop, Option.map_some']
  have hu := uart_eta d.uart h.2.1 h.2.2.1 h.2.2.2
  simp only [store_char, hu]


theorem ctrs_track_zero (d : at_desc) (h : d.match_idx = [0, 0, 0, 0]) : ctrs_track d [] :=
  ⟨0, 0, 0, 0, h, Tracks_nil _ (by decide), Tracks_nil _ (by decide),
    Tracks_nil _ (by decide), Tracks_nil _ (by decide)⟩

theorem feed_nomatch (len : Nat) : ∀ (s : List Nat) (d : at_desc) (w : List Nat),
    awaiting_char d → ctrs_track d w → d.result_len + s.length ≤ RESULT_BUFF_LEN →
    (∀ b ∈ s, b ≠ 58 ∧ b ≠ 62) →
    (∀ u, u <+: s → u ≠ [] → no_response_ends (w ++ u)) →
    ∃ d1, feed len d s = some d1 ∧ ctrs_track d1 (w ++ s) ∧
      d1 = { d with read_ch := s.getLastD d.read_ch
                    result_buff := buff_writes d.result_buff d.result_len s
                    result_len := d.result_len + s.length
                    match_idx := d1.match_idx } := by
  intro s
  induction s with
  | nil =>
    intro d w _ ht _ _ _
    exact ⟨d, rfl, by simpa using ht, rfl⟩
  | cons b s ih =>
    intro d w ha ht hlen hb hno
    obtain ⟨m0, m1, m2, m3, hidx, t0, t1, t2, t3⟩ := ht
    have hne : no_response_ends (w ++ [b]) :=
      hno [b] (by simp [List.prefix_cons_inj]) (by simp)
    have s0 := Tracks_step _ w m0 b (by decide) (border_ok_responses 0 (by decide)) t0
      (hne 0 (by decide))
    have s1 := Tracks_step _ w m1 b (by decide) (border_ok_responses 1 (by decide)) t1
      (hne 1 (by decide))
    have s2 := Tracks_step _ w m2 b (by decide) (border_ok_responses 2 (by decide)) t2
      (hne 2 (by decide))
    have s3 := Tracks_step _ w m3 b (by decide) (border_ok_responses 3 (by decide)) t3
      (hne 3 (by decide))
    have hl : d.result_len < RESULT_BUFF_LEN := by
      simp only [List.length_cons] at hlen; omega
    have hstep := rx_nomatch d len b m0 m1 m2 m3 ha hl (hb b (by simp)).1
      (Or.inl (hb b (by simp)).2) hidx t0.1 t1.1 t2.1 t3.1
      (Nat.ne_of_lt s0.1) (Nat.ne_of_lt s1.1) (Nat.ne_of_lt s2.1) (Nat.ne_of_lt s3.1)
    obtain ⟨d2, hf, ht2, hd2⟩ := ih
      { store_char d b with
        match_idx := [ctr_step (responses 0) m0 b, ctr_step (responses 1) m1 b,
                      ctr_step (responses 2) m2 b, ctr_step (responses 3) m3 b] }
      (w ++ [b]) ha ⟨_, _, _, _, rfl, s0, s1, s2, s3⟩
      (by
        have h5 : d.result_len + (s.length + 1) ≤ RESULT_BUFF_LEN := hlen
        show d.result_len + 1 + s.length ≤ RESULT_BUFF_LEN
        omega)
      (fun x hx => hb x (List.mem_cons_of_mem _ hx))
      (fun u hu hne => by
        have := hno (b :: u) (by simpa [List.prefix_cons_inj] using hu) (by simp)
        simpa using this)
    refine ⟨d2, ?_, by simpa using ht2, ?_⟩
    · simp only [feed, hstep]; exact hf
    · rw [hd2]
      simp only [store_char, buff_writes, List.length_cons, List.getLastD_cons]
      congr 1
      omega

theorem ctr_ne_of_no_end (i : Nat) (hi : i < 4) (w : List Nat) (m b : Nat)
    (ht : Tracks (responses i) w m) (hno : ¬ responses i <:+ w ++ [b]) :
    ctr_step (responses i) m b ≠ (responses i).length :=
  Nat.ne_of_lt (Tracks_step _ w m b (by interval_cases i <;> decide)
    (border_ok_responses i hi) ht hno).1

theorem rx_match (d : at_desc) (len b t : Nat) (w : List Nat) (ha : awaiting_char d)
    (hlen : d.result_len < RESULT_BUFF_LEN) (h58 : b ≠ 58)
    (h62 : b ≠ 62 ∨ d.waiting_send = false) (ht : ctrs_track d w) (ht4 : t < 4)
    (hyes : responses t <:+ w ++ [b]) (hfirst : ∀ j < t, ¬ responses j <:+ w ++ [b]) :
    ∃ mi, uart_rx_byte d len b =
      (on_match { store_char d b with
          match_idx := mi
          result_len := sub32 (d.result_len + 1) (responses t).length } t).map
        (fun d1 => { d1 with match_idx := [0, 0, 0, 0], matched := d1.matched ++ [t]
                             uart := uart_read d1.uart read_target.READ_CH 1 }) := by
  obtain ⟨m0, m1, m2, m3, hidx, t0, t1, t2, t3⟩ := ht
  rw [rx_ordinary d len b ha hlen h58 h62]
  have e0 : (store_char d b).match_idx = [m0, m1, m2, m3] := hidx
  have hmap : ∀ (x : Option at_desc) (i : Nat),
      (x.map (fun d => { d with match_idx := [0, 0, 0, 0], matched := d.matched ++ [i] })).map
        (fun d1 => { d1 with uart := uart_read d1.uart read_target.READ_CH 1 }) =
      x.map (fun d1 => { d1 with match_idx := [0, 0, 0, 0], matched := d1.matched ++ [i]
                                 uart := uart_read d1.uart read_target.READ_CH 1 }) := by
    intro x i; cases x <;> rfl
  interval_cases t
  · obtain ⟨c1, c2⟩ := Tracks_complete _ w m0 b (by decide) t0 hyes
    rw [show NB_RESPONSES = 3 + 1 from rfl,
      refresh_loop_hit _ b 3 0 (by rw [e0]; exact c1) (by rw [e0]; exact c2)]
    rw [hmap]
    exact ⟨_, rfl⟩
  · have n0 := ctr_ne_of_no_end 0 (by decide) w m0 b t0 (hfirst 0 (by decide))
    obtain ⟨c1, c2⟩ := Tracks_complete _ w m1 b (by decide) t1 hyes
    rw [show NB_RESPONSES = 3 + 1 from rfl,
      refresh_loop_miss _ b 3 0 (by rw [e0]; exact t0.1) (by rw [e0]; exact n0)]
    simp only [e0, List.getD_cons_zero, List.set_cons_zero]
    rw [refresh_loop_hit _ b 2 1 (by exact c1) (by exact c2)]
    rw [hmap]
    exact ⟨_, rfl⟩
  · have n0 := ctr_ne_of_no_end 0 (by decide) w m0 b t0 (hfirst 0 (by decide))
    have n1 := ctr_ne_of_no_end 1 (by decide) w m1 b t1 (hfirst 1 (by decide))
    obtain ⟨c1, c2⟩ := Tracks_complete _ w m2 b (by decide) t2 hyes
    rw [show NB_RESPONSES = 3 + 1 from rfl,
      refresh_loop_miss _ b 3 0 (by rw [e0]; exact t0.1) (by rw [e0]; exact n0)]
    simp only [e0, List.getD_cons_zero, List.set_cons_zero]
    rw [refresh_loop_miss _ b 2 1 (by exact t1.1) (by exact n1)]
    simp only [List.getD_cons_zero, List.getD_cons_succ, List.set_cons_zero, List.set_cons_succ]
    rw [refresh_loop_hit _ b 1 2 (by exact c1) (by exact c2)]
    rw [hmap]
    exact ⟨_, rfl⟩
  · have n0 := ctr_ne_of_no_end 0 (by decide) w m0 b t0 (hfirst 0 (by decide))
    have n1 := ctr_ne_of_no_end 1 (by decide) w m1 b t1 (hfirst 1 (by decide))
    have n2 := ctr_ne_of_no_end 2 (by decide) w m2 b t2 (hfirst 2 (by decide))
    obtain ⟨c1, c2⟩ := Tracks_complete _ w m3 b (by decide) t3 hyes
    rw [show NB_RESPONSES = 3 + 1 from rfl,
      refresh_loop_miss _ b 3 0 (by rw [e0]; exact t0.1) (by rw [e0]; exact n0)]
    simp only [e0, List.getD_cons_zero, List.set_cons_zero]
    rw [refresh_loop_miss _ b 2 1 (by exact t1.1) (by exact n1)]
    simp only [List.getD_cons_zero, List.getD_cons_succ, List.set_cons_zero, List.set_cons_succ]
    rw [refresh_loop_miss _ b 1 2 (by exact t2.1) (by exact n2)]
    simp only [List.getD_cons_zero, List.getD_cons_succ, List.set_cons_zero, List.set_cons_succ]
    rw [refresh_loop_hit _ b 0 3 (by exact c1) (by exact c2)]
    rw [hmap]
    exact ⟨_, rfl⟩

/-! ## Runs of received bytes -/

theorem getD_buff_writes_below : ∀ (s : List Nat) (buf : List Nat) (n j : Nat), j < n →
    (buff_writes buf n s).getD j 0 = buf.getD j 0 := by
  intro s
  induction s with
  | nil => intro buf n j _; rfl
  | cons b s ih =>
    intro buf n j hj
    rw [buff_writes, ih _ (n + 1) j (by omega), getD_buff_write_ne _ _ _ _ (by omega)]

theorem getD_buff_writes_at : ∀ (s : List Nat) (buf : List Nat) (n k : Nat), k < s.length →
    (buff_writes buf n s).getD (n + k) 0 = s.getD k 0 := by
  intro s
  induction s with
  | nil => intro buf n k hk; simp at hk
  | cons b s ih =>
    intro buf n k hk
    rw [buff_writes]
    cases k with
    | zero =>
      have h1 := getD_buff_writes_below s (buff_write buf n b) (n + 1) n (by omega)
      rw [getD_buff_write_same] at h1
      exact h1
    | succ k =>
      have := ih (buff_write buf n b) (n + 1) k (by simpa using hk)
      rw [show n + (k + 1) = n + 1 + k by omega, this]
      rfl

theorem buff_slice_length (buf : List Nat) (i n : Nat) : (buff_slice buf i n).length = n := by
  simp [buff_slice]

theorem buff_slice_writes_below (s buf : List Nat) (n : Nat) :
    buff_slice (buff_writes buf n s) 0 n = buff_slice buf 0 n := by
  unfold buff_slice
  apply List.map_congr_left
  intro j hj
  simp only [List.mem_range] at hj
  rw [Nat.zero_add, getD_buff_writes_below s buf n j hj]

theorem buff_slice_writes_take (s buf : List Nat) (n k : Nat) (hk : k ≤ s.length) :
    buff_slice (buff_writes buf n s) n k = s.take k := by
  apply List.ext_getElem
  · simp [buff_slice, List.length_take, hk]
  · intro j h1 h2
    simp only [buff_slice, List.getElem_map, List.getElem_range, List.getElem_take]
    simp only [buff_slice, List.length_map, List.length_range] at h1
    rw [getD_buff_writes_at s buf n j (by omega)]
    simp [List.getD_eq_getElem?_getD, List.getElem?_eq_getElem (show j < s.length by omega)]

theorem buff_writes_append : ∀ (s1 s2 buf : List Nat) (n : Nat),
    buff_writes buf n (s1 ++ s2) = buff_writes (buff_writes buf n s1) (n + s1.length) s2 := by
  intro s1
  induction s1 with
  | nil => intro s2 buf n; rfl
  | cons b s1 ih =>
    intro s2 buf n
    show buff_writes (buff_write buf n b) (n + 1) (s1 ++ s2) = _
    rw [ih, show n + 1 + s1.length = n + (b :: s1).length by simp; omega]
    rfl

theorem feed_append (len : Nat) : ∀ (s1 s2 : List Nat) (d : at_desc),
    feed len d (s1 ++ s2) = (feed len d s1).bind (fun d1 => feed len d1 s2) := by
  intro s1
  induction s1 with
  | nil => intro s2 d; rfl
  | cons b s1 ih =>
    intro s2 d
    simp only [List.cons_append, feed]
    cases uart_rx_byte d len b with
    | none => rfl
    | some d1 => exact ih s2 d1

theorem responses_split (t : Nat) (ht : t < 4) :
    responses t = (responses t).dropLast ++ [10] := by
  interval_cases t <;> rfl

theorem responses_not_nested (t j : Nat) (ht : t < 4) (hj : j < 4) (hne : j ≠ t) (w : List Nat)
    (h1 : responses t <:+ w) : ¬ responses j <:+ w := by
  intro h2
  rcases Nat.le_total (responses j).length (responses t).length with h | h
  · have := List.suffix_of_suffix_length_le h2 h1 h
    revert this
    interval_cases t <;> interval_cases j <;> first | omega | decide
  · have := List.suffix_of_suffix_length_le h1 h2 h
    revert this
    interval_cases t <;> interval_cases j <;> first | omega | decide

/-- A run of bytes whose last byte completes response `t` and no byte before it completes
any response: the state after the run is the state `on_match` leaves. -/
theorem feed_until_match (len : Nat) (d : at_desc) (w s : List Nat) (b t : Nat)
    (ha : awaiting_char d) (htrk : ctrs_track d w)
    (hcap : d.result_len + s.length < RESULT_BUFF_LEN)
    (hbytes : ∀ x ∈ s ++ [b], x ≠ 58 ∧ x ≠ 62)
    (hno : ∀ u, u <+: s → u ≠ [] → no_response_ends (w ++ u))
    (ht4 : t < 4) (hyes : responses t <:+ w ++ s ++ [b]) :
    ∃ dm, feed len d (s ++ [b]) =
      (on_match dm t).map
        (fun d1 => { d1 with match_idx := [0, 0, 0, 0], matched := d1.matched ++ [t]
                             uart := uart_read d1.uart read_target.READ_CH 1 }) ∧
      dm = { d with
          read_ch := b
          result_buff := buff_writes d.result_buff d.result_len (s ++ [b])
          result_len := sub32 (d.result_len + s.length + 1) (responses t).length
          match_idx := dm.match_idx } := by
  have hcap5 : d.result_len + s.length < 500 := hcap
  obtain ⟨d1, hf, ht1, hd1⟩ := feed_nomatch len s d w ha htrk
    (by show _ ≤ 500; omega)
    (fun x hx => hbytes x (List.mem_append_left _ hx)) hno
  have ha1 : awaiting_char d1 := by rw [hd1]; exact ha
  have hl1 : d1.result_len = d.result_len + s.length := by rw [hd1]
  have hb1 : d1.result_buff = buff_writes d.result_buff d.result_len s := by rw [hd1]
  have hbb := hbytes b (by simp)
  obtain ⟨mi, hrx⟩ := rx_match d1 len b t (w ++ s) ha1
    (by rw [hl1]; exact hcap) hbb.1 (Or.inl hbb.2) ht1 ht4 hyes
    (fun j hj => responses_not_nested t j ht4 (by omega) (by omega) _ hyes)
  have hfin : feed len d (s ++ [b]) = uart_rx_byte d1 len b := by
    rw [feed_append, hf]
    show (match uart_rx_byte d1 len b with
      | none => none
      | some d => feed len d []) = _
    cases uart_rx_byte d1 len b <;> rfl
  refine ⟨_, by rw [hfin, hrx], ?_⟩
  rw [hl1, buff_writes_append]
  have e : ({ store_char d1 b with
          match_idx := mi
          result_len := sub32 (d.result_len + s.length + 1) (responses t).length } : at_desc) =
      { d with
          read_ch := b
          result_buff := buff_writes (buff_writes d.result_buff d.result_len s)
            (d.result_len + s.length) [b]
          result_len := sub32 (d.result_len + s.length + 1) (responses t).length
          match_idx := mi } := by
    rw [hd1]
    rfl
  exact e


theorem responses_take_clean (i : Nat) (hi : i < 4) :
    ∀ k < (responses i).length, ∀ j < 4, ¬ responses j <:+ (responses i).take k := by
  interval_cases i <;> decide

theorem prefix_of_take (l u : List Nat) (k : Nat) (h : u <+: l.take k) :
    u = l.take u.length ∧ u.length ≤ k := by
  have h1 := h.length_le
  have h2 : u <+: l := h.trans (List.take_prefix k l)
  refine ⟨List.prefix_iff_eq_take.1 h2, ?_⟩
  simp only [List.length_take] at h1
  omega

/-! ## The closure notice -/

theorem conn_close_get_same (cs : List connection) (id : Nat) :
    (conn_close cs id).get? id = (cs.get? id).map (fun c => { c with active := false }) := by
  unfold conn_close
  cases h : cs.get? id with
  | none => simpa using List.get?_eq_none.1 h
  | some c =>
    have hl : id < cs.length := by
      rcases Nat.lt_or_ge id cs.length with h1 | h1
      · exact h1
      · rw [List.get?_eq_none.2 h1] at h; cases h
    simp [List.getElem?_set, hl]

theorem conn_close_get_other (cs : List connection) (id j : Nat) (hj : j ≠ id) :
    (conn_close cs id).get? j = cs.get? j := by
  unfold conn_close
  cases h : cs.get? id with
  | none => rfl
  | some c => simp [List.getElem?_set, hj.symm]

/-- A digit or a comma restarts every progress counter. -/
theorem ctr_step_sep : ∀ b, (48 ≤ b ∧ b ≤ 57) ∨ b = 44 → ∀ i < 4, ∀ m < 12,
    ctr_step (responses i) m b = 0 := by
  intro b hb i hi m hm
  have h : ∀ b < 58, 44 ≤ b → (48 ≤ b ∨ b = 44) → ∀ i < 4, ∀ m < 12,
      ctr_step (responses i) m b = 0 := by decide
  exact h b (by omega) (by omega) (by omega) i hi m hm

/-- One received digit or comma: it is stored and all counters restart. -/
theorem rx_sep (d : at_desc) (len b m0 m1 m2 m3 : Nat) (h : awaiting_char d)
    (hlen : d.result_len < RESULT_BUFF_LEN) (hb : (48 ≤ b ∧ b ≤ 57) ∨ b = 44)
    (hidx : d.match_idx = [m0, m1, m2, m3])
    (h0 : m0 < (responses 0).length) (h1 : m1 < (responses 1).length)
    (h2 : m2 < (responses 2).length) (h3 : m3 < (responses 3).length) :
    uart_rx_byte d len b = some { store_char d b with match_idx := [0, 0, 0, 0] } := by
  have l0 : (responses 0).length = 9 := rfl
  have l1 : (responses 1).length = 6 := rfl
  have l2 : (responses 2).length = 11 := rfl
  have l3 : (responses 3).length = 8 := rfl
  have c0 := ctr_step_sep b hb 0 (by decide) m0 (by omega)
  have c1 := ctr_step_sep b hb 1 (by decide) m1 (by omega)
  have c2 := ctr_step_sep b hb 2 (by decide) m2 (by omega)
  have c3 := ctr_step_sep b hb 3 (by decide) m3 (by omega)
  have := rx_nomatch d len b m0 m1 m2 m3 h hlen (by omega) (Or.inl (by omega)) hidx h0 h1 h2 h3
    (by rw [c0, l0]; decide) (by rw [c1, l1]; decide) (by rw [c2, l2]; decide)
    (by rw [c3, l3]; decide)
  rw [this, c0, c1, c2, c3]

theorem get_conn_id_digit (desc : at_desc) (n c : Nat) (hlen : desc.result_len = n + 2)
    (hcap : n + 2 ≤ RESULT_BUFF_LEN) (hch : desc.result_buff.getD n 0 = 48 + c) (hc : c ≤ 9) :
    get_conn_id desc = some ({ desc with result_len := n }, c) := by
  have hcap5 : n + 2 ≤ 500 := hcap
  have hs : sub32 desc.result_len 2 = n := by
    rw [hlen, sub32_small _ _ (by omega) (by unfold U32; omega)]; omega
  have hr : buff_read RESULT_BUFF_LEN desc.result_buff n = some (48 + c) := by
    unfold buff_read
    rw [if_pos (show n < RESULT_BUFF_LEN by show n < 500; omega), hch]
  unfold get_conn_id
  simp only [hs, hr]
  rw [if_neg (by omega), if_neg (by omega)]
  simp

theorem on_match_closed_multi (desc : at_desc) (n c : Nat)
    (hm : desc.multiple_conections = true) (hlen : desc.result_len = n + 2)
    (hcap : n + 2 ≤ RESULT_BUFF_LEN) (hch : desc.result_buff.getD n 0 = 48 + c) (hc : c < 4) :
    on_match desc 3 =
      some { desc with result_len := n, connections := conn_close desc.connections c } := by
  have hg := get_conn_id_digit desc n c hlen hcap hch (by omega)
  simp only [on_match, hm, if_true, hg]
  rw [if_pos (show c < MAX_CONNECTIONS from hc)]

theorem on_match_closed_single (desc : at_desc) (hm : desc.multiple_conections = false) :
    on_match desc 3 = some { desc with connections := conn_close desc.connections 0 } := by
  obtain ⟨rb, rl, cb, cl, ad, ac, an, cr, rc, rs, cs, ws, ir, mi, u, co, mc, ma⟩ := desc
  simp only at hm
  subst hm
  rfl

theorem feed_cons (len : Nat) (d d1 : at_desc) (b : Nat) (s : List Nat)
    (h : uart_rx_byte d len b = some d1) : feed len d (b :: s) = feed len d1 s := by
  simp only [feed, h]

theorem closed_tail_clean : ∀ k ≤ 8, ∀ j < 4,
    ¬ responses j <:+ ([44, 67, 76, 79, 83, 69, 68, 13] : List Nat).take k := by
  decide

theorem closed_notice_multi (d : at_desc) (len c m0 m1 m2 m3 : Nat) (ha : awaiting_char d)
    (hidx : d.match_idx = [m0, m1, m2, m3])
    (h0 : m0 < (responses 0).length) (h1 : m1 < (responses 1).length)
    (h2 : m2 < (responses 2).length) (h3 : m3 < (responses 3).length)
    (hm : d.multiple_conections = true) (hc : c < 4)
    (hcap : d.result_len + 10 ≤ RESULT_BUFF_LEN) :
    ∃ d1, feed len d ([48 + c, 44] ++ responses 3) = some d1 ∧
      d1.connections = conn_close d.connections c ∧
      result_view d1 = result_view d ∧ d1.result_status = d.result_status := by
  have hcap5 : d.result_len + 10 ≤ 500 := hcap
  have hs1 := rx_sep d len (48 + c) m0 m1 m2 m3 ha (by show _ < 500; omega)
    (Or.inl (by omega)) hidx h0 h1 h2 h3
  have e : ([48 + c, 44] ++ responses 3 : List Nat)
      = (48 + c) :: ([44, 67, 76, 79, 83, 69, 68, 13] ++ [10]) := rfl
  rw [e, feed_cons len d _ _ _ hs1]
  obtain ⟨dm, hf, hdm⟩ := feed_until_match len
    { store_char d (48 + c) with match_idx := [0, 0, 0, 0] } []
    [44, 67, 76, 79, 83, 69, 68, 13] 10 3 ha (ctrs_track_zero _ rfl)
    (by show d.result_len + 1 + 8 < 500; omega) (by decide)
    (by
      intro u hu hne j hj
      have h5 := List.prefix_iff_eq_take.1 hu
      have h6 := hu.length_le
      rw [List.nil_append, h5]
      exact closed_tail_clean u.length h6 j hj)
    (by decide) (by decide)
  rw [hf]
  have hl : sub32 ((store_char d (48 + c)).result_len +
      ([44, 67, 76, 79, 83, 69, 68, 13] : List Nat).length + 1) (responses 3).length
      = d.result_len + 2 := by
    have e1 : (store_char d (48 + c)).result_len = d.result_len + 1 := rfl
    have e2 : (responses 3).length = 8 := rfl
    rw [e1, e2, List.length_cons, List.length_cons, List.length_cons, List.length_cons,
      List.length_cons, List.length_cons, List.length_cons, List.length_singleton,
      sub32_small _ _ (by omega) (by unfold U32; omega)]
    omega
  have hdl : dm.result_len = d.result_len + 2 := by
    have := congrArg at_desc.result_len hdm
    simp only [] at this
    rw [this]; exact hl
  have hdb : dm.result_buff = buff_writes d.result_buff d.result_len
      ((48 + c) :: ([44, 67, 76, 79, 83, 69, 68, 13] ++ [10])) := by
    have := congrArg at_desc.result_buff hdm
    simp only [store_char] at this
    rw [this, buff_writes]
  have hdmu : dm.multiple_conections = true := by
    have := congrArg at_desc.multiple_conections hdm
    simp only [store_char] at this
    rw [this]; exact hm
  have hdc : dm.connections = d.connections := by
    have := congrArg at_desc.connections hdm
    simp only [store_char] at this
    exact this
  have hds : dm.result_status = d.result_status := by
    have := congrArg at_desc.result_status hdm
    simp only [store_char] at this
    exact this
  have hch : dm.result_buff.getD d.result_len 0 = 48 + c := by
    rw [hdb, buff_writes, getD_buff_writes_below _ _ _ _ (by omega), getD_buff_write_same]
  rw [on_match_closed_multi dm d.result_len c hdmu hdl (by show _ ≤ 500; omega) hch hc]
  refine ⟨_, rfl, ?_, ?_, hds⟩
  · show conn_close dm.connections c = _
    rw [hdc]
  · show buff_slice dm.result_buff 0 d.result_len = _
    rw [hdb]
    exact buff_slice_writes_below _ _ _

theorem ctr_step_C : (∀ i < 3, ∀ m < 12, ctr_step (responses i) m 67 = 0) ∧
    ∀ m < 8, ctr_step (responses 3) m 67 = 1 := by
  decide

theorem ctrs_track_C (d : at_desc) (h : d.match_idx = [0, 0, 0, 1]) : ctrs_track d [67] := by
  have t0 := Tracks_step _ [] 0 67 (by decide) (border_ok_responses 0 (by decide))
    (Tracks_nil (responses 0) (by decide)) (by decide)
  have t1 := Tracks_step _ [] 0 67 (by decide) (border_ok_responses 1 (by decide))
    (Tracks_nil (responses 1) (by decide)) (by decide)
  have t2 := Tracks_step _ [] 0 67 (by decide) (border_ok_responses 2 (by decide))
    (Tracks_nil (responses 2) (by decide)) (by decide)
  have t3 := Tracks_step _ [] 0 67 (by decide) (border_ok_responses 3 (by decide))
    (Tracks_nil (responses 3) (by decide)) (by decide)
  exact ⟨0, 0, 0, 1, h, t0, t1, t2, t3⟩

theorem closed_body_clean : ∀ k ≤ 6, ∀ j < 4,
    ¬ responses j <:+ [67] ++ ([76, 79, 83, 69, 68, 13] : List Nat).take k := by
  decide

theorem closed_notice_single (d : at_desc) (len m0 m1 m2 m3 : Nat) (ha : awaiting_char d)
    (hidx : d.match_idx = [m0, m1, m2, m3])
    (h0 : m0 < (responses 0).length) (h1 : m1 < (responses 1).length)
    (h2 : m2 < (responses 2).length) (h3 : m3 < (responses 3).length)
    (hm : d.multiple_conections = false)
    (hcap : d.result_len + 8 ≤ RESULT_BUFF_LEN) :
    ∃ d1, feed len d (responses 3) = some d1 ∧
      d1.connections = conn_close d.connections 0 ∧
      result_view d1 = result_view d ∧ d1.result_status = d.result_status := by
  have hcap5 : d.result_len + 8 ≤ 500 := hcap
  have l0 : (responses 0).length = 9 := rfl
  have l1 : (responses 1).length = 6 := rfl
  have l2 : (responses 2).length = 11 := rfl
  have l3 : (responses 3).length = 8 := rfl
  have c0 := ctr_step_C.1 0 (by decide) m0 (by omega)
  have c1 := ctr_step_C.1 1 (by decide) m1 (by omega)
  have c2 := ctr_step_C.1 2 (by decide) m2 (by omega)
  have c3 := ctr_step_C.2 m3 (by omega)
  have hs1 := rx_nomatch d len 67 m0 m1 m2 m3 ha (by show _ < 500; omega) (by decide)
    (Or.inl (by decide)) hidx h0 h1 h2 h3
    (by rw [c0, l0]; decide) (by rw [c1, l1]; decide) (by rw [c2, l2]; decide)
    (by rw [c3, l3]; decide)
  rw [c0, c1, c2, c3] at hs1
  have e : (responses 3 : List Nat) = 67 :: ([76, 79, 83, 69, 68, 13] ++ [10]) := rfl
  rw [e, feed_cons len d _ _ _ hs1]
  obtain ⟨dm, hf, hdm⟩ := feed_until_match len
    { store_char d 67 with match_idx := [0, 0, 0, 1] } [67]
    [76, 79, 83, 69, 68, 13] 10 3 ha (ctrs_track_C _ rfl)
    (by show d.result_len + 1 + 6 < 500; omega) (by decide)
    (by
      intro u hu hne j hj
      have h5 := List.prefix_iff_eq_take.1 hu
      have h6 := hu.length_le
      rw [h5]
      exact closed_body_clean u.length h6 j hj)
    (by decide) (by decide)
  rw [hf]
  have hl : sub32 ((store_char d 67).result_len +
      ([76, 79, 83, 69, 68, 13] : List Nat).length + 1) (responses 3).length
      = d.result_len := by
    have e1 : (store_char d 67).result_len = d.result_len + 1 := rfl
    rw [e1, l3, List.length_cons, List.length_cons, List.length_cons, List.length_cons,
      List.length_cons, List.length_singleton,
      sub32_small _ _ (by omega) (by unfold U32; omega)]
    omega
  have hdl : dm.result_len = d.result_len := by
    have := congrArg at_desc.result_len hdm
    simp only [] at this
    rw [this]; exact hl
  have hdb : dm.result_buff = buff_writes d.result_buff d.result_len
      (67 :: ([76, 79, 83, 69, 68, 13] ++ [10])) := by
    have := congrArg at_desc.result_buff hdm
    simp only [store_char] at this
    rw [this, buff_writes]
  have hdmu : dm.multiple_conections = false := by
    have := congrArg at_desc.multiple_conections hdm
    simp only [store_char] at this
    rw [this]; exact hm
  have hdc : dm.connections = d.connections := by
    have := congrArg at_desc.connections hdm
    simp only [store_char] at this
    exact this
  have hds : dm.result_status = d.result_status := by
    have := congrArg at_desc.result_status hdm
    simp only [store_char] at this
    exact this
  rw [on_match_closed_single dm hdmu]
  refine ⟨_, rfl, ?_, ?_, hds⟩
  · show conn_close dm.connections 0 = _
    rw [hdc]
  · show buff_slice dm.result_buff 0 dm.result_len = _
    rw [hdb, hdl]
    exact buff_slice_writes_below _ _ _

/-! ## Decimal numerals and `strtol` -/

theorem digitChar_toNat (m : Nat) (h : m < 10) : (Nat.digitChar m).toNat = 48 + m := by
  interval_cases m <;> rfl

theorem digits_value_concat (ds : List Nat) (d : Nat) :
    digits_value (ds ++ [d]) = digits_value ds * 10 + (d - 48) := by
  unfold digits_value
  rw [List.foldl_append]
  rfl

theorem toDigitsCore_spec : ∀ (fuel n : Nat) (acc : List Char), n < fuel →
    ∃ ds : List Char, Nat.toDigitsCore 10 fuel n acc = ds ++ acc ∧ ds ≠ [] ∧
      (∀ c ∈ ds, 48 ≤ c.toNat ∧ c.toNat ≤ 57) ∧
      digits_value (ds.map Char.toNat) = n ∧
      (∀ k, 1 ≤ k → n < 10 ^ k → ds.length ≤ k) := by
  intro fuel
  induction fuel with
  | zero => intro n acc h; omega
  | succ fuel ih =>
    intro n acc h
    have hd := digitChar_toNat (n % 10) (Nat.mod_lt _ (by decide))
    rw [Nat.toDigitsCore]
    by_cases h0 : n / 10 = 0
    · rw [if_pos h0]
      refine ⟨[Nat.digitChar (n % 10)], rfl, by simp, ?_, ?_, ?_⟩
      · intro c hc
        simp only [List.mem_singleton] at hc
        rw [hc, hd]; omega
      · simp only [List.map, digits_value, List.foldl, hd]
        omega
      · intro k hk _
        simpa using hk
    · rw [if_neg h0]
      obtain ⟨ds, he, hne, hdig, hval, hlen⟩ := ih (n / 10) (Nat.digitChar (n % 10) :: acc)
        (by omega)
      refine ⟨ds ++ [Nat.digitChar (n % 10)], by rw [he]; simp, by simp, ?_, ?_, ?_⟩
      · intro c hc
        rcases List.mem_append.1 hc with h1 | h1
        · exact hdig c h1
        · simp only [List.mem_singleton] at h1
          rw [h1, hd]; omega
      · rw [List.map_append, List.map_singleton, digits_value_concat, hval, hd]
        omega
      · intro k hk hn
        have hk2 : 2 ≤ k := by
          by_contra hcon
          have : k = 1 := by omega
          subst this
          simp at hn
          omega
        have := hlen (k - 1) (by omega) (by
          have e : 10 ^ k = 10 ^ (k - 1) * 10 := by
            rw [← Nat.pow_succ]; congr 1; omega
          rw [e] at hn
          exact Nat.div_lt_of_lt_mul (by rw [Nat.mul_comm]; exact hn))
        simp only [List.length_append, List.length_singleton]
        omega

theorem decimal_spec (n : Nat) :
    decimal n ≠ [] ∧ (∀ x ∈ decimal n, 48 ≤ x ∧ x ≤ 57) ∧ digits_value (decimal n) = n ∧
      (∀ k, 1 ≤ k → n < 10 ^ k → (decimal n).length ≤ k) := by
  obtain ⟨ds, he, hne, hdig, hval, hlen⟩ := toDigitsCore_spec (n + 1) n [] (by omega)
  have e : decimal n = ds.map Char.toNat := by
    unfold decimal Nat.toDigits
    rw [he, List.append_nil]
  rw [e]
  refine ⟨by simpa using hne, ?_, hval, ?_⟩
  · intro x hx
    obtain ⟨c, hc, rfl⟩ := List.mem_map.1 hx
    exact hdig c hc
  · intro k hk hn
    rw [List.length_map]
    exact hlen k hk hn

theorem strtol_digits (ds rest : List Nat) (hne : ds ≠ [])
    (hd : ∀ x ∈ ds, 48 ≤ x ∧ x ≤ 57)
    (hrest : ∀ c ∈ rest.head?, ¬ (48 ≤ c ∧ c ≤ 57))
    (hv : digits_value ds ≤ 2147483647) :
    strtol (ds ++ rest) = ((digits_value ds : Int), ds.length) := by
  obtain ⟨x, ds1, rfl⟩ := List.exists_cons_of_ne_nil hne
  have hx := hd x (by simp)
  have hsp : isspace x = false := by
    unfold isspace
    simp only [Bool.or_eq_false_iff, decide_eq_false_iff_not, Bool.and_eq_false_iff]
    omega
  have htw : (x :: ds1 ++ rest).takeWhile isspace = [] := by
    simp [List.takeWhile, hsp]
  have hdw : (x :: ds1 ++ rest).dropWhile isspace = x :: ds1 ++ rest := by
    simp [List.dropWhile, hsp]
  have h45 : ¬ ((x :: ds1 ++ rest).head? = some 45) := by
    simp only [List.cons_append, List.head?_cons, Option.some.injEq]; omega
  have h43 : ¬ ((x :: ds1 ++ rest).head? = some 43) := by
    simp only [List.cons_append, List.head?_cons, Option.some.injEq]; omega
  have htd : (x :: ds1 ++ rest).takeWhile (fun c => decide (48 ≤ c) && decide (c ≤ 57))
      = x :: ds1 := by
    rw [List.takeWhile_append_of_pos (by
      intro a ha
      have := hd a ha
      simp [this.1, this.2])]
    cases rest with
    | nil => simp
    | cons c r =>
      have := hrest c (by simp)
      have hc : (decide (48 ≤ c) && decide (c ≤ 57)) = false := by
        simp only [Bool.and_eq_false_iff, decide_eq_false_iff_not]; omega
      simp [List.takeWhile, hc]
  unfold strtol
  simp only [htw, hdw, h45, h43, or_self, if_false, List.drop_zero, htd]
  rw [if_neg (by simp), if_neg (by omega)]
  simp

/-! ## The header `+IPD,` -/

theorem takeWhile_nonzero (l : List Nat) (h : ∀ x ∈ l, x ≠ 0) :
    l.takeWhile (fun c => decide (c ≠ 0)) = l := by
  rw [List.takeWhile_eq_self_iff]
  intro x hx
  simpa using h x hx

theorem sscanf_single (ds : List Nat) (hne : ds ≠ [])
    (hd : ∀ x ∈ ds, 48 ≤ x ∧ x ≤ 57) (hlen : ds.length ≤ 11)
    (hv : digits_value ds ≤ 2147483647) :
    at_sscanf (at_ipd ++ ds) fmt_ipd_single = ([(digits_value ds : Int)], true) := by
  obtain ⟨x, ds1, rfl⟩ := List.exists_cons_of_ne_nil hne
  have hx := hd x (by simp)
  have h1 : add32 0 1 = 1 := by decide
  have h2 : add32 1 1 = 2 := by decide
  have h3 : add32 2 1 = 3 := by decide
  have h4 : add32 3 1 = 4 := by decide
  have h5 : add32 4 1 = 5 := by decide
  have hst := strtol_digits (x :: ds1) [] hne hd (by simp) hv
  rw [List.append_nil] at hst
  have hlen1 : ds1.length + 1 ≤ 11 := by simpa using hlen
  have hbuf : List.takeWhile (fun c => decide ¬c = 0)
      (List.take ((ds1.length + 1 + 1 + 1 + 1 + 1 + 1 - 5) ⊓ 11)
        (List.drop 5 (43 :: 73 :: 80 :: 68 :: 44 :: x :: ds1))) = x :: ds1 := by
    have e1 : List.drop 5 (43 :: 73 :: 80 :: 68 :: 44 :: x :: ds1) = x :: ds1 := rfl
    have e2 : ds1.length + 1 + 1 + 1 + 1 + 1 + 1 - 5 = (x :: ds1).length := by
      simp only [List.length_cons]; omega
    rw [e1, e2, Nat.min_eq_left hlen, List.take_length]
    have := takeWhile_nonzero (x :: ds1) (fun y hy => by have := hd y hy; omega)
    simpa using this
  unfold at_sscanf fmt_ipd_single
  have e0 : at_ipd ++ x :: ds1 = 43 :: 73 :: 80 :: 68 :: 44 :: x :: ds1 := rfl
  have hxne : ¬ (37 = x) := by omega
  have hi : ¬ (5 + (ds1.length + 1) ≤ 5) := by omega
  simp only [e0, at_sscanf_loop, List.length_cons, List.getD_cons_zero, List.getD_cons_succ,
    h1, h2, h3, h4, h5, ne_eq, not_true_eq_false, if_false, ge_iff_le, Nat.reduceLeDiff,
    Nat.le_zero_eq, Nat.add_eq_zero, and_false, reduceCtorEq, List.length_nil]
  rw [if_pos hxne, hbuf, hst]
  rfl


theorem strtol_id (c m : Nat) (rest : List Nat) (hc : c ≤ 9) (hrest : ∀ y ∈ rest, y ≠ 0) :
    strtol (List.takeWhile (fun c => decide ¬c = 0)
      (List.take (m + 2) ((48 + c) :: 44 :: rest))) = ((c : Int), 1) := by
  have e1 : List.take (m + 2) ((48 + c) :: 44 :: rest) = (48 + c) :: 44 :: rest.take m := rfl
  have e2 := takeWhile_nonzero ((48 + c) :: 44 :: rest.take m) (by
    intro y hy
    simp only [List.mem_cons] at hy
    rcases hy with h | h | h
    · omega
    · omega
    · exact hrest y (List.mem_of_mem_take h))
  have e3 : (fun c => decide ¬c = 0) = (fun c : Nat => decide (c ≠ 0)) := rfl
  rw [e1, e3, e2]
  have := strtol_digits [48 + c] (44 :: rest.take m) (by simp)
    (by intro x hx; simp only [List.mem_singleton] at hx; omega)
    (by simp)
    (by simp only [digits_value, List.foldl]; omega)
  have e4 : digits_value [48 + c] = c := by
    simp only [digits_value, List.foldl]; omega
  rw [e4] at this
  exact this

theorem sscanf_multi (ds : List Nat) (c : Nat) (hc : c ≤ 9) (hne : ds ≠ [])
    (hd : ∀ x ∈ ds, 48 ≤ x ∧ x ≤ 57) (hlen : ds.length ≤ 11)
    (hv : digits_value ds ≤ 2147483647) :
    at_sscanf (at_ipd ++ (48 + c) :: 44 :: ds) fmt_ipd_multiple =
      ([(c : Int), (digits_value ds : Int)], true) := by
  obtain ⟨x, ds1, rfl⟩ := List.exists_cons_of_ne_nil hne
  have hx := hd x (by simp)
  have h1 : add32 0 1 = 1 := by decide
  have h2 : add32 1 1 = 2 := by decide
  have h3 : add32 2 1 = 3 := by decide
  have h4 : add32 3 1 = 4 := by decide
  have h5 : add32 4 1 = 5 := by decide
  have h6 : add32 (sub32 (add32 5 1) 1) 1 = 6 := by decide
  have h7 : add32 6 1 = 7 := by decide
  have hst := strtol_digits (x :: ds1) [] hne hd (by simp) hv
  rw [List.append_nil] at hst
  have hlen1 : ds1.length + 1 ≤ 11 := by simpa using hlen
  have hnz : ∀ y ∈ x :: ds1, y ≠ 0 := fun y hy => by have := hd y hy; omega
  have hbuf : List.takeWhile (fun c => decide ¬c = 0)
      (List.take ((ds1.length + 1 + 1 + 1 + 1 + 1 + 1 + 1 + 1 - 7) ⊓ 11)
        (List.drop 7 (43 :: 73 :: 80 :: 68 :: 44 :: (48 + c) :: 44 :: x :: ds1))) = x :: ds1 := by
    have e1 : List.drop 7 (43 :: 73 :: 80 :: 68 :: 44 :: (48 + c) :: 44 :: x :: ds1)
        = x :: ds1 := rfl
    have e2 : ds1.length + 1 + 1 + 1 + 1 + 1 + 1 + 1 + 1 - 7 = (x :: ds1).length := by
      simp only [List.length_cons]; omega
    rw [e1, e2, Nat.min_eq_left hlen, List.take_length]
    have := takeWhile_nonzero (x :: ds1) hnz
    simpa using this
  have hid : strtol (List.takeWhile (fun c => decide ¬c = 0)
      (List.take ((ds1.length + 1 + 1 + 1 + 1 + 1 + 1 + 1 + 1 - 5) ⊓ 11)
        (List.drop 5 (43 :: 73 :: 80 :: 68 :: 44 :: (48 + c) :: 44 :: x :: ds1))))
      = ((c : Int), 1) := by
    have e1 : List.drop 5 (43 :: 73 :: 80 :: 68 :: 44 :: (48 + c) :: 44 :: x :: ds1)
        = (48 + c) :: 44 :: x :: ds1 := rfl
    have e2 : (ds1.length + 1 + 1 + 1 + 1 + 1 + 1 + 1 + 1 - 5) ⊓ 11
        = ((ds1.length + 3) ⊓ 11 - 2) + 2 := by
      have : ds1.length + 1 + 1 + 1 + 1 + 1 + 1 + 1 + 1 - 5 = ds1.length + 3 := by omega
      rw [this]
      have : 2 ≤ (ds1.length + 3) ⊓ 11 := by
        rw [Nat.le_min]; omega
      omega
    rw [e1, e2]
    exact strtol_id c _ (x :: ds1) hc hnz
  unfold at_sscanf fmt_ipd_multiple
  have e0 : at_ipd ++ (48 + c) :: 44 :: x :: ds1
      = 43 :: 73 :: 80 :: 68 :: 44 :: (48 + c) :: 44 :: x :: ds1 := rfl
  have hcne : ¬ (37 = 48 + c) := by omega
  have hxne : ¬ (37 = x) := by omega
  simp only [e0, at_sscanf_loop, List.length_cons, List.getD_cons_zero, List.getD_cons_succ,
    h1, h2, h3, h4, h5, ne_eq, not_true_eq_false, if_false, ge_iff_le, Nat.reduceLeDiff,
    Nat.le_zero_eq, Nat.add_eq_zero, and_false, reduceCtorEq, List.length_nil, hid, h6, h7,
    hbuf, hst, hcne, hxne, not_false_eq_true, if_true, List.nil_append, List.singleton_append]

theorem buff_read_in (buf : List Nat) (i : Nat) (h : i < RESULT_BUFF_LEN) :
    buff_read RESULT_BUFF_LEN buf i = some (buf.getD i 0) := by
  unfold buff_read; rw [if_pos h]

theorem sub32_lt (a b : Nat) (hb : b ≤ a) (ha : a < RESULT_BUFF_LEN) : sub32 a b = a - b :=
  sub32_small a b hb (by have : a < 500 := ha; unfold U32; omega)

theorem ipd_cmp_found (buf : List Nat) (c : Nat) (hc : 4 ≤ c) (hc5 : c < RESULT_BUFF_LEN)
    (h0 : buf.getD c 0 = 44) (h1 : buf.getD (c - 1) 0 = 68) (h2 : buf.getD (c - 2) 0 = 80)
    (h3 : buf.getD (c - 3) 0 = 73) (h4 : buf.getD (c - 4) 0 = 43) :
    ipd_cmp buf c at_ipd.length 0 = some 5 := by
  have c5 : c < 500 := hc5
  have r0 := buff_read_in buf c hc5
  have r1 := buff_read_in buf (c - 1) (by show _ < 500; omega)
  have r2 := buff_read_in buf (c - 2) (by show _ < 500; omega)
  have r3 := buff_read_in buf (c - 3) (by show _ < 500; omega)
  have r4 := buff_read_in buf (c - 4) (by show _ < 500; omega)
  have s0 : sub32 c 0 = c := by rw [sub32_lt c 0 (by omega) hc5]; rfl
  have s1 := sub32_lt c 1 (by omega) hc5
  have s2 := sub32_lt c 2 (by omega) hc5
  have s3 := sub32_lt c 3 (by omega) hc5
  have s4 := sub32_lt c 4 (by omega) hc5
  have e : at_ipd.length = 4 + 1 := rfl
  rw [e]
  simp only [ipd_cmp, Nat.reduceAdd, Nat.zero_add, s0, s1, s2, s3, s4, r0, r1, r2, r3, r4,
    h0, h1, h2, h3, h4, at_ipd, List.length_cons, List.length_nil, Nat.reduceSub,
    List.getD_cons_succ, List.getD_cons_zero, if_true]

theorem ipd_cmp_other (buf : List Nat) (j : Nat) (hj : 1 ≤ j) (hj5 : j < RESULT_BUFF_LEN)
    (h0 : buf.getD j 0 = 44) (h1 : buf.getD (j - 1) 0 ≠ 68) :
    ipd_cmp buf j at_ipd.length 0 = some 1 := by
  have r0 := buff_read_in buf j hj5
  have r1 := buff_read_in buf (j - 1) (by have : j < 500 := hj5; show _ < 500; omega)
  have s0 : sub32 j 0 = j := by rw [sub32_lt j 0 (by omega) hj5]; rfl
  have s1 := sub32_lt j 1 (by omega) hj5
  have e : at_ipd.length = 4 + 1 := rfl
  rw [e]
  simp only [ipd_cmp, Nat.reduceAdd, Nat.zero_add, s0, s1, r0, r1, h0, at_ipd,
    List.length_cons, List.length_nil, Nat.reduceSub, List.getD_cons_succ,
    List.getD_cons_zero, if_true, if_neg h1]

theorem ipd_scan_digit (buf : List Nat) (n i : Nat) (hi : 1 ≤ i) (hi5 : i < RESULT_BUFF_LEN)
    (hd : 48 ≤ buf.getD i 0 ∧ buf.getD i 0 ≤ 57) :
    ipd_scan buf (n + 1) i = ipd_scan buf n (i - 1) := by
  rw [ipd_scan, buff_read_in buf i hi5]
  simp only []
  rw [if_pos (Or.inl hd), if_neg (by omega), sub32_lt i 1 hi hi5]

theorem ipd_scan_digits (buf : List Nat) : ∀ (k n i : Nat), k ≤ i → i < RESULT_BUFF_LEN →
    (∀ j < k, 48 ≤ buf.getD (i - j) 0 ∧ buf.getD (i - j) 0 ≤ 57) →
    ipd_scan buf (n + k) i = ipd_scan buf n (i - k) := by
  intro k
  induction k with
  | zero => intro n i _ _ _; rfl
  | succ k ih =>
    intro n i hk hi hd
    have h0 := hd 0 (by omega)
    rw [show n + (k + 1) = (n + k) + 1 by omega, ipd_scan_digit buf (n + k) i (by omega) hi h0,
      ih n (i - 1) (by omega) (by have : i < 500 := hi; show _ < 500; omega)
        (fun j hj => by
          have := hd (j + 1) (by omega)
          rw [show i - 1 - j = i - (j + 1) by omega]; exact this)]
    congr 1
    omega

theorem ipd_scan_comma_other (buf : List Nat) (n j : Nat) (hj : 1 ≤ j)
    (hj5 : j < RESULT_BUFF_LEN) (h0 : buf.getD j 0 = 44) (h1 : buf.getD (j - 1) 0 ≠ 68) :
    ipd_scan buf (n + 1) j = ipd_scan buf n (j - 1) := by
  rw [ipd_scan, buff_read_in buf j hj5]
  simp only [h0, or_true, if_true, ipd_cmp_other buf j hj hj5 h0 h1]
  rw [if_neg (by decide), sub32_lt j 1 hj hj5]

theorem ipd_scan_comma_found (buf : List Nat) (n c : Nat) (hc : 4 ≤ c)
    (hc5 : c < RESULT_BUFF_LEN)
    (h0 : buf.getD c 0 = 44) (h1 : buf.getD (c - 1) 0 = 68) (h2 : buf.getD (c - 2) 0 = 80)
    (h3 : buf.getD (c - 3) 0 = 73) (h4 : buf.getD (c - 4) 0 = 43) :
    ipd_scan buf (n + 1) c = some (c - 1, true) := by
  rw [ipd_scan, buff_read_in buf c hc5]
  simp only [h0, or_true, if_true, ipd_cmp_found buf c hc hc5 h0 h1 h2 h3 h4]
  rw [if_pos (by decide), sub32_lt c 1 (by omega) hc5]

theorem getD_of_slice (buf l : List Nat) (p n : Nat) (h : buff_slice buf p n = l) :
    ∀ j < n, buf.getD (p + j) 0 = l.getD j 0 := by
  intro j hj
  subst h
  unfold buff_slice
  simp [List.getD_eq_getElem?_getD, hj]

theorem buff_slice_add (buf : List Nat) (p a b : Nat) :
    buff_slice buf p (a + b) = buff_slice buf p a ++ buff_slice buf (p + a) b := by
  unfold buff_slice
  rw [List.range_add, List.map_append, List.map_map]
  congr 1
  apply List.map_congr_left
  intro j _
  simp [Nat.add_assoc]

theorem slice_of_view (d : at_desc) (A B : List Nat) (h : result_view d = A ++ B) :
    d.result_len = A.length + B.length ∧ buff_slice d.result_buff A.length B.length = B := by
  have hl : d.result_len = A.length + B.length := by
    have := congrArg List.length h
    rw [result_view, buff_slice_length, List.length_append] at this
    exact this
  refine ⟨hl, ?_⟩
  rw [result_view, hl, buff_slice_add, Nat.zero_add] at h
  exact (List.append_inj h (by rw [buff_slice_length])).2

/-- The header `"+IPD,"` found at index `p`: the state `process_ipd_msg` leaves. -/
theorem process_ipd_found (d : at_desc) (len p : Nat) (body : List Nat)
    (hlen : d.result_len = p + 5 + body.length) (hcap : d.result_len ≤ RESULT_BUFF_LEN)
    (hslice : buff_slice d.result_buff p (5 + body.length) = at_ipd ++ body)
    (hscan : ipd_scan d.result_buff max_ch_search (d.result_len - 1) = some (p + 3, true)) :
    process_ipd_msg d len = some (ret_code.SUCCESS,
      { d with result_len := sub32 p 2
               match_idx := d.match_idx.map (fun m => if m ≥ 2 then m - 2 else m) },
      ipd_sscanf d.multiple_conections (at_ipd ++ body) len) := by
  have hcap5 : d.result_len ≤ 500 := hcap
  have s1 : sub32 d.result_len 1 = d.result_len - 1 :=
    sub32_small _ _ (by omega) (by unfold U32; omega)
  have a1 : add32 (p + 3) 1 = p + 4 := add32_small _ _ (by unfold U32; omega)
  have s2 : sub32 (p + 4) (at_ipd.length - 1) = p := by
    rw [show at_ipd.length - 1 = 4 from rfl, sub32_small _ _ (by omega) (by unfold U32; omega)]
    omega
  have s3 : sub32 d.result_len p = 5 + body.length := by
    rw [sub32_small _ _ (by omega) (by unfold U32; omega)]; omega
  unfold process_ipd_msg
  simp only [s1, hscan, a1, s2, s3, hslice]

theorem to_u32_nat (n : Nat) (h : n < U32) : to_u32 (n : Int) = n := by
  unfold to_u32
  have : ((n : Int) % (U32 : Int)) = ((n % U32 : Nat) : Int) := by
    exact (Int.ofNat_mod_ofNat n U32)
  rw [this, Nat.mod_eq_of_lt h]
  rfl

theorem getD_append_right_add (A B : List Nat) (j : Nat) :
    (A ++ B).getD (A.length + j) 0 = B.getD j 0 := by
  simp [List.getD_eq_getElem?_getD, List.getElem?_append_right]

theorem getD_digit (ds : List Nat) (hd : ∀ x ∈ ds, 48 ≤ x ∧ x ≤ 57) (j : Nat)
    (hj : j < ds.length) : 48 ≤ ds.getD j 0 ∧ ds.getD j 0 ≤ 57 := by
  have : ds.getD j 0 = ds[j] := by
    simp [List.getD_eq_getElem?_getD, List.getElem?_eq_getElem hj]
  rw [this]
  exact hd _ (List.getElem_mem _)

theorem ipd_scan_single (buf : List Nat) (p : Nat) (ds : List Nat)
    (hp : p + 5 + ds.length ≤ RESULT_BUFF_LEN)
    (hslice : buff_slice buf p (5 + ds.length) = at_ipd ++ ds)
    (hd : ∀ x ∈ ds, 48 ≤ x ∧ x ≤ 57) (hl : ds.length ≤ 12) :
    ipd_scan buf max_ch_search (p + 5 + ds.length - 1) = some (p + 3, true) := by
  have hp5 : p + 5 + ds.length ≤ 500 := hp
  have hg := getD_of_slice buf _ p _ hslice
  have hbody : ∀ j < ds.length, buf.getD (p + 5 + j) 0 = ds.getD j 0 := by
    intro j hj
    have := hg (5 + j) (by omega)
    rw [show p + (5 + j) = p + 5 + j by omega] at this
    rw [this]
    exact getD_append_right_add at_ipd ds j
  have e : max_ch_search = (12 - ds.length + 1) + ds.length := by
    show 13 = _; omega
  rw [e, ipd_scan_digits buf ds.length _ _ (by omega) (by show _ < 500; omega)
    (fun j hj => by
      have := hbody (ds.length - 1 - j) (by omega)
      rw [show p + 5 + ds.length - 1 - j = p + 5 + (ds.length - 1 - j) by omega, this]
      exact getD_digit ds hd _ (by omega))]
  rw [show p + 5 + ds.length - 1 - ds.length = p + 4 by omega]
  have h0 := hg 4 (by omega)
  have h1 := hg 3 (by omega)
  have h2 := hg 2 (by omega)
  have h3 := hg 1 (by omega)
  have h4 := hg 0 (by omega)
  exact ipd_scan_comma_found buf _ (p + 4) (by omega) (by show _ < 500; omega) h0 h1 h2 h3 h4

theorem ipd_scan_multi (buf : List Nat) (p c : Nat) (ds : List Nat) (hc : c ≤ 9)
    (hp : p + 7 + ds.length ≤ RESULT_BUFF_LEN)
    (hslice : buff_slice buf p (5 + ((48 + c) :: 44 :: ds).length)
      = at_ipd ++ (48 + c) :: 44 :: ds)
    (hd : ∀ x ∈ ds, 48 ≤ x ∧ x ≤ 57) (hl : ds.length ≤ 10) :
    ipd_scan buf max_ch_search (p + 7 + ds.length - 1) = some (p + 3, true) := by
  have hp5 : p + 7 + ds.length ≤ 500 := hp
  have hlen : ((48 + c) :: 44 :: ds).length = ds.length + 2 := rfl
  rw [hlen] at hslice
  have hg := getD_of_slice buf _ p _ hslice
  have hbody : ∀ j < ds.length, buf.getD (p + 7 + j) 0 = ds.getD j 0 := by
    intro j hj
    have := hg (5 + (2 + j)) (by omega)
    rw [show p + (5 + (2 + j)) = p + 7 + j by omega] at this
    rw [this]
    have h2 := getD_append_right_add at_ipd ((48 + c) :: 44 :: ds) (2 + j)
    rw [show at_ipd.length = 5 from rfl] at h2
    rw [h2, show 2 + j = j + 1 + 1 by omega]
    rfl
  have e : max_ch_search = (10 - ds.length + 1 + 1 + 1) + ds.length := by
    show 13 = _; omega
  rw [e, ipd_scan_digits buf ds.length _ _ (by omega) (by show _ < 500; omega)
    (fun j hj => by
      have := hbody (ds.length - 1 - j) (by omega)
      rw [show p + 7 + ds.length - 1 - j = p + 7 + (ds.length - 1 - j) by omega, this]
      exact getD_digit ds hd _ (by omega))]
  rw [show p + 7 + ds.length - 1 - ds.length = p + 6 by omega]
  have h6 : buf.getD (p + 6) 0 = 44 := hg 6 (by omega)
  have h5 : buf.getD (p + 5) 0 = 48 + c := hg 5 (by omega)
  have h0 := hg 4 (by omega)
  have h1 := hg 3 (by omega)
  have h2 := hg 2 (by omega)
  have h3 := hg 1 (by omega)
  have h4 := hg 0 (by omega)
  rw [ipd_scan_comma_other buf _ (p + 6) (by omega) (by show _ < 500; omega) h6
    (by rw [show p + 6 - 1 = p + 5 by omega, h5]; omega)]
  rw [show p + 6 - 1 = p + 5 by omega,
    ipd_scan_digit buf _ (p + 5) (by omega) (by show _ < 500; omega) (by rw [h5]; omega)]
  exact ipd_scan_comma_found buf _ (p + 4) (by omega) (by show _ < 500; omega) h0 h1 h2 h3 h4

/-- A well-formed header at the end of the response buffer: `process_ipd_msg` succeeds,
reports the value of the numeral and cuts the buffer back to what preceded `"\r\n"`. -/
theorem ipd_header_parsed (d : at_desc) (len c : Nat) (pre ds : List Nat)
    (hview : result_view d = (pre ++ [13, 10]) ++ (at_ipd ++ ipd_body d.multiple_conections c ds))
    (hcap : d.result_len ≤ RESULT_BUFF_LEN) (hc : c ≤ 9) (hne : ds ≠ [])
    (hd : ∀ x ∈ ds, 48 ≤ x ∧ x ≤ 57) (hl : ds.length ≤ 10)
    (hv : digits_value ds ≤ 2147483647) :
    process_ipd_msg d len = some (ret_code.SUCCESS,
      { d with result_len := pre.length
               match_idx := d.match_idx.map (fun m => if m ≥ 2 then m - 2 else m) },
      digits_value ds) := by
  have hcap5 : d.result_len ≤ 500 := hcap
  obtain ⟨hlen, hslice⟩ := slice_of_view d _ _ hview
  have hpl : (pre ++ [13, 10]).length = pre.length + 2 := by simp
  have hal : (at_ipd ++ ipd_body d.multiple_conections c ds).length
      = 5 + (ipd_body d.multiple_conections c ds).length := by
    rw [List.length_append]; rfl
  rw [hpl, hal] at hlen hslice
  have hu : digits_value ds < U32 := by unfold U32; omega
  have hscan : ipd_scan d.result_buff max_ch_search (d.result_len - 1)
      = some (pre.length + 2 + 3, true) := by
    cases hm : d.multiple_conections with
    | false =>
      rw [hm] at hlen hslice
      have e : ipd_body false c ds = ds := rfl
      rw [e] at hlen hslice
      rw [hlen, show pre.length + 2 + (5 + ds.length) = pre.length + 2 + 5 + ds.length by omega]
      exact ipd_scan_single d.result_buff (pre.length + 2) ds (by show _ ≤ 500; omega) hslice hd
        (by omega)
    | true =>
      rw [hm] at hlen hslice
      have e : ipd_body true c ds = (48 + c) :: 44 :: ds := rfl
      rw [e] at hlen hslice
      have e2 : ((48 + c) :: 44 :: ds).length = ds.length + 2 := rfl
      rw [e2] at hlen
      rw [hlen, show pre.length + 2 + (5 + (ds.length + 2)) = pre.length + 2 + 7 + ds.length
        by omega]
      exact ipd_scan_multi d.result_buff (pre.length + 2) c ds hc (by show _ ≤ 500; omega)
        hslice hd hl
  have hparse : ipd_sscanf d.multiple_conections
      (at_ipd ++ ipd_body d.multiple_conections c ds) len = digits_value ds := by
    cases hm : d.multiple_conections with
    | false =>
      have e : ipd_body false c ds = ds := rfl
      rw [e]
      unfold ipd_sscanf
      simp only [sscanf_single ds hne hd (by omega) hv, Bool.false_eq_true, if_false]
      exact to_u32_nat _ hu
    | true =>
      have e : ipd_body true c ds = (48 + c) :: 44 :: ds := rfl
      rw [e]
      unfold ipd_sscanf
      simp only [sscanf_multi ds c hc hne hd (by omega) hv, if_true]
      exact to_u32_nat _ hu
  have := process_ipd_found d len (pre.length + 2) (ipd_body d.multiple_conections c ds)
    (by omega) hcap hslice hscan
  rw [this, hparse, sub32_small _ _ (by omega) (by unfold U32; omega)]
  rfl

/-! ## Delivery of a payload -/

theorem rx_payload_midway (d : at_desc) (len b cur rem : Nat) (got : List Nat)
    (h : payload_state d cur rem got) (hlt : got.length + 1 < cur) :
    uart_rx_byte d len b = some { d with uart := { d.uart with rd_got := got ++ [b] } } := by
  obtain ⟨_, _, h3, h4, _, _⟩ := h
  unfold uart_rx_byte
  simp only [h4, h3, List.length_append, List.length_singleton]
  rw [if_pos hlt]

theorem rx_payload_done (d : at_desc) (len b cur rem : Nat) (got : List Nat)
    (h : payload_state d cur rem got) (hge : cur ≤ got.length + 1) :
    uart_rx_byte d len b =
      at_callback { d with
        app_data := { d.app_data with data_buff := got ++ [b] }
        uart := { d.uart with rd_got := [] } } UART_EVENT.READ_DONE len := by
  obtain ⟨_, h2, h3, h4, _, _⟩ := h
  unfold uart_rx_byte
  simp only [h4, h3, h2, List.length_append, List.length_singleton]
  rw [if_neg (by omega)]

theorem payload_state_midway (d : at_desc) (b cur rem : Nat) (got : List Nat)
    (h : payload_state d cur rem got) :
    payload_state { d with uart := { d.uart with rd_got := got ++ [b] } } cur rem (got ++ [b]) := by
  obtain ⟨h1, h2, h3, _, h5, h6⟩ := h
  exact ⟨h1, h2, h3, rfl, h5, h6⟩

/-- The last chunk has arrived: one notification, back to module-message mode. -/
theorem rx_payload_last (d : at_desc) (len b cur : Nat) (got : List Nat)
    (h : payload_state d cur 0 got) (hge : cur ≤ got.length + 1)
    (hcb : d.app_callback = true) :
    ∃ d1, uart_rx_byte d len b = some d1 ∧
      d1.callback_state = callback_state_t.READING_MODULE_MSG ∧
      d1.app_notified = d.app_notified ++ [cur] ∧ d1.app_data.pending = 0 ∧
      d1.app_data.data_buff = got ++ [b] ∧ d1.app_data.size = d.app_data.size ∧
      d1.uart.rd_target = read_target.READ_CH ∧ d1.uart.rd_len = 1 ∧ d1.uart.rd_got = [] := by
  rw [rx_payload_done d len b cur 0 got h hge]
  obtain ⟨h1, _, _, _, h5, h6⟩ := h
  unfold at_callback
  simp only [h1, h6, if_true, call_app_callback, hcb, h5]
  exact ⟨_, rfl, rfl, rfl, rfl, rfl, rfl, rfl, rfl, rfl⟩

/-- A chunk that is not the last has arrived: one notification and the next read. -/
theorem rx_payload_chunk (d : at_desc) (len b cur rem : Nat) (got : List Nat)
    (h : payload_state d cur rem got) (hge : cur ≤ got.length + 1) (hrem : rem ≠ 0)
    (hu : rem < U32) (hcb : d.app_callback = true) :
    ∃ d1, uart_rx_byte d len b = some d1 ∧
      payload_state d1 (min d.app_data.size rem) (rem - min d.app_data.size rem) [] ∧
      d1.app_notified = d.app_notified ++ [cur] ∧ d1.app_data.size = d.app_data.size ∧
      d1.app_callback = true := by
  rw [rx_payload_done d len b cur rem got h hge]
  obtain ⟨h1, _, _, _, h5, h6⟩ := h
  have hs : sub32 rem (min d.app_data.size rem) = rem - min d.app_data.size rem :=
    sub32_small _ _ (Nat.min_le_right _ _) hu
  unfold at_callback
  simp only [h1, h6, if_neg hrem, call_app_callback, hcb, h5, if_true, hs]
  exact ⟨_, rfl, ⟨rfl, rfl, rfl, rfl, rfl, rfl⟩, rfl, rfl, rfl⟩


theorem chunk_count (s rem : Nat) (hs : 1 ≤ s) (hrem : rem ≠ 0) :
    1 + (rem - min s rem + s - 1) / s = (rem + s - 1) / s := by
  rcases Nat.le_total rem s with h | h
  · rw [Nat.min_eq_right h, Nat.sub_self, Nat.zero_add]
    have h1 : (s - 1) / s = 0 := Nat.div_eq_of_lt (by omega)
    have h2 : (rem + s - 1) / s = 1 := by
      apply Nat.div_eq_of_lt_le <;> omega
    rw [h1, h2]
  · rw [Nat.min_eq_left h]
    have e : rem + s - 1 = (rem - s + s - 1) + s := by omega
    rw [e, Nat.add_div_right _ (by omega)]
    omega

/-- Before all bytes of a payload have arrived the mode is payload-reading. -/
theorem payload_run_before (len : Nat) : ∀ (bs : List Nat) (d : at_desc) (cur rem : Nat)
    (got : List Nat), payload_state d cur rem got → d.app_callback = true →
    1 ≤ d.app_data.size → got.length < cur → rem < U32 →
    got.length + bs.length < cur + rem →
    ∃ d1, feed len d bs = some d1 ∧ d1.callback_state = callback_state_t.READING_PAYLOAD := by
  intro bs
  induction bs with
  | nil =>
    intro d cur rem got h _ _ _ _ _
    exact ⟨d, rfl, h.1⟩
  | cons b bs ih =>
    intro d cur rem got h hcb hs hg hu hlt
    simp only [List.length_cons] at hlt
    by_cases hp : got.length + 1 < cur
    · rw [feed_cons len d _ b bs (rx_payload_midway d len b cur rem got h hp)]
      exact ih _ cur rem (got ++ [b]) (payload_state_midway d b cur rem got h) hcb hs
        (by simpa using hp) hu (by simp only [List.length_append, List.length_singleton]; omega)
    · have hrem : rem ≠ 0 := by omega
      obtain ⟨d1, hf, hst, _, hsz, hcb1⟩ :=
        rx_payload_chunk d len b cur rem got h (by omega) hrem hu hcb
      rw [feed_cons len d d1 b bs hf]
      have hmin : 1 ≤ min d.app_data.size rem := by
        rw [Nat.le_min]; omega
      exact ih d1 _ _ [] hst hcb1 (by rw [hsz]; exact hs) (by simpa using hmin) (by omega)
        (by
          have := Nat.min_le_right d.app_data.size rem
          simp only [List.length_nil]; omega)

/-- When all bytes of a payload have arrived the mode is module-message again; the
notifications are as many as there were chunks and add up to the payload. -/
theorem payload_run_all (len : Nat) : ∀ (bs : List Nat) (d : at_desc) (cur rem : Nat)
    (got : List Nat), payload_state d cur rem got → d.app_callback = true →
    1 ≤ d.app_data.size → got.length < cur → cur ≤ d.app_data.size → rem < U32 →
    got.length + bs.length = cur + rem →
    ∃ d1 N, feed len d bs = some d1 ∧
      d1.callback_state = callback_state_t.READING_MODULE_MSG ∧
      d1.app_notified = d.app_notified ++ N ∧ N.sum = cur + rem ∧
      (∀ x ∈ N, x ≤ d.app_data.size) ∧
      N.length = 1 + (rem + d.app_data.size - 1) / d.app_data.size ∧
      d1.app_data.pending = 0 := by
  intro bs
  induction bs with
  | nil =>
    intro d cur rem got h _ _ hg _ _ he
    simp only [List.length_nil] at he
    omega
  | cons b bs ih =>
    intro d cur rem got h hcb hs hg hc hu he
    simp only [List.length_cons] at he
    by_cases hp : got.length + 1 < cur
    · rw [feed_cons len d _ b bs (rx_payload_midway d len b cur rem got h hp)]
      exact ih _ cur rem (got ++ [b]) (payload_state_midway d b cur rem got h) hcb hs
        (by simpa using hp) hc hu
        (by simp only [List.length_append, List.length_singleton]; omega)
    · by_cases hrem : rem = 0
      · subst hrem
        obtain ⟨d1, hf, hm, hn, hpend, _⟩ := rx_payload_last d len b cur got h (by omega) hcb
        have hbs : bs = [] := List.eq_nil_of_length_eq_zero (by omega)
        subst hbs
        rw [feed_cons len d d1 b [] hf]
        refine ⟨d1, [cur], rfl, hm, hn, by simp, ?_, ?_, hpend⟩
        · intro x hx
          simp only [List.mem_singleton] at hx
          omega
        · have : (0 + d.app_data.size - 1) / d.app_data.size = 0 :=
            Nat.div_eq_of_lt (by omega)
          rw [this]; rfl
      · obtain ⟨d1, hf, hst, hn, hsz, hcb1⟩ :=
          rx_payload_chunk d len b cur rem got h (by omega) hrem hu hcb
        rw [feed_cons len d d1 b bs hf]
        have hmin : 1 ≤ min d.app_data.size rem := by
          rw [Nat.le_min]; omega
        have hmr := Nat.min_le_right d.app_data.size rem
        obtain ⟨d2, N, hf2, hm2, hn2, hsum, hall, hcnt, hpend⟩ := ih d1 _ _ [] hst hcb1
          (by rw [hsz]; exact hs) (by simpa using hmin)
          (by rw [hsz]; exact Nat.min_le_left _ _) (by omega)
          (by simp only [List.length_nil]; omega)
        refine ⟨d2, cur :: N, hf2, hm2, ?_, ?_, ?_, ?_, hpend⟩
        · rw [hn2, hn]; simp
        · rw [List.sum_cons, hsum]; omega
        · intro x hx
          rcases List.mem_cons.1 hx with h1 | h1
          · omega
          · have := hall x h1
            rw [hsz] at this; exact this
        · rw [List.length_cons, hcnt, hsz, ← chunk_count d.app_data.size rem hs hrem]
          omega

theorem at_callback_colon_found (d0 : at_desc) (len L : Nat) (d1 : at_desc)
    (hm : d0.callback_state = callback_state_t.READING_MODULE_MSG) (hch : d0.read_ch = 58)
    (hp : process_ipd_msg d0 len = some (ret_code.SUCCESS, d1, L)) :
    at_callback d0 UART_EVENT.READ_DONE len = some { d1 with
      app_data := { d1.app_data with
        pending := sub32 L (min d1.app_data.size L), data_len := min d1.app_data.size L }
      uart := uart_read d1.uart read_target.APP_BUFF (min d1.app_data.size L)
      callback_state := callback_state_t.READING_PAYLOAD } := by
  unfold at_callback
  simp only []
  rw [hm]
  simp only []
  rw [if_pos hch, hp]

theorem rx_colon_found (d : at_desc) (len L : Nat) (d1 : at_desc) (h : awaiting_char d)
    (hp : process_ipd_msg { d with read_ch := 58 } len = some (ret_code.SUCCESS, d1, L)) :
    uart_rx_byte d len 58 = some { d1 with
      app_data := { d1.app_data with
        pending := sub32 L (min d1.app_data.size L), data_len := min d1.app_data.size L }
      uart := uart_read d1.uart read_target.APP_BUFF (min d1.app_data.size L)
      callback_state := callback_state_t.READING_PAYLOAD } := by
  rw [rx_awaiting d len 58 h]
  exact at_callback_colon_found _ len L d1 h.1 rfl hp

theorem view_take (d : at_desc) (A B : List Nat) (h : result_view d = A ++ B) :
    buff_slice d.result_buff 0 A.length = A := by
  have hl := (slice_of_view d A B h).1
  rw [result_view, hl, buff_slice_add] at h
  exact (List.append_inj h (by rw [buff_slice_length])).1

/-- The `':'` that ends a well-formed header starts the delivery of the payload. -/
theorem rx_colon_header (d : at_desc) (len c : Nat) (pre ds : List Nat) (h : awaiting_char d)
    (hview : result_view d = (pre ++ [13, 10]) ++ (at_ipd ++ ipd_body d.multiple_conections c ds))
    (hcap : d.result_len ≤ RESULT_BUFF_LEN) (hc : c ≤ 9) (hne : ds ≠ [])
    (hd : ∀ x ∈ ds, 48 ≤ x ∧ x ≤ 57) (hl : ds.length ≤ 10)
    (hv : digits_value ds ≤ 2147483647) :
    ∃ d1, uart_rx_byte d len 58 = some d1 ∧
      payload_state d1 (min d.app_data.size (digits_value ds))
        (digits_value ds - min d.app_data.size (digits_value ds)) [] ∧
      d1.app_callback = d.app_callback ∧ d1.app_data.size = d.app_data.size ∧
      d1.app_notified = d.app_notified ∧ result_view d1 = pre := by
  have hp := ipd_header_parsed { d with read_ch := 58 } len c pre ds hview hcap hc hne hd hl hv
  rw [rx_colon_found d len _ _ h hp]
  have hs : sub32 (digits_value ds) (min d.app_data.size (digits_value ds))
      = digits_value ds - min d.app_data.size (digits_value ds) :=
    sub32_small _ _ (Nat.min_le_right _ _) (by unfold U32; omega)
  refine ⟨_, rfl, ⟨rfl, rfl, rfl, rfl, rfl, hs⟩, rfl, rfl, rfl, ?_⟩
  have hv2 := view_take { d with read_ch := 58 } pre _ (by rw [← List.append_assoc]; exact hview)
  simp only [result_view] at hv2 ⊢
  exact hv2

theorem payload_partial_run (len : Nat) : ∀ (bs : List Nat) (d : at_desc) (cur rem : Nat)
    (got : List Nat), payload_state d cur rem got → got.length + bs.length < cur →
    feed len d bs = some { d with uart := { d.uart with rd_got := got ++ bs } } := by
  intro bs
  induction bs with
  | nil =>
    intro d cur rem got h _
    obtain ⟨_, _, _, h4, _, _⟩ := h
    rw [List.append_nil, ← h4]
    rfl
  | cons b bs ih =>
    intro d cur rem got h hlt
    simp only [List.length_cons] at hlt
    rw [feed_cons len d _ b bs (rx_payload_midway d len b cur rem got h (by omega))]
    rw [ih _ cur rem (got ++ [b]) (payload_state_midway d b cur rem got h)
      (by simp only [List.length_append, List.length_singleton]; omega)]
    simp

theorem colon_not_in_responses (i m : Nat) : ¬ (58 = (responses i).getD m 0) ∧
    ¬ (58 = (responses i).getD 0 0) := by
  have h : ∀ i < 4, ∀ m < 12, ¬ (58 = (responses i).getD m 0) := by decide
  have hgen : ∀ i m, ¬ (58 = (responses i).getD m 0) := by
    intro i m
    by_cases hi : i < 4
    · by_cases hm : m < 12
      · exact h i hi m hm
      · have hl := responses_length_le i
        rw [List.getD_eq_default _ _ (by omega)]
        decide
    · have : responses i = [] := by
        unfold responses
        split <;> first | omega | rfl
      rw [this]
      simp
  exact ⟨hgen i m, hgen i 0⟩

theorem refresh_loop_colon : ∀ (n i : Nat) (desc : at_desc),
    ∃ mi, refresh_loop 58 n i desc = some { desc with match_idx := mi } := by
  intro n
  induction n with
  | zero => intro i desc; exact ⟨desc.match_idx, rfl⟩
  | succ n ih =>
    intro i desc
    obtain ⟨h1, h2⟩ := colon_not_in_responses i (desc.match_idx.getD i 0)
    rw [refresh_loop]
    simp only []
    by_cases hgt : desc.match_idx.getD i 0 > (responses i).length
    · rw [if_pos hgt]
      exact ⟨desc.match_idx, rfl⟩
    · rw [if_neg hgt, if_neg h1, if_neg h2]
      obtain ⟨mi, hmi⟩ := ih (i + 1) { desc with match_idx := desc.match_idx.set i 0 }
      exact ⟨mi, hmi⟩

theorem payload_state_midway_gen (d : at_desc) (cur rem : Nat) (got : List Nat)
    (h : payload_state d cur rem []) :
    payload_state { d with uart := { d.uart with rd_got := got } } cur rem got := by
  obtain ⟨h1, h2, h3, _, h5, h6⟩ := h
  exact ⟨h1, h2, h3, rfl, h5, h6⟩

/-! ## A colon that belongs to no header -/

theorem at_callback_colon_missed (d0 : at_desc) (len L : Nat) (d1 : at_desc)
    (hm : d0.callback_state = callback_state_t.READING_MODULE_MSG) (hch : d0.read_ch = 58)
    (hp : process_ipd_msg d0 len = some (ret_code.FAILURE, d1, L)) :
    at_callback d0 UART_EVENT.READ_DONE len = module_msg_char d1 := by
  unfold at_callback
  simp only []
  rw [hm]
  simp only []
  rw [if_pos hch, hp]

theorem process_ipd_missed (d : at_desc) (len i : Nat)
    (hscan : ipd_scan d.result_buff max_ch_search (sub32 d.result_len 1) = some (i, false)) :
    process_ipd_msg d len = some (ret_code.FAILURE, d, len) := by
  unfold process_ipd_msg
  simp only [hscan]

theorem buff_slice_write_end (buf : List Nat) (n b : Nat) :
    buff_slice (buff_write buf n b) 0 (n + 1) = buff_slice buf 0 n ++ [b] := by
  have e : buff_write buf n b = buff_writes buf n [b] := rfl
  rw [e, buff_slice_add, buff_slice_writes_below, Nat.zero_add,
    buff_slice_writes_take _ _ _ 1 (by simp)]
  rfl

/-! ## Command formatter and executor -/

theorem cmd_strcatch_eq (d : at_desc) (ch : Nat) : cmd_strcatch d ch = cmd_strcat d [ch] := by
  simp only [cmd_strcat]
  cases cmd_strcatch d ch <;> rfl

theorem cmd_strcat_append : ∀ (a b : List Nat) (d : at_desc),
    cmd_strcat d (a ++ b) = (cmd_strcat d a).bind (fun d1 => cmd_strcat d1 b) := by
  intro a
  induction a with
  | nil => intro b d; rfl
  | cons x a ih =>
    intro b d
    simp only [List.cons_append, cmd_strcat]
    cases cmd_strcatch d x with
    | none => rfl
    | some d1 => exact ih b d1

theorem cmd_strcat_ok : ∀ (s : List Nat) (d : at_desc), d.cmd_len + s.length ≤ CMD_BUFF_LEN →
    cmd_strcat d s = some { d with cmd_buff := buff_writes d.cmd_buff d.cmd_len s
                                   cmd_len := d.cmd_len + s.length } := by
  intro s
  induction s with
  | nil => intro d _; rfl
  | cons x s ih =>
    intro d h
    simp only [List.length_cons] at h
    have hlt : d.cmd_len < CMD_BUFF_LEN := by omega
    simp only [cmd_strcat, cmd_strcatch, if_pos hlt]
    rw [ih _ (by
      show add32 d.cmd_len 1 + s.length ≤ CMD_BUFF_LEN
      rw [add32_small _ _ (by unfold CMD_BUFF_LEN at hlt; unfold U32; omega)]; omega)]
    simp only [buff_writes, List.length_cons]
    rw [add32_small _ _ (by unfold CMD_BUFF_LEN at hlt; unfold U32; omega)]
    congr 2
    omega

theorem cmd_strcat_some : ∀ (s : List Nat) (d d1 : at_desc), cmd_strcat d s = some d1 →
    d1 = { d with cmd_buff := buff_writes d.cmd_buff d.cmd_len s
                  cmd_len := d.cmd_len + s.length } ∧
    (s ≠ [] → d.cmd_len + s.length ≤ CMD_BUFF_LEN) := by
  intro s
  induction s with
  | nil =>
    intro d d1 h
    simp only [cmd_strcat, Option.some.injEq] at h
    subst h
    exact ⟨rfl, fun h => absurd rfl h⟩
  | cons x s ih =>
    intro d d1 h
    simp only [cmd_strcat, cmd_strcatch] at h
    by_cases hlt : d.cmd_len < CMD_BUFF_LEN
    · rw [if_pos hlt] at h
      have ha : add32 d.cmd_len 1 = d.cmd_len + 1 :=
        add32_small _ _ (by unfold CMD_BUFF_LEN at hlt; unfold U32; omega)
      obtain ⟨h1, h2⟩ := ih _ _ h
      simp only [ha] at h1 h2
      refine ⟨?_, fun _ => ?_⟩
      · rw [h1]
        simp only [buff_writes, List.length_cons]
        congr 1
        omega
      · by_cases hs : s = []
        · subst hs
          simp only [List.length_cons, List.length_nil]
          omega
        · have := h2 hs
          simp only [List.length_cons]
          omega
    · rw [if_neg hlt] at h
      exact absurd h (by simp)

theorem at_sprintf_int (d : at_desc) (nb : Int) (fmt : List Nat) (rest : List sprintf_arg) :
    at_sprintf d (100 :: fmt) (sprintf_arg.int nb :: rest) =
      (cmd_strcat d (itoa nb)).bind (fun d1 =>
        if fmt ≠ [] then (cmd_strcat d1 [44]).bind (fun d2 => at_sprintf d2 fmt rest)
        else at_sprintf d1 fmt rest) := by
  simp only [at_sprintf]
  cases cmd_strcat d (itoa nb) with
  | none => rfl
  | some d1 =>
    simp only [Option.map_some', Option.some_bind, ← cmd_strcatch_eq]
    split
    · cases cmd_strcatch d1 44 <;> rfl
    · rfl

theorem at_sprintf_str (d : at_desc) (s : List Nat) (fmt : List Nat) (rest : List sprintf_arg) :
    at_sprintf d (115 :: fmt) (sprintf_arg.str s :: rest) =
      (cmd_strcat d ([34] ++ escape_str s ++ [34])).bind (fun d1 =>
        if fmt ≠ [] then (cmd_strcat d1 [44]).bind (fun d2 => at_sprintf d2 fmt rest)
        else at_sprintf d1 fmt rest) := by
  simp only [at_sprintf]
  cases cmd_strcat d ([34] ++ escape_str s ++ [34]) with
  | none => rfl
  | some d1 =>
    simp only [Option.map_some', Option.some_bind, ← cmd_strcatch_eq]
    split
    · cases cmd_strcatch d1 44 <;> rfl
    · rfl

theorem at_sprintf_nil (d : at_desc) (args : List sprintf_arg) : at_sprintf d [] args = some d := by
  simp only [at_sprintf]

theorem at_sprintf_step (d : at_desc) (a : sprintf_arg) (rest : List sprintf_arg) :
    at_sprintf d (fmt_of (a :: rest)) (a :: rest) =
      (cmd_strcat d (render_arg a)).bind (fun d1 =>
        if fmt_of rest ≠ [] then
          (cmd_strcat d1 [44]).bind (fun d2 => at_sprintf d2 (fmt_of rest) rest)
        else at_sprintf d1 (fmt_of rest) rest) := by
  cases a with
  | int nb => exact at_sprintf_int d nb _ rest
  | str s => exact at_sprintf_str d s _ rest

theorem at_sprintf_eq : ∀ (args : List sprintf_arg) (d : at_desc),
    at_sprintf d (fmt_of args) args = cmd_strcat d (comma_join (args.map render_arg)) := by
  intro args
  induction args with
  | nil => intro d; rfl
  | cons a r ih =>
    intro d
    rw [at_sprintf_step]
    cases r with
    | nil =>
      simp only [fmt_of, ne_eq, not_true_eq_false, if_false, at_sprintf_nil, List.map, comma_join]
      cases cmd_strcat d (render_arg a) <;> rfl
    | cons b r2 =>
      have hne : fmt_of (b :: r2) ≠ [] := by cases b <;> simp [fmt_of]
      simp only [if_pos hne, List.map, comma_join]
      rw [cmd_strcat_append, cmd_strcat_append]
      cases cmd_strcat d (render_arg a) with
      | none => rfl
      | some d1 =>
        simp only [Option.some_bind]
        cases cmd_strcat d1 [44] with
        | none => rfl
        | some d2 => exact ih d2

theorem build_cmd_param_eq (d : at_desc) (cmd : at_cmd) (p : in_param)
    (hsend : cmd = at_cmd.AT_SEND →
      ∃ c, conn_read d (if d.multiple_conections then p.connection.id else 0) = some c) :
    build_cmd_param d cmd p = cmd_strcat d (comma_join ((set_args d cmd p).map render_arg)) := by
  have h := at_sprintf_eq (set_args d cmd p) d
  cases cmd
  case AT_SEND =>
    obtain ⟨c, hc⟩ := hsend rfl
    simp only [build_cmd_param, set_args, hc, Option.map_some', Option.some.injEq] at h ⊢
    by_cases ht : c.type = socket_type.SOCKET_TCP <;> by_cases hm : d.multiple_conections = true <;>
      simp only [ht, hm, if_true, if_false, List.nil_append, List.append_nil, List.cons_append,
        Bool.false_eq_true, fmt_of] at h ⊢ <;> exact h
  case AT_START_CONNECTION =>
    simp only [build_cmd_param, set_args] at h ⊢
    by_cases ht : p.connection.soket_type = socket_type.SOCKET_TCP <;>
      by_cases hm : d.multiple_conections = true <;>
      simp only [ht, hm, if_true, if_false, List.nil_append, List.append_nil, List.cons_append,
        Bool.false_eq_true, fmt_of] at h ⊢ <;> exact h
  all_goals exact h

theorem cmd_strcat_nil (d : at_desc) : cmd_strcat d [] = some d := rfl

theorem cmd_strcat_cons (d : at_desc) (x : Nat) (s : List Nat) :
    cmd_strcat d (x :: s) = (cmd_strcat d [x]).bind (fun d1 => cmd_strcat d1 s) :=
  cmd_strcat_append [x] s d

theorem build_cmd_unfold (desc : at_desc) (cmd : at_cmd) (op : cmd_operation)
    (param : Option in_param) :
    build_cmd desc cmd op param =
      (cmd_strcat { desc with cmd_len := 0 } ([65, 84] ++ (g_map cmd).1)).bind (fun d3 =>
        match op, param with
        | cmd_operation.AT_SET_OP, some p =>
          (cmd_strcat d3 [61]).bind (fun d5 =>
            (build_cmd_param d5 cmd p).bind (fun d6 => cmd_strcat d6 [13, 10]))
        | cmd_operation.AT_SET_OP, none => cmd_strcat d3 [13, 10]
        | _, _ => cmd_strcat d3 (op_suffix op ++ [13, 10])) := by
  unfold build_cmd
  simp only [cmd_strcatch_eq]
  rw [show ([65, 84] ++ (g_map cmd).1 : List Nat) = [65] ++ ([84] ++ (g_map cmd).1) from rfl]
  simp only [cmd_strcat_append, Option.bind_assoc]
  congr 1; funext d1
  congr 1; funext d2
  congr 1; funext d3
  cases op <;> cases param <;>
    simp only [reduceCtorEq, if_false, if_true, Option.some_bind, op_suffix, List.nil_append,
      cmd_strcat_cons _ 13 [10], cmd_strcat_cons _ 61 [63], cmd_strcat_cons _ 61 [63, 13, 10],
      cmd_strcat_cons _ 63 [13, 10], cmd_strcat_cons _ 63 [13, 10],
      List.cons_append, Option.bind_assoc, cmd_strcat_nil]

theorem build_cmd_eq (desc : at_desc) (cmd : at_cmd) (op : cmd_operation)
    (param : Option in_param)
    (hsend : cmd = at_cmd.AT_SEND → op = cmd_operation.AT_SET_OP → ∀ p, param = some p →
      ∃ c, conn_read desc (if desc.multiple_conections then p.connection.id else 0) = some c) :
    build_cmd desc cmd op param =
      cmd_strcat { desc with cmd_len := 0 } (wire_cmd desc cmd op param) := by
  rw [build_cmd_unfold]
  unfold wire_cmd
  rw [List.append_assoc ([65, 84] ++ (g_map cmd).1),
    cmd_strcat_append ([65, 84] ++ (g_map cmd).1)]
  cases h3 : cmd_strcat { desc with cmd_len := 0 } ([65, 84] ++ (g_map cmd).1) with
  | none => rfl
  | some d3 =>
    simp only [Option.some_bind]
    cases op <;> cases param <;> simp only [List.nil_append]
    case AT_SET_OP.some p =>
      rw [show op_suffix cmd_operation.AT_SET_OP = [61] from rfl, List.append_assoc,
        cmd_strcat_append]
      cases h5 : cmd_strcat d3 [61] with
      | none => rfl
      | some d5 =>
        simp only [Option.some_bind]
        have e3 := (cmd_strcat_some _ _ _ h3).1
        have e5 := (cmd_strcat_some _ _ _ h5).1
        have hargs : set_args d5 cmd p = set_args desc cmd p := by rw [e5, e3]; rfl
        have hconn : ∀ id, conn_read d5 id = conn_read desc id := by intro id; rw [e5, e3]; rfl
        have hmult : d5.multiple_conections = desc.multiple_conections := by rw [e5, e3]
        rw [build_cmd_param_eq d5 cmd p (by
          intro hc
          rw [hconn, hmult]
          exact hsend hc rfl p rfl), hargs, cmd_strcat_append]

theorem wire_cmd_length (desc : at_desc) (cmd : at_cmd) (op : cmd_operation)
    (param : Option in_param) : 4 ≤ (wire_cmd desc cmd op param).length := by
  unfold wire_cmd
  simp only [List.length_append, List.length_cons, List.length_nil]
  omega

theorem build_cmd_frame (desc d1 : at_desc) (cmd : at_cmd) (op : cmd_operation)
    (param : Option in_param) (h : build_cmd desc cmd op param = some d1) :
    d1 = { desc with cmd_buff := d1.cmd_buff, cmd_len := d1.cmd_len } ∧ d1.cmd_len ≠ 0 ∧
      d1.cmd_len ≤ CMD_BUFF_LEN := by
  by_cases hs : cmd = at_cmd.AT_SEND → op = cmd_operation.AT_SET_OP → ∀ p, param = some p →
      ∃ c, conn_read desc (if desc.multiple_conections then p.connection.id else 0) = some c
  · rw [build_cmd_eq desc cmd op param hs] at h
    obtain ⟨e, hl⟩ := cmd_strcat_some _ _ _ h
    have h4 := wire_cmd_length desc cmd op param
    have hne : wire_cmd desc cmd op param ≠ [] := by
      intro h0; rw [h0] at h4; simp at h4
    have hl2 := hl hne
    simp only [Nat.zero_add] at e hl2
    refine ⟨?_, ?_, ?_⟩
    · rw [e]
    · rw [e]; show (wire_cmd desc cmd op param).length ≠ 0; omega
    · rw [e]; exact hl2
  · exfalso
    simp only [not_forall] at hs
    obtain ⟨hc, ho, p, hp, hn⟩ := hs
    subst hc ho hp
    rw [build_cmd_unfold] at h
    cases h3 : cmd_strcat { desc with cmd_len := 0 } ([65, 84] ++ (g_map at_cmd.AT_SEND).1) with
    | none => rw [h3] at h; simp at h
    | some d3 =>
      rw [h3] at h
      simp only [Option.some_bind] at h
      cases h5 : cmd_strcat d3 [61] with
      | none => rw [h5] at h; simp at h
      | some d5 =>
        rw [h5] at h
        simp only [Option.some_bind] at h
        have e3 := (cmd_strcat_some _ _ _ h3).1
        have e5 := (cmd_strcat_some _ _ _ h5).1
        have c5 : d5.connections = d3.connections := by rw [e5]
        have c3 : d3.connections = desc.connections := by rw [e3]
        have m5 : d5.multiple_conections = d3.multiple_conections := by rw [e5]
        have m3 : d3.multiple_conections = desc.multiple_conections := by rw [e3]
        have hconn : ∀ id, conn_read d5 id = conn_read desc id := by
          intro id; unfold conn_read; rw [c5, c3]
        have hmult : d5.multiple_conections = desc.multiple_conections := by rw [m5, m3]
        have hnone : conn_read desc (if desc.multiple_conections then p.connection.id else 0)
            = none := by
          cases hq : conn_read desc (if desc.multiple_conections then p.connection.id else 0) with
          | none => rfl
          | some c => exact absurd ⟨c, hq⟩ hn
        have : build_cmd_param d5 at_cmd.AT_SEND p = none := by
          simp only [build_cmd_param, hconn, hmult, hnone]
        rw [this] at h
        simp at h

theorem to_i32_range (v : Nat) : -2147483648 ≤ to_i32 v ∧ to_i32 v < 2147483648 := by
  unfold to_i32 U32
  split <;> omega

theorem itoa_length (v : Int) (h1 : -2147483648 ≤ v) (h2 : v < 2147483648) :
    (itoa v).length ≤ 11 := by
  unfold itoa
  have := (decimal_spec v.natAbs).2.2.2 10 (by decide) (by omega)
  simp only [List.length_append]
  split <;> simp <;> omega

theorem token_length (cmd : at_cmd) : (g_map cmd).1.length ≤ 10 := by
  cases cmd <;> decide

theorem wire_cmd_plain (desc : at_desc) (cmd : at_cmd) (op : cmd_operation)
    (param : Option in_param) (hop : op ≠ cmd_operation.AT_SET_OP) :
    wire_cmd desc cmd op param = [65, 84] ++ (g_map cmd).1 ++ op_suffix op ++ [13, 10] := by
  unfold wire_cmd
  cases op <;> first | rfl | exact absurd rfl hop

theorem busy_wait_done (len : Nat) (cond : at_desc → Bool) (d : at_desc) (env : schedule)
    (h : cond d = false) : busy_wait len cond d env = Except.ok (d, env) := by
  cases env with
  | nil => simp only [busy_wait, h, Bool.false_eq_true, if_false]
  | cons b e => simp only [busy_wait, h, Bool.false_eq_true, if_false]

theorem write_cmd_done (len : Nat) (d : at_desc) (env : schedule) (h : d.cmd_len ≠ 0) :
    write_cmd len d ([irq.tx_done] :: env) =
      Except.ok ({ d with result_status := result_status_t.WAITING_RESULT
                          uart := uart_write d.uart (buff_slice d.cmd_buff 0 d.cmd_len)
                          cmd_len := 0 }, env) := by
  unfold write_cmd
  simp only [busy_wait, deliver, deliver_irq, at_callback, decide_eq_true_eq, h, ne_eq,
    not_false_eq_true, if_true]
  rw [busy_wait_done]
  simp

theorem deliver_rx (len : Nat) : ∀ (bs : List Nat) (d : at_desc),
    deliver len d (bs.map irq.rx) = feed len d bs := by
  intro bs
  induction bs with
  | nil => intro d; rfl
  | cons b bs ih =>
    intro d
    simp only [List.map, deliver, deliver_irq, feed]
    cases uart_rx_byte d len b with
    | none => rfl
    | some d1 => exact ih d1

theorem wait_loop_done (len t : Nat) (d : at_desc) (env : schedule)
    (h : d.result_status ≠ result_status_t.WAITING_RESULT) :
    wait_for_response_loop len t d env = Except.ok (d, env) := by
  cases t <;> simp only [wait_for_response_loop, h, ne_eq, not_false_eq_true, if_true]

theorem wait_loop_hit (len t : Nat) (d d1 : at_desc) (b : List Nat) (env : schedule)
    (h : d.result_status = result_status_t.WAITING_RESULT)
    (hf : feed len d b = some d1)
    (h1 : d1.result_status ≠ result_status_t.WAITING_RESULT) :
    wait_for_response_loop len t d (b.map irq.rx :: env) = Except.ok (d1, env) := by
  cases t with
  | zero =>
    simp only [wait_for_response_loop, h, ne_eq, not_true_eq_false, if_false, mdelay, deliver_rx, hf]
  | succ t =>
    simp only [wait_for_response_loop, h, ne_eq, not_true_eq_false, if_false, mdelay, deliver_rx, hf]
    exact wait_loop_done len t d1 env h1

theorem wait_loop_step (len t : Nat) (d d1 : at_desc) (b : List Nat) (env : schedule)
    (h : d.result_status = result_status_t.WAITING_RESULT)
    (hf : feed len d b = some d1) :
    wait_for_response_loop len (t + 1) d (b.map irq.rx :: env) =
      wait_for_response_loop len t d1 env := by
  simp only [wait_for_response_loop, h, ne_eq, not_true_eq_false, if_false, mdelay, deliver_rx, hf]

theorem feed_some_of_append (len : Nat) (d : at_desc) (a b : List Nat) (d2 : at_desc)
    (h : feed len d (a ++ b) = some d2) : ∃ d1, feed len d a = some d1 ∧ feed len d1 b = some d2 := by
  rw [feed_append] at h
  cases h1 : feed len d a with
  | none => rw [h1] at h; simp at h
  | some d1 => rw [h1] at h; exact ⟨d1, rfl, h⟩

/-- The wait loop passes over the strings `pre` when each of them leaves Result
Status awaiting. -/
theorem wait_loop_skip (len : Nat) : ∀ (pre : List (List Nat)) (t : Nat) (d : at_desc)
    (env : schedule), d.result_status = result_status_t.WAITING_RESULT →
    (∀ k ≤ pre.length, ∃ dk, feed len d (pre.take k).flatten = some dk ∧
      dk.result_status = result_status_t.WAITING_RESULT) →
    ∃ dk, feed len d pre.flatten = some dk ∧
      wait_for_response_loop len (t + pre.length) d (env_rx pre ++ env) =
        wait_for_response_loop len t dk env := by
  intro pre
  induction pre with
  | nil =>
    intro t d env _ _
    exact ⟨d, rfl, rfl⟩
  | cons b pre ih =>
    intro t d env hw hq
    obtain ⟨d1, hf1, hw1⟩ := hq 1 (by simp)
    simp only [List.take_succ_cons, List.take_zero, List.flatten_cons, List.flatten_nil,
      List.append_nil] at hf1
    have hq1 : ∀ k ≤ pre.length, ∃ dk, feed len d1 (pre.take k).flatten = some dk ∧
        dk.result_status = result_status_t.WAITING_RESULT := by
      intro k hk
      obtain ⟨dk, hfk, hwk⟩ := hq (k + 1) (by simp; omega)
      simp only [List.take_succ_cons, List.flatten_cons] at hfk
      rw [feed_append, hf1] at hfk
      exact ⟨dk, hfk, hwk⟩
    obtain ⟨dk, hfk, hloop⟩ := ih t d1 env hw1 hq1
    refine ⟨dk, ?_, ?_⟩
    · rw [List.flatten_cons, feed_append, hf1]; exact hfk
    · have : t + (b :: pre).length = (t + pre.length) + 1 := by simp; omega
      rw [this]
      show wait_for_response_loop len (t + pre.length + 1) d (b.map irq.rx :: (env_rx pre ++ env)) = _
      rw [wait_loop_step len _ d d1 b _ hw hf1]
      exact hloop

/-- The wait loop ends with Result Status awaiting when every string of the
schedule leaves it so. -/
theorem wait_loop_quiet (len : Nat) : ∀ (t : Nat) (bs : List (List Nat)) (d : at_desc),
    d.result_status = result_status_t.WAITING_RESULT →
    (∀ k ≤ bs.length, ∃ dk, feed len d (bs.take k).flatten = some dk ∧
      dk.result_status = result_status_t.WAITING_RESULT) →
    ∃ d1 env1, wait_for_response_loop len t d (env_rx bs) = Except.ok (d1, env1) ∧
      d1.result_status = result_status_t.WAITING_RESULT := by
  intro t
  induction t with
  | zero =>
    intro bs d hw hq
    cases bs with
    | nil =>
      refine ⟨d, [], ?_, hw⟩
      simp only [env_rx, List.map, wait_for_response_loop, hw, ne_eq, not_true_eq_false, if_false,
        mdelay]
    | cons b bs =>
      obtain ⟨d1, hf1, hw1⟩ := hq 1 (by simp)
      simp only [List.take_succ_cons, List.take_zero, List.flatten_cons, List.flatten_nil,
        List.append_nil] at hf1
      refine ⟨d1, env_rx bs, ?_, hw1⟩
      simp only [env_rx, List.map, wait_for_response_loop, hw, ne_eq, not_true_eq_false, if_false,
        mdelay, deliver_rx, hf1]
  | succ t ih =>
    intro bs d hw hq
    cases bs with
    | nil =>
      obtain ⟨d1, env1, h1, h2⟩ := ih [] d hw (by
        intro k _
        exact ⟨d, by simp [feed], hw⟩)
      refine ⟨d1, env1, ?_, h2⟩
      simp only [env_rx, List.map, wait_for_response_loop, hw, ne_eq, not_true_eq_false, if_false,
        mdelay]
      exact h1
    | cons b bs =>
      obtain ⟨d1, hf1, hw1⟩ := hq 1 (by simp)
      simp only [List.take_succ_cons, List.take_zero, List.flatten_cons, List.flatten_nil,
        List.append_nil] at hf1
      have hq1 : ∀ k ≤ bs.length, ∃ dk, feed len d1 (bs.take k).flatten = some dk ∧
          dk.result_status = result_status_t.WAITING_RESULT := by
        intro k hk
        obtain ⟨dk, hfk, hwk⟩ := hq (k + 1) (by simp; omega)
        simp only [List.take_succ_cons, List.flatten_cons] at hfk
        rw [feed_append, hf1] at hfk
        exact ⟨dk, hfk, hwk⟩
      obtain ⟨d2, env2, h1, h2⟩ := ih bs d1 hw1 hq1
      refine ⟨d2, env2, ?_, h2⟩
      show wait_for_response_loop len (t + 1) d (b.map irq.rx :: env_rx bs) = _
      rw [wait_loop_step len t d d1 b _ hw hf1]
      exact h1

theorem take_flatten_initial (bs : List (List Nat)) (k : Nat) :
    (bs.take k).flatten <+: bs.flatten := by
  refine ⟨(bs.drop k).flatten, ?_⟩
  rw [← List.flatten_append, List.take_append_drop]

/-- Bytes that complete no response and fit the buffer leave everything but the
response buffer and the counters as it was. -/
theorem feed_quiet (len : Nat) (d : at_desc) (w S u : List Nat) (ha : awaiting_char d)
    (htrk : ctrs_track d w) (hcap : d.result_len + S.length ≤ RESULT_BUFF_LEN)
    (hbytes : ∀ b ∈ S, b ≠ 58 ∧ b ≠ 62)
    (hno : ∀ v, v <+: S → v ≠ [] → no_response_ends (w ++ v)) (hu : u <+: S) :
    ∃ du, feed len d u = some du ∧ du.result_status = d.result_status := by
  obtain ⟨r, hr⟩ := hu
  obtain ⟨du, hf, _, he⟩ := feed_nomatch len u d w ha htrk
    (by rw [← hr, List.length_append] at hcap; omega)
    (fun b hb => hbytes b (by rw [← hr]; exact List.mem_append_left _ hb))
    (fun v hv hne => hno v (by
      obtain ⟨r2, hr2⟩ := hv
      exact ⟨r2 ++ r, by rw [← hr, ← hr2, List.append_assoc]⟩) hne)
  exact ⟨du, hf, by rw [he]⟩

theorem run_cmd_dispatch (len : Nat) (desc d1 : at_desc) (cmd : at_cmd) (op : cmd_operation)
    (param : Option in_param) (env : schedule)
    (hperm : (g_map cmd).2 &&& op.val ≠ 0)
    (hmode : desc.callback_state ≠ callback_state_t.READING_UNVARNISHED)
    (hc1 : cmd ≠ at_cmd.AT_DEEP_SLEEP) (hc2 : cmd ≠ at_cmd.AT_RESET)
    (hc3 : cmd ≠ at_cmd.AT_SEND)
    (hb : build_cmd desc cmd op param = some d1) :
    at_run_cmd len desc cmd op param ([irq.tx_done] :: env) =
      match wait_for_response len (dispatched d1) env with
      | Except.error e => Except.error e
      | Except.ok (d6, env6) =>
        if d6.result_status ≠ result_status_t.RESULT_AVAILABE then
          Except.ok { ret := ret_code.FAILURE, desc := d6, out_result := false, env := env6 }
        else at_run_cmd_update len d6 cmd op param env6 := by
  have hlen := (build_cmd_frame desc d1 cmd op param hb).2.1
  unfold at_run_cmd
  rw [if_neg hperm, if_neg hmode]
  simp only [hb, hc1, hc2, hc3, or_self, if_false]
  rw [write_cmd_done len { d1 with waiting_send := true } env hlen]
  rfl

theorem module_msg_char_overflow (d : at_desc) (hfull : RESULT_BUFF_LEN ≤ d.result_len)
    (h62 : d.read_ch ≠ 62 ∨ d.waiting_send = false) :
    module_msg_char d = some { d with result_status := result_status_t.OVERFLOW_ERROR
                                      uart := uart_read d.uart read_target.READ_CH 1 } := by
  have hc : ¬ (d.read_ch = 62 ∧ d.waiting_send = true) := by
    rintro ⟨hb, hw⟩
    rcases h62 with h | h
    · exact h hb
    · rw [hw] at h; cases h
  unfold module_msg_char
  simp only []
  rw [if_neg hc, if_pos hfull]

theorem rx_overflow (d : at_desc) (len b : Nat) (ha : awaiting_char d)
    (hfull : RESULT_BUFF_LEN ≤ d.result_len) (h62 : b ≠ 62 ∨ d.waiting_send = false)
    (h58 : b = 58 →
      ∃ i, ipd_scan d.result_buff max_ch_search (sub32 d.result_len 1) = some (i, false)) :
    uart_rx_byte d len b =
      some { d with read_ch := b, result_status := result_status_t.OVERFLOW_ERROR } := by
  have hm : at_callback { d with read_ch := b } UART_EVENT.READ_DONE len
      = module_msg_char { d with read_ch := b } := by
    by_cases hb : b = 58
    · obtain ⟨i, hi⟩ := h58 hb
      subst hb
      exact at_callback_colon_missed { d with read_ch := 58 } len len { d with read_ch := 58 }
        ha.1 rfl (process_ipd_missed { d with read_ch := 58 } len i hi)
    · exact at_callback_module { d with read_ch := b } len ha.1 hb
  rw [rx_awaiting d len b ha, hm, module_msg_char_overflow { d with read_ch := b } hfull h62]
  have hu := uart_eta d.uart ha.2.1 ha.2.2.1 ha.2.2.2
  simp only [hu]

theorem feed_overflow (len : Nat) : ∀ (S : List Nat) (d : at_desc) (b : Nat), awaiting_char d →
    RESULT_BUFF_LEN ≤ d.result_len → (∀ x ∈ b :: S, x ≠ 58 ∧ x ≠ 62) →
    feed len d (b :: S) =
      some { d with read_ch := (b :: S).getLastD b
                    result_status := result_status_t.OVERFLOW_ERROR } := by
  intro S
  induction S with
  | nil =>
    intro d b ha hfull hx
    rw [feed_cons len d _ b [] (rx_overflow d len b ha hfull (Or.inl (hx b (by simp)).2)
      (fun h => absurd h (hx b (by simp)).1))]
    rfl
  | cons c S ih =>
    intro d b ha hfull hx
    rw [feed_cons len d _ b _ (rx_overflow d len b ha hfull (Or.inl (hx b (by simp)).2)
      (fun h => absurd h (hx b (by simp)).1))]
    rw [ih { d with read_ch := b, result_status := result_status_t.OVERFLOW_ERROR } c ha hfull
      (fun x hxm => hx x (List.mem_cons_of_mem _ hxm))]
    rfl

theorem dispatched_eq (desc d1 : at_desc) (cmd : at_cmd) (op : cmd_operation)
    (param : Option in_param) (hb : build_cmd desc cmd op param = some d1) :
    dispatched d1 = { desc with
      cmd_buff := d1.cmd_buff, cmd_len := 0, waiting_send := true
      result_status := result_status_t.WAITING_RESULT
      uart := uart_write desc.uart (buff_slice d1.cmd_buff 0 d1.cmd_len) } := by
  have h := (build_cmd_frame desc d1 cmd op param hb).1
  unfold dispatched
  rw [h]

theorem cmd_strcat_status (s : result_status_t) : ∀ (w : List Nat) (d : at_desc),
    cmd_strcat { d with result_status := s } w =
      (cmd_strcat d w).map (fun d1 => { d1 with result_status := s }) := by
  intro w
  induction w with
  | nil => intro d; rfl
  | cons x w ih =>
    intro d
    simp only [cmd_strcat, cmd_strcatch]
    by_cases h : d.cmd_len < CMD_BUFF_LEN
    · rw [if_pos h, if_pos h]
      exact ih { d with cmd_buff := buff_write d.cmd_buff d.cmd_len x
                        cmd_len := add32 d.cmd_len 1 }
    · rw [if_neg h, if_neg h]
      rfl

theorem build_cmd_param_status (s : result_status_t) (d : at_desc) (cmd : at_cmd)
    (p : in_param) :
    build_cmd_param { d with result_status := s } cmd p =
      (build_cmd_param d cmd p).map (fun d1 => { d1 with result_status := s }) := by
  by_cases hs : cmd = at_cmd.AT_SEND →
      ∃ c, conn_read d (if d.multiple_conections then p.connection.id else 0) = some c
  · rw [build_cmd_param_eq d cmd p hs, build_cmd_param_eq { d with result_status := s } cmd p hs]
    exact cmd_strcat_status s _ d
  · simp only [not_forall] at hs
    obtain ⟨hc, hn⟩ := hs
    subst hc
    have hnone : conn_read d (if d.multiple_conections then p.connection.id else 0) = none := by
      cases hq : conn_read d (if d.multiple_conections then p.connection.id else 0) with
      | none => rfl
      | some c => exact absurd ⟨c, hq⟩ hn
    have h1 : build_cmd_param d at_cmd.AT_SEND p = none := by
      simp only [build_cmd_param, hnone]
    have h2 : build_cmd_param { d with result_status := s } at_cmd.AT_SEND p = none := by
      have : conn_read { d with result_status := s }
          (if d.multiple_conections then p.connection.id else 0) = none := hnone
      simp only [build_cmd_param, this]
    rw [h1, h2]
    rfl

theorem build_cmd_status (s : result_status_t) (desc : at_desc) (cmd : at_cmd)
    (op : cmd_operation) (param : Option in_param) :
    build_cmd { desc with result_status := s } cmd op param =
      (build_cmd desc cmd op param).map (fun d1 => { d1 with result_status := s }) := by
  rw [build_cmd_unfold, build_cmd_unfold]
  have h0 := cmd_strcat_status s ([65, 84] ++ (g_map cmd).1) { desc with cmd_len := 0 }
  rw [show ({ ({ desc with result_status := s } : at_desc) with cmd_len := 0 } : at_desc)
      = { ({ desc with cmd_len := 0 } : at_desc) with result_status := s } from rfl, h0]
  cases cmd_strcat { desc with cmd_len := 0 } ([65, 84] ++ (g_map cmd).1) with
  | none => rfl
  | some d3 =>
    simp only [Option.map_some', Option.some_bind]
    cases op <;> cases param <;> simp only [] <;> try exact cmd_strcat_status s _ d3
    rename_i p
    rw [cmd_strcat_status s [61] d3]
    cases cmd_strcat d3 [61] with
    | none => rfl
    | some d5 =>
      simp only [Option.map_some', Option.some_bind]
      rw [build_cmd_param_status]
      cases build_cmd_param d5 _ p with
      | none => rfl
      | some d6 =>
        simp only [Option.map_some', Option.some_bind]
        exact cmd_strcat_status s _ d6

theorem write_cmd_status (len : Nat) (s : result_status_t) (d : at_desc) (env : schedule) :
    write_cmd len { d with result_status := s } env = write_cmd len d env := rfl

/-- A command that is dispatched runs as if Result Status had been awaiting. -/
theorem run_cmd_status (len : Nat) (s : result_status_t) (desc : at_desc) (cmd : at_cmd)
    (op : cmd_operation) (param : Option in_param) (env : schedule)
    (hperm : (g_map cmd).2 &&& op.val ≠ 0)
    (hmode : desc.callback_state ≠ callback_state_t.READING_UNVARNISHED)
    (hc1 : cmd ≠ at_cmd.AT_DEEP_SLEEP) :
    at_run_cmd len { desc with result_status := s } cmd op param env =
      at_run_cmd len desc cmd op param env := by
  unfold at_run_cmd
  rw [if_neg hperm, if_neg hperm, if_neg hmode,
    if_neg (show ({ desc with result_status := s } : at_desc).callback_state ≠
      callback_state_t.READING_UNVARNISHED from hmode)]
  simp only []
  rw [build_cmd_status]
  cases build_cmd desc cmd op param with
  | none => rfl
  | some d1 =>
    simp only [Option.map_some']
    by_cases hr : cmd = at_cmd.AT_RESET
    · subst hr
      simp only [reduceCtorEq, or_true, if_true, handle_special]
      rfl
    · simp only [hc1, hr, or_self, if_false]
      rfl

theorem no_ends_of_take (w S : List Nat)
    (hno : ∀ k < S.length, ∀ i < 4, ¬ responses i <:+ w ++ S.take (k + 1)) :
    ∀ v, v <+: S → v ≠ [] → no_response_ends (w ++ v) := by
  intro v hv hne i hi
  have hl := hv.length_le
  have hpos : 0 < v.length := List.length_pos.2 hne
  have h1 := hno (v.length - 1) (by omega) i hi
  have h2 : S.take (v.length - 1 + 1) = v := by
    rw [Nat.sub_add_cancel hpos]
    exact (List.prefix_iff_eq_take.1 hv).symm
  rw [h2] at h1
  exact h1

theorem unescape_cons (a : Nat) (r : List Nat) (h : a ≠ 92) :
    unescape (a :: r) = a :: unescape r := by
  cases r with
  | nil => simp [unescape]
  | cons b r => simp [unescape, h]

theorem unescape_escape : ∀ s : List Nat, unescape (escape_str s) = s := by
  intro s
  induction s with
  | nil => rfl
  | cons b s ih =>
    unfold escape_str
    by_cases hb : b = 34 ∨ b = 44 ∨ b = 92
    · rw [if_pos hb]
      show unescape (92 :: b :: escape_str s) = _
      simp only [unescape, if_true, ih]
    · rw [if_neg hb]
      show unescape (b :: escape_str s) = _
      rw [unescape_cons b _ (fun h => hb (Or.inr (Or.inr h))), ih]

theorem escape_str_flatten : ∀ s : List Nat,
    escape_str s =
      (s.map (fun b => if b = 34 ∨ b = 44 ∨ b = 92 then [92, b] else [b])).flatten := by
  intro s
  induction s with
  | nil => rfl
  | cons b s ih =>
    unfold escape_str
    rw [List.map_cons, List.flatten_cons, ih]

theorem escape_str_length : ∀ s : List Nat,
    (escape_str s).length = s.length + s.countP (fun b => b = 34 ∨ b = 44 ∨ b = 92) := by
  intro s
  induction s with
  | nil => rfl
  | cons b s ih =>
    unfold escape_str
    by_cases hb : b = 34 ∨ b = 44 ∨ b = 92
    · rw [if_pos hb, List.length_append, ih, List.countP_cons_of_pos _ _ (by simpa using hb)]
      simp only [List.length_cons, List.length_nil]
      omega
    · rw [if_neg hb, List.length_append, ih, List.countP_cons_of_neg _ _ (by simpa using hb)]
      simp only [List.length_cons, List.length_nil]
      omega

theorem unquote_render (s : List Nat) : unquote ([34] ++ escape_str s ++ [34]) = s := by
  unfold unquote
  rw [List.append_assoc, List.singleton_append, List.drop_succ_cons, List.drop_zero,
    List.dropLast_concat]
  exact unescape_escape s

theorem itoa_to_i32 (n : Nat) (h : n < 2147483648) : itoa (to_i32 n) = decimal n := by
  have h1 : n % U32 = n := Nat.mod_eq_of_lt (by unfold U32; omega)
  unfold to_i32
  rw [h1, if_pos h]
  unfold itoa
  rw [if_neg (by omega)]
  simp

theorem feed_answer (d : at_desc) (len : Nat) (P : List Nat) (t : Nat)
    (ht : t < 3) (ha : awaiting_char d) (hempty : d.result_len = 0)
    (hctr : d.match_idx = [0, 0, 0, 0])
    (hP : ∀ b ∈ P, b ≠ 58 ∧ b ≠ 62)
    (hcap : P.length + (responses t).length ≤ RESULT_BUFF_LEN)
    (hno : ∀ k < (P ++ responses t).length, ∀ i < 4,
      ¬ responses i <:+ (P ++ responses t).take k) :
    feed len d (P ++ responses t) = some (answered d P t) := by
  have ht4 : t < 4 := by omega
  have hT := responses_split t ht4
  have hTl : (responses t).dropLast.length + 1 = (responses t).length := by
    conv_rhs => rw [hT]
    simp
  have hTge : 6 ≤ (responses t).length := by interval_cases t <;> decide
  have hcap5 : P.length + (responses t).length ≤ 500 := hcap
  have hTb : ∀ b ∈ (responses t).dropLast, b ≠ 58 ∧ b ≠ 62 := by
    interval_cases t <;> decide
  have hs : P ++ responses t = (P ++ (responses t).dropLast) ++ [10] := by
    rw [List.append_assoc, ← hT]
  obtain ⟨d1, hf, ht1, hd1⟩ := feed_nomatch len (P ++ (responses t).dropLast) d []
    ha (ctrs_track_zero d hctr)
    (by rw [hempty, List.length_append]; show _ ≤ 500; omega)
    (by
      intro b hb
      rcases List.mem_append.1 hb with h | h
      · exact hP b h
      · exact hTb b h)
    (by
      intro u hu hne i hi
      have hlt : u.length < (P ++ responses t).length := by
        have := hu.length_le
        simp only [List.length_append] at this ⊢
        omega
      have h1 := hno u.length hlt i hi
      have h2 : (P ++ responses t).take u.length = u := by
        rw [hs]
        have h3 := List.prefix_iff_eq_take.1 (hu.trans (List.prefix_append _ [10]))
        exact h3.symm
      rw [h2] at h1
      simpa using h1)
  have ha1 : awaiting_char d1 := by rw [hd1]; exact ha
  have hl1 : d1.result_len = P.length + (responses t).dropLast.length := by
    rw [hd1]; show d.result_len + _ = _; rw [hempty, List.length_append]; omega
  have hyes : responses t <:+ [] ++ (P ++ (responses t).dropLast) ++ [10] := by
    rw [List.nil_append, ← hs]; exact List.suffix_append _ _
  obtain ⟨mi, hrx⟩ := rx_match d1 len 10 t _ ha1
    (by rw [hl1]; show _ < 500; omega) (by decide) (Or.inl (by decide)) ht1 ht4 hyes
    (fun j hj => responses_not_nested t j ht4 (by omega) (by omega) _ hyes)
  have hlen2 : sub32 (d1.result_len + 1) (responses t).length = P.length := by
    rw [sub32_small _ _ (by omega) (by unfold U32; omega)]; omega
  have hb1 : d1.result_buff = buff_writes d.result_buff 0 (P ++ (responses t).dropLast) := by
    rw [hd1]; show buff_writes d.result_buff d.result_len _ = _; rw [hempty]
  have hbuf : buff_write d1.result_buff d1.result_len 10
      = buff_writes d.result_buff 0 (P ++ responses t) := by
    rw [hs, buff_writes_append, hb1, hl1, Nat.zero_add, List.length_append]
    rfl
  rw [hlen2] at hrx
  have hfin : feed len d (P ++ responses t) = uart_rx_byte d1 len 10 := by
    rw [hs, feed_append, hf]
    show (match uart_rx_byte d1 len 10 with
      | none => none
      | some d => feed len d []) = _
    cases uart_rx_byte d1 len 10 <;> rfl
  rw [hfin, hrx]
  have hu := uart_eta d.uart ha.2.1 ha.2.2.1 ha.2.2.2
  have e1 : d1.cmd_buff = d.cmd_buff := by rw [hd1]
  have e2 : d1.cmd_len = d.cmd_len := by rw [hd1]
  have e3 : d1.app_data = d.app_data := by rw [hd1]
  have e4 : d1.app_callback = d.app_callback := by rw [hd1]
  have e5 : d1.app_notified = d.app_notified := by rw [hd1]
  have e6 : d1.cb_response = d.cb_response := by rw [hd1]
  have e7 : d1.result_status = d.result_status := by rw [hd1]
  have e8 : d1.callback_state = d.callback_state := by rw [hd1]
  have e9 : d1.waiting_send = d.waiting_send := by rw [hd1]
  have e10 : d1.is_reset = d.is_reset := by rw [hd1]
  have e11 : d1.uart = d.uart := by rw [hd1]
  have e12 : d1.connections = d.connections := by rw [hd1]
  have e13 : d1.multiple_conections = d.multiple_conections := by rw [hd1]
  have e14 : d1.matched = d.matched := by rw [hd1]
  interval_cases t <;>
    simp only [on_match, Option.map_some', store_char, answered, hu, hbuf, e1, e2, e3, e4, e5, e6,
      e7, e8, e9, e10, e11, e12, e13, e14] <;> rfl

theorem responses_bytes (t : Nat) (ht : t < 3) : ∀ b ∈ responses t, b ≠ 58 ∧ b ≠ 62 := by
  interval_cases t <;> decide

/-- The run of an ordinary command whose answer `P ++ responses t` arrives in the
strings `pre` and `last`, one string per millisecond, up to the update of the
connection state. -/
theorem run_cmd_answered (len : Nat) (desc d1 : at_desc) (cmd : at_cmd) (op : cmd_operation)
    (param : Option in_param) (P : List Nat) (t : Nat) (pre : List (List Nat))
    (last : List Nat) (rest : schedule)
    (ht : t < 3) (ha : awaiting_char desc) (hempty : desc.result_len = 0)
    (hctr : desc.match_idx = [0, 0, 0, 0])
    (hperm : (g_map cmd).2 &&& op.val ≠ 0)
    (hc1 : cmd ≠ at_cmd.AT_DEEP_SLEEP) (hc2 : cmd ≠ at_cmd.AT_RESET)
    (hc3 : cmd ≠ at_cmd.AT_SEND) (hb : build_cmd desc cmd op param = some d1)
    (hP : ∀ b ∈ P, b ≠ 58 ∧ b ≠ 62)
    (hcap : P.length + (responses t).length ≤ RESULT_BUFF_LEN)
    (hno : ∀ k < (P ++ responses t).length, ∀ i < 4,
      ¬ responses i <:+ (P ++ responses t).take k)
    (hsplit : pre.flatten ++ last = P ++ responses t) (hlast : last ≠ [])
    (hpre : pre.length ≤ MODULE_TIMEOUT) :
    at_run_cmd len desc cmd op param
        ([irq.tx_done] :: (env_rx pre ++ last.map irq.rx :: rest)) =
      if t = 0 then
        Except.ok { ret := ret_code.FAILURE, desc := answered (dispatched d1) P t,
                    out_result := false, env := rest }
      else at_run_cmd_update len (answered (dispatched d1) P t) cmd op param rest := by
  have hmode : desc.callback_state ≠ callback_state_t.READING_UNVARNISHED := by
    rw [ha.1]; decide
  have hde := dispatched_eq desc d1 cmd op param hb
  have ha2 : awaiting_char (dispatched d1) := by rw [hde]; exact ha
  have hempty2 : (dispatched d1).result_len = 0 := by rw [hde]; exact hempty
  have hctr2 : (dispatched d1).match_idx = [0, 0, 0, 0] := by rw [hde]; exact hctr
  have hlpos : 0 < last.length := List.length_pos.2 hlast
  have hlen : pre.flatten.length + last.length = P.length + (responses t).length := by
    rw [← List.length_append, hsplit, List.length_append]
  have hpf : pre.flatten <+: P ++ responses t := ⟨last, hsplit⟩
  have hall : ∀ b ∈ P ++ responses t, b ≠ 58 ∧ b ≠ 62 := by
    intro b hb
    rcases List.mem_append.1 hb with h | h
    · exact hP b h
    · exact responses_bytes t ht b h
  have hquiet : ∀ u, u <+: pre.flatten → ∃ du, feed len (dispatched d1) u = some du ∧
      du.result_status = result_status_t.WAITING_RESULT := by
    intro u hu
    obtain ⟨du, hf, hs⟩ := feed_quiet len (dispatched d1) [] pre.flatten u ha2
      (ctrs_track_zero _ hctr2)
      (by rw [hempty2]; have : RESULT_BUFF_LEN = 500 := rfl; omega)
      (fun b hb => hall b (hpf.subset hb))
      (by
        intro v hv hne i hi
        have hvl := hv.length_le
        have h1 := hno v.length (by rw [List.length_append]; omega) i hi
        have h2 : (P ++ responses t).take v.length = v :=
          (List.prefix_iff_eq_take.1 (hv.trans hpf)).symm
        rw [h2] at h1
        simpa using h1) hu
    exact ⟨du, hf, by rw [hs]; rfl⟩
  obtain ⟨dk, hfk, hloop⟩ := wait_loop_skip len pre (MODULE_TIMEOUT - pre.length)
    (dispatched d1) (last.map irq.rx :: rest) rfl
    (fun k _ => hquiet _ (take_flatten_initial pre k))
  obtain ⟨dk2, hfk2, hwk⟩ := hquiet pre.flatten (List.prefix_refl _)
  rw [hfk] at hfk2
  cases hfk2
  have hlastf : feed len dk last = some (answered (dispatched d1) P t) := by
    have := feed_answer (dispatched d1) len P t ht ha2 hempty2 hctr2 hP hcap hno
    rw [← hsplit, feed_append, hfk] at this
    exact this
  have hst : (answered (dispatched d1) P t).result_status ≠ result_status_t.WAITING_RESULT := by
    show (if t = 0 then result_status_t.RESULT_ERROR else result_status_t.RESULT_AVAILABE) ≠ _
    split <;> decide
  have hw : wait_for_response len (dispatched d1) (env_rx pre ++ last.map irq.rx :: rest) =
      Except.ok (answered (dispatched d1) P t, rest) := by
    unfold wait_for_response
    rw [show MODULE_TIMEOUT = MODULE_TIMEOUT - pre.length + pre.length from
      (Nat.sub_add_cancel hpre).symm, hloop]
    exact wait_loop_hit len _ dk _ last rest hwk hlastf hst
  rw [run_cmd_dispatch len desc d1 cmd op param _ hperm hmode hc1 hc2 hc3 hb, hw]
  show (if (if t = 0 then result_status_t.RESULT_ERROR else result_status_t.RESULT_AVAILABE) ≠
      result_status_t.RESULT_AVAILABE then _ else _) = _
  by_cases h0 : t = 0
  · simp only [h0, if_true, ne_eq, reduceCtorEq, not_false_eq_true]
  · simp only [h0, if_false, ne_eq, not_true_eq_false]

theorem run_cmd_update_some (len : Nat) (d : at_desc) (cmd : at_cmd) (op : cmd_operation)
    (p : in_param) (env : schedule)
    (hid : cmd = at_cmd.AT_START_CONNECTION → op = cmd_operation.AT_SET_OP →
      (if d.multiple_conections then p.connection.id else 0) < MAX_CONNECTIONS) :
    at_run_cmd_update len d cmd op (some p) env =
      match parse_result len (conn_update d cmd op p)
          (if op = cmd_operation.AT_SET_OP then at_cmd.AT_GET_VERSION else cmd) env with
      | Except.error e => Except.error e
      | Except.ok (ret, d4, env4) =>
        Except.ok { ret := ret, desc := d4, out_result := true, env := env4 } := by
  unfold at_run_cmd_update conn_update
  by_cases h1 : cmd = at_cmd.AT_SET_CONNECTION_TYPE
  · subst h1
    simp only [if_true, Option.map_some', reduceCtorEq, false_and, if_false]
  · by_cases h2 : cmd = at_cmd.AT_START_CONNECTION ∧ op = cmd_operation.AT_SET_OP
    · obtain ⟨hc, ho⟩ := h2
      have := hid hc ho
      subst hc ho
      simp only [reduceCtorEq, if_false, and_self, if_true, this, false_and]
    · by_cases h3 : cmd = at_cmd.AT_SET_TRANSPORT_MODE
      · subst h3
        by_cases h4 : p.transport_mode = cipmode_param.UNVARNISHED_MODE
        · simp only [reduceCtorEq, if_false, false_and, if_true, Option.map_some', h4, and_self]
        · simp only [reduceCtorEq, if_false, false_and, if_true, Option.map_some', h4, and_false]
      · simp only [h1, h2, h3, if_false, false_and]

theorem run_cmd_update_none (len : Nat) (d : at_desc) (cmd : at_cmd) (op : cmd_operation)
    (env : schedule) (h1 : cmd ≠ at_cmd.AT_SET_CONNECTION_TYPE)
    (h2 : cmd ≠ at_cmd.AT_SET_TRANSPORT_MODE)
    (h3 : cmd = at_cmd.AT_START_CONNECTION → op ≠ cmd_operation.AT_SET_OP) :
    at_run_cmd_update len d cmd op none env =
      Except.ok { ret := ret_code.SUCCESS, desc := { d with result_len := 0 },
                  out_result := false, env := env } := by
  unfold at_run_cmd_update
  have h4 : ¬ (cmd = at_cmd.AT_START_CONNECTION ∧ op = cmd_operation.AT_SET_OP) :=
    fun h => h3 h.1 h.2
  simp only [h1, h2, h4, if_false]

theorem parse_result_copy (len : Nat) (d : at_desc) (cmd : at_cmd) (env : schedule)
    (hcmd : cmd ≠ at_cmd.AT_DISCONNECT_NETWORK) (hlen : d.result_len ≤ RESULT_BUFF_LEN)
    (hcb : d.cb_response.length + d.result_len ≤ RESULT_BUFF_LEN) :
    parse_result len d cmd env =
      Except.ok (ret_code.SUCCESS,
        { d with cb_response := d.cb_response ++ result_view d, result_len := 0 }, env) := by
  unfold parse_result
  simp only [hcmd, if_false, false_and]
  by_cases h0 : d.result_len > 0
  · have hv : (result_view d).length = d.result_len := buff_slice_length _ _ _
    simp only [h0, if_true, hlen, cb_write, hv, hcb]
  · have hz : d.result_len = 0 := by omega
    have hv : result_view d = [] := by
      unfold result_view
      rw [hz]
      rfl
    simp only [h0, if_false, hv, List.append_nil]

theorem conn_open_get_same (cs : List connection) (id : Nat) (t : socket_type)
    (h : id < cs.length) : (conn_open cs id t).get? id = some { active := true, type := t } := by
  unfold conn_open
  simp [List.getElem?_set, h]

theorem conn_open_get_other (cs : List connection) (id j : Nat) (t : socket_type) (hj : j ≠ id) :
    (conn_open cs id t).get? j = cs.get? j := by
  unfold conn_open
  simp [List.getElem?_set, hj.symm]

theorem conn_update_frame (d : at_desc) (cmd : at_cmd) (op : cmd_operation) (p : in_param) :
    (conn_update d cmd op p).result_len = d.result_len ∧
    (conn_update d cmd op p).result_buff = d.result_buff ∧
    (conn_update d cmd op p).cb_response = d.cb_response := by
  unfold conn_update
  simp only []
  split <;> split <;> split <;> exact ⟨rfl, rfl, rfl⟩

theorem conn_kept_refl (d : at_desc) : conn_kept d d :=
  ⟨rfl, rfl, Nat.le_refl _, fun _ => rfl, Nat.le_refl _, fun h => Or.inl h⟩

theorem conn_kept_trans (a b c : at_desc) (h1 : conn_kept a b) (h2 : conn_kept b c) :
    conn_kept a c := by
  obtain ⟨a1, a2, a3, a4, a5, a6⟩ := h1
  obtain ⟨b1, b2, b3, b4, b5, b6⟩ := h2
  refine ⟨b1.trans a1, b2.trans a2, Nat.le_trans a3 b3, fun h => ?_, Nat.le_trans a5 b5,
    fun h => ?_⟩
  · have e1 : b.matched.count 3 = a.matched.count 3 := by omega
    have e2 : c.matched.count 3 = b.matched.count 3 := by omega
    rw [b4 e2, a4 e1]
  · rcases b6 h with hb | hb
    · rcases a6 hb with ha | ha
      · exact Or.inl ha
      · exact Or.inr (by omega)
    · exact Or.inr (by omega)

/-- A step that touches neither the connection state nor the log, and does not
make Result Status available. -/
theorem conn_kept_of_eq (d d1 : at_desc) (h1 : d1.multiple_conections = d.multiple_conections)
    (h2 : d1.connections = d.connections) (h3 : d1.matched = d.matched)
    (h4 : d1.result_status = d.result_status ∨
      d1.result_status ≠ result_status_t.RESULT_AVAILABE) : conn_kept d d1 := by
  refine ⟨h1, by rw [h2], by rw [h3], fun _ => h2, by unfold ok_count; rw [h3], fun h => ?_⟩
  rcases h4 with h4 | h4
  · exact Or.inl (by rw [← h4]; exact h)
  · exact absurd h h4

theorem conn_kept_step (d d2 d1 : at_desc) (h : conn_kept d2 d1)
    (h1 : d2.multiple_conections = d.multiple_conections) (h2 : d2.connections = d.connections)
    (h3 : d2.matched = d.matched)
    (h4 : d2.result_status = d.result_status ∨
      d2.result_status ≠ result_status_t.RESULT_AVAILABE) : conn_kept d d1 :=
  conn_kept_trans d d2 d1 (conn_kept_of_eq d d2 h1 h2 h3 h4) h

theorem conn_close_length (cs : List connection) (id : Nat) :
    (conn_close cs id).length = cs.length := by
  unfold conn_close
  split <;> simp

theorem get_conn_id_kept (d d1 : at_desc) (id : Nat) (h : get_conn_id d = some (d1, id)) :
    d1.multiple_conections = d.multiple_conections ∧ d1.connections = d.connections ∧
      d1.matched = d.matched ∧ d1.result_status = d.result_status := by
  unfold get_conn_id at h
  simp only [] at h
  split at h
  · cases h; exact ⟨rfl, rfl, rfl, rfl⟩
  · split at h
    · cases h
    · split at h
      · cases h; exact ⟨rfl, rfl, rfl, rfl⟩
      · cases h; exact ⟨rfl, rfl, rfl, rfl⟩

/-- The `switch` of `refresh_status` followed by the record of the completed
response. -/
theorem on_match_kept (d d1 : at_desc) (i : Nat) (h : on_match d i = some d1) :
    conn_kept d { d1 with match_idx := [0, 0, 0, 0], matched := d1.matched ++ [i] } := by
  unfold on_match at h
  split at h
  · cases h
    exact ⟨rfl, rfl, by simp, fun _ => rfl, by simp [ok_count], fun hs => by cases hs⟩
  · cases h
    exact ⟨rfl, rfl, by simp, fun _ => rfl, by simp [ok_count],
      fun _ => Or.inr (by simp [ok_count])⟩
  · cases h
    exact ⟨rfl, rfl, by simp, fun _ => rfl, by simp [ok_count],
      fun _ => Or.inr (by simp [ok_count])⟩
  · simp only [] at h
    split at h
    · cases h
    · rename_i d2 id hr
      have hk : d2.multiple_conections = d.multiple_conections ∧ d2.connections = d.connections ∧
          d2.matched = d.matched ∧ d2.result_status = d.result_status := by
        split at hr
        · exact get_conn_id_kept d d2 id hr
        · cases hr; exact ⟨rfl, rfl, rfl, rfl⟩
      split at h
      · cases h
        refine ⟨hk.1, ?_, ?_, ?_, ?_, ?_⟩
        · show (conn_close d2.connections id).length = _
          rw [conn_close_length, hk.2.1]
        · show _ ≤ (d2.matched ++ [3]).count 3
          rw [hk.2.2.1]; simp
        · intro hc
          exfalso
          have : (d2.matched ++ [3]).count 3 = d.matched.count 3 := hc
          rw [hk.2.2.1] at this
          simp at this
        · show ok_count d ≤ (d2.matched ++ [3]).count 1 + (d2.matched ++ [3]).count 2
          rw [hk.2.2.1]; simp [ok_count]
        · intro hs
          exact Or.inl (by rw [← hk.2.2.2]; exact hs)
      · cases h
  · cases h
    refine ⟨rfl, rfl, by simp, fun _ => rfl, ?_, fun hs => Or.inl hs⟩
    simp only [ok_count, List.count_append]
    omega

theorem refresh_loop_kept (c : Nat) : ∀ (n i : Nat) (d d1 : at_desc),
    refresh_loop c n i d = some d1 → conn_kept d d1 := by
  intro n
  induction n with
  | zero =>
    intro i d d1 h
    simp only [refresh_loop, Option.some.injEq] at h
    subst h
    exact conn_kept_refl d
  | succ n ih =>
    intro i d d1 h
    unfold refresh_loop at h
    simp only [] at h
    split at h
    · cases h; exact conn_kept_refl d
    · split at h
      · split at h
        · split at h
          · cases h
          · rename_i d3 hm
            cases h
            exact conn_kept_step d _ _ (on_match_kept _ d3 i hm) rfl rfl rfl (Or.inl rfl)
        · exact conn_kept_step d _ _ (ih _ _ _ h) rfl rfl rfl (Or.inl rfl)
      · split at h
        · exact conn_kept_step d _ _ (ih _ _ _ h) rfl rfl rfl (Or.inl rfl)
        · exact conn_kept_step d _ _ (ih _ _ _ h) rfl rfl rfl (Or.inl rfl)

theorem refresh_status_kept (d d1 : at_desc) (h : refresh_status d = some d1) : conn_kept d d1 := by
  unfold refresh_status at h
  split at h
  · cases h
  · exact refresh_loop_kept _ _ _ _ _ h

theorem module_msg_char_kept (d d1 : at_desc) (h : module_msg_char d = some d1) :
    conn_kept d d1 := by
  unfold module_msg_char at h
  simp only [] at h
  split at h
  · cases h
  · rename_i d2 hr
    cases h
    refine conn_kept_trans d d2 _ ?_ (conn_kept_of_eq d2 _ rfl rfl rfl (Or.inl rfl))
    split at hr
    · cases hr; exact conn_kept_of_eq d _ rfl rfl rfl (Or.inl rfl)
    · split at hr
      · cases hr; exact conn_kept_of_eq d _ rfl rfl rfl (Or.inr (by simp))
      · split at hr
        · cases hr
        · rename_i d3 hs
          unfold result_strcatch at hs
          split at hs
          · cases hs
            exact conn_kept_step d _ _ (refresh_status_kept _ _ hr) rfl rfl rfl (Or.inl rfl)
          · cases hs

theorem process_ipd_msg_kept (d d1 : at_desc) (len L : Nat) (r : ret_code)
    (h : process_ipd_msg d len = some (r, d1, L)) : conn_kept d d1 := by
  unfold process_ipd_msg at h
  split at h
  · cases h
  · cases h; exact conn_kept_refl d
  · cases h; exact conn_kept_of_eq d _ rfl rfl rfl (Or.inl rfl)

theorem call_app_callback_kept (d : at_desc) (n : Nat) : conn_kept d (call_app_callback d n) := by
  unfold call_app_callback
  split
  · exact conn_kept_of_eq d _ rfl rfl rfl (Or.inl rfl)
  · exact conn_kept_refl d

theorem at_callback_kept (d d1 : at_desc) (ev : UART_EVENT) (len : Nat)
    (h : at_callback d ev len = some d1) : conn_kept d d1 := by
  unfold at_callback at h
  split at h
  · cases h; exact conn_kept_of_eq d _ rfl rfl rfl (Or.inl rfl)
  · split at h
    · split at h
      · split at h
        · cases h
        · rename_i d2 L hp
          cases h
          exact conn_kept_trans d d2 _ (process_ipd_msg_kept d d2 len L _ hp)
            (conn_kept_of_eq d2 _ rfl rfl rfl (Or.inl rfl))
        · rename_i d2 L hp
          exact conn_kept_trans d d2 _ (process_ipd_msg_kept d d2 len L _ hp)
            (module_msg_char_kept d2 d1 h)
      · exact module_msg_char_kept d d1 h
    · split at h
      · cases h
        exact conn_kept_trans d _ _ (call_app_callback_kept d _) (conn_kept_of_eq _ _ rfl rfl rfl (Or.inl rfl))
      · cases h
        exact conn_kept_trans d _ _ (call_app_callback_kept d _) (conn_kept_of_eq _ _ rfl rfl rfl (Or.inl rfl))
    · cases h
      have k1 := call_app_callback_kept
        { d with cb_response := (cb_write d.cb_response [d.read_ch]).2 }
        (cb_write d.cb_response [d.read_ch]).2.length
      exact conn_kept_step d _ _ (conn_kept_trans _ _ _ k1 (conn_kept_of_eq _ _ rfl rfl rfl (Or.inl rfl)))
        rfl rfl rfl (Or.inl rfl)
  · cases h; exact conn_kept_of_eq d _ rfl rfl rfl (Or.inl rfl)
  · cases h; exact conn_kept_of_eq d _ rfl rfl rfl (Or.inl rfl)

theorem uart_rx_byte_kept (d d1 : at_desc) (len b : Nat) (h : uart_rx_byte d len b = some d1) :
    conn_kept d d1 := by
  unfold uart_rx_byte at h
  simp only [] at h
  split at h
  · cases h; exact conn_kept_of_eq d _ rfl rfl rfl (Or.inl rfl)
  · split at h
    · exact conn_kept_step d _ _ (at_callback_kept _ _ _ _ h) rfl rfl rfl (Or.inl rfl)
    · exact conn_kept_step d _ _ (at_callback_kept _ _ _ _ h) rfl rfl rfl (Or.inl rfl)

theorem deliver_irq_kept (len : Nat) (d d1 : at_desc) (q : irq)
    (h : deliver_irq len d q = some d1) : conn_kept d d1 := by
  cases q with
  | tx_done => exact at_callback_kept d d1 UART_EVENT.WRITE_DONE len h
  | rx b => exact uart_rx_byte_kept d d1 len b h
  | err => exact at_callback_kept d d1 UART_EVENT.ERROR len h
  | other => exact at_callback_kept d d1 UART_EVENT.OTHER len h

theorem deliver_kept (len : Nat) : ∀ (qs : List irq) (d d1 : at_desc),
    deliver len d qs = some d1 → conn_kept d d1 := by
  intro qs
  induction qs with
  | nil =>
    intro d d1 h
    simp only [deliver, Option.some.injEq] at h
    subst h
    exact conn_kept_refl d
  | cons q qs ih =>
    intro d d1 h
    simp only [deliver] at h
    split at h
    · cases h
    · rename_i d2 hq
      exact conn_kept_trans d d2 d1 (deliver_irq_kept len d d2 q hq) (ih d2 d1 h)

theorem mdelay_kept (len : Nat) : ∀ (ms : Nat) (d : at_desc) (env : schedule) (d1 : at_desc)
    (env1 : schedule), mdelay len ms d env = Except.ok (d1, env1) → conn_kept d d1 := by
  intro ms
  induction ms with
  | zero =>
    intro d env d1 env1 h
    simp only [mdelay, Except.ok.injEq, Prod.mk.injEq] at h
    rw [← h.1]
    exact conn_kept_refl d
  | succ ms ih =>
    intro d env d1 env1 h
    cases env with
    | nil =>
      simp only [mdelay, Except.ok.injEq, Prod.mk.injEq] at h
      rw [← h.1]
      exact conn_kept_refl d
    | cons batch env =>
      simp only [mdelay] at h
      split at h
      · cases h
      · rename_i d2 hd
        exact conn_kept_trans d d2 d1 (deliver_kept len batch d d2 hd) (ih d2 env d1 env1 h)

theorem busy_wait_kept (len : Nat) (cond : at_desc → Bool) : ∀ (env : schedule) (d d1 : at_desc)
    (env1 : schedule), busy_wait len cond d env = Except.ok (d1, env1) → conn_kept d d1 := by
  intro env
  induction env with
  | nil =>
    intro d d1 env1 h
    simp only [busy_wait] at h
    split at h
    · cases h
    · simp only [Except.ok.injEq, Prod.mk.injEq] at h
      rw [← h.1]
      exact conn_kept_refl d
  | cons batch env ih =>
    intro d d1 env1 h
    simp only [busy_wait] at h
    split at h
    · split at h
      · cases h
      · rename_i d2 hd
        exact conn_kept_trans d d2 d1 (deliver_kept len batch d d2 hd) (ih d2 d1 env1 h)
    · simp only [Except.ok.injEq, Prod.mk.injEq] at h
      rw [← h.1]
      exact conn_kept_refl d

theorem write_cmd_kept (len : Nat) (d : at_desc) (env : schedule) (d1 : at_desc)
    (env1 : schedule) (h : write_cmd len d env = Except.ok (d1, env1)) : conn_kept d d1 := by
  unfold write_cmd at h
  exact conn_kept_step d _ d1 (busy_wait_kept len _ env _ d1 env1 h) rfl rfl rfl
    (Or.inr (by simp))

theorem wait_loop_kept (len : Nat) : ∀ (t : Nat) (d : at_desc) (env : schedule) (d1 : at_desc)
    (env1 : schedule), wait_for_response_loop len t d env = Except.ok (d1, env1) →
    conn_kept d d1 := by
  intro t
  induction t with
  | zero =>
    intro d env d1 env1 h
    simp only [wait_for_response_loop] at h
    split at h
    · simp only [Except.ok.injEq, Prod.mk.injEq] at h
      rw [← h.1]
      exact conn_kept_refl d
    · exact mdelay_kept len 1 d env d1 env1 h
  | succ t ih =>
    intro d env d1 env1 h
    simp only [wait_for_response_loop] at h
    split at h
    · simp only [Except.ok.injEq, Prod.mk.injEq] at h
      rw [← h.1]
      exact conn_kept_refl d
    · split at h
      · cases h
      · rename_i d2 env2 hm
        exact conn_kept_trans d d2 d1 (mdelay_kept len 1 d env d2 env2 hm) (ih d2 env2 d1 env1 h)

/-- After `write_cmd`, Result Status is available only once an `OK` or `SEND OK`
was completed. -/
theorem write_cmd_fresh (len : Nat) (d : at_desc) (env : schedule) (d1 : at_desc)
    (env1 : schedule) (h : write_cmd len d env = Except.ok (d1, env1)) (d6 : at_desc)
    (k : conn_kept d1 d6) (hs : d6.result_status = result_status_t.RESULT_AVAILABE) :
    ok_count d < ok_count d6 := by
  unfold write_cmd at h
  have kx := conn_kept_trans _ d1 d6 (busy_wait_kept len _ env _ d1 env1 h) k
  rcases kx.2.2.2.2.2 hs with h1 | h1
  · cases h1
  · exact h1

/-- A successful `at_run_cmd` (reset apart) went through the update of the
connection state, from a descriptor that kept the connection state of the
start but for closure notices, and an `OK` or `SEND OK` was completed after the
dispatch. -/
theorem run_cmd_reaches_update (len : Nat) (desc : at_desc) (cmd : at_cmd)
    (op : cmd_operation) (param : Option in_param) (env : schedule) (out : run_out)
    (h : at_run_cmd len desc cmd op param env = Except.ok out)
    (hs : out.ret = ret_code.SUCCESS) (hc : cmd ≠ at_cmd.AT_RESET) :
    ∃ d6 env6, conn_kept desc d6 ∧ ok_count desc < ok_count d6 ∧
      at_run_cmd_update len d6 cmd op param env6 = Except.ok out := by
  unfold at_run_cmd at h
  split at h
  · cases h; cases hs
  · simp only [] at h
    split at h
    · cases h
    · cases h; cases hs
    · rename_i d0 hg
      have k0 : conn_kept desc d0 := by
        split at hg
        · split at hg
          · split at hg
            · cases hg
            · split at hg
              · cases hg; exact conn_kept_of_eq desc _ rfl rfl rfl (Or.inl rfl)
              · cases hg
          · cases hg
        · cases hg; exact conn_kept_refl desc
      split at h
      · cases h
      · rename_i d1 hb
        have e1 := (build_cmd_frame d0 d1 cmd op param hb).1
        have k1 : conn_kept d0 d1 :=
          conn_kept_of_eq d0 d1 (by rw [e1]) (by rw [e1]) (by rw [e1]) (Or.inl (by rw [e1]))
        split at h
        · rename_i hsp
          have hd : cmd = at_cmd.AT_DEEP_SLEEP := by
            rcases hsp with h1 | h1
            · exact h1
            · exact absurd h1 hc
          subst hd
          simp only [handle_special] at h
          cases h; cases hs
        · split at h
          · cases h
          · rename_i d2 env2 hw
            have k2 : conn_kept d1 d2 :=
              conn_kept_step d1 _ d2 (write_cmd_kept len _ env d2 env2 hw) rfl rfl rfl
                (Or.inl rfl)
            split at h
            · cases h
            · rename_i d5 env5 hsent
              have k5 : conn_kept d2 d5 ∧ ∀ d6, conn_kept d5 d6 →
                  d6.result_status = result_status_t.RESULT_AVAILABE →
                  ok_count d1 < ok_count d6 := by
                split at hsent
                · split at hsent
                  · cases hsent
                  · rename_i d3 env3 hbw
                    have k3 := busy_wait_kept len _ env2 d2 d3 env3 hbw
                    split at hsent
                    · cases hsent
                    · rename_i p
                      split at hsent
                      · cases hsent
                      · rename_i d4 env4 hw2
                        cases hsent
                        have k4 : conn_kept d3 d4 :=
                          conn_kept_step d3 _ d4 (write_cmd_kept len _ env3 d4 _ hw2)
                            rfl rfl rfl (Or.inl rfl)
                        have k45 : conn_kept d4
                            { d4 with cmd_buff := d3.cmd_buff, cmd_len := 0 } :=
                          conn_kept_of_eq d4 _ rfl rfl rfl (Or.inl rfl)
                        refine ⟨conn_kept_trans d2 d3 _ k3 (conn_kept_trans d3 d4 _ k4 k45), ?_⟩
                        intro d6 k6 hs6
                        have hlt := write_cmd_fresh len _ env3 d4 _ hw2 d6
                          (conn_kept_trans d4 _ d6 k45 k6) hs6
                        have h13 : ok_count d1 ≤ ok_count d3 :=
                          (conn_kept_trans d1 d2 d3 k2 k3).2.2.2.2.1
                        have : ok_count d3 < ok_count d6 := hlt
                        omega
                · cases hsent
                  refine ⟨conn_kept_refl d2, ?_⟩
                  intro d6 k6 hs6
                  exact write_cmd_fresh len _ env d2 env2 hw d6 k6 hs6
              split at h
              · cases h
              · rename_i d6 env6 hwt
                have k6 : conn_kept d5 d6 := wait_loop_kept len _ d5 env5 d6 env6 hwt
                split at h
                · cases h; cases hs
                · rename_i hav
                  have hav2 : d6.result_status = result_status_t.RESULT_AVAILABE := by
                    simpa using hav
                  have hlt := k5.2 d6 k6 hav2
                  have h01 : ok_count desc ≤ ok_count d1 :=
                    (conn_kept_trans desc d0 d1 k0 k1).2.2.2.2.1
                  exact ⟨d6, env6,
                    conn_kept_trans desc d0 d6 k0 (conn_kept_trans d0 d1 d6 k1
                      (conn_kept_trans d1 d2 d6 k2 (conn_kept_trans d2 d5 d6 k5.1 k6))),
                    by omega, h⟩

theorem parse_result_frame (len : Nat) (d : at_desc) (cmd : at_cmd) (env : schedule)
    (ret : ret_code) (d4 : at_desc) (env4 : schedule)
    (hcmd : cmd ≠ at_cmd.AT_DISCONNECT_NETWORK)
    (h : parse_result len d cmd env = Except.ok (ret, d4, env4)) :
    d4 = { d with cb_response := d4.cb_response, result_len := 0 } ∧ env4 = env := by
  unfold parse_result at h
  simp only [hcmd, if_false, false_and] at h
  split at h
  · split at h
    · cases h; exact ⟨rfl, rfl⟩
    · cases h
  · cases h; exact ⟨rfl, rfl⟩

theorem parse_wait_loop_kept (len : Nat) : ∀ (t : Nat) (d : at_desc) (env : schedule) (n : Nat)
    (d1 : at_desc) (env1 : schedule),
    parse_wait_loop len t d env = Except.ok (n, d1, env1) → conn_kept d d1 := by
  intro t
  induction t with
  | zero =>
    intro d env n d1 env1 h
    simp only [parse_wait_loop] at h
    split at h
    · cases h; exact conn_kept_refl d
    · split at h
      · cases h
      · rename_i d2 env2 hm
        cases h
        exact mdelay_kept len 100 d env _ _ hm
  | succ t ih =>
    intro d env n d1 env1 h
    simp only [parse_wait_loop] at h
    split at h
    · cases h; exact conn_kept_refl d
    · split at h
      · cases h
      · rename_i d2 env2 hm
        exact conn_kept_trans d d2 d1 (mdelay_kept len 100 d env d2 env2 hm)
          (ih d2 env2 n d1 env1 h)

theorem parse_result_kept (len : Nat) (d : at_desc) (cmd : at_cmd) (env : schedule)
    (ret : ret_code) (d4 : at_desc) (env4 : schedule)
    (h : parse_result len d cmd env = Except.ok (ret, d4, env4)) : conn_kept d d4 := by
  unfold parse_result at h
  simp only [] at h
  split at h
  · cases h
  · rename_i n d2 env2 hw
    have k : conn_kept d d2 := by
      split at hw
      · exact parse_wait_loop_kept len 10 d env n d2 env2 hw
      · cases hw; exact conn_kept_refl d
    split at h
    · cases h
      exact conn_kept_trans d d2 _ k (conn_kept_of_eq d2 _ rfl rfl rfl (Or.inl rfl))
    · split at h
      · split at h
        · cases h
          exact conn_kept_trans d d2 _ k (conn_kept_of_eq d2 _ rfl rfl rfl (Or.inl rfl))
        · cases h
      · cases h
        exact conn_kept_trans d d2 _ k (conn_kept_of_eq d2 _ rfl rfl rfl (Or.inl rfl))

theorem run_cmd_update_count (len : Nat) (d : at_desc) (cmd : at_cmd) (op : cmd_operation)
    (param : Option in_param) (env : schedule) (out : run_out)
    (h : at_run_cmd_update len d cmd op param env = Except.ok out) :
    ok_count d ≤ ok_count out.desc := by
  unfold at_run_cmd_update at h
  simp only [] at h
  split at h
  · cases h
  · rename_i d1 h1
    have c1 : d1.matched = d.matched := by
      split at h1
      · cases param with
        | none => cases h1
        | some p => cases h1; rfl
      · cases h1; rfl
    split at h
    · cases h
    · rename_i d2 h2
      have c2 : d2.matched = d1.matched := by
        by_cases hcs : cmd = at_cmd.AT_START_CONNECTION ∧ op = cmd_operation.AT_SET_OP
        · rw [if_pos hcs] at h2
          cases param with
          | none => cases h2
          | some p =>
            by_cases hid : (if d1.multiple_conections then p.connection.id else 0)
                < MAX_CONNECTIONS
            · simp only [hid, if_true, Option.some.injEq] at h2
              rw [← h2]
            · simp only [hid, if_false] at h2
              cases h2
        · rw [if_neg hcs] at h2
          cases h2; rfl
      split at h
      · cases h
      · rename_i d3 h3
        have c3 : d3.matched = d2.matched := by
          split at h3
          · cases param with
            | none => cases h3
            | some p =>
              simp only [Option.map_some', Option.some.injEq] at h3
              rw [← h3]
              split <;> rfl
          · cases h3; rfl
        have c : ok_count d3 = ok_count d := by
          unfold ok_count
          rw [c3, c2, c1]
        split at h
        · split at h
          · cases h
          · rename_i ret d4 env4 hp
            cases h
            have := (parse_result_kept len d3 _ _ ret d4 env4 hp).2.2.2.2.1
            show ok_count d ≤ ok_count d4
            omega
        · cases h
          show ok_count d ≤ ok_count { d3 with result_len := 0 }
          rw [← c]
          exact Nat.le_refl _

theorem run_cmd_update_start (len : Nat) (d6 : at_desc) (param : Option in_param)
    (env6 : schedule) (out : run_out)
    (h : at_run_cmd_update len d6 at_cmd.AT_START_CONNECTION cmd_operation.AT_SET_OP param env6
      = Except.ok out) :
    ∃ p, param = some p ∧
      (if d6.multiple_conections then p.connection.id else 0) < MAX_CONNECTIONS ∧
      out.desc.connections = conn_open d6.connections
        (if d6.multiple_conections then p.connection.id else 0) p.connection.soket_type ∧
      out.desc.multiple_conections = d6.multiple_conections ∧
      out.desc.matched = d6.matched := by
  cases param with
  | none =>
    unfold at_run_cmd_update at h
    simp only [reduceCtorEq, if_false, and_self, if_true] at h
  | some p =>
    by_cases hid : (if d6.multiple_conections then p.connection.id else 0) < MAX_CONNECTIONS
    · rw [run_cmd_update_some len d6 _ _ p env6 (fun _ _ => hid)] at h
      split at h
      · cases h
      · rename_i ret d4 env4 hp
        cases h
        obtain ⟨e, _⟩ := parse_result_frame len _ _ env6 ret d4 env4 (by
          simp only [if_true]; decide) hp
        have hc1 : (conn_update d6 at_cmd.AT_START_CONNECTION cmd_operation.AT_SET_OP
            p).connections = conn_open d6.connections
              (if d6.multiple_conections then p.connection.id else 0)
              p.connection.soket_type := by
          unfold conn_update
          simp only [reduceCtorEq, if_false, and_self, if_true, false_and]
        have hc2 : (conn_update d6 at_cmd.AT_START_CONNECTION cmd_operation.AT_SET_OP
            p).multiple_conections = d6.multiple_conections := by
          unfold conn_update
          simp only [reduceCtorEq, if_false, and_self, if_true, false_and]
        have hc3 : (conn_update d6 at_cmd.AT_START_CONNECTION cmd_operation.AT_SET_OP
            p).matched = d6.matched := by
          unfold conn_update
          simp only [reduceCtorEq, if_false, and_self, if_true, false_and]
        refine ⟨p, rfl, hid, ?_, ?_, ?_⟩
        · show d4.connections = _
          rw [e]; exact hc1
        · show d4.multiple_conections = _
          rw [e]; exact hc2
        · show d4.matched = _
          rw [e]; exact hc3
    · unfold at_run_cmd_update at h
      simp only [reduceCtorEq, if_false, and_self, if_true, hid] at h

/-- Whenever `at_run_cmd` returns `SUCCESS` (reset apart), an `OK` or `SEND OK`
was completed while it ran. -/
theorem run_cmd_success_answered (len : Nat) (desc : at_desc) (cmd : at_cmd)
    (op : cmd_operation) (param : Option in_param) (env : schedule) (out : run_out)
    (h : at_run_cmd len desc cmd op param env = Except.ok out)
    (hs : out.ret = ret_code.SUCCESS) (hc : cmd ≠ at_cmd.AT_RESET) :
    ok_count desc < ok_count out.desc := by
  obtain ⟨d6, env6, _, hlt, hu⟩ := run_cmd_reaches_update len desc cmd op param env out h hs hc
  have := run_cmd_update_count len d6 cmd op param env6 out hu
  omega

/-! ## The matcher on the bytes appended to the response buffer -/

theorem append_char_eq (d : at_desc) (b : Nat) (hlen : d.result_len < RESULT_BUFF_LEN) :
    append_char d b = refresh_loop b NB_RESPONSES 0 (store_char d b) := by
  have hs : result_strcatch { d with read_ch := b } b = some (store_char d b) := by
    unfold result_strcatch store_char
    have h5 : d.result_len < 500 := hlen
    have : add32 d.result_len 1 = d.result_len + 1 :=
      add32_small _ _ (by unfold U32; omega)
    simp only []
    rw [if_pos hlen, this]
  unfold append_char
  rw [hs]
  exact refresh_status_store d b hlen

theorem append_char_full (d : at_desc) (b : Nat) (hlen : ¬ d.result_len < RESULT_BUFF_LEN) :
    append_char d b = none := by
  unfold append_char result_strcatch
  simp only []
  rw [if_neg hlen]
  rfl

theorem loop_nomatch (d : at_desc) (b m0 m1 m2 m3 : Nat)
    (hidx : d.match_idx = [m0, m1, m2, m3])
    (h0 : m0 < (responses 0).length) (h1 : m1 < (responses 1).length)
    (h2 : m2 < (responses 2).length) (h3 : m3 < (responses 3).length)
    (n0 : ctr_step (responses 0) m0 b ≠ (responses 0).length)
    (n1 : ctr_step (responses 1) m1 b ≠ (responses 1).length)
    (n2 : ctr_step (responses 2) m2 b ≠ (responses 2).length)
    (n3 : ctr_step (responses 3) m3 b ≠ (responses 3).length) :
    refresh_loop b NB_RESPONSES 0 (store_char d b) = some { store_char d b with
      match_idx := [ctr_step (responses 0) m0 b, ctr_step (responses 1) m1 b,
                    ctr_step (responses 2) m2 b, ctr_step (responses 3) m3 b] } := by
  have e0 : (store_char d b).match_idx = [m0, m1, m2, m3] := hidx
  rw [show NB_RESPONSES = 3 + 1 from rfl,
    refresh_loop_miss _ b 3 0 (by rw [e0]; exact h0) (by rw [e0]; exact n0)]
  simp only [e0, List.getD_cons_zero, List.set_cons_zero]
  rw [refresh_loop_miss _ b 2 1 (by exact h1) (by exact n1)]
  simp only [List.getD_cons_zero, List.getD_cons_succ, List.set_cons_zero, List.set_cons_succ]
  rw [refresh_loop_miss _ b 1 2 (by exact h2) (by exact n2)]
  simp only [List.getD_cons_zero, List.getD_cons_succ, List.set_cons_zero, List.set_cons_succ]
  rw [refresh_loop_miss _ b 0 3 (by exact h3) (by exact n3)]
  simp only [List.getD_cons_zero, List.getD_cons_succ, List.set_cons_zero, List.set_cons_succ,
    refresh_loop]

theorem loop_match (d : at_desc) (b t : Nat) (w : List Nat) (ht : ctrs_track d w) (ht4 : t < 4)
    (hyes : responses t <:+ w ++ [b]) (hfirst : ∀ j < t, ¬ responses j <:+ w ++ [b]) :
    ∃ mi, refresh_loop b NB_RESPONSES 0 (store_char d b) =
      (on_match { store_char d b with
          match_idx := mi
          result_len := sub32 (d.result_len + 1) (responses t).length } t).map
        (fun d1 => { d1 with match_idx := [0, 0, 0, 0], matched := d1.matched ++ [t] }) := by
  obtain ⟨m0, m1, m2, m3, hidx, t0, t1, t2, t3⟩ := ht
  have e0 : (store_char d b).match_idx = [m0, m1, m2, m3] := hidx
  interval_cases t
  · obtain ⟨c1, c2⟩ := Tracks_complete _ w m0 b (by decide) t0 hyes
    rw [show NB_RESPONSES = 3 + 1 from rfl,
      refresh_loop_hit _ b 3 0 (by rw [e0]; exact c1) (by rw [e0]; exact c2)]
    exact ⟨_, rfl⟩
  · have n0 := ctr_ne_of_no_end 0 (by decide) w m0 b t0 (hfirst 0 (by decide))
    obtain ⟨c1, c2⟩ := Tracks_complete _ w m1 b (by decide) t1 hyes
    rw [show NB_RESPONSES = 3 + 1 from rfl,
      refresh_loop_miss _ b 3 0 (by rw [e0]; exact t0.1) (by rw [e0]; exact n0)]
    simp only [e0, List.getD_cons_zero, List.set_cons_zero]
    rw [refresh_loop_hit _ b 2 1 (by exact c1) (by exact c2)]
    exact ⟨_, rfl⟩
  · have n0 := ctr_ne_of_no_end 0 (by decide) w m0 b t0 (hfirst 0 (by decide))
    have n1 := ctr_ne_of_no_end 1 (by decide) w m1 b t1 (hfirst 1 (by decide))
    obtain ⟨c1, c2⟩ := Tracks_complete _ w m2 b (by decide) t2 hyes
    rw [show NB_RESPONSES = 3 + 1 from rfl,
      refresh_loop_miss _ b 3 0 (by rw [e0]; exact t0.1) (by rw [e0]; exact n0)]
    simp only [e0, List.getD_cons_zero, List.set_cons_zero]
    rw [refresh_loop_miss _ b 2 1 (by exact t1.1) (by exact n1)]
    simp only [List.getD_cons_zero, List.getD_cons_succ, List.set_cons_zero, List.set_cons_succ]
    rw [refresh_loop_hit _ b 1 2 (by exact c1) (by exact c2)]
    exact ⟨_, rfl⟩
  · have n0 := ctr_ne_of_no_end 0 (by decide) w m0 b t0 (hfirst 0 (by decide))
    have n1 := ctr_ne_of_no_end 1 (by decide) w m1 b t1 (hfirst 1 (by decide))
    have n2 := ctr_ne_of_no_end 2 (by decide) w m2 b t2 (hfirst 2 (by decide))
    obtain ⟨c1, c2⟩ := Tracks_complete _ w m3 b (by decide) t3 hyes
    rw [show NB_RESPONSES = 3 + 1 from rfl,
      refresh_loop_miss _ b 3 0 (by rw [e0]; exact t0.1) (by rw [e0]; exact n0)]
    simp only [e0, List.getD_cons_zero, List.set_cons_zero]
    rw [refresh_loop_miss _ b 2 1 (by exact t1.1) (by exact n1)]
    simp only [List.getD_cons_zero, List.getD_cons_succ, List.set_cons_zero, List.set_cons_succ]
    rw [refresh_loop_miss _ b 1 2 (by exact t2.1) (by exact n2)]
    simp only [List.getD_cons_zero, List.getD_cons_succ, List.set_cons_zero, List.set_cons_succ]
    rw [refresh_loop_hit _ b 0 3 (by exact c1) (by exact c2)]
    exact ⟨_, rfl⟩

theorem on_match_log (d d1 : at_desc) (i : Nat) (h : on_match d i = some d1) :
    d1.matched = d.matched := by
  unfold on_match at h
  split at h
  · cases h; rfl
  · cases h; rfl
  · cases h; rfl
  · simp only [] at h
    split at h
    · cases h
    · rename_i d2 id hr
      have hk : d2.matched = d.matched := by
        split at hr
        · exact (get_conn_id_kept d d2 id hr).2.2.1
        · cases hr; rfl
      split at h
      · cases h; exact hk
      · cases h
  · cases h; rfl

/-- One turn of the loop records at most one completed response, and then all
counters are zero. -/
theorem refresh_loop_log (c : Nat) : ∀ (n i : Nat) (d d1 : at_desc), i + n ≤ 4 →
    refresh_loop c n i d = some d1 →
    d1.matched = d.matched ∨
      ∃ t < 4, d1.matched = d.matched ++ [t] ∧ d1.match_idx = [0, 0, 0, 0] := by
  intro n
  induction n with
  | zero =>
    intro i d d1 _ h
    simp only [refresh_loop, Option.some.injEq] at h
    subst h
    exact Or.inl rfl
  | succ n ih =>
    intro i d d1 hi h
    unfold refresh_loop at h
    simp only [] at h
    split at h
    · cases h; exact Or.inl rfl
    · split at h
      · split at h
        · split at h
          · cases h
          · rename_i d3 hm
            cases h
            refine Or.inr ⟨i, by omega, ?_, rfl⟩
            show d3.matched ++ [i] = _
            rw [on_match_log _ d3 i hm]
        · have r := ih (i + 1) _ d1 (by omega) h
          exact r
      · split at h
        · have r := ih (i + 1) _ d1 (by omega) h
          exact r
        · have r := ih (i + 1) _ d1 (by omega) h
          exact r

theorem append_char_log (d d1 : at_desc) (b : Nat) (h : append_char d b = some d1) :
    d1.matched = d.matched ∨
      ∃ t < 4, d1.matched = d.matched ++ [t] ∧ d1.match_idx = [0, 0, 0, 0] := by
  by_cases hlen : d.result_len < RESULT_BUFF_LEN
  · rw [append_char_eq d b hlen] at h
    have r := refresh_loop_log b NB_RESPONSES 0 (store_char d b) d1 (by decide) h
    exact r
  · rw [append_char_full d b hlen] at h
    cases h

theorem append_chars_log : ∀ (w : List Nat) (d d1 : at_desc), append_chars d w = some d1 →
    ∃ e, d1.matched = d.matched ++ e := by
  intro w
  induction w with
  | nil =>
    intro d d1 h
    simp only [append_chars, Option.some.injEq] at h
    subst h
    exact ⟨[], by simp⟩
  | cons b w ih =>
    intro d d1 h
    simp only [append_chars] at h
    cases h1 : append_char d b with
    | none => rw [h1] at h; cases h
    | some d2 =>
      rw [h1] at h
      obtain ⟨e, he⟩ := ih d2 d1 h
      rcases append_char_log d d2 b h1 with h2 | ⟨t, _, h2, _⟩
      · exact ⟨e, by rw [he, h2]⟩
      · exact ⟨[t] ++ e, by rw [he, h2, List.append_assoc]⟩

/-- One appended byte, from counters that follow `w`: either no response ends
`w ++ [b]`, nothing is recorded and the counters follow `w ++ [b]`; or the one
response that ends `w ++ [b]` is recorded and the counters restart. -/
theorem append_char_track (d d1 : at_desc) (b : Nat) (w : List Nat) (ht : ctrs_track d w)
    (h : append_char d b = some d1) :
    (no_response_ends (w ++ [b]) ∧ d1.matched = d.matched ∧ ctrs_track d1 (w ++ [b])) ∨
    ∃ t < 4, responses t <:+ w ++ [b] ∧ d1.matched = d.matched ++ [t] ∧
      d1.match_idx = [0, 0, 0, 0] := by
  by_cases hlen : d.result_len < RESULT_BUFF_LEN
  swap
  · rw [append_char_full d b hlen] at h
    cases h
  rw [append_char_eq d b hlen] at h
  by_cases hne : no_response_ends (w ++ [b])
  · left
    obtain ⟨m0, m1, m2, m3, hidx, t0, t1, t2, t3⟩ := ht
    have s0 := Tracks_step _ w m0 b (by decide) (border_ok_responses 0 (by decide)) t0
      (hne 0 (by decide))
    have s1 := Tracks_step _ w m1 b (by decide) (border_ok_responses 1 (by decide)) t1
      (hne 1 (by decide))
    have s2 := Tracks_step _ w m2 b (by decide) (border_ok_responses 2 (by decide)) t2
      (hne 2 (by decide))
    have s3 := Tracks_step _ w m3 b (by decide) (border_ok_responses 3 (by decide)) t3
      (hne 3 (by decide))
    rw [loop_nomatch d b m0 m1 m2 m3 hidx t0.1 t1.1 t2.1 t3.1
      (Nat.ne_of_lt s0.1) (Nat.ne_of_lt s1.1) (Nat.ne_of_lt s2.1) (Nat.ne_of_lt s3.1)] at h
    cases h
    exact ⟨hne, rfl, _, _, _, _, rfl, s0, s1, s2, s3⟩
  · right
    have hex : ∃ t, t < 4 ∧ responses t <:+ w ++ [b] := by
      by_contra hc
      apply hne
      intro i hi hs
      exact hc ⟨i, hi, hs⟩
    obtain ⟨t, ht4, hyes⟩ := hex
    obtain ⟨mi, hl⟩ := loop_match d b t w ht ht4 hyes
      (fun j hj => responses_not_nested t j ht4 (by omega) (by omega) _ hyes)
    rw [hl] at h
    cases hm : on_match { store_char d b with
          match_idx := mi
          result_len := sub32 (d.result_len + 1) (responses t).length } t with
    | none => rw [hm] at h; cases h
    | some d3 =>
      rw [hm] at h
      cases h
      refine ⟨t, ht4, hyes, ?_, rfl⟩
      show d3.matched ++ [t] = _
      rw [on_match_log _ d3 t hm]
      rfl

theorem append_chars_track : ∀ (s : List Nat) (d d1 : at_desc) (w : List Nat),
    ctrs_track d w → append_chars d s = some d1 → d1.matched = d.matched →
    ctrs_track d1 (w ++ s) ∧ ∀ u, u <+: s → u ≠ [] → no_response_ends (w ++ u) := by
  intro s
  induction s with
  | nil =>
    intro d d1 w ht h _
    simp only [append_chars, Option.some.injEq] at h
    subst h
    refine ⟨by simpa using ht, ?_⟩
    intro u hu hne
    exact absurd (List.prefix_nil.1 hu) hne
  | cons b s ih =>
    intro d d1 w ht h hq
    simp only [append_chars] at h
    cases h1 : append_char d b with
    | none => rw [h1] at h; cases h
    | some d2 =>
      rw [h1] at h
      simp only [Option.some_bind] at h
      rcases append_char_track d d2 b w ht h1 with ⟨hne, hm2, ht2⟩ | ⟨t, _, _, hm2, _⟩
      · obtain ⟨r1, r2⟩ := ih d2 d1 (w ++ [b]) ht2 h (hq.trans hm2.symm)
        refine ⟨by simpa using r1, ?_⟩
        intro u hu hu0
        cases u with
        | nil => exact absurd rfl hu0
        | cons x u =>
          obtain ⟨hx, hu1⟩ := List.cons_prefix_cons.1 hu
          subst hx
          by_cases hun : u = []
          · subst hun; exact hne
          · have := r2 u hu1 hun
            simpa using this
      · exfalso
        obtain ⟨e, he⟩ := append_chars_log s d2 d1 h
        rw [hm2, hq] at he
        have := congrArg List.length he
        simp only [List.length_append, List.length_cons, List.length_nil] at this
        omega

theorem Tracks_take (pat : List Nat) (m : Nat) (hm : m < pat.length) :
    Tracks pat (pat.take m) m := by
  refine ⟨hm, List.suffix_refl _, ?_⟩
  intro k hk hs
  have := hs.length_le
  simp only [List.length_take] at this
  omega

theorem on_match_uart (d d1 : at_desc) (i : Nat) (h : on_match d i = some d1) :
    d1.uart = d.uart := by
  unfold on_match at h
  split at h
  · cases h; rfl
  · cases h; rfl
  · cases h; rfl
  · simp only [] at h
    split at h
    · cases h
    · rename_i d2 id hr
      have hk : d2.uart = d.uart := by
        split at hr
        · unfold get_conn_id at hr
          simp only [] at hr
          split at hr
          · cases hr; rfl
          · split at hr
            · cases hr
            · split at hr
              · cases hr; rfl
              · cases hr; rfl
        · cases hr; rfl
      split at h
      · cases h; exact hk
      · cases h
  · cases h; rfl

theorem refresh_loop_uart (c : Nat) : ∀ (n i : Nat) (d d1 : at_desc),
    refresh_loop c n i d = some d1 → d1.uart = d.uart := by
  intro n
  induction n with
  | zero =>
    intro i d d1 h
    simp only [refresh_loop, Option.some.injEq] at h
    subst h
    rfl
  | succ n ih =>
    intro i d d1 h
    unfold refresh_loop at h
    simp only [] at h
    split at h
    · cases h; rfl
    · split at h
      · split at h
        · split at h
          · cases h
          · rename_i d3 hm
            cases h
            have r := on_match_uart _ d3 i hm
            exact r
        · have r := ih (i + 1) _ d1 h
          exact r
      · split at h
        · have r := ih (i + 1) _ d1 h
          exact r
        · have r := ih (i + 1) _ d1 h
          exact r

/-- In module-message mode a received byte other than `':'`, and other than a
`'>'` awaited as prompt, that finds room in the buffer is appended to it. -/
theorem rx_is_append (d : at_desc) (len b : Nat) (ha : awaiting_char d)
    (hlen : d.result_len < RESULT_BUFF_LEN) (h58 : b ≠ 58)
    (h62 : b ≠ 62 ∨ d.waiting_send = false) :
    uart_rx_byte d len b = append_char d b := by
  rw [rx_ordinary d len b ha hlen h58 h62, append_char_eq d b hlen]
  cases hX : refresh_loop b NB_RESPONSES 0 (store_char d b) with
  | none => rfl
  | some d1 =>
    have hu : d1.uart = d.uart := by
      have r := refresh_loop_uart b _ _ (store_char d b) d1 hX
      exact r
    have he : uart_read d1.uart read_target.READ_CH 1 = d1.uart := by
      rw [hu]; exact uart_eta d.uart ha.2.1 ha.2.2.1 ha.2.2.2
    simp only [Option.map_some', he]

/-- A `':'` for which the backward scan finds no header is appended as well. -/
theorem rx_colon_is_append (d : at_desc) (len i : Nat) (ha : awaiting_char d)
    (hlen : d.result_len < RESULT_BUFF_LEN)
    (hscan : ipd_scan d.result_buff max_ch_search (sub32 d.result_len 1) = some (i, false)) :
    uart_rx_byte d len 58 = append_char d 58 := by
  rw [rx_awaiting d len 58 ha,
    at_callback_colon_missed { d with read_ch := 58 } len len { d with read_ch := 58 } ha.1 rfl
      (process_ipd_missed { d with read_ch := 58 } len i hscan),
    module_msg_char_ordinary { d with read_ch := 58 } hlen (Or.inl (by simp)),
    append_char_eq d 58 hlen]
  cases hX : refresh_loop 58 NB_RESPONSES 0 (store_char d 58) with
  | none =>
    have hX2 : refresh_loop ({ d with read_ch := 58 } : at_desc).read_ch NB_RESPONSES 0
        (store_char { d with read_ch := 58 } ({ d with read_ch := 58 } : at_desc).read_ch)
        = none := hX
    rw [hX2]; rfl
  | some d1 =>
    have hX2 : refresh_loop ({ d with read_ch := 58 } : at_desc).read_ch NB_RESPONSES 0
        (store_char { d with read_ch := 58 } ({ d with read_ch := 58 } : at_desc).read_ch)
        = some d1 := hX
    rw [hX2]
    have hu : d1.uart = d.uart := by
      have r := refresh_loop_uart 58 _ _ (store_char d 58) d1 hX
      exact r
    have he : uart_read d1.uart read_target.READ_CH 1 = d1.uart := by
      rw [hu]; exact uart_eta d.uart ha.2.1 ha.2.2.1 ha.2.2.2
    simp only [Option.map_some', he]

/-! ## The progress counters stay below the lengths of the patterns -/

theorem ctrs_below_of_idx (d d1 : at_desc) (h : d1.match_idx = d.match_idx)
    (hb : ctrs_below d) : ctrs_below d1 := by
  obtain ⟨m0, m1, m2, m3, hi, h0, h1, h2, h3⟩ := hb
  exact ⟨m0, m1, m2, m3, h.trans hi, h0, h1, h2, h3⟩

theorem ctrs_below_zero (d : at_desc) (h : d.match_idx = [0, 0, 0, 0]) : ctrs_below d :=
  ⟨0, 0, 0, 0, h, by decide, by decide, by decide, by decide⟩

theorem ctrs_below_get (d : at_desc) (hb : ctrs_below d) (i : Nat) (hi : i < 4) :
    d.match_idx.getD i 0 < (responses i).length := by
  obtain ⟨m0, m1, m2, m3, hidx, h0, h1, h2, h3⟩ := hb
  rw [hidx]
  interval_cases i
  · exact h0
  · exact h1
  · exact h2
  · exact h3

theorem ctrs_below_set (d d1 : at_desc) (hb : ctrs_below d) (i v : Nat) (hi : i < 4)
    (hv : v < (responses i).length) (h : d1.match_idx = d.match_idx.set i v) :
    ctrs_below d1 := by
  obtain ⟨m0, m1, m2, m3, hidx, h0, h1, h2, h3⟩ := hb
  rw [hidx] at h
  interval_cases i
  · exact ⟨v, m1, m2, m3, h, hv, h1, h2, h3⟩
  · exact ⟨m0, v, m2, m3, h, h0, hv, h2, h3⟩
  · exact ⟨m0, m1, v, m3, h, h0, h1, hv, h3⟩
  · exact ⟨m0, m1, m2, v, h, h0, h1, h2, hv⟩

theorem refresh_loop_below (c : Nat) : ∀ (n i : Nat) (d d1 : at_desc), i + n ≤ 4 →
    ctrs_below d → refresh_loop c n i d = some d1 → ctrs_below d1 := by
  intro n
  induction n with
  | zero =>
    intro i d d1 _ hb h
    simp only [refresh_loop, Option.some.injEq] at h
    subst h
    exact hb
  | succ n ih =>
    intro i d d1 hi hb h
    have hm := ctrs_below_get d hb i (by omega)
    have h11 := responses_length_le i
    have h6 : 2 ≤ (responses i).length := by
      have : i < 4 := by omega
      interval_cases i <;> decide
    unfold refresh_loop at h
    simp only [] at h
    split at h
    · cases h; exact hb
    · split at h
      · split at h
        · split at h
          · cases h
          · cases h
            exact ctrs_below_zero _ rfl
        · rename_i hne
          have ha : add32 (d.match_idx.getD i 0) 1 = d.match_idx.getD i 0 + 1 :=
            add32_small _ _ (by unfold U32; omega)
          rw [ha] at hne
          have r := ih (i + 1) _ d1 (by omega)
            (ctrs_below_set d _ hb i (add32 (d.match_idx.getD i 0) 1) (by omega)
              (by rw [ha]; omega) rfl) h
          exact r
      · split at h
        · have r := ih (i + 1) _ d1 (by omega)
            (ctrs_below_set d _ hb i 1 (by omega) (by omega) rfl) h
          exact r
        · have r := ih (i + 1) _ d1 (by omega)
            (ctrs_below_set d _ hb i 0 (by omega) (by omega) rfl) h
          exact r

theorem reports_error_below (c : Nat) : ∀ (n i : Nat) (d : at_desc), i + n ≤ 4 →
    ctrs_below d → reports_error c n i d = false := by
  intro n
  induction n with
  | zero => intro i d _ _; rfl
  | succ n ih =>
    intro i d hi hb
    have hm := ctrs_below_get d hb i (by omega)
    have h11 := responses_length_le i
    have h6 : 2 ≤ (responses i).length := by
      have : i < 4 := by omega
      interval_cases i <;> decide
    have ha : add32 (d.match_idx.getD i 0) 1 = d.match_idx.getD i 0 + 1 :=
      add32_small _ _ (by unfold U32; omega)
    unfold reports_error
    simp only []
    rw [if_neg (by omega)]
    split
    · split
      · rfl
      · rename_i hne
        rw [ha] at hne
        exact ih (i + 1) _ (by omega)
          (ctrs_below_set d _ hb i (add32 (d.match_idx.getD i 0) 1) (by omega)
            (by rw [ha]; omega) rfl)
    · split
      · exact ih (i + 1) _ (by omega) (ctrs_below_set d _ hb i 1 (by omega) (by omega) rfl)
      · exact ih (i + 1) _ (by omega) (ctrs_below_set d _ hb i 0 (by omega) (by omega) rfl)

theorem refresh_status_below (d d1 : at_desc) (h : refresh_status d = some d1)
    (hb : ctrs_below d) : ctrs_below d1 := by
  unfold refresh_status at h
  split at h
  · cases h
  · exact refresh_loop_below _ NB_RESPONSES 0 d d1 (by decide) hb h

theorem module_msg_char_below (d d1 : at_desc) (h : module_msg_char d = some d1)
    (hb : ctrs_below d) : ctrs_below d1 := by
  unfold module_msg_char at h
  simp only [] at h
  split at h
  · cases h
  · rename_i d2 hr
    cases h
    refine ctrs_below_of_idx d2 _ rfl ?_
    split at hr
    · cases hr; exact ctrs_below_of_idx d _ rfl hb
    · split at hr
      · cases hr; exact ctrs_below_of_idx d _ rfl hb
      · split at hr
        · cases hr
        · rename_i d3 hs
          unfold result_strcatch at hs
          split at hs
          · cases hs
            exact refresh_status_below _ d2 hr (ctrs_below_of_idx d _ rfl hb)
          · cases hs

theorem process_ipd_msg_below (d d1 : at_desc) (len L : Nat) (r : ret_code)
    (h : process_ipd_msg d len = some (r, d1, L)) (hb : ctrs_below d) : ctrs_below d1 := by
  unfold process_ipd_msg at h
  split at h
  · cases h
  · cases h; exact hb
  · cases h
    obtain ⟨m0, m1, m2, m3, hidx, h0, h1, h2, h3⟩ := hb
    refine ⟨if m0 ≥ 2 then m0 - 2 else m0, if m1 ≥ 2 then m1 - 2 else m1,
      if m2 ≥ 2 then m2 - 2 else m2, if m3 ≥ 2 then m3 - 2 else m3,
      by simp only [hidx, List.map], ?_, ?_, ?_, ?_⟩ <;> split <;> omega

theorem call_app_callback_idx (d : at_desc) (n : Nat) :
    (call_app_callback d n).match_idx = d.match_idx := by
  unfold call_app_callback
  split <;> rfl

theorem at_callback_below (d d1 : at_desc) (ev : UART_EVENT) (len : Nat)
    (h : at_callback d ev len = some d1) (hb : ctrs_below d) : ctrs_below d1 := by
  unfold at_callback at h
  split at h
  · cases h; exact ctrs_below_of_idx d _ rfl hb
  · split at h
    · split at h
      · split at h
        · cases h
        · rename_i d2 L hp
          cases h
          exact ctrs_below_of_idx d2 _ rfl (process_ipd_msg_below d d2 len L _ hp hb)
        · rename_i d2 L hp
          exact module_msg_char_below d2 d1 h (process_ipd_msg_below d d2 len L _ hp hb)
      · exact module_msg_char_below d d1 h hb
    · split at h
      · cases h
        exact ctrs_below_of_idx d _ (call_app_callback_idx d _) hb
      · cases h
        exact ctrs_below_of_idx d _ (call_app_callback_idx d _) hb
    · cases h
      exact ctrs_below_of_idx d _ (call_app_callback_idx _ _) hb
  · cases h; exact ctrs_below_of_idx d _ rfl hb
  · cases h; exact ctrs_below_of_idx d _ rfl hb

theorem uart_rx_byte_below (d d1 : at_desc) (len b : Nat)
    (h : uart_rx_byte d len b = some d1) (hb : ctrs_below d) : ctrs_below d1 := by
  unfold uart_rx_byte at h
  simp only [] at h
  split at h
  · cases h; exact ctrs_below_of_idx d _ rfl hb
  · split at h
    · exact at_callback_below _ d1 _ len h (ctrs_below_of_idx d _ rfl hb)
    · exact at_callback_below _ d1 _ len h (ctrs_below_of_idx d _ rfl hb)

theorem feed_below (len : Nat) : ∀ (bs : List Nat) (d d1 : at_desc), ctrs_below d →
    feed len d bs = some d1 → ctrs_below d1 := by
  intro bs
  induction bs with
  | nil =>
    intro d d1 hb h
    simp only [feed, Option.some.injEq] at h
    subst h
    exact hb
  | cons b bs ih =>
    intro d d1 hb h
    simp only [feed] at h
    split at h
    · cases h
    · rename_i d2 h2
      exact ih d2 d1 (uart_rx_byte_below d d2 len b h2 hb) h

/-! ## The header scan at the start of the buffer, long commands, a prompt that never comes -/

theorem ipd_scan_underflow (buf : List Nat) (n : Nat) :
    ipd_scan buf (n + 1) (U32 - 1) = none := by
  unfold ipd_scan buff_read
  simp [RESULT_BUFF_LEN, U32]

theorem process_ipd_empty (d : at_desc) (len : Nat) (h : d.result_len = 0) :
    process_ipd_msg d len = none := by
  unfold process_ipd_msg
  have h1 : sub32 d.result_len 1 = U32 - 1 := by rw [h]; decide
  have h2 : ipd_scan d.result_buff max_ch_search (U32 - 1) = none :=
    ipd_scan_underflow d.result_buff 12
  rw [h1, h2]

theorem at_callback_colon_undefined (d0 : at_desc) (len : Nat)
    (hm : d0.callback_state = callback_state_t.READING_MODULE_MSG) (hch : d0.read_ch = 58)
    (hp : process_ipd_msg d0 len = none) :
    at_callback d0 UART_EVENT.READ_DONE len = none := by
  unfold at_callback
  simp only []
  rw [hm]
  simp only []
  rw [if_pos hch, hp]

theorem itoa_digit (v : Int) (h0 : 0 ≤ v) (h9 : v ≤ 9) : (itoa v).length = 1 := by
  obtain ⟨n, rfl⟩ := Int.eq_ofNat_of_zero_le h0
  have hn : n ≤ 9 := by omega
  interval_cases n <;> decide

theorem cmd_strcat_none_iff (d : at_desc) (s : List Nat) (hne : s ≠ []) :
    cmd_strcat d s = none ↔ CMD_BUFF_LEN < d.cmd_len + s.length := by
  constructor
  · intro h
    by_contra hc
    rw [cmd_strcat_ok s d (Nat.le_of_not_lt hc)] at h
    cases h
  · intro h
    cases hq : cmd_strcat d s with
    | none => rfl
    | some d1 =>
      have := (cmd_strcat_some s d d1 hq).2 hne
      omega

theorem busy_wait_stuck (len : Nat) (cond : at_desc → Bool) (d : at_desc) (h : cond d = true) :
    ∀ n : Nat, busy_wait len cond d (List.replicate n []) = Except.error fault.HANG := by
  intro n
  induction n with
  | zero => simp [busy_wait, h]
  | succ n ih =>
    rw [List.replicate_succ]
    simp only [busy_wait, h, if_true, deliver]
    exact ih

/-! ## The acknowledgement of the disconnection -/

theorem deliver_nil (len : Nat) (d : at_desc) : deliver len d [] = some d := rfl

theorem mdelay_nil (len : Nat) (d : at_desc) : ∀ k : Nat, mdelay len k d [] = Except.ok (d, [])
  | 0 => rfl
  | _ + 1 => rfl

theorem mdelay_idle (len : Nat) (d : at_desc) (env : schedule) :
    ∀ k : Nat, mdelay len k d (List.replicate k [] ++ env) = Except.ok (d, env) := by
  intro k
  induction k with
  | zero => rfl
  | succ k ih =>
    rw [List.replicate_succ, List.cons_append]
    simp only [mdelay, deliver]
    exact ih

theorem mdelay_idle_then (len : Nat) (d d1 : at_desc) (b : List Nat) (env : schedule)
    (hf : feed len d b = some d1) :
    ∀ k : Nat, mdelay len (k + 1) d (List.replicate k [] ++ b.map irq.rx :: env) =
      Except.ok (d1, env) := by
  intro k
  induction k with
  | zero =>
    simp only [List.replicate_zero, List.nil_append, mdelay, deliver_rx, hf]
  | succ k ih =>
    rw [List.replicate_succ, List.cons_append]
    simp only [mdelay, deliver]
    exact ih

theorem mdelay_then_nil (len : Nat) (d d1 : at_desc) (b : List Nat)
    (hf : feed len d b = some d1) (k : Nat) :
    mdelay len (k + 1) d [b.map irq.rx] = Except.ok (d1, []) := by
  simp only [mdelay, deliver_rx, hf]
  exact mdelay_nil len d1 k

/-- The test of `parse_result` for the acknowledgement of the disconnection. -/
theorem parse_wait_loop_seen (len t : Nat) (d : at_desc) (env : schedule)
    (h : str_WIFI_DISCONNECT.length ≥ d.result_len ∧
      buff_slice d.result_buff 0 str_WIFI_DISCONNECT.length = str_WIFI_DISCONNECT) :
    parse_wait_loop len t d env = Except.ok (t, d, env) := by
  cases t with
  | zero => unfold parse_wait_loop; rw [if_pos h]
  | succ t => unfold parse_wait_loop; rw [if_pos h]

theorem parse_wait_loop_never (len : Nat) (d : at_desc)
    (h : ¬ (str_WIFI_DISCONNECT.length ≥ d.result_len ∧
      buff_slice d.result_buff 0 str_WIFI_DISCONNECT.length = str_WIFI_DISCONNECT)) :
    ∀ t : Nat, parse_wait_loop len t d [] = Except.ok (U32 - 1, d, []) := by
  intro t
  induction t with
  | zero =>
    unfold parse_wait_loop
    rw [if_neg h, mdelay_nil]
  | succ t ih =>
    unfold parse_wait_loop
    rw [if_neg h, mdelay_nil]
    exact ih

theorem parse_wait_loop_idle (len t : Nat) (d : at_desc) (env : schedule)
    (h : ¬ (str_WIFI_DISCONNECT.length ≥ d.result_len ∧
      buff_slice d.result_buff 0 str_WIFI_DISCONNECT.length = str_WIFI_DISCONNECT)) :
    parse_wait_loop len (t + 1) d (List.replicate 100 [] ++ env) =
      parse_wait_loop len t d env := by
  conv_lhs => unfold parse_wait_loop
  rw [if_neg h, mdelay_idle]

theorem parse_wait_loop_idles (len : Nat) (d : at_desc) (env : schedule)
    (h : ¬ (str_WIFI_DISCONNECT.length ≥ d.result_len ∧
      buff_slice d.result_buff 0 str_WIFI_DISCONNECT.length = str_WIFI_DISCONNECT)) :
    ∀ k t : Nat, parse_wait_loop len (t + k) d (List.replicate (100 * k) [] ++ env) =
      parse_wait_loop len t d env := by
  intro k
  induction k with
  | zero => intro t; rfl
  | succ k ih =>
    intro t
    have e : List.replicate (100 * (k + 1)) ([] : List irq) ++ env =
        List.replicate 100 [] ++ (List.replicate (100 * k) [] ++ env) := by
      rw [← List.append_assoc, ← List.replicate_add]
      congr 2
      omega
    rw [e, show t + (k + 1) = (t + k) + 1 from rfl, parse_wait_loop_idle len _ d _ h]
    exact ih t

theorem conn_update_disconnect (d : at_desc) (p : in_param) :
    conn_update d at_cmd.AT_DISCONNECT_NETWORK cmd_operation.AT_EXECUTE_OP p = d := by
  simp only [conn_update, reduceCtorEq, if_false, false_and]

theorem run_cmd_update_disconnect (len : Nat) (d : at_desc) (p : in_param) (env : schedule) :
    at_run_cmd_update len d at_cmd.AT_DISCONNECT_NETWORK cmd_operation.AT_EXECUTE_OP (some p) env =
      match parse_wait_loop len 10 d env with
      | Except.error e => Except.error e
      | Except.ok (timeout, d2, env1) =>
        if timeout = 0 then
          Except.ok { ret := ret_code.FAILURE, desc := { d2 with result_len := 0 },
                      out_result := true, env := env1 }
        else if d2.result_len > 0 then
          if d2.result_len ≤ RESULT_BUFF_LEN then
            Except.ok { ret := (cb_write d2.cb_response (result_view d2)).1,
                        desc := { d2 with
                          cb_response := (cb_write d2.cb_response (result_view d2)).2
                          result_len := 0 },
                        out_result := true, env := env1 }
          else Except.error fault.UNDEFINED
        else Except.ok { ret := ret_code.SUCCESS, desc := { d2 with result_len := 0 },
                         out_result := true, env := env1 } := by
  rw [run_cmd_update_some len d _ _ p env (fun h => absurd h (by decide)),
    conn_update_disconnect]
  simp only [reduceCtorEq, if_false]
  unfold parse_result
  simp only [if_true, true_and]
  cases parse_wait_loop len 10 d env with
  | error e => rfl
  | ok r =>
    obtain ⟨t, d2, env1⟩ := r
    simp only []
    by_cases h0 : t = 0
    · simp only [h0, if_true]
    · by_cases h1 : d2.result_len > 0
      · by_cases h2 : d2.result_len ≤ RESULT_BUFF_LEN
        · simp only [h0, h1, h2, if_true, if_false]
        · simp only [h0, h1, h2, if_true, if_false]
      · simp only [h0, h1, if_false]

theorem disconnect_answered (len : Nat) (desc d1 : at_desc) (p : in_param) (rest : schedule)
    (ha : awaiting_char desc) (hempty : desc.result_len = 0)
    (hctr : desc.match_idx = [0, 0, 0, 0])
    (hb : build_cmd desc at_cmd.AT_DISCONNECT_NETWORK cmd_operation.AT_EXECUTE_OP (some p)
      = some d1) :
    at_run_cmd len desc at_cmd.AT_DISCONNECT_NETWORK cmd_operation.AT_EXECUTE_OP (some p)
        ([irq.tx_done] :: (responses 1).map irq.rx :: rest) =
      at_run_cmd_update len (answered (dispatched d1) [] 1) at_cmd.AT_DISCONNECT_NETWORK
        cmd_operation.AT_EXECUTE_OP (some p) rest := by
  have h := run_cmd_answered len desc d1 at_cmd.AT_DISCONNECT_NETWORK
    cmd_operation.AT_EXECUTE_OP (some p) [] 1 [] (responses 1) rest (by decide) ha hempty hctr
    (by decide) (by decide) (by decide) (by decide) hb (by simp) (by decide) (by decide) rfl
    (by decide) (by decide)
  rw [if_neg (by decide)] at h
  exact h

theorem answered_buff (d : at_desc) (P : List Nat) (t : Nat) :
    (answered d P t).result_buff = buff_writes d.result_buff 0 (P ++ responses t) := rfl

theorem answered_len (d : at_desc) (P : List Nat) (t : Nat) :
    (answered d P t).result_len = P.length := rfl

theorem answered_awaiting (d : at_desc) (P : List Nat) (t : Nat) (ha : awaiting_char d) :
    awaiting_char (answered d P t) := ha

theorem answered_idx (d : at_desc) (P : List Nat) (t : Nat) :
    (answered d P t).match_idx = [0, 0, 0, 0] := rfl

theorem answered_cb (d : at_desc) (P : List Nat) (t : Nat) :
    (answered d P t).cb_response = d.cb_response := rfl

theorem answered_first (d : at_desc) : (answered d [] 1).result_buff.getD 0 0 = 13 := by
  rw [answered_buff]
  exact getD_buff_writes_at ([] ++ responses 1) d.result_buff 0 0 (by decide)

theorem notice_not_seen (d : at_desc) (h13 : d.result_buff.getD 0 0 = 13) :
    ¬ (str_WIFI_DISCONNECT.length ≥ d.result_len ∧
      buff_slice d.result_buff 0 str_WIFI_DISCONNECT.length = str_WIFI_DISCONNECT) := by
  rintro ⟨_, h⟩
  have h1 := getD_of_slice d.result_buff str_WIFI_DISCONNECT 0 _ h 0 (by decide)
  rw [Nat.add_zero, h13] at h1
  revert h1
  decide

theorem notice_received (len : Nat) (d : at_desc) (ha : awaiting_char d)
    (hempty : d.result_len = 0) (hctr : d.match_idx = [0, 0, 0, 0]) :
    ∃ d7, feed len d str_WIFI_DISCONNECT = some d7 ∧
      (str_WIFI_DISCONNECT.length ≥ d7.result_len ∧
        buff_slice d7.result_buff 0 str_WIFI_DISCONNECT.length = str_WIFI_DISCONNECT) ∧
      d7.result_len = 17 ∧ result_view d7 = str_WIFI_DISCONNECT ∧
      d7.cb_response = d.cb_response := by
  obtain ⟨d7, hf, _, hd7⟩ := feed_nomatch len str_WIFI_DISCONNECT d [] ha
    (ctrs_track_zero _ hctr) (by rw [hempty]; decide) (by decide)
    (no_ends_of_take [] str_WIFI_DISCONNECT (by decide))
  have hl : d7.result_len = 17 := by
    have := congrArg at_desc.result_len hd7
    simp only [] at this
    rw [this, hempty]; rfl
  have hbuf : d7.result_buff = buff_writes d.result_buff 0 str_WIFI_DISCONNECT := by
    have := congrArg at_desc.result_buff hd7
    simp only [] at this
    rw [this, hempty]
  have hcb : d7.cb_response = d.cb_response := by
    have := congrArg at_desc.cb_response hd7
    simp only [] at this
    exact this
  have hs : buff_slice d7.result_buff 0 17 = str_WIFI_DISCONNECT := by
    rw [hbuf]
    exact buff_slice_writes_take str_WIFI_DISCONNECT _ 0 17 (by decide)
  refine ⟨d7, hf, ⟨by rw [hl]; decide, hs⟩, hl, ?_, hcb⟩
  unfold result_view
  rw [hl]
  exact hs

/-! ## The index cleared by the closure notice, a byte in unvarnished mode -/

theorem get_conn_id_short (desc : at_desc) (h : desc.result_len < 2) :
    get_conn_id desc = some (desc, U32 - 1) := by
  have : desc.result_len = 0 ∨ desc.result_len = 1 := by omega
  unfold get_conn_id
  simp only []
  rw [if_pos (by rcases this with h | h <;> rw [h] <;> decide)]

theorem get_conn_id_other (desc : at_desc) (n : Nat) (hlen : desc.result_len = n + 2)
    (hcap : n + 2 ≤ RESULT_BUFF_LEN)
    (hch : desc.result_buff.getD n 0 < 48 ∨ desc.result_buff.getD n 0 > 57) :
    get_conn_id desc = some (desc, U32 - 1) := by
  have h5 : n + 2 ≤ 500 := hcap
  have hs : sub32 desc.result_len 2 = n := by
    rw [hlen, sub32_small _ _ (by omega) (by unfold U32; omega)]; omega
  unfold get_conn_id
  simp only []
  rw [hs, if_neg (by omega), buff_read_in _ _ (by show n < 500; omega)]
  simp only []
  rw [if_pos hch]

theorem on_match_closed_out (desc d1 : at_desc) (id : Nat)
    (hm : desc.multiple_conections = true) (hg : get_conn_id desc = some (d1, id))
    (hid : MAX_CONNECTIONS ≤ id) : on_match desc 3 = none := by
  unfold on_match
  simp only [hm, if_true, hg]
  rw [if_neg (by omega)]

theorem rx_raw (d : at_desc) (len b : Nat) (ha : awaiting_raw d) :
    uart_rx_byte d len b =
      some (call_app_callback
        { d with read_ch := b, cb_response := (cb_write d.cb_response [b]).2 }
        (cb_write d.cb_response [b]).2.length) := by
  obtain ⟨rb, rl, cb, cl, ad, ac, an, cr, rc, rs, cs, ws, ir, mi, ⟨t, l, g, tx⟩, co, mc, ma⟩ := d
  obtain ⟨h1, h2, h3, h4⟩ := ha
  simp only at h1 h2 h3 h4
  subst h1 h2 h3 h4
  cases ac <;> simp [uart_rx_byte, at_callback, call_app_callback, uart_read]

/-! ## The statements of `at_run_cmd` after the response, command by command -/

theorem conn_update_kept (d : at_desc) (cmd : at_cmd) (op : cmd_operation) (p : in_param)
    (h1 : cmd ≠ at_cmd.AT_SET_CONNECTION_TYPE)
    (h2 : cmd = at_cmd.AT_START_CONNECTION → op ≠ cmd_operation.AT_SET_OP) :
    conn_kept d (conn_update d cmd op p) := by
  have h3 : ¬ (cmd = at_cmd.AT_START_CONNECTION ∧ op = cmd_operation.AT_SET_OP) :=
    fun h => h2 h.1 h.2
  unfold conn_update
  simp only [h1, h3, if_false]
  split
  · exact conn_kept_of_eq d _ rfl rfl rfl (Or.inl rfl)
  · exact conn_kept_refl d

/-- The update after the response leaves the multiplexed flag and the connection
table alone for every command but set-connection-type and start-connection with
the set operation (closure notices received meanwhile apart). -/
theorem run_cmd_update_kept (len : Nat) (d6 : at_desc) (cmd : at_cmd) (op : cmd_operation)
    (param : Option in_param) (env6 : schedule) (out : run_out)
    (h1 : cmd ≠ at_cmd.AT_SET_CONNECTION_TYPE)
    (h2 : cmd = at_cmd.AT_START_CONNECTION → op ≠ cmd_operation.AT_SET_OP)
    (h : at_run_cmd_update len d6 cmd op param env6 = Except.ok out) :
    conn_kept d6 out.desc := by
  cases param with
  | none =>
    by_cases h3 : cmd = at_cmd.AT_SET_TRANSPORT_MODE
    · subst h3
      unfold at_run_cmd_update at h
      simp only [reduceCtorEq, if_false, false_and, if_true, Option.map_none'] at h
    · rw [run_cmd_update_none len d6 cmd op env6 h1 h3 h2] at h
      cases h
      exact conn_kept_of_eq d6 _ rfl rfl rfl (Or.inl rfl)
  | some p =>
    rw [run_cmd_update_some len d6 cmd op p env6 (fun hc ho => absurd ho (h2 hc))] at h
    split at h
    · cases h
    · rename_i ret d4 env4 hp
      cases h
      exact conn_kept_trans d6 _ d4 (conn_update_kept d6 cmd op p h1 h2)
        (parse_result_kept len _ _ _ ret d4 env4 hp)

theorem run_cmd_update_type (len : Nat) (d6 : at_desc) (op : cmd_operation)
    (param : Option in_param) (env6 : schedule) (out : run_out)
    (h : at_run_cmd_update len d6 at_cmd.AT_SET_CONNECTION_TYPE op param env6 = Except.ok out) :
    ∃ p, param = some p ∧ out.desc.multiple_conections = decide (p.conn_type ≠ 0) := by
  cases param with
  | none =>
    unfold at_run_cmd_update at h
    simp only [if_true, Option.map_none'] at h
    cases h
  | some p =>
    rw [run_cmd_update_some len d6 _ op p env6 (fun hc => absurd hc (by decide))] at h
    split at h
    · cases h
    · rename_i ret d4 env4 hp
      cases h
      refine ⟨p, rfl, ?_⟩
      have k := (parse_result_kept len _ _ _ ret d4 env4 hp).1
      show d4.multiple_conections = _
      rw [k]
      unfold conn_update
      simp only [if_true, reduceCtorEq, false_and, if_false]

theorem run_cmd_update_mode (len : Nat) (d6 : at_desc) (op : cmd_operation)
    (param : Option in_param) (env6 : schedule) (out : run_out)
    (hop : op ≠ cmd_operation.AT_SET_OP)
    (h : at_run_cmd_update len d6 at_cmd.AT_SET_TRANSPORT_MODE op param env6 = Except.ok out) :
    ∃ p, param = some p ∧
      out.desc.callback_state =
        (if p.transport_mode = cipmode_param.UNVARNISHED_MODE then
          callback_state_t.READING_UNVARNISHED else d6.callback_state) := by
  cases param with
  | none =>
    unfold at_run_cmd_update at h
    simp only [reduceCtorEq, if_false, false_and, if_true, Option.map_none'] at h
  | some p =>
    rw [run_cmd_update_some len d6 _ op p env6 (fun hc => absurd hc (by decide))] at h
    split at h
    · cases h
    · rename_i ret d4 env4 hp
      cases h
      refine ⟨p, rfl, ?_⟩
      rw [if_neg hop] at hp
      obtain ⟨e, _⟩ := parse_result_frame len _ _ env6 ret d4 env4 (by decide) hp
      show d4.callback_state = _
      rw [e]
      show (conn_update d6 at_cmd.AT_SET_TRANSPORT_MODE op p).callback_state = _
      unfold conn_update
      simp only [reduceCtorEq, if_false, false_and, true_and]
      split <;> rfl

/-! ## A prompt byte inside a response -/

/-- A `'>'` received in module-message mode while the prompt flag is set is taken
as the prompt: the flag is cleared and the byte is not stored. -/
theorem rx_prompt (d : at_desc) (len : Nat) (ha : awaiting_char d)
    (hw : d.waiting_send = true) :
    uart_rx_byte d len 62 = some { d with read_ch := 62, waiting_send := false } := by
  rw [rx_awaiting d len 62 ha, at_callback_module { d with read_ch := 62 } len ha.1 (by simp)]
  unfold module_msg_char
  simp only [hw, and_self, if_true]
  rw [uart_eta d.uart ha.2.1 ha.2.2.1 ha.2.2.2]

theorem take_append_take (A B : List Nat) (k : Nat) :
    (A ++ B).take (A.length + k) = A ++ B.take k := by
  rw [List.take_append_eq_append_take]
  simp

/-- A response with a `'>'` in it, received while the prompt flag is set: the
response buffer holds the response without the `'>'`. -/
theorem feed_prompt_dropped (len : Nat) (d : at_desc) (P1 P2 : List Nat)
    (ha : awaiting_char d) (hempty : d.result_len = 0) (hctr : d.match_idx = [0, 0, 0, 0])
    (hw : d.waiting_send = true)
    (hP : ∀ b ∈ P1 ++ P2, b ≠ 58 ∧ b ≠ 62)
    (hcap : P1.length + P2.length + 6 ≤ RESULT_BUFF_LEN)
    (hno : ∀ k < (P1 ++ P2 ++ responses 1).length, ∀ i < 4,
      ¬ responses i <:+ (P1 ++ P2 ++ responses 1).take k) :
    ∃ F, feed len d (P1 ++ [62] ++ P2 ++ responses 1) = some F ∧
      F.result_status = result_status_t.RESULT_AVAILABE ∧
      F.result_len = P1.length + P2.length ∧ result_view F = P1 ++ P2 ∧
      F.cb_response = d.cb_response ∧ F.multiple_conections = d.multiple_conections ∧
      F.connections = d.connections ∧ F.waiting_send = false ∧
      F.matched = d.matched ++ [1] := by
  have h500 : P1.length + P2.length + 6 ≤ 500 := hcap
  have hR : responses 1 = [13, 10, 79, 75, 13] ++ [10] := rfl
  have hS : P1 ++ P2 ++ responses 1 = P1 ++ ((P2 ++ [13, 10, 79, 75, 13]) ++ [10]) := by
    rw [hR]; simp
  have hSl : (P1 ++ P2 ++ responses 1).length = P1.length + P2.length + 6 := by
    rw [List.length_append, List.length_append]
    rfl
  -- the bytes before the prompt
  obtain ⟨D1, hf1, ht1, hD1⟩ := feed_nomatch len P1 d [] ha (ctrs_track_zero d hctr)
    (by rw [hempty]; show _ ≤ 500; omega)
    (fun b hb => hP b (List.mem_append_left _ hb))
    (no_ends_of_take [] P1 (by
      intro k hk i hi
      have := hno (k + 1) (by rw [hSl]; omega) i hi
      rw [List.append_assoc, List.take_append_of_le_length (by omega)] at this
      simpa using this))
  rw [List.nil_append] at ht1
  have ha1 : awaiting_char D1 := by rw [hD1]; exact ha
  have hw1 : D1.waiting_send = true := by rw [hD1]; exact hw
  have hl1 : D1.result_len = P1.length := by
    rw [hD1]; show d.result_len + _ = _; rw [hempty]; omega
  have hb1 : D1.result_buff = buff_writes d.result_buff 0 P1 := by
    rw [hD1]; show buff_writes d.result_buff d.result_len _ = _; rw [hempty]
  -- the prompt
  have hf2 := rx_prompt D1 len ha1 hw1
  -- the bytes after it and the terminator
  obtain ⟨dm, hf3, hdm⟩ := feed_until_match len
    { D1 with read_ch := 62, waiting_send := false } P1 (P2 ++ [13, 10, 79, 75, 13]) 10 1 ha1
    ht1 (by
      show D1.result_len + _ < 500
      rw [hl1]; simp only [List.length_append, List.length_cons, List.length_nil]; omega)
    (by
      intro x hx
      rw [List.append_assoc] at hx
      rcases List.mem_append.1 hx with h | h
      · exact hP x (List.mem_append_right _ h)
      · have hc : ∀ y ∈ ([13, 10, 79, 75, 13] ++ [10] : List Nat), y ≠ 58 ∧ y ≠ 62 := by
          decide
        exact hc x h)
    (no_ends_of_take P1 (P2 ++ [13, 10, 79, 75, 13]) (by
      intro k hk i hi
      simp only [List.length_append, List.length_cons, List.length_nil] at hk
      have := hno (P1.length + (k + 1)) (by rw [hSl]; omega) i hi
      rw [hS, take_append_take, List.take_append_of_le_length (by simp; omega)] at this
      exact this))
    (by decide) (by
      rw [← List.append_assoc P1, List.append_assoc (P1 ++ P2)]
      exact List.suffix_append _ _)
  have hfeed : feed len d (P1 ++ [62] ++ P2 ++ responses 1) =
      feed len { D1 with read_ch := 62, waiting_send := false }
        ((P2 ++ [13, 10, 79, 75, 13]) ++ [10]) := by
    have e : P1 ++ [62] ++ P2 ++ responses 1 =
        P1 ++ (62 :: ((P2 ++ [13, 10, 79, 75, 13]) ++ [10])) := by
      rw [hR]; simp
    rw [e, feed_append, hf1]
    show feed len D1 (62 :: _) = _
    rw [feed_cons len D1 _ 62 _ hf2]
  have hom : on_match dm 1 = some { dm with result_status := result_status_t.RESULT_AVAILABE } :=
    rfl
  rw [hom] at hf3
  have e_len : dm.result_len = P1.length + P2.length := by
    have := congrArg at_desc.result_len hdm
    simp only [] at this
    rw [this, hl1]
    simp only [List.length_append, List.length_cons, List.length_nil]
    rw [sub32_small _ _ (by show 6 ≤ _; omega) (by unfold U32; omega)]
    show P1.length + (P2.length + 5) + 1 - 6 = _
    omega
  have e_buf : dm.result_buff =
      buff_writes d.result_buff 0 (P1 ++ ((P2 ++ [13, 10, 79, 75, 13]) ++ [10])) := by
    have := congrArg at_desc.result_buff hdm
    simp only [] at this
    rw [this, hb1, hl1, buff_writes_append P1 _ d.result_buff 0, Nat.zero_add]
  have e_cb : dm.cb_response = d.cb_response := by
    have := congrArg at_desc.cb_response hdm
    simp only [] at this
    rw [this, hD1]
  have e_mc : dm.multiple_conections = d.multiple_conections := by
    have := congrArg at_desc.multiple_conections hdm
    simp only [] at this
    rw [this, hD1]
  have e_co : dm.connections = d.connections := by
    have := congrArg at_desc.connections hdm
    simp only [] at this
    rw [this, hD1]
  have e_ws : dm.waiting_send = false := by
    have := congrArg at_desc.waiting_send hdm
    simp only [] at this
    exact this
  have e_ma : dm.matched = d.matched := by
    have := congrArg at_desc.matched hdm
    simp only [] at this
    rw [this, hD1]
  rw [hfeed, hf3]
  refine ⟨_, rfl, rfl, e_len, ?_, e_cb, e_mc, e_co, e_ws, ?_⟩
  · show buff_slice dm.result_buff 0 dm.result_len = _
    rw [e_len, e_buf, buff_slice_writes_take _ _ 0 _ (by
      simp only [List.length_append, List.length_cons, List.length_nil]; omega)]
    rw [take_append_take, List.append_assoc, List.take_append_of_le_length (Nat.le_refl _),
      List.take_length]
  · show dm.matched ++ [1] = _
    rw [e_ma]

/-! ## A pattern cut in two -/

theorem pattern_head_clean : ∀ i < 3, ∀ k < (responses i).length, ∀ j < 4,
    ¬ responses j <:+ (responses i).take k := by
  decide

theorem pattern_bytes : ∀ i < 3, ∀ x ∈ responses i, x ≠ 58 ∧ x ≠ 62 := by
  decide

theorem pattern_split : ∀ i < 3, ∀ k < (responses i).length,
    ∃ s b, (responses i).drop k = s ++ [b] ∧ s.length + 1 + k = (responses i).length := by
  intro i hi k hk
  have hne : (responses i).drop k ≠ [] := by
    intro h
    have := congrArg List.length h
    simp only [List.length_drop, List.length_nil] at this
    omega
  refine ⟨((responses i).drop k).dropLast, ((responses i).drop k).getLast hne,
    (List.dropLast_append_getLast hne).symm, ?_⟩
  simp only [List.length_dropLast, List.length_drop]
  omega

/-! ## Result Status along the byte-received path -/

theorem on_match_status (d d1 : at_desc) (i : Nat) (h : on_match d i = some d1) :
    (i < 3 → d1.result_status =
      if i = 0 then result_status_t.RESULT_ERROR else result_status_t.RESULT_AVAILABE) ∧
    (3 ≤ i → d1.result_status = d.result_status) := by
  unfold on_match at h
  split at h
  · cases h; exact ⟨fun _ => rfl, fun h3 => absurd h3 (by omega)⟩
  · cases h; exact ⟨fun _ => rfl, fun h3 => absurd h3 (by omega)⟩
  · cases h; exact ⟨fun _ => rfl, fun h3 => absurd h3 (by omega)⟩
  · simp only [] at h
    split at h
    · cases h
    · rename_i d2 id hr
      have hk : d2.result_status = d.result_status := by
        split at hr
        · unfold get_conn_id at hr
          simp only [] at hr
          repeat' split at hr
          all_goals first | (cases hr; rfl) | cases hr
        · cases hr; rfl
      split at h
      · cases h; exact ⟨fun h3 => absurd h3 (by omega), fun _ => hk⟩
      · cases h
  · rename_i h0 h1 h2 h3
    cases h
    refine ⟨fun hi => ?_, fun _ => rfl⟩
    interval_cases i
    · exact absurd rfl h0
    · exact absurd rfl h1
    · exact absurd rfl h2

theorem refresh_loop_status (c : Nat) : ∀ (n i : Nat) (d d1 : at_desc), i + n ≤ 4 →
    refresh_loop c n i d = some d1 →
    (d1.result_status = d.result_status) ∨
      ∃ t < 3, d1.matched = d.matched ++ [t] ∧
        d1.result_status =
          if t = 0 then result_status_t.RESULT_ERROR else result_status_t.RESULT_AVAILABE := by
  intro n
  induction n with
  | zero =>
    intro i d d1 _ h
    simp only [refresh_loop, Option.some.injEq] at h
    subst h
    exact Or.inl rfl
  | succ n ih =>
    intro i d d1 hi h
    unfold refresh_loop at h
    simp only [] at h
    split at h
    · cases h; exact Or.inl rfl
    · split at h
      · split at h
        · split at h
          · cases h
          · rename_i d3 hm
            cases h
            have hs := on_match_status _ d3 i hm
            have hl := on_match_log _ d3 i hm
            by_cases h3 : i < 3
            · refine Or.inr ⟨i, h3, ?_, hs.1 h3⟩
              show d3.matched ++ [i] = _
              rw [hl]
            · exact Or.inl (hs.2 (by omega))
        · have r := ih (i + 1) _ d1 (by omega) h
          exact r
      · split at h
        · have r := ih (i + 1) _ d1 (by omega) h
          exact r
        · have r := ih (i + 1) _ d1 (by omega) h
          exact r

theorem module_msg_char_status (d d1 : at_desc) (h : module_msg_char d = some d1) :
    d1.result_status = d.result_status ∨
    (∃ t < 3, d1.matched = d.matched ++ [t] ∧
      d1.result_status =
        if t = 0 then result_status_t.RESULT_ERROR else result_status_t.RESULT_AVAILABE) ∨
    (d1.matched = d.matched ∧ d1.result_status = result_status_t.OVERFLOW_ERROR ∧
      RESULT_BUFF_LEN ≤ d.result_len) := by
  unfold module_msg_char at h
  simp only [] at h
  split at h
  · cases h
  · rename_i d2 hr
    cases h
    split at hr
    · cases hr; exact Or.inl rfl
    · split at hr
      · rename_i hfull
        cases hr; exact Or.inr (Or.inr ⟨rfl, rfl, hfull⟩)
      · split at hr
        · cases hr
        · rename_i d3 hs
          unfold result_strcatch at hs
          split at hs
          · cases hs
            unfold refresh_status at hr
            split at hr
            · cases hr
            · rcases refresh_loop_status _ _ _ _ _ (by decide) hr with r | r
              · exact Or.inl r
              · exact Or.inr (Or.inl r)
          · cases hs

theorem process_ipd_msg_status (d d1 : at_desc) (len L : Nat) (r : ret_code)
    (h : process_ipd_msg d len = some (r, d1, L)) :
    d1.result_status = d.result_status ∧ (r = ret_code.FAILURE → d1 = d) := by
  unfold process_ipd_msg at h
  split at h
  · cases h
  · cases h; exact ⟨rfl, fun _ => rfl⟩
  · cases h; exact ⟨rfl, fun hc => nomatch hc⟩

theorem call_app_callback_status (d : at_desc) (n : Nat) :
    (call_app_callback d n).result_status = d.result_status := by
  unfold call_app_callback
  split <;> rfl

theorem at_callback_status (d d1 : at_desc) (ev : UART_EVENT) (len : Nat)
    (h : at_callback d ev len = some d1) : status_step d d1 := by
  unfold at_callback at h
  split at h
  · cases h; exact Or.inl rfl
  · split at h
    · rename_i hcs
      have key : ∀ d2, d2 = d → module_msg_char d2 = some d1 → status_step d d1 := by
        intro d2 e hm
        subst e
        rcases module_msg_char_status _ _ hm with r | r | ⟨r1, r2, r3⟩
        · exact Or.inl r
        · exact Or.inr (Or.inl r)
        · exact Or.inr (Or.inr ⟨r1, r2, hcs, r3⟩)
      split at h
      · split at h
        · cases h
        · rename_i d2 L hp
          cases h
          exact Or.inl (process_ipd_msg_status d d2 len L _ hp).1
        · rename_i d2 L hp
          exact key d2 ((process_ipd_msg_status d d2 len L _ hp).2 rfl) h
      · exact key d rfl h
    · split at h
      · cases h
        exact Or.inl (call_app_callback_status d _)
      · cases h
        exact Or.inl (call_app_callback_status d _)
    · cases h
      exact Or.inl (call_app_callback_status _ _)
  · cases h; exact Or.inl rfl
  · cases h; exact Or.inl rfl

theorem uart_rx_byte_status (d d1 : at_desc) (len b : Nat)
    (h : uart_rx_byte d len b = some d1) : status_step d d1 := by
  unfold uart_rx_byte at h
  simp only [] at h
  split at h
  · cases h; exact Or.inl rfl
  · split at h
    · have r := at_callback_status _ _ _ _ h
      exact r
    · have r := at_callback_status _ _ _ _ h
      exact r

/-! ## The pending counter during the delivery of a payload -/

/-- Full chunks of a payload: from the start of a read, `q` chunks of `s` bytes
that do not exhaust the `R` bytes still to come give `q` notifications of `s`
bytes and leave the next read submitted. -/
theorem payload_chunks_run (len s : Nat) (hs : 1 ≤ s) : ∀ (q : Nat) (bs : List Nat) (d : at_desc)
    (R : Nat), payload_state d (min s R) (R - min s R) [] → d.app_callback = true →
    d.app_data.size = s → R < U32 → bs.length = q * s → q * s < R →
    ∃ d1, feed len d bs = some d1 ∧
      payload_state d1 (min s (R - q * s)) (R - q * s - min s (R - q * s)) [] ∧
      d1.app_callback = true ∧ d1.app_data.size = s ∧
      d1.app_notified = d.app_notified ++ List.replicate q s := by
  intro q
  induction q with
  | zero =>
    intro bs d R h hcb hsz _ hl _
    have : bs = [] := List.length_eq_zero.1 (by simpa using hl)
    subst this
    refine ⟨d, rfl, ?_, hcb, hsz, by simp⟩
    simpa using h
  | succ q ih =>
    intro bs d R h hcb hsz hu hl hlt
    have hmul : (q + 1) * s = q * s + s := Nat.succ_mul q s
    rw [hmul] at hl hlt
    have hsR : s < R := by omega
    rw [Nat.min_eq_left (Nat.le_of_lt hsR)] at h
    -- the first chunk
    have hne : bs.take s ≠ [] := by
      intro e
      have := congrArg List.length e
      simp only [List.length_take, List.length_nil] at this
      omega
    have hsplit : bs = (bs.take s).dropLast ++ ((bs.take s).getLast hne :: bs.drop s) := by
      conv_lhs => rw [← List.take_append_drop s bs, ← List.dropLast_append_getLast hne]
      simp
    have hdl : (bs.take s).dropLast.length = s - 1 := by
      simp only [List.length_dropLast, List.length_take]
      omega
    have hp := payload_partial_run len (bs.take s).dropLast d s (R - s) [] h
      (by rw [hdl]; simp only [List.length_nil]; omega)
    have hst := payload_state_midway_gen d s (R - s) ([] ++ (bs.take s).dropLast) h
    obtain ⟨d2, hf2, hst2, hn2, hsz2, hcb2⟩ := rx_payload_chunk _ len ((bs.take s).getLast hne)
      s (R - s) _ hst (by simp only [List.nil_append, hdl]; omega) (by omega) (by omega) hcb
    rw [show ({ d with uart := { d.uart with rd_got := [] ++ (bs.take s).dropLast } } :
        at_desc).app_data.size = s from hsz] at hst2
    obtain ⟨d1, hf1, hst1, hcb1, hsz1, hn1⟩ := ih (bs.drop s) d2 (R - s) hst2 hcb2
      (by rw [hsz2]; exact hsz) (by omega) (by simp only [List.length_drop]; omega) (by omega)
    refine ⟨d1, ?_, ?_, hcb1, hsz1, ?_⟩
    · rw [hsplit, feed_append, hp]
      show feed len _ (_ :: _) = _
      rw [feed_cons len _ d2 _ _ hf2]
      exact hf1
    · rw [hmul, show R - (q * s + s) = R - s - q * s by omega]
      exact hst1
    · rw [hn1, hn2]
      show d.app_notified ++ [s] ++ _ = _
      rw [List.append_assoc]
      rfl

/-- The bytes of a payload received so far, `k` of `L`: `k / s` notifications
have fired, the mode is payload-reading and the pending counter counts the bytes
that follow the read now outstanding. -/
theorem payload_pending_run (len s : Nat) (hs : 1 ≤ s) (bs : List Nat) (d : at_desc) (L : Nat)
    (h : payload_state d (min s L) (L - min s L) []) (hcb : d.app_callback = true)
    (hsz : d.app_data.size = s) (hu : L < U32) (hk : bs.length < L) :
    ∃ d1, feed len d bs = some d1 ∧
      d1.callback_state = callback_state_t.READING_PAYLOAD ∧
      d1.app_data.pending = L - (bs.length / s + 1) * s ∧
      d1.app_notified = d.app_notified ++ List.replicate (bs.length / s) s := by
  have hdm := Nat.div_add_mod bs.length s
  have hml := Nat.mod_lt bs.length (show s > 0 by omega)
  have hqs : bs.length / s * s = s * (bs.length / s) := Nat.mul_comm _ _
  obtain ⟨d1, hf1, hst1, _, _, hn1⟩ := payload_chunks_run len s hs (bs.length / s)
    (bs.take (bs.length / s * s)) d L h hcb hsz hu
    (by rw [List.length_take]; omega) (by omega)
  have hp := payload_partial_run len (bs.drop (bs.length / s * s)) d1 _ _ [] hst1
    (by simp only [List.length_nil, List.length_drop]; omega)
  refine ⟨{ d1 with uart := { d1.uart with rd_got := [] ++ bs.drop (bs.length / s * s) } },
    ?_, ?_, ?_, ?_⟩
  · conv_lhs => rw [← List.take_append_drop (bs.length / s * s) bs]
    rw [feed_append, hf1]
    exact hp
  · exact hst1.1
  · show d1.app_data.pending = _
    rw [hst1.2.2.2.2.2, Nat.succ_mul]
    omega
  · exact hn1

/-! ## The result circular buffer along a command -/

/-- C1. For every command and every operation kind whose bit is not set in the
command's allowed-operations mask, `at_run_cmd` returns `FAILURE`, hands nothing
to the transport and leaves the whole descriptor (command buffer, Result
Status, mode, connection table, response buffer) and the pending interrupts as
they were. -/
theorem run_cmd_rejects_disallowed_op (len : Nat) (desc : at_desc) (cmd : at_cmd)
    (op : cmd_operation) (param : Option in_param) (env : schedule)
    (h : (g_map cmd).2 &&& op.val = 0) :
    at_run_cmd len desc cmd op param env =
      Except.ok { ret := ret_code.FAILURE, desc := desc, out_result := false, env := env } := by
  unfold at_run_cmd
  rw [if_pos h]

/-- Witness of C1: the query operation on the reset command. -/
theorem run_cmd_rejects_disallowed_op_witness :
    at_run_cmd 0 (idle_desc false 64) at_cmd.AT_RESET cmd_operation.AT_QUERY_OP none
        [[irq.tx_done], [irq.rx 13]] =
      Except.ok { ret := ret_code.FAILURE, desc := idle_desc false 64, out_result := false,
                  env := [[irq.tx_done], [irq.rx 13]] } :=
  run_cmd_rejects_disallowed_op 0 (idle_desc false 64) at_cmd.AT_RESET
    cmd_operation.AT_QUERY_OP none _ (by decide)

/-- C2. For each of the four terminator patterns, from module-message mode,
single-connection, an empty response buffer and all progress counters zero:
feeding the bytes of the pattern one at a time completes no response before the
last byte, completes exactly that pattern at the last byte (the log of
completions grows by this one entry), and leaves the four counters at zero. -/
theorem terminator_reported_once (d : at_desc) (len i : Nat) (hi : i < 4)
    (ha : awaiting_char d) (hsingle : d.multiple_conections = false)
    (hempty : d.result_len = 0) (hctr : d.match_idx = [0, 0, 0, 0]) :
    (∀ k < (responses i).length, ∃ dk, feed len d ((responses i).take k) = some dk ∧
        dk.matched = d.matched) ∧
    ∃ d1, feed len d (responses i) = some d1 ∧ d1.matched = d.matched ++ [i] ∧
      d1.match_idx = [0, 0, 0, 0] := by
  have hlen11 := responses_length_le i
  have hbytes : ∀ x ∈ responses i, x ≠ 58 ∧ x ≠ 62 := by
    interval_cases i <;> decide
  have hclean : ∀ k < (responses i).length, ∀ u, u <+: (responses i).take k → u ≠ [] →
      no_response_ends ([] ++ u) := by
    intro k hk u hu _ j hj
    obtain ⟨e, hle⟩ := prefix_of_take _ _ _ hu
    rw [List.nil_append, e]
    exact responses_take_clean i hi u.length (by omega) j hj
  constructor
  · intro k hk
    obtain ⟨dk, hf, _, hd⟩ := feed_nomatch len ((responses i).take k) d [] ha
      (ctrs_track_zero d hctr)
      (by rw [hempty, List.length_take]; show _ ≤ 500; omega)
      (fun x hx => hbytes x (List.mem_of_mem_take hx)) (hclean k hk)
    exact ⟨dk, hf, by rw [hd]⟩
  · have hT := responses_split i hi
    have hTl : (responses i).dropLast.length + 1 = (responses i).length := by
      conv_rhs => rw [hT]
      simp
    have hdl : (responses i).dropLast = (responses i).take ((responses i).length - 1) := by
      rw [List.dropLast_eq_take]
    obtain ⟨dm, hf, hdm⟩ := feed_until_match len d [] (responses i).dropLast 10 i ha
      (ctrs_track_zero d hctr)
      (by rw [hempty]; show _ < 500; omega)
      (by rw [← hT]; exact hbytes)
      (by rw [hdl]; exact hclean _ (by omega))
      hi (by rw [List.nil_append, ← hT])
    rw [← hT] at hf
    rw [hf]
    have hma : dm.matched = d.matched := by
      have := congrArg at_desc.matched hdm
      simp only [] at this
      exact this
    have hmu : dm.multiple_conections = false := by
      have := congrArg at_desc.multiple_conections hdm
      simp only [] at this
      rw [this]; exact hsingle
    interval_cases i
    · exact ⟨_, rfl, by show dm.matched ++ _ = _; rw [hma], rfl⟩
    · exact ⟨_, rfl, by show dm.matched ++ _ = _; rw [hma], rfl⟩
    · exact ⟨_, rfl, by show dm.matched ++ _ = _; rw [hma], rfl⟩
    · rw [on_match_closed_single dm hmu]
      exact ⟨_, rfl, by show dm.matched ++ _ = _; rw [hma], rfl⟩

/-- Witness of C2: the pattern `"\r\nOK\r\n"` fed to a descriptor at rest. -/
theorem terminator_reported_once_witness :
    (∀ k < (responses 1).length, ∃ dk,
        feed 0 (idle_desc false 64) ((responses 1).take k) = some dk ∧
        dk.matched = (idle_desc false 64).matched) ∧
    ∃ d1, feed 0 (idle_desc false 64) (responses 1) = some d1 ∧
      d1.matched = (idle_desc false 64).matched ++ [1] ∧ d1.match_idx = [0, 0, 0, 0] :=
  terminator_reported_once (idle_desc false 64) 0 1 (by decide) ⟨rfl, rfl, rfl, rfl⟩ rfl rfl rfl

/-- C3. For every byte string `P` without `':'` and `'>'` and every solicited
terminator `T` (`"\r\nERROR\r\n"`, `"\r\nOK\r\n"`, `"\r\nSEND OK\r\n"`) with
`|P| + |T| <= 500` such that no proper beginning of `P ++ T` ends with one of the
four patterns: feeding `P ++ T` byte by byte in module-message mode, from an
empty response buffer and zero counters, leaves the response buffer equal to
`P`, all counters zero, and Result Status error for `ERROR` and available for
`OK` and `SEND OK`. -/
theorem solicited_response_trimmed (d : at_desc) (len : Nat) (P : List Nat) (t : Nat)
    (ht : t < 3) (ha : awaiting_char d) (hempty : d.result_len = 0)
    (hctr : d.match_idx = [0, 0, 0, 0])
    (hP : ∀ b ∈ P, b ≠ 58 ∧ b ≠ 62)
    (hcap : P.length + (responses t).length ≤ RESULT_BUFF_LEN)
    (hno : ∀ k < (P ++ responses t).length, ∀ i < 4,
      ¬ responses i <:+ (P ++ responses t).take k) :
    ∃ d1, feed len d (P ++ responses t) = some d1 ∧ result_view d1 = P ∧
      d1.match_idx = [0, 0, 0, 0] ∧
      d1.result_status = (if t = 0 then result_status_t.RESULT_ERROR
                          else result_status_t.RESULT_AVAILABE) := by
  have ht4 : t < 4 := by omega
  have hT := responses_split t ht4
  have hTl : (responses t).dropLast.length + 1 = (responses t).length := by
    conv_rhs => rw [hT]
    simp
  have hTge : 6 ≤ (responses t).length := by interval_cases t <;> decide
  have hcap5 : P.length + (responses t).length ≤ 500 := hcap
  have hTb : ∀ b ∈ (responses t).dropLast, b ≠ 58 ∧ b ≠ 62 := by
    interval_cases t <;> decide
  have hs : P ++ responses t = (P ++ (responses t).dropLast) ++ [10] := by
    rw [List.append_assoc, ← hT]
  obtain ⟨d1, hf, ht1, hd1⟩ := feed_nomatch len (P ++ (responses t).dropLast) d []
    ha (ctrs_track_zero d hctr)
    (by rw [hempty, List.length_append]; show _ ≤ 500; omega)
    (by
      intro b hb
      rcases List.mem_append.1 hb with h | h
      · exact hP b h
      · exact hTb b h)
    (by
      intro u hu hne i hi
      have hlt : u.length < (P ++ responses t).length := by
        have := hu.length_le
        simp only [List.length_append] at this ⊢
        omega
      have h1 := hno u.length hlt i hi
      have h2 : (P ++ responses t).take u.length = u := by
        rw [hs]
        have h3 := List.prefix_iff_eq_take.1 (hu.trans (List.prefix_append _ [10]))
        exact h3.symm
      rw [h2] at h1
      simpa using h1)
  have ha1 : awaiting_char d1 := by rw [hd1]; exact ha
  have hl1 : d1.result_len = P.length + (responses t).dropLast.length := by
    rw [hd1]; show d.result_len + _ = _; rw [hempty, List.length_append]; omega
  have hyes : responses t <:+ [] ++ (P ++ (responses t).dropLast) ++ [10] := by
    rw [List.nil_append, ← hs]; exact List.suffix_append _ _
  obtain ⟨mi, hrx⟩ := rx_match d1 len 10 t _ ha1
    (by rw [hl1]; show _ < 500; omega) (by decide) (Or.inl (by decide)) ht1 ht4 hyes
    (fun j hj => responses_not_nested t j ht4 (by omega) (by omega) _ hyes)
  have hlen2 : sub32 (d1.result_len + 1) (responses t).length = P.length := by
    rw [sub32_small _ _ (by omega) (by unfold U32; omega)]; omega
  have hb1 : d1.result_buff = buff_writes d.result_buff 0 (P ++ (responses t).dropLast) := by
    rw [hd1]; show buff_writes d.result_buff d.result_len _ = _; rw [hempty]
  have hview : buff_slice (buff_write d1.result_buff d1.result_len 10) 0 P.length = P := by
    have h1 : buff_write d1.result_buff d1.result_len 10
        = buff_writes d.result_buff 0 (P ++ responses t) := by
      rw [hs, buff_writes_append, hb1, hl1, Nat.zero_add, List.length_append]
      rfl
    rw [h1, buff_slice_writes_take _ _ 0 P.length (by simp)]
    simp
  rw [hlen2] at hrx
  have hfin : feed len d (P ++ responses t) = uart_rx_byte d1 len 10 := by
    rw [hs, feed_append, hf]
    show (match uart_rx_byte d1 len 10 with
      | none => none
      | some d => feed len d []) = _
    cases uart_rx_byte d1 len 10 <;> rfl
  rw [hfin, hrx]
  interval_cases t
  · exact ⟨_, rfl, hview, rfl, rfl⟩
  · exact ⟨_, rfl, hview, rfl, rfl⟩
  · exact ⟨_, rfl, hview, rfl, rfl⟩

/-- Witness of C3: the response `"abc\r\nOK\r\n"`. -/
theorem solicited_response_trimmed_witness :
    ∃ d1, feed 0 (idle_desc false 64) ([97, 98, 99] ++ responses 1) = some d1 ∧
      result_view d1 = [97, 98, 99] ∧ d1.match_idx = [0, 0, 0, 0] ∧
      d1.result_status = (if 1 = 0 then result_status_t.RESULT_ERROR
                          else result_status_t.RESULT_AVAILABE) :=
  solicited_response_trimmed (idle_desc false 64) 0 [97, 98, 99] 1 (by decide)
    ⟨rfl, rfl, rfl, rfl⟩ rfl rfl (by decide) (by decide) (by decide)

set_option maxRecDepth 100000 in
/-- C4, as stated, fails: in multiplexed mode with a response buffer that
already holds 495 bytes and connection 2 active, feeding `"2,CLOSED\r\n"` fills
the buffer after five bytes; the rest is dropped, connection 2 stays active and
Result Status becomes overflow. -/
theorem closed_notice_lost_when_full :
    (feed 0 { idle_desc true 64 with
                result_buff := List.replicate 495 97, result_len := 495
                connections := List.replicate 4 { active := true, type := socket_type.SOCKET_TCP } }
        (closed_notice true 2)).map
      (fun d => (d.connections.get? 2, d.result_status, d.result_len)) =
    some (some { active := true, type := socket_type.SOCKET_TCP },
          result_status_t.OVERFLOW_ERROR, 500) := by
  decide

/-- C4, amended. In module-message mode with every progress counter below its
pattern length and room for the notice in the response buffer (at most 490
bytes held in multiplexed mode, 492 otherwise): feeding `"<c>,CLOSED\r\n"` with
a digit `c` in `0..3` in multiplexed mode, or `"CLOSED\r\n"` in
single-connection mode, marks connection `c` (connection 0 in
single-connection mode) inactive, leaves every other entry of the connection
table and the Result Status unchanged, and leaves the response buffer with the
content it had before the notice. -/
theorem closed_notice_marks_inactive (d : at_desc) (len c m0 m1 m2 m3 : Nat)
    (ha : awaiting_char d) (hidx : d.match_idx = [m0, m1, m2, m3])
    (h0 : m0 < (responses 0).length) (h1 : m1 < (responses 1).length)
    (h2 : m2 < (responses 2).length) (h3 : m3 < (responses 3).length)
    (hc : c < 4)
    (hcap : d.result_len + (closed_notice d.multiple_conections c).length ≤ RESULT_BUFF_LEN) :
    ∃ d1, feed len d (closed_notice d.multiple_conections c) = some d1 ∧
      d1.connections.get? (if d.multiple_conections then c else 0) =
        (d.connections.get? (if d.multiple_conections then c else 0)).map
          (fun x => { x with active := false }) ∧
      (∀ j, j ≠ (if d.multiple_conections then c else 0) →
        d1.connections.get? j = d.connections.get? j) ∧
      result_view d1 = result_view d ∧ d1.result_status = d.result_status := by
  cases hm : d.multiple_conections with
  | true =>
    rw [hm] at hcap
    obtain ⟨d1, hf, hcn, hv, hs⟩ := closed_notice_multi d len c m0 m1 m2 m3 ha hidx h0 h1 h2 h3
      hm hc hcap
    refine ⟨d1, hf, ?_, ?_, hv, hs⟩
    · rw [hcn]; exact conn_close_get_same _ _
    · intro j hj; rw [hcn]; exact conn_close_get_other _ _ _ hj
  | false =>
    rw [hm] at hcap
    obtain ⟨d1, hf, hcn, hv, hs⟩ := closed_notice_single d len m0 m1 m2 m3 ha hidx h0 h1 h2 h3
      hm hcap
    refine ⟨d1, hf, ?_, ?_, hv, hs⟩
    · rw [hcn]; exact conn_close_get_same _ _
    · intro j hj; rw [hcn]; exact conn_close_get_other _ _ _ hj

/-- Witness of C4 (amended): `"2,CLOSED\r\n"` in multiplexed mode, with `"ab"` in
the response buffer and the four connections open: connection 2 is marked
inactive, the other three stay open, the buffer holds `"ab"` again. -/
theorem closed_notice_marks_inactive_witness :
    ∃ d1, feed 0 open_desc (closed_notice true 2) = some d1 ∧
      d1.connections.get? 2 = some { active := false, type := socket_type.SOCKET_UDP } ∧
      d1.connections.get? 0 = some { active := true, type := socket_type.SOCKET_TCP } ∧
      d1.connections.get? 1 = some { active := true, type := socket_type.SOCKET_TCP } ∧
      d1.connections.get? 3 = some { active := true, type := socket_type.SOCKET_TCP } ∧
      result_view d1 = [97, 98] ∧ d1.result_status = result_status_t.WAITING_RESULT := by
  obtain ⟨d1, h, h1, h2, h3, h4⟩ := closed_notice_marks_inactive open_desc 0 2 0 0 0 0
    ⟨rfl, rfl, rfl, rfl⟩ rfl (by decide) (by decide) (by decide) (by decide) (by decide)
    (by decide)
  exact ⟨d1, h, h1, h2 0 (by decide), h2 1 (by decide), h2 3 (by decide), h3, h4⟩

/-- C10. While the mode is unvarnished, `at_run_cmd` fails for every command,
operation and parameter other than the transport-mode command carrying
`NORMAL_MODE`: it returns `FAILURE`, hands nothing to the transport and leaves
the descriptor, hence the unvarnished mode, as it was. (The transport-mode
command with a permitted operation reads its parameter object, so it is given
one.) -/
theorem run_cmd_fails_while_unvarnished (len : Nat) (desc : at_desc) (cmd : at_cmd)
    (op : cmd_operation) (param : Option in_param) (env : schedule)
    (hmode : desc.callback_state = callback_state_t.READING_UNVARNISHED)
    (hother : cmd ≠ at_cmd.AT_SET_TRANSPORT_MODE ∨ (g_map cmd).2 &&& op.val = 0 ∨
      ∃ p, param = some p ∧ p.transport_mode ≠ cipmode_param.NORMAL_MODE) :
    at_run_cmd len desc cmd op param env =
      Except.ok { ret := ret_code.FAILURE, desc := desc, out_result := false, env := env } := by
  unfold at_run_cmd
  by_cases hop : (g_map cmd).2 &&& op.val = 0
  · rw [if_pos hop]
  · rw [if_neg hop]
    simp only [hmode, if_true]
    rcases hother with h | h | ⟨p, hp, hne⟩
    · rw [if_neg h]
    · exact absurd h hop
    · by_cases hc : cmd = at_cmd.AT_SET_TRANSPORT_MODE
      · rw [if_pos hc, hp]
        simp only [if_neg hne]
      · rw [if_neg hc]

/-- Witness of C10: a version query while unvarnished. -/
theorem run_cmd_fails_while_unvarnished_witness :
    at_run_cmd 0
        { idle_desc false 64 with callback_state := callback_state_t.READING_UNVARNISHED }
        at_cmd.AT_GET_VERSION cmd_operation.AT_EXECUTE_OP none [[irq.tx_done]] =
      Except.ok { ret := ret_code.FAILURE
                  desc := { idle_desc false 64 with
                    callback_state := callback_state_t.READING_UNVARNISHED }
                  out_result := false, env := [[irq.tx_done]] } :=
  run_cmd_fails_while_unvarnished 0 _ at_cmd.AT_GET_VERSION cmd_operation.AT_EXECUTE_OP none _
    rfl (Or.inl (by decide))

/-- C7. For every length `n` below `2^31`, written as an unsigned decimal numeral,
and every response buffer that ends in `"\r\n+IPD,<n>"` (single-connection
mode) or `"\r\n+IPD,<c>,<n>"` with a one-digit id `c` (multiplexed mode),
`process_ipd_msg` returns `SUCCESS` and reports exactly the length `n`. -/
theorem ipd_length_parsed (d : at_desc) (len n c : Nat) (pre : List Nat)
    (hn : n < 2147483648) (hc : c ≤ 9) (hcap : d.result_len ≤ RESULT_BUFF_LEN)
    (hview : result_view d =
      pre ++ [13, 10] ++ at_ipd ++ ipd_body d.multiple_conections c (decimal n)) :
    ∃ d1, process_ipd_msg d len = some (ret_code.SUCCESS, d1, n) := by
  obtain ⟨hne, hd, hval, hlen⟩ := decimal_spec n
  have := ipd_header_parsed d len c pre (decimal n) (by rw [hview, List.append_assoc]) hcap hc
    hne hd (hlen 10 (by decide) (by omega)) (by rw [hval]; omega)
  rw [hval] at this
  exact ⟨_, this⟩

/-- Witness of C7: the buffer `"\r\n+IPD,128"` in single-connection mode. -/
theorem ipd_length_parsed_witness :
    ∃ d1, process_ipd_msg
        { idle_desc false 64 with
          result_buff := [13, 10, 43, 73, 80, 68, 44, 49, 50, 56], result_len := 10 } 7
      = some (ret_code.SUCCESS, d1, 128) :=
  ipd_length_parsed _ 7 128 0 [] (by decide) (by decide) (by decide) (by decide)


/-- C5, as stated, fails: in multiplexed mode with a destination of 4000000000
bytes and the header `"\r\n+IPD,0,3000000000"` in the response buffer, `':'`
makes the driver request 2147483647 bytes (the value `strtol` saturates to for
a 32-bit `long`), not the 3000000000 bytes that were announced. -/
theorem ipd_length_saturates :
    decimal 3000000000 = [51, 48, 48, 48, 48, 48, 48, 48, 48, 48] ∧
    (uart_rx_byte { idle_desc true 4000000000 with
          result_buff := [13, 10, 43, 73, 80, 68, 44, 48, 44,
                          51, 48, 48, 48, 48, 48, 48, 48, 48, 48]
          result_len := 19 } 0 58).map
      (fun d => (d.callback_state, d.uart.rd_len, d.app_data.pending)) =
    some (callback_state_t.READING_PAYLOAD, 2147483647, 0) := by
  decide

/-- C5, amended. In multiplexed and module-message mode, with an application
callback installed, for every one-digit connection id `c` and every payload
length `n` with `1 <= n <= destination capacity` and `n < 2^31`: when the
response buffer ends with `"\r\n+IPD,<c>,<n>"` and `':'` is received, the driver
goes to payload-reading and requests exactly `n` bytes into the application
buffer; it stays there without any notification until the `n` bytes have
arrived, then notifies the application exactly once, with length `n`, and is
back in module-message mode with the Pending Payload Counter at zero and the
payload in the application buffer. -/
theorem ipd_payload_delivered_once (d : at_desc) (len n c : Nat) (pre pl : List Nat)
    (ha : awaiting_char d) (hm : d.multiple_conections = true)
    (hcb : d.app_callback = true) (hc : c ≤ 9)
    (hn1 : 1 ≤ n) (hns : n ≤ d.app_data.size) (hn : n < 2147483648)
    (hcap : d.result_len ≤ RESULT_BUFF_LEN)
    (hview : result_view d = pre ++ [13, 10] ++ at_ipd ++ [48 + c, 44] ++ decimal n)
    (hpl : pl.length = n) :
    (∃ d1, feed len d [58] = some d1 ∧
        d1.callback_state = callback_state_t.READING_PAYLOAD ∧
        d1.uart.rd_target = read_target.APP_BUFF ∧ d1.uart.rd_len = n ∧
        d1.app_notified = d.app_notified) ∧
    (∀ k < n, ∃ dk, feed len d (58 :: pl.take k) = some dk ∧
        dk.callback_state = callback_state_t.READING_PAYLOAD ∧
        dk.app_notified = d.app_notified) ∧
    ∃ d2, feed len d (58 :: pl) = some d2 ∧
      d2.callback_state = callback_state_t.READING_MODULE_MSG ∧
      d2.app_notified = d.app_notified ++ [n] ∧ d2.app_data.pending = 0 ∧
      d2.app_data.data_buff = pl := by
  obtain ⟨hne, hd, hval, hlen⟩ := decimal_spec n
  have hv : result_view d =
      (pre ++ [13, 10]) ++ (at_ipd ++ ipd_body d.multiple_conections c (decimal n)) := by
    rw [hview, hm]
    simp [ipd_body]
  obtain ⟨d1, hf, hst, hcb1, hsz, hnot, _⟩ := rx_colon_header d len c pre (decimal n) ha hv hcap
    hc hne hd (hlen 10 (by decide) (by omega)) (by rw [hval]; omega)
  rw [hval, Nat.min_eq_right hns, Nat.sub_self] at hst
  have hpart : ∀ k < n, feed len d (58 :: pl.take k) =
      some { d1 with uart := { d1.uart with rd_got := pl.take k } } := by
    intro k hk
    rw [feed_cons len d d1 58 _ hf]
    have := payload_partial_run len (pl.take k) d1 n 0 [] hst
      (by simp only [List.length_nil, List.length_take]; omega)
    rw [this, List.nil_append]
  refine ⟨⟨d1, by rw [feed_cons len d d1 58 [] hf]; rfl, hst.1, hst.2.1, hst.2.2.1, hnot⟩,
    ?_, ?_⟩
  · intro k hk
    exact ⟨_, hpart k hk, hst.1, hnot⟩
  · obtain ⟨b, hb⟩ : ∃ b, pl = pl.take (n - 1) ++ [b] := by
      have hne2 : pl ≠ [] := by
        intro h0; rw [h0] at hpl; simp at hpl; omega
      refine ⟨pl.getLast hne2, ?_⟩
      have := List.dropLast_append_getLast hne2
      rw [List.dropLast_eq_take, hpl] at this
      exact this.symm
    have hlast := rx_payload_last { d1 with uart := { d1.uart with rd_got := pl.take (n - 1) } }
      len b n (pl.take (n - 1))
      (payload_state_midway_gen d1 n 0 (pl.take (n - 1)) hst)
      (by simp only [List.length_take]; omega) (by show d1.app_callback = true; rw [hcb1]; exact hcb)
    obtain ⟨d2, hf2, hm2, hn2, hp2, hb2, _⟩ := hlast
    refine ⟨d2, ?_, hm2, ?_, hp2, ?_⟩
    · rw [hb, ← List.cons_append, feed_append, hpart (n - 1) (by omega)]
      show feed len _ [b] = _
      rw [feed_cons len _ d2 b [] hf2]
      rfl
    · rw [hn2]; show d1.app_notified ++ _ = _; rw [hnot]
    · rw [hb2, ← hb]


/-- Witness of C5 (amended): the stream `"\r\n+IPD,0,5:HELLO"`. -/
theorem ipd_payload_delivered_once_witness :
    (∃ d1, feed 0 { idle_desc true 64 with
            result_buff := [13, 10, 43, 73, 80, 68, 44, 48, 44, 53], result_len := 10 } [58]
          = some d1 ∧
        d1.callback_state = callback_state_t.READING_PAYLOAD ∧
        d1.uart.rd_target = read_target.APP_BUFF ∧ d1.uart.rd_len = 5 ∧
        d1.app_notified = []) ∧
    (∀ k < 5, ∃ dk, feed 0 { idle_desc true 64 with
            result_buff := [13, 10, 43, 73, 80, 68, 44, 48, 44, 53], result_len := 10 }
          (58 :: ([72, 69, 76, 76, 79] : List Nat).take k) = some dk ∧
        dk.callback_state = callback_state_t.READING_PAYLOAD ∧
        dk.app_notified = []) ∧
    ∃ d2, feed 0 { idle_desc true 64 with
            result_buff := [13, 10, 43, 73, 80, 68, 44, 48, 44, 53], result_len := 10 }
          (58 :: [72, 69, 76, 76, 79]) = some d2 ∧
      d2.callback_state = callback_state_t.READING_MODULE_MSG ∧
      d2.app_notified = [] ++ [5] ∧ d2.app_data.pending = 0 ∧
      d2.app_data.data_buff = [72, 69, 76, 76, 79] :=
  ipd_payload_delivered_once
    { idle_desc true 64 with
      result_buff := [13, 10, 43, 73, 80, 68, 44, 48, 44, 53], result_len := 10 }
    0 5 0 [] [72, 69, 76, 76, 79] ⟨rfl, rfl, rfl, rfl⟩ rfl rfl (by decide) (by decide)
    (by decide) (by decide) (by decide) (by decide) rfl

/-- C6, as stated, fails: in single-connection mode with a destination of 100
bytes and the header `"\r\n+IPD,5000000000"` in the response buffer, `':'`
leaves a first read of 100 bytes and 2147483547 bytes pending, 2147483647 bytes
in all: the notifications cannot add up to the 5000000000 bytes that were
announced. -/
theorem ipd_chunks_saturate :
    decimal 5000000000 = [53, 48, 48, 48, 48, 48, 48, 48, 48, 48] ∧
    (uart_rx_byte { idle_desc false 100 with
          result_buff := [13, 10, 43, 73, 80, 68, 44,
                          53, 48, 48, 48, 48, 48, 48, 48, 48, 48]
          result_len := 17 } 0 58).map
      (fun d => (d.callback_state, d.uart.rd_len, d.app_data.pending)) =
    some (callback_state_t.READING_PAYLOAD, 100, 2147483547) := by
  decide

/-- C6, amended. In single-connection and module-message mode, with an
application callback installed, for every payload length `L` with
`1 <= L < 2^31` announced by `"\r\n+IPD,<L>:"` and every fixed destination
capacity `s` with `1 <= s < L`: the delivery of the `L` payload bytes consists
of `ceil(L / s)` notifications, each of length at most `s`, whose lengths add up
to exactly `L`; the mode is payload-reading until the last byte has arrived and
module-message after it. -/
theorem ipd_payload_delivered_in_chunks (d : at_desc) (len L : Nat) (pre pl : List Nat)
    (ha : awaiting_char d) (hm : d.multiple_conections = false)
    (hcb : d.app_callback = true)
    (hs1 : 1 ≤ d.app_data.size) (hsL : d.app_data.size < L) (hL : L < 2147483648)
    (hcap : d.result_len ≤ RESULT_BUFF_LEN)
    (hview : result_view d = pre ++ [13, 10] ++ at_ipd ++ decimal L)
    (hpl : pl.length = L) :
    (∀ k < L, ∃ dk, feed len d (58 :: pl.take k) = some dk ∧
        dk.callback_state = callback_state_t.READING_PAYLOAD) ∧
    ∃ d2 N, feed len d (58 :: pl) = some d2 ∧
      d2.callback_state = callback_state_t.READING_MODULE_MSG ∧
      d2.app_notified = d.app_notified ++ N ∧
      N.length = (L + d.app_data.size - 1) / d.app_data.size ∧
      (∀ x ∈ N, x ≤ d.app_data.size) ∧ N.sum = L := by
  obtain ⟨hne, hd, hval, hlen⟩ := decimal_spec L
  have hv : result_view d =
      (pre ++ [13, 10]) ++ (at_ipd ++ ipd_body d.multiple_conections 0 (decimal L)) := by
    rw [hview, hm]
    simp [ipd_body]
  obtain ⟨d1, hf, hst, hcb1, hsz, hnot, _⟩ := rx_colon_header d len 0 pre (decimal L) ha hv hcap
    (by decide) hne hd (hlen 10 (by decide) (by omega)) (by rw [hval]; omega)
  rw [hval, Nat.min_eq_left (by omega)] at hst
  have hcb2 : d1.app_callback = true := by rw [hcb1]; exact hcb
  constructor
  · intro k hk
    rw [feed_cons len d d1 58 _ hf]
    exact payload_run_before len (pl.take k) d1 _ _ [] hst hcb2 (by rw [hsz]; exact hs1)
      (by simpa using hs1) (by unfold U32; omega)
      (by simp only [List.length_nil, List.length_take]; omega)
  · obtain ⟨d2, N, hf2, hm2, hn2, hsum, hall, hcnt, _⟩ :=
      payload_run_all len pl d1 _ _ [] hst hcb2 (by rw [hsz]; exact hs1)
        (by simpa using hs1) (by rw [hsz]) (by unfold U32; omega)
        (by simp only [List.length_nil]; omega)
    refine ⟨d2, N, ?_, hm2, ?_, ?_, ?_, ?_⟩
    · rw [feed_cons len d d1 58 _ hf]; exact hf2
    · rw [hn2, hnot]
    · rw [hcnt, hsz]
      have := chunk_count d.app_data.size L hs1 (by omega)
      rw [Nat.min_eq_left (by omega)] at this
      exact this
    · intro x hx
      have := hall x hx
      rw [hsz] at this; exact this
    · rw [hsum]; omega

/-- Witness of C6 (amended): 128 bytes announced, a destination of 50 bytes. -/
theorem ipd_payload_delivered_in_chunks_witness :
    (∀ k < 128, ∃ dk, feed 0 { idle_desc false 50 with
            result_buff := [13, 10, 43, 73, 80, 68, 44, 49, 50, 56], result_len := 10 }
          (58 :: (List.replicate 128 120).take k) = some dk ∧
        dk.callback_state = callback_state_t.READING_PAYLOAD) ∧
    ∃ d2 N, feed 0 { idle_desc false 50 with
            result_buff := [13, 10, 43, 73, 80, 68, 44, 49, 50, 56], result_len := 10 }
          (58 :: List.replicate 128 120) = some d2 ∧
      d2.callback_state = callback_state_t.READING_MODULE_MSG ∧
      d2.app_notified = [] ++ N ∧
      N.length = (128 + 50 - 1) / 50 ∧ (∀ x ∈ N, x ≤ 50) ∧ N.sum = 128 :=
  ipd_payload_delivered_in_chunks
    { idle_desc false 50 with
      result_buff := [13, 10, 43, 73, 80, 68, 44, 49, 50, 56], result_len := 10 }
    0 128 [] (List.replicate 128 120) ⟨rfl, rfl, rfl, rfl⟩ rfl rfl (by decide) (by decide)
    (by decide) (by decide) (by decide) (by simp)


set_option maxRecDepth 100000 in
/-- C8, as stated, fails: with a full response buffer (500 bytes, none of them a
digit or a comma) the backward scan finds no header, yet `':'` is not appended:
the buffer keeps its 500 bytes and Result Status becomes overflow. -/
theorem colon_dropped_when_full :
    ipd_scan (List.replicate 500 97) max_ch_search (sub32 500 1) = some (499, false) ∧
    (uart_rx_byte { idle_desc false 64 with
                result_buff := List.replicate 500 97, result_len := 500 } 0 58).map
      (fun d => (d.callback_state, d.result_len, d.result_status)) =
    some (callback_state_t.READING_MODULE_MSG, 500, result_status_t.OVERFLOW_ERROR) := by
  decide

/-- C8, amended. When `':'` is received in module-message mode, the backward scan
ends inside the buffer without finding `"+IPD,"` and the response buffer is not
full, `':'` is ordinary content: the mode stays module-message, the Pending
Payload Counter and the application buffer fields are unchanged, the bytes
already in the response buffer are unchanged and `':'` is appended to them;
Result Status, the connection table and the outstanding one-byte read are
unchanged too. -/
theorem colon_without_header_is_content (d : at_desc) (len i : Nat) (ha : awaiting_char d)
    (hroom : d.result_len < RESULT_BUFF_LEN)
    (hscan : ipd_scan d.result_buff max_ch_search (sub32 d.result_len 1) = some (i, false)) :
    ∃ d1, uart_rx_byte d len 58 = some d1 ∧
      d1.callback_state = callback_state_t.READING_MODULE_MSG ∧
      d1.app_data = d.app_data ∧ result_view d1 = result_view d ++ [58] ∧
      d1.result_status = d.result_status ∧ d1.connections = d.connections ∧
      d1.uart = d.uart := by
  have hp := process_ipd_missed { d with read_ch := 58 } len i hscan
  rw [rx_awaiting d len 58 ha,
    at_callback_colon_missed { d with read_ch := 58 } len len { d with read_ch := 58 } ha.1 rfl hp,
    module_msg_char_ordinary { d with read_ch := 58 } hroom
      (Or.inl (show (58 : Nat) ≠ 62 by decide))]
  obtain ⟨mi, hmi⟩ := refresh_loop_colon NB_RESPONSES 0
    (store_char { d with read_ch := 58 } 58)
  have hr : ({ d with read_ch := 58 } : at_desc).read_ch = 58 := rfl
  rw [hr, hmi]
  refine ⟨_, rfl, ha.1, rfl, ?_, rfl, rfl, uart_eta d.uart ha.2.1 ha.2.2.1 ha.2.2.2⟩
  simp only [result_view, store_char]
  exact buff_slice_write_end _ _ _

/-- Witness of C8 (amended): `':'` after the text `"ab"`. -/
theorem colon_without_header_is_content_witness :
    ∃ d1, uart_rx_byte { idle_desc false 64 with result_buff := [97, 98], result_len := 2 }
        0 58 = some d1 ∧
      d1.callback_state = callback_state_t.READING_MODULE_MSG ∧
      d1.app_data = (idle_desc false 64).app_data ∧
      result_view d1 = result_view { idle_desc false 64 with
        result_buff := [97, 98], result_len := 2 } ++ [58] ∧
      d1.result_status = (idle_desc false 64).result_status ∧
      d1.connections = (idle_desc false 64).connections ∧
      d1.uart = (idle_desc false 64).uart :=
  colon_without_header_is_content
    { idle_desc false 64 with result_buff := [97, 98], result_len := 2 } 0 1
    ⟨rfl, rfl, rfl, rfl⟩ (by decide) (by decide)

/-- C9: the code at the failing inputs. With `"\r\n+IPD,"` in the buffer
(single-connection mode) or `"\r\n+IPD,12"` (multiplexed mode), `process_ipd_msg`
returns `SUCCESS` although `at_sscanf` stored no length: the caller's variable
keeps the value it happened to hold (7 here), and on `':'` the driver cuts the
header off the buffer and goes to payload-reading with a read of that many
bytes. -/
theorem malformed_header_starts_payload :
    ((process_ipd_msg { idle_desc false 64 with
        result_buff := [13, 10, 43, 73, 80, 68, 44], result_len := 7 } 7).map
      (fun r => (r.1, r.2.2)) = some (ret_code.SUCCESS, 7) ∧
    (uart_rx_byte { idle_desc false 64 with
        result_buff := [13, 10, 43, 73, 80, 68, 44], result_len := 7 } 7 58).map
      (fun d => (d.callback_state, d.uart.rd_target, d.uart.rd_len, d.result_len)) =
      some (callback_state_t.READING_PAYLOAD, read_target.APP_BUFF, 7, 0)) ∧
    ((process_ipd_msg { idle_desc true 64 with
        result_buff := [13, 10, 43, 73, 80, 68, 44, 49, 50], result_len := 9 } 7).map
      (fun r => (r.1, r.2.2)) = some (ret_code.SUCCESS, 7) ∧
    (uart_rx_byte { idle_desc true 64 with
        result_buff := [13, 10, 43, 73, 80, 68, 44, 49, 50], result_len := 9 } 7 58).map
      (fun d => (d.callback_state, d.uart.rd_target, d.uart.rd_len, d.result_len)) =
      some (callback_state_t.READING_PAYLOAD, read_target.APP_BUFF, 7, 0)) := by
  refine ⟨⟨?_, ?_⟩, ⟨?_, ?_⟩⟩ <;> decide

/-- An evaluated run of the transport-mode command: in multiplexed mode and with
no connection open, the command with `UNVARNISHED_MODE`, answered
`"\r\nOK\r\n"` by the module, returns `SUCCESS` and the mode is unvarnished. -/
theorem unvarnished_entered_unchecked :
    (match at_run_cmd 0 (idle_desc true 64) at_cmd.AT_SET_TRANSPORT_MODE
        cmd_operation.AT_SET_OP
        (some { in_param_zero with transport_mode := cipmode_param.UNVARNISHED_MODE })
        [[irq.tx_done], (responses 1).map irq.rx] with
     | Except.ok out =>
       some (out.ret, out.desc.callback_state, out.desc.multiple_conections,
             out.desc.connections.map (fun c => c.active))
     | Except.error _ => none) =
    some (ret_code.SUCCESS, callback_state_t.READING_UNVARNISHED, true,
          [false, false, false, false]) := by
  decide

/-- The guard of `enter_send_unvernished_mode`: it moves the mode to unvarnished
only when the driver is non-multiplexed and connection 0 is an active stream
(TCP) connection: in multiplexed mode, or with connection 0 inactive or not
TCP, it returns `FAILURE`, serves no interrupt and leaves the descriptor as it
was; and whenever it returns `SUCCESS` the three conditions held and the mode is
unvarnished. -/
theorem unvarnished_entry_guarded (len : Nat) (desc : at_desc) (env : schedule)
    (c : connection) (h0 : conn_read desc 0 = some c) :
    ((desc.multiple_conections = true ∨ c.type ≠ socket_type.SOCKET_TCP ∨ c.active = false) →
      enter_send_unvernished_mode len desc env = Except.ok (ret_code.FAILURE, desc, env)) ∧
    ∀ (d : at_desc) (e : schedule),
      enter_send_unvernished_mode len desc env = Except.ok (ret_code.SUCCESS, d, e) →
      desc.multiple_conections = false ∧ c.type = socket_type.SOCKET_TCP ∧ c.active = true ∧
        d.callback_state = callback_state_t.READING_UNVARNISHED := by
  have hbad : (desc.multiple_conections = true ∨ c.type ≠ socket_type.SOCKET_TCP ∨
      c.active = false) →
      enter_send_unvernished_mode len desc env = Except.ok (ret_code.FAILURE, desc, env) := by
    intro h
    unfold enter_send_unvernished_mode
    by_cases hm : desc.multiple_conections = true
    · simp only [hm, if_true]
    · rcases h with h | h | h
      · exact absurd h hm
      · simp only [hm, Bool.false_eq_true, if_false, h0, ne_eq, h, not_false_eq_true,
          decide_True, Bool.true_or]
      · simp only [hm, Bool.false_eq_true, if_false, h0, h, Bool.not_false, Bool.or_true]
  refine ⟨hbad, ?_⟩
  intro d e hs
  by_cases hg : desc.multiple_conections = true ∨ c.type ≠ socket_type.SOCKET_TCP ∨
      c.active = false
  · rw [hbad hg] at hs
    simp at hs
  · simp only [not_or, Bool.not_eq_true, Decidable.not_not, Bool.not_eq_false] at hg
    obtain ⟨hm, ht, hact⟩ := hg
    refine ⟨hm, ht, hact, ?_⟩
    unfold enter_send_unvernished_mode at hs
    simp only [hm, Bool.false_eq_true, if_false, h0, ht, ne_eq, not_true_eq_false,
      decide_False, hact, Bool.not_true, Bool.or_false] at hs
    cases hb : build_cmd desc at_cmd.AT_SEND cmd_operation.AT_EXECUTE_OP none with
    | none => rw [hb] at hs; simp at hs
    | some d1 =>
      rw [hb] at hs
      simp only [] at hs
      cases hw : write_cmd len { d1 with waiting_send := true } env with
      | error er => rw [hw] at hs; simp at hs
      | ok r =>
        obtain ⟨d2, env2⟩ := r
        rw [hw] at hs
        simp only [] at hs
        cases hbw : busy_wait len (fun d => d.waiting_send) d2 env2 with
        | error er => rw [hbw] at hs; simp at hs
        | ok r3 =>
          obtain ⟨d3, env3⟩ := r3
          rw [hbw] at hs
          simp only [Except.ok.injEq, Prod.mk.injEq, true_and] at hs
          rw [← hs.1]

/-- The guard at work: single-connection mode, connection 0 not open. -/
theorem unvarnished_entry_guarded_witness :
    enter_send_unvernished_mode 0 (idle_desc false 64) [[irq.tx_done]] =
      Except.ok (ret_code.FAILURE, idle_desc false 64, [[irq.tx_done]]) :=
  (unvarnished_entry_guarded 0 (idle_desc false 64) [[irq.tx_done]]
    { active := false, type := socket_type.SOCKET_TCP } rfl).1 (Or.inr (Or.inr rfl))

/-- C11. `at_run_cmd` enters the unvarnished mode without the checks that
`enter_send_unvernished_mode` makes. For every descriptor in module-message
mode with an empty response buffer, whatever its multiplexed flag and its
connection table: the transport-mode command with the set operation and
`UNVARNISHED_MODE` in the parameter object, answered `P ++ "\r\nOK\r\n"`,
returns `SUCCESS`, the mode is unvarnished afterwards and the multiplexed flag
and the connection table are what they were. So the mode is entered in
multiplexed mode, and with connection 0 closed or not a TCP connection. -/
theorem transport_mode_entry_unchecked (len : Nat) (desc d1 : at_desc) (p : in_param)
    (P : List Nat) (rest : schedule)
    (ha : awaiting_char desc) (hempty : desc.result_len = 0)
    (hctr : desc.match_idx = [0, 0, 0, 0])
    (hp : p.transport_mode = cipmode_param.UNVARNISHED_MODE)
    (hb : build_cmd desc at_cmd.AT_SET_TRANSPORT_MODE cmd_operation.AT_SET_OP (some p) = some d1)
    (hP : ∀ b ∈ P, b ≠ 58 ∧ b ≠ 62)
    (hcap : P.length + (responses 1).length ≤ RESULT_BUFF_LEN)
    (hno : ∀ k < (P ++ responses 1).length, ∀ i < 4,
      ¬ responses i <:+ (P ++ responses 1).take k)
    (hcb : desc.cb_response.length + P.length ≤ RESULT_BUFF_LEN) :
    ∃ out, at_run_cmd len desc at_cmd.AT_SET_TRANSPORT_MODE cmd_operation.AT_SET_OP (some p)
          ([irq.tx_done] :: (P ++ responses 1).map irq.rx :: rest) = Except.ok out ∧
      out.ret = ret_code.SUCCESS ∧
      out.desc.callback_state = callback_state_t.READING_UNVARNISHED ∧
      out.desc.multiple_conections = desc.multiple_conections ∧
      out.desc.connections = desc.connections := by
  have hde := dispatched_eq desc d1 _ _ _ hb
  have hc0 : (answered (dispatched d1) P 1).connections = desc.connections := by
    show (dispatched d1).connections = _
    rw [hde]
  have hm0 : (answered (dispatched d1) P 1).multiple_conections = desc.multiple_conections := by
    show (dispatched d1).multiple_conections = _
    rw [hde]
  have hcb0 : (answered (dispatched d1) P 1).cb_response = desc.cb_response := by
    show (dispatched d1).cb_response = _
    rw [hde]
  obtain ⟨f1, f2, f3⟩ := conn_update_frame (answered (dispatched d1) P 1)
    at_cmd.AT_SET_TRANSPORT_MODE cmd_operation.AT_SET_OP p
  have hrl : (conn_update (answered (dispatched d1) P 1) at_cmd.AT_SET_TRANSPORT_MODE
      cmd_operation.AT_SET_OP p).result_len = P.length := f1
  have hcu : conn_update (answered (dispatched d1) P 1) at_cmd.AT_SET_TRANSPORT_MODE
      cmd_operation.AT_SET_OP p =
      { answered (dispatched d1) P 1 with
        callback_state := callback_state_t.READING_UNVARNISHED } := by
    unfold conn_update
    simp only [reduceCtorEq, if_false, false_and, true_and, hp, if_true]
  have h := run_cmd_answered len desc d1 at_cmd.AT_SET_TRANSPORT_MODE cmd_operation.AT_SET_OP
    (some p) P 1 [] (P ++ responses 1) rest (by decide) ha hempty hctr (by decide)
    (by decide) (by decide) (by decide) hb hP hcap hno rfl (by simp [responses]) (by decide)
  rw [if_neg (by decide)] at h
  have h' : at_run_cmd len desc at_cmd.AT_SET_TRANSPORT_MODE cmd_operation.AT_SET_OP (some p)
      ([irq.tx_done] :: (P ++ responses 1).map irq.rx :: rest) =
      at_run_cmd_update len (answered (dispatched d1) P 1) at_cmd.AT_SET_TRANSPORT_MODE
        cmd_operation.AT_SET_OP (some p) rest := h
  rw [h', run_cmd_update_some len _ _ _ p rest (fun hc => absurd hc (by decide)),
    parse_result_copy len _ _ rest (by decide)
      (by rw [hrl]; have : RESULT_BUFF_LEN = 500 := rfl; omega)
      (by rw [hrl, f3, hcb0]; exact hcb)]
  refine ⟨_, rfl, rfl, ?_, ?_, ?_⟩
  · show (conn_update (answered (dispatched d1) P 1) at_cmd.AT_SET_TRANSPORT_MODE
      cmd_operation.AT_SET_OP p).callback_state = _
    rw [hcu]
  · show (conn_update (answered (dispatched d1) P 1) at_cmd.AT_SET_TRANSPORT_MODE
      cmd_operation.AT_SET_OP p).multiple_conections = _
    rw [hcu]; exact hm0
  · show (conn_update (answered (dispatched d1) P 1) at_cmd.AT_SET_TRANSPORT_MODE
      cmd_operation.AT_SET_OP p).connections = _
    rw [hcu]; exact hc0

/-- Witness of C11: multiplexed mode, no connection open, `AT+CIPMODE=1` answered
`"\r\nOK\r\n"`. -/
theorem transport_mode_entry_unchecked_witness :
    ∃ out, at_run_cmd 0 (idle_desc true 64) at_cmd.AT_SET_TRANSPORT_MODE
          cmd_operation.AT_SET_OP
          (some { in_param_zero with transport_mode := cipmode_param.UNVARNISHED_MODE })
          ([irq.tx_done] :: ([] ++ responses 1).map irq.rx :: []) = Except.ok out ∧
      out.ret = ret_code.SUCCESS ∧
      out.desc.callback_state = callback_state_t.READING_UNVARNISHED ∧
      out.desc.multiple_conections = true ∧
      out.desc.connections =
        List.replicate 4 { active := false, type := socket_type.SOCKET_TCP } :=
  transport_mode_entry_unchecked 0 (idle_desc true 64)
    { idle_desc true 64 with
      cmd_buff := [65, 84, 43, 67, 73, 80, 77, 79, 68, 69, 61, 49, 13, 10], cmd_len := 14 }
    { in_param_zero with transport_mode := cipmode_param.UNVARNISHED_MODE } [] []
    ⟨rfl, rfl, rfl, rfl⟩ rfl rfl rfl (by decide) (by decide) (by decide) (by decide)
    (by decide)

/-- C12. For a permitted command other than reset and deep-sleep, outside the
unvarnished mode. Under any schedule, `at_run_cmd` returns `SUCCESS` only if an
`OK` or `SEND OK` terminator was completed while it ran. When the command is
not send-data, its wire form fits the command buffer, and the bytes the module
sends during the wait complete none of the response patterns, hold no `':'` or
`'>'` and fit the response buffer (so neither a terminator nor an overflow
occurs), `at_run_cmd` does return, with `FAILURE`, and leaves Result Status
awaiting. And whatever Result Status the previous command left, the command
runs exactly as from Result Status awaiting: the dispatch resets it before it
transmits. -/
theorem run_cmd_times_out (len : Nat) (desc : at_desc) (cmd : at_cmd) (op : cmd_operation)
    (param : Option in_param) (hperm : (g_map cmd).2 &&& op.val ≠ 0)
    (hmode : desc.callback_state ≠ callback_state_t.READING_UNVARNISHED)
    (hc1 : cmd ≠ at_cmd.AT_DEEP_SLEEP) (hc2 : cmd ≠ at_cmd.AT_RESET) :
    (∀ (env : schedule) (out : run_out),
      at_run_cmd len desc cmd op param env = Except.ok out → out.ret = ret_code.SUCCESS →
      ok_count desc < ok_count out.desc) ∧
    (∀ (d1 : at_desc) (w : List Nat) (bs : List (List Nat)), awaiting_char desc →
      cmd ≠ at_cmd.AT_SEND → build_cmd desc cmd op param = some d1 → ctrs_track desc w →
      desc.result_len + bs.flatten.length ≤ RESULT_BUFF_LEN →
      (∀ b ∈ bs.flatten, b ≠ 58 ∧ b ≠ 62) →
      (∀ k < bs.flatten.length, ∀ i < 4, ¬ responses i <:+ w ++ bs.flatten.take (k + 1)) →
      ∃ out, at_run_cmd len desc cmd op param ([irq.tx_done] :: env_rx bs) = Except.ok out ∧
        out.ret = ret_code.FAILURE ∧
        out.desc.result_status = result_status_t.WAITING_RESULT) ∧
    ∀ (s : result_status_t) (env : schedule),
      at_run_cmd len { desc with result_status := s } cmd op param env =
        at_run_cmd len { desc with result_status := result_status_t.WAITING_RESULT }
          cmd op param env := by
  refine ⟨fun env out h hs => run_cmd_success_answered len desc cmd op param env out h hs hc2,
    ?_, ?_⟩
  · intro d1 w bs ha hc3 hb htrk hcap hbytes hno
    have hde := dispatched_eq desc d1 cmd op param hb
    have ha2 : awaiting_char (dispatched d1) := by rw [hde]; exact ha
    have htrk2 : ctrs_track (dispatched d1) w := by rw [hde]; exact htrk
    have hcap2 : (dispatched d1).result_len + bs.flatten.length ≤ RESULT_BUFF_LEN := by
      rw [hde]; exact hcap
    have hq : ∀ k ≤ bs.length, ∃ dk, feed len (dispatched d1) (bs.take k).flatten = some dk ∧
        dk.result_status = result_status_t.WAITING_RESULT := by
      intro k _
      obtain ⟨du, hf, hs⟩ := feed_quiet len (dispatched d1) w bs.flatten _ ha2 htrk2 hcap2
        hbytes (no_ends_of_take w _ hno) (take_flatten_initial bs k)
      exact ⟨du, hf, by rw [hs]; rfl⟩
    obtain ⟨d6, env6, hloop, hst⟩ := wait_loop_quiet len MODULE_TIMEOUT bs (dispatched d1) rfl hq
    rw [run_cmd_dispatch len desc d1 cmd op param _ hperm hmode hc1 hc2 hc3 hb]
    unfold wait_for_response
    rw [hloop]
    simp only [hst, ne_eq, reduceCtorEq, not_false_eq_true, if_true]
    exact ⟨_, rfl, rfl, hst⟩
  · intro s env
    rw [run_cmd_status len s desc cmd op param env hperm hmode hc1,
      run_cmd_status len result_status_t.WAITING_RESULT desc cmd op param env hperm hmode hc1]

/-- Witness of C12: the version query; the module sends `"ab"` and then `"c"`,
and no terminator. -/
theorem run_cmd_times_out_witness :
    ∃ out, at_run_cmd 0 (idle_desc false 64) at_cmd.AT_GET_VERSION
          cmd_operation.AT_EXECUTE_OP none ([irq.tx_done] :: env_rx [[97, 98], [99]])
        = Except.ok out ∧
      out.ret = ret_code.FAILURE ∧
      out.desc.result_status = result_status_t.WAITING_RESULT :=
  (run_cmd_times_out 0 (idle_desc false 64) at_cmd.AT_GET_VERSION cmd_operation.AT_EXECUTE_OP
      none (by decide) (by decide) (by decide) (by decide)).2.1
    { idle_desc false 64 with cmd_buff := [65, 84, 43, 71, 77, 82, 13, 10], cmd_len := 8 }
    [] [[97, 98], [99]] ⟨rfl, rfl, rfl, rfl⟩ (by decide) rfl (ctrs_track_zero _ rfl)
    (by decide) (by decide) (by decide)

/-- C13. In module-message mode, when a byte arrives while the response buffer
holds `RESULT_BUFF_LEN` (500) bytes, and the byte is neither taken as the `'>'`
prompt nor the `':'` of a `+IPD` header found by the backward scan: Result
Status becomes overflow and nothing else changes but the one-byte receive cell;
the byte is not stored, the response buffer, its length and the match counters
are as before. An `at_run_cmd` (permitted, ordinary command) that meets such a
byte while it waits for its response returns `FAILURE`, with Result Status
overflow and the buffer still full. -/
theorem overflow_reported (d : at_desc) (len b : Nat) (ha : awaiting_char d)
    (hfull : d.result_len = RESULT_BUFF_LEN) (hprompt : b ≠ 62 ∨ d.waiting_send = false)
    (hipd : b = 58 →
      ∃ i, ipd_scan d.result_buff max_ch_search (sub32 d.result_len 1) = some (i, false)) :
    uart_rx_byte d len b =
        some { d with read_ch := b, result_status := result_status_t.OVERFLOW_ERROR } ∧
    ∀ (cmd : at_cmd) (op : cmd_operation) (param : Option in_param) (d1 : at_desc)
      (env : schedule), (g_map cmd).2 &&& op.val ≠ 0 → cmd ≠ at_cmd.AT_DEEP_SLEEP →
      cmd ≠ at_cmd.AT_RESET → cmd ≠ at_cmd.AT_SEND → build_cmd d cmd op param = some d1 →
      b ≠ 62 →
      ∃ out, at_run_cmd len d cmd op param ([irq.tx_done] :: [irq.rx b] :: env) = Except.ok out ∧
        out.ret = ret_code.FAILURE ∧
        out.desc.result_status = result_status_t.OVERFLOW_ERROR ∧
        out.desc.result_len = RESULT_BUFF_LEN ∧ out.desc.result_buff = d.result_buff ∧
        out.env = env := by
  refine ⟨rx_overflow d len b ha (by rw [hfull]) hprompt hipd, ?_⟩
  intro cmd op param d1 env hperm hc1 hc2 hc3 hb hb62
  have hmode : d.callback_state ≠ callback_state_t.READING_UNVARNISHED := by
    rw [ha.1]; decide
  have hde := dispatched_eq d d1 cmd op param hb
  have ha2 : awaiting_char (dispatched d1) := by rw [hde]; exact ha
  have hrx := rx_overflow (dispatched d1) len b ha2
    (by rw [hde]; show RESULT_BUFF_LEN ≤ d.result_len; rw [hfull]) (Or.inl hb62)
    (by rw [hde]; exact hipd)
  have hw : wait_for_response len (dispatched d1) ([irq.rx b] :: env) =
      Except.ok ({ dispatched d1 with
        read_ch := b, result_status := result_status_t.OVERFLOW_ERROR }, env) := by
    unfold wait_for_response
    exact wait_loop_hit len MODULE_TIMEOUT (dispatched d1) _ [b] env rfl
      (by rw [feed_cons len _ _ b [] hrx]; rfl) (by simp)
  rw [run_cmd_dispatch len d d1 cmd op param _ hperm hmode hc1 hc2 hc3 hb, hw]
  refine ⟨_, rfl, rfl, rfl, ?_, ?_, rfl⟩
  · show (dispatched d1).result_len = _
    rw [hde]; exact hfull
  · show (dispatched d1).result_buff = _
    rw [hde]

/-- Witness of C13: a line feed that arrives when the buffer holds 500 bytes,
on its own and during the wait of a version query. -/
theorem overflow_reported_witness :
    uart_rx_byte { idle_desc false 64 with
          result_buff := List.replicate 500 97, result_len := 500 } 0 10 =
        some { idle_desc false 64 with
          result_buff := List.replicate 500 97, result_len := 500
          read_ch := 10, result_status := result_status_t.OVERFLOW_ERROR } ∧
    ∃ out, at_run_cmd 0 { idle_desc false 64 with
            result_buff := List.replicate 500 97, result_len := 500 }
          at_cmd.AT_GET_VERSION cmd_operation.AT_EXECUTE_OP none
          ([irq.tx_done] :: [irq.rx 10] :: []) = Except.ok out ∧
        out.ret = ret_code.FAILURE ∧
        out.desc.result_status = result_status_t.OVERFLOW_ERROR ∧
        out.desc.result_len = RESULT_BUFF_LEN ∧
        out.desc.result_buff = List.replicate 500 97 ∧
        out.env = [] :=
  ⟨(overflow_reported
      { idle_desc false 64 with result_buff := List.replicate 500 97, result_len := 500 } 0 10
      ⟨rfl, rfl, rfl, rfl⟩ rfl (Or.inl (by decide)) (fun h => absurd h (by decide))).1,
   (overflow_reported
      { idle_desc false 64 with result_buff := List.replicate 500 97, result_len := 500 } 0 10
      ⟨rfl, rfl, rfl, rfl⟩ rfl (Or.inl (by decide)) (fun h => absurd h (by decide))).2
      at_cmd.AT_GET_VERSION cmd_operation.AT_EXECUTE_OP none
      { idle_desc false 64 with
        result_buff := List.replicate 500 97, result_len := 500
        cmd_buff := [65, 84, 43, 71, 77, 82, 13, 10], cmd_len := 8 } []
      (by decide) (by decide) (by decide) (by decide) rfl (by decide)⟩

/-- C14: the code on the failing input. With the response buffer still holding
the 500 bytes of a response that overflowed, the next `at_run_cmd` (permitted,
ordinary command) does not discard them: the bytes of the answer `"\r\nOK\r\n"`
find the buffer full, Result Status becomes overflow again and `at_run_cmd`
returns `FAILURE`, the buffer still full. -/
theorem overflow_not_discarded (desc : at_desc) (len : Nat) (cmd : at_cmd)
    (op : cmd_operation) (param : Option in_param) (d1 : at_desc) (env : schedule)
    (ha : awaiting_char desc) (hfull : desc.result_len = RESULT_BUFF_LEN)
    (hperm : (g_map cmd).2 &&& op.val ≠ 0) (hc1 : cmd ≠ at_cmd.AT_DEEP_SLEEP)
    (hc2 : cmd ≠ at_cmd.AT_RESET) (hc3 : cmd ≠ at_cmd.AT_SEND)
    (hb : build_cmd desc cmd op param = some d1) :
    ∃ out, at_run_cmd len desc cmd op param
          ([irq.tx_done] :: (responses 1).map irq.rx :: env) = Except.ok out ∧
      out.ret = ret_code.FAILURE ∧
      out.desc.result_status = result_status_t.OVERFLOW_ERROR ∧
      out.desc.result_len = RESULT_BUFF_LEN ∧ out.env = env := by
  have hmode : desc.callback_state ≠ callback_state_t.READING_UNVARNISHED := by
    rw [ha.1]; decide
  have hde := dispatched_eq desc d1 cmd op param hb
  have ha2 : awaiting_char (dispatched d1) := by rw [hde]; exact ha
  have hf := feed_overflow len [10, 79, 75, 13, 10] (dispatched d1) 13 ha2
    (by rw [hde]; show RESULT_BUFF_LEN ≤ desc.result_len; rw [hfull]) (by decide)
  have hw : wait_for_response len (dispatched d1) ((responses 1).map irq.rx :: env) =
      Except.ok ({ dispatched d1 with
        read_ch := 10, result_status := result_status_t.OVERFLOW_ERROR }, env) := by
    unfold wait_for_response
    exact wait_loop_hit len MODULE_TIMEOUT (dispatched d1) _ (responses 1) env rfl hf
      (by simp)
  rw [run_cmd_dispatch len desc d1 cmd op param _ hperm hmode hc1 hc2 hc3 hb, hw]
  refine ⟨_, rfl, rfl, rfl, ?_, rfl⟩
  show (dispatched d1).result_len = _
  rw [hde]; exact hfull

/-- C14, the failing input: the attention command after an overflow; the module
answers `"\r\nOK\r\n"`. -/
theorem overflow_not_discarded_witness :
    ∃ out, at_run_cmd 0
          { idle_desc false 64 with
            result_buff := List.replicate 500 97, result_len := 500
            result_status := result_status_t.OVERFLOW_ERROR }
          at_cmd.AT_ATTENTION cmd_operation.AT_EXECUTE_OP none
          ([irq.tx_done] :: (responses 1).map irq.rx :: []) = Except.ok out ∧
      out.ret = ret_code.FAILURE ∧
      out.desc.result_status = result_status_t.OVERFLOW_ERROR ∧
      out.desc.result_len = RESULT_BUFF_LEN ∧ out.env = [] :=
  overflow_not_discarded
    { idle_desc false 64 with
      result_buff := List.replicate 500 97, result_len := 500
      result_status := result_status_t.OVERFLOW_ERROR } 0
    at_cmd.AT_ATTENTION cmd_operation.AT_EXECUTE_OP none
    { idle_desc false 64 with
      result_buff := List.replicate 500 97, result_len := 500
      result_status := result_status_t.OVERFLOW_ERROR
      cmd_buff := [65, 84, 13, 10], cmd_len := 4 } []
    ⟨rfl, rfl, rfl, rfl⟩ rfl (by decide) (by decide) (by decide) (by decide) rfl

/-- C15. For every command of the table and each of the operations query, test
and execute, whatever the parameter object and whatever the command buffer held
before, `build_cmd` leaves the command buffer equal to
`"AT" ++ token ++ suffix ++ "\r\n"`, with suffix `"?"` for query, `"=?"` for test
and nothing for execute, and its length equal to `4 + |token| + |suffix|`;
nothing but the command buffer changes. -/
theorem build_cmd_plain_operation (desc : at_desc) (cmd : at_cmd) (op : cmd_operation)
    (param : Option in_param) (hop : op ≠ cmd_operation.AT_SET_OP) :
    ∃ d1, build_cmd desc cmd op param = some d1 ∧
      buff_slice d1.cmd_buff 0 d1.cmd_len =
        [65, 84] ++ (g_map cmd).1 ++
          (if op = cmd_operation.AT_QUERY_OP then [63]
           else if op = cmd_operation.AT_TEST_OP then [61, 63] else []) ++ [13, 10] ∧
      d1.cmd_len = 4 + (g_map cmd).1.length +
          (if op = cmd_operation.AT_QUERY_OP then 1
           else if op = cmd_operation.AT_TEST_OP then 2 else 0) ∧
      d1 = { desc with cmd_buff := d1.cmd_buff, cmd_len := d1.cmd_len } := by
  have hsfx : op_suffix op = (if op = cmd_operation.AT_QUERY_OP then [63]
      else if op = cmd_operation.AT_TEST_OP then [61, 63] else []) := by
    cases op <;> first | rfl | exact absurd rfl hop
  have hlen : (op_suffix op).length = (if op = cmd_operation.AT_QUERY_OP then 1
      else if op = cmd_operation.AT_TEST_OP then 2 else 0) := by
    cases op <;> first | rfl | exact absurd rfl hop
  have htok := token_length cmd
  have hw : (wire_cmd desc cmd op param).length =
      4 + (g_map cmd).1.length + (op_suffix op).length := by
    rw [wire_cmd_plain desc cmd op param hop]
    simp only [List.length_append, List.length_cons, List.length_nil]
    omega
  have hs2 : (op_suffix op).length ≤ 2 := by cases op <;> decide
  rw [build_cmd_eq desc cmd op param (fun _ h => absurd h hop),
    cmd_strcat_ok _ _ (by show 0 + _ ≤ CMD_BUFF_LEN; unfold CMD_BUFF_LEN; omega)]
  refine ⟨_, rfl, ?_, ?_, rfl⟩
  · show buff_slice (buff_writes desc.cmd_buff 0 _) 0 (0 + _) = _
    rw [Nat.zero_add, buff_slice_writes_take _ _ _ _ (Nat.le_refl _), List.take_length,
      wire_cmd_plain desc cmd op param hop, hsfx]
  · show 0 + _ = _
    rw [Nat.zero_add, hw, hlen]

/-- Witness of C15: the query of the operation mode, `"AT+CWMODE?\r\n"`. -/
theorem build_cmd_plain_operation_witness :
    ∃ d1, build_cmd (idle_desc false 64) at_cmd.AT_SET_OPERATION_MODE
        cmd_operation.AT_QUERY_OP none = some d1 ∧
      buff_slice d1.cmd_buff 0 d1.cmd_len =
        [65, 84] ++ (g_map at_cmd.AT_SET_OPERATION_MODE).1 ++
          (if cmd_operation.AT_QUERY_OP = cmd_operation.AT_QUERY_OP then [63]
           else if cmd_operation.AT_QUERY_OP = cmd_operation.AT_TEST_OP then [61, 63]
           else []) ++ [13, 10] ∧
      d1.cmd_len = 4 + (g_map at_cmd.AT_SET_OPERATION_MODE).1.length +
          (if cmd_operation.AT_QUERY_OP = cmd_operation.AT_QUERY_OP then 1
           else if cmd_operation.AT_QUERY_OP = cmd_operation.AT_TEST_OP then 2 else 0) ∧
      d1 = { idle_desc false 64 with cmd_buff := d1.cmd_buff, cmd_len := d1.cmd_len } :=
  build_cmd_plain_operation (idle_desc false 64) at_cmd.AT_SET_OPERATION_MODE
    cmd_operation.AT_QUERY_OP none (by decide)

/-- C16. For the set operation with a parameter object, when the result fits
the command buffer, `build_cmd` leaves the command buffer equal to
`"AT" ++ token ++ "=" ++ params ++ "\r\n"`, where `params` are the parameters of
the command in order, each integer as a decimal numeral and each string between
double quotes with its special bytes escaped, with one comma between
neighbours and none before the first or after the last; nothing but the command
buffer changes. For connect-network this is `AT+CWJAP="esc(S)","esc(W)"\r\n`,
for set-server with action `a` and port `p` below `2^31` it is
`AT+CIPSERVER=a,p\r\n`. -/
theorem build_cmd_set_operation (desc : at_desc) (cmd : at_cmd) (p : in_param)
    (hsend : cmd = at_cmd.AT_SEND →
      ∃ c, conn_read desc (if desc.multiple_conections then p.connection.id else 0) = some c)
    (hfit : 5 + (g_map cmd).1.length +
      (comma_join ((set_args desc cmd p).map render_arg)).length ≤ CMD_BUFF_LEN) :
    ∃ d1, build_cmd desc cmd cmd_operation.AT_SET_OP (some p) = some d1 ∧
      buff_slice d1.cmd_buff 0 d1.cmd_len =
        [65, 84] ++ (g_map cmd).1 ++ [61] ++
          comma_join ((set_args desc cmd p).map render_arg) ++ [13, 10] ∧
      d1 = { desc with cmd_buff := d1.cmd_buff, cmd_len := d1.cmd_len } ∧
      (cmd = at_cmd.AT_CONNECT_NETWORK →
        buff_slice d1.cmd_buff 0 d1.cmd_len =
          [65, 84, 43, 67, 87, 74, 65, 80, 61] ++ [34] ++ escape_str p.network.ssid ++
            [34, 44, 34] ++ escape_str p.network.pwd ++ [34, 13, 10]) ∧
      (cmd = at_cmd.AT_SET_SERVER → p.server.action < 2147483648 →
        p.server.port < 2147483648 →
        buff_slice d1.cmd_buff 0 d1.cmd_len =
          [65, 84, 43, 67, 73, 80, 83, 69, 82, 86, 69, 82, 61] ++ decimal p.server.action ++
            [44] ++ decimal p.server.port ++ [13, 10]) := by
  have hw : wire_cmd desc cmd cmd_operation.AT_SET_OP (some p) =
      [65, 84] ++ (g_map cmd).1 ++ [61] ++
        comma_join ((set_args desc cmd p).map render_arg) ++ [13, 10] := by
    unfold wire_cmd
    simp only [op_suffix, List.append_assoc]
  have hl : (wire_cmd desc cmd cmd_operation.AT_SET_OP (some p)).length ≤ CMD_BUFF_LEN := by
    rw [hw]
    simp only [List.length_append, List.length_cons, List.length_nil]
    omega
  rw [build_cmd_eq desc cmd _ (some p) (fun hc _ q hq => by
      cases hq; exact hsend hc),
    cmd_strcat_ok _ _ (by show 0 + _ ≤ CMD_BUFF_LEN; omega)]
  have hview : buff_slice (buff_writes desc.cmd_buff 0
      (wire_cmd desc cmd cmd_operation.AT_SET_OP (some p))) 0
      (0 + (wire_cmd desc cmd cmd_operation.AT_SET_OP (some p)).length) =
      [65, 84] ++ (g_map cmd).1 ++ [61] ++
        comma_join ((set_args desc cmd p).map render_arg) ++ [13, 10] := by
    rw [Nat.zero_add, buff_slice_writes_take _ _ _ _ (Nat.le_refl _), List.take_length, hw]
  have hex1 : cmd = at_cmd.AT_CONNECT_NETWORK →
      [65, 84] ++ (g_map cmd).1 ++ [61] ++
        comma_join ((set_args desc cmd p).map render_arg) ++ [13, 10] =
      [65, 84, 43, 67, 87, 74, 65, 80, 61] ++ [34] ++ escape_str p.network.ssid ++
        [34, 44, 34] ++ escape_str p.network.pwd ++ [34, 13, 10] := by
    intro hc
    subst hc
    simp [g_map, set_args, comma_join, render_arg]
  have hex2 : cmd = at_cmd.AT_SET_SERVER → p.server.action < 2147483648 →
      p.server.port < 2147483648 →
      [65, 84] ++ (g_map cmd).1 ++ [61] ++
        comma_join ((set_args desc cmd p).map render_arg) ++ [13, 10] =
      [65, 84, 43, 67, 73, 80, 83, 69, 82, 86, 69, 82, 61] ++ decimal p.server.action ++
        [44] ++ decimal p.server.port ++ [13, 10] := by
    intro hc ha hp
    subst hc
    simp [g_map, set_args, comma_join, render_arg, itoa_to_i32 _ ha, itoa_to_i32 _ hp]
  exact ⟨_, rfl, hview, rfl, fun hc => hview.trans (hex1 hc),
    fun hc ha hp => hview.trans (hex2 hc ha hp)⟩

/-- Witness of C16: `AT+CIPSERVER=1,80\r\n`. -/
theorem build_cmd_set_operation_witness :
    ∃ d1, build_cmd (idle_desc false 64) at_cmd.AT_SET_SERVER cmd_operation.AT_SET_OP
        (some { in_param_zero with server := { action := 1, port := 80 } }) = some d1 ∧
      buff_slice d1.cmd_buff 0 d1.cmd_len =
        [65, 84] ++ (g_map at_cmd.AT_SET_SERVER).1 ++ [61] ++
          comma_join ((set_args (idle_desc false 64) at_cmd.AT_SET_SERVER
            { in_param_zero with server := { action := 1, port := 80 } }).map render_arg) ++
          [13, 10] ∧
      d1 = { idle_desc false 64 with cmd_buff := d1.cmd_buff, cmd_len := d1.cmd_len } ∧
      (at_cmd.AT_SET_SERVER = at_cmd.AT_CONNECT_NETWORK →
        buff_slice d1.cmd_buff 0 d1.cmd_len =
          [65, 84, 43, 67, 87, 74, 65, 80, 61] ++ [34] ++
            escape_str ({ in_param_zero with
              server := { action := 1, port := 80 } } : in_param).network.ssid ++
            [34, 44, 34] ++
            escape_str ({ in_param_zero with
              server := { action := 1, port := 80 } } : in_param).network.pwd ++ [34, 13, 10]) ∧
      (at_cmd.AT_SET_SERVER = at_cmd.AT_SET_SERVER →
        ({ in_param_zero with
          server := { action := 1, port := 80 } } : in_param).server.action < 2147483648 →
        ({ in_param_zero with
          server := { action := 1, port := 80 } } : in_param).server.port < 2147483648 →
        buff_slice d1.cmd_buff 0 d1.cmd_len =
          [65, 84, 43, 67, 73, 80, 83, 69, 82, 86, 69, 82, 61] ++
            decimal ({ in_param_zero with
              server := { action := 1, port := 80 } } : in_param).server.action ++
            [44] ++
            decimal ({ in_param_zero with
              server := { action := 1, port := 80 } } : in_param).server.port ++ [13, 10]) :=
  build_cmd_set_operation (idle_desc false 64) at_cmd.AT_SET_SERVER
    { in_param_zero with server := { action := 1, port := 80 } }
    (fun h => absurd h (by decide)) (by decide)

/-- C17. For every byte string `s`, the string argument of `at_sprintf` appends
`'"'`, then for each byte `b` of `s` in order a backslash and `b` when `b` is
`'"'`, `','` or a backslash and `b` alone otherwise, then `'"'`; these are
`|s| + 2 +` (number of special bytes of `s`) bytes; dropping the enclosing
quotes and each escaping backslash gives `s` back, so that two strings with the
same serialization are equal. -/
theorem string_serialization (s : List Nat) :
    (∀ d : at_desc, at_sprintf d [115] [sprintf_arg.str s] =
      cmd_strcat d ([34] ++
        (s.map (fun b => if b = 34 ∨ b = 44 ∨ b = 92 then [92, b] else [b])).flatten ++
        [34])) ∧
    ([34] ++ escape_str s ++ [34]).length =
      s.length + 2 + s.countP (fun b => b = 34 ∨ b = 44 ∨ b = 92) ∧
    unquote ([34] ++ escape_str s ++ [34]) = s ∧
    ∀ s2 : List Nat, [34] ++ escape_str s2 ++ [34] = [34] ++ escape_str s ++ [34] → s2 = s := by
  refine ⟨?_, ?_, unquote_render s, ?_⟩
  · intro d
    rw [← escape_str_flatten]
    exact at_sprintf_eq [sprintf_arg.str s] d
  · simp only [List.length_append, List.length_cons, List.length_nil, escape_str_length]
    omega
  · intro s2 h
    rw [← unquote_render s2, h, unquote_render]

/-- C18, as stated, fails: in multiplexed mode with connection 1 open, the
start-connection command for connection 2 (UDP), answered
`"1,CLOSED\r\n\r\nOK\r\n"`, returns `SUCCESS` with connection 2 active and
connection 1, another entry of the table, changed to inactive by the closure
notice received while the command ran. -/
theorem start_connection_other_entry_closed :
    (match at_run_cmd 0
        { idle_desc true 64 with
          connections := [{ active := false, type := socket_type.SOCKET_TCP },
                          { active := true, type := socket_type.SOCKET_TCP },
                          { active := false, type := socket_type.SOCKET_TCP },
                          { active := false, type := socket_type.SOCKET_TCP }] }
        at_cmd.AT_START_CONNECTION cmd_operation.AT_SET_OP
        (some { in_param_zero with
          connection := { id := 2, soket_type := socket_type.SOCKET_UDP, addr := [97],
                          port := 80, local_port := 0, udp_mode := 0 } })
        [[irq.tx_done], ([49, 44] ++ responses 3 ++ responses 1).map irq.rx] with
      | Except.ok out => some (out.ret, out.desc.connections)
      | Except.error _ => none) =
      some (ret_code.SUCCESS,
        [{ active := false, type := socket_type.SOCKET_TCP },
         { active := false, type := socket_type.SOCKET_TCP },
         { active := true, type := socket_type.SOCKET_UDP },
         { active := false, type := socket_type.SOCKET_TCP }]) := by
  decide

/-- C18, amended. For the start-connection command with the set operation.
Whenever `at_run_cmd` returns `SUCCESS`, under any schedule, a parameter object
was given, the entry of the connection (the id of the parameters in multiplexed
mode, entry 0 otherwise) is active with the socket kind of the parameters, the
multiplexed flag is as before, and every other entry of the connection table
is as before unless a closure notice was completed while the command ran. And
when the command is run from an empty response buffer and answered
`P ++ "\r\nOK\r\n"` within the timeout, it does return `SUCCESS` with the
table so updated. -/
theorem start_connection_updates_table (len : Nat) (desc : at_desc) (param : Option in_param)
    (htab : desc.connections.length = MAX_CONNECTIONS) :
    (∀ (env : schedule) (out : run_out),
      at_run_cmd len desc at_cmd.AT_START_CONNECTION cmd_operation.AT_SET_OP param env =
        Except.ok out → out.ret = ret_code.SUCCESS →
      ∃ p, param = some p ∧
        (if desc.multiple_conections then p.connection.id else 0) < MAX_CONNECTIONS ∧
        out.desc.connections.get? (if desc.multiple_conections then p.connection.id else 0) =
          some { active := true, type := p.connection.soket_type } ∧
        out.desc.multiple_conections = desc.multiple_conections ∧
        (out.desc.matched.count 3 = desc.matched.count 3 →
          ∀ j, j ≠ (if desc.multiple_conections then p.connection.id else 0) →
            out.desc.connections.get? j = desc.connections.get? j)) ∧
    ∀ (p : in_param) (d1 : at_desc) (P : List Nat) (t : Nat) (pre : List (List Nat))
      (last : List Nat) (rest : schedule), 1 ≤ t → t < 3 →
      awaiting_char desc → desc.result_len = 0 → desc.match_idx = [0, 0, 0, 0] →
      build_cmd desc at_cmd.AT_START_CONNECTION cmd_operation.AT_SET_OP (some p) = some d1 →
      (∀ b ∈ P, b ≠ 58 ∧ b ≠ 62) →
      P.length + (responses t).length ≤ RESULT_BUFF_LEN →
      (∀ k < (P ++ responses t).length, ∀ i < 4,
        ¬ responses i <:+ (P ++ responses t).take k) →
      pre.flatten ++ last = P ++ responses t → last ≠ [] → pre.length ≤ MODULE_TIMEOUT →
      (if desc.multiple_conections then p.connection.id else 0) < MAX_CONNECTIONS →
      desc.cb_response.length + P.length ≤ RESULT_BUFF_LEN →
      ∃ out, at_run_cmd len desc at_cmd.AT_START_CONNECTION cmd_operation.AT_SET_OP (some p)
            ([irq.tx_done] :: (env_rx pre ++ last.map irq.rx :: rest)) = Except.ok out ∧
        out.ret = ret_code.SUCCESS ∧
        out.desc.connections.get? (if desc.multiple_conections then p.connection.id else 0) =
          some { active := true, type := p.connection.soket_type } ∧
        (∀ j, j ≠ (if desc.multiple_conections then p.connection.id else 0) →
          out.desc.connections.get? j = desc.connections.get? j) ∧
        out.desc.multiple_conections = desc.multiple_conections := by
  constructor
  · intro env out h hs
    obtain ⟨d6, env6, k, _, hu⟩ :=
      run_cmd_reaches_update len desc _ _ param env out h hs (by decide)
    obtain ⟨p, hp, hid, hc, hm, hl⟩ := run_cmd_update_start len d6 param env6 out hu
    obtain ⟨k1, k2, k3, k4, _, _⟩ := k
    rw [k1] at hid hc
    refine ⟨p, hp, hid, ?_, by rw [hm, k1], ?_⟩
    · rw [hc]
      exact conn_open_get_same _ _ _ (by rw [k2, htab]; exact hid)
    · intro hcount j hj
      rw [hl] at hcount
      rw [hc, conn_open_get_other _ _ _ _ hj, k4 hcount]
  intro p d1 P t pre last rest ht1 ht ha hempty hctr hb hP hcap hno hsplit hlast hpre hid hcb
  have hde := dispatched_eq desc d1 _ _ _ hb
  have hm0 : (answered (dispatched d1) P t).multiple_conections = desc.multiple_conections := by
    show (dispatched d1).multiple_conections = _
    rw [hde]
  have hc0 : (answered (dispatched d1) P t).connections = desc.connections := by
    show (dispatched d1).connections = _
    rw [hde]
  have hcb0 : (answered (dispatched d1) P t).cb_response = desc.cb_response := by
    show (dispatched d1).cb_response = _
    rw [hde]
  obtain ⟨f1, f2, f3⟩ := conn_update_frame (answered (dispatched d1) P t)
    at_cmd.AT_START_CONNECTION cmd_operation.AT_SET_OP p
  have hrl : (conn_update (answered (dispatched d1) P t) at_cmd.AT_START_CONNECTION
      cmd_operation.AT_SET_OP p).result_len = P.length := f1
  have hconn : (conn_update (answered (dispatched d1) P t) at_cmd.AT_START_CONNECTION
      cmd_operation.AT_SET_OP p).connections =
      conn_open desc.connections (if desc.multiple_conections then p.connection.id else 0)
        p.connection.soket_type := by
    unfold conn_update
    simp only [reduceCtorEq, if_false, and_self, if_true, false_and, hm0, hc0]
  have hmul : (conn_update (answered (dispatched d1) P t) at_cmd.AT_START_CONNECTION
      cmd_operation.AT_SET_OP p).multiple_conections = desc.multiple_conections := by
    unfold conn_update
    simp only [reduceCtorEq, if_false, and_self, if_true, false_and, hm0]
  rw [run_cmd_answered len desc d1 _ _ _ P t pre last rest ht ha hempty hctr (by decide)
    (by decide) (by decide) (by decide) hb hP hcap hno hsplit hlast hpre, if_neg (by omega),
    run_cmd_update_some len _ _ _ p rest (by intro _ _; rw [hm0]; exact hid),
    parse_result_copy len _ _ rest (by decide)
      (by rw [hrl]; have : RESULT_BUFF_LEN = 500 := rfl; omega)
      (by rw [hrl, f3, hcb0]; exact hcb)]
  refine ⟨_, rfl, rfl, ?_, ?_, hmul⟩
  · show (conn_update (answered (dispatched d1) P t) at_cmd.AT_START_CONNECTION
      cmd_operation.AT_SET_OP p).connections.get? _ = _
    rw [hconn]
    exact conn_open_get_same _ _ _ (by rw [htab]; exact hid)
  · intro j hj
    show (conn_update (answered (dispatched d1) P t) at_cmd.AT_START_CONNECTION
      cmd_operation.AT_SET_OP p).connections.get? _ = _
    rw [hconn]
    exact conn_open_get_other _ _ _ _ hj

/-- Witness of C18 (amended): in multiplexed mode, a UDP connection with id 2; the module
answers `"\r\nOK\r\n"`. -/
theorem start_connection_updates_table_witness :
    ∃ out, at_run_cmd 0 (idle_desc true 64) at_cmd.AT_START_CONNECTION cmd_operation.AT_SET_OP
          (some { in_param_zero with
            connection := { id := 2, soket_type := socket_type.SOCKET_UDP, addr := [97],
                            port := 80, local_port := 0, udp_mode := 0 } })
          ([irq.tx_done] :: (env_rx [] ++ (responses 1).map irq.rx :: [])) = Except.ok out ∧
      out.ret = ret_code.SUCCESS ∧
      out.desc.connections.get? (if (idle_desc true 64).multiple_conections then
          ({ in_param_zero with
            connection := { id := 2, soket_type := socket_type.SOCKET_UDP, addr := [97],
                            port := 80, local_port := 0, udp_mode := 0 } } : in_param).connection.id
          else 0) =
        some { active := true
               type := ({ in_param_zero with
                 connection := { id := 2, soket_type := socket_type.SOCKET_UDP, addr := [97],
                                 port := 80, local_port := 0, udp_mode := 0 } }
                   : in_param).connection.soket_type } ∧
      (∀ j, j ≠ (if (idle_desc true 64).multiple_conections then
          ({ in_param_zero with
            connection := { id := 2, soket_type := socket_type.SOCKET_UDP, addr := [97],
                            port := 80, local_port := 0, udp_mode := 0 } } : in_param).connection.id
          else 0) →
        out.desc.connections.get? j = (idle_desc true 64).connections.get? j) ∧
      out.desc.multiple_conections = (idle_desc true 64).multiple_conections :=
  (start_connection_updates_table 0 (idle_desc true 64)
      (some { in_param_zero with
        connection := { id := 2, soket_type := socket_type.SOCKET_UDP, addr := [97],
                        port := 80, local_port := 0, udp_mode := 0 } }) rfl).2
    { in_param_zero with
      connection := { id := 2, soket_type := socket_type.SOCKET_UDP, addr := [97],
                      port := 80, local_port := 0, udp_mode := 0 } }
    { idle_desc true 64 with
      cmd_buff := [65, 84, 43, 67, 73, 80, 83, 84, 65, 82, 84, 61, 50, 44, 34, 85, 68, 80, 34,
                   44, 34, 97, 34, 44, 56, 48, 44, 48, 44, 48, 13, 10]
      cmd_len := 32 }
    [] 1 [] (responses 1) [] (by decide) (by decide) ⟨rfl, rfl, rfl, rfl⟩ rfl rfl rfl
    (by decide) (by decide) (by decide) rfl (by decide) (by decide) (by decide) (by decide)

/-- C20. `at_run_cmd` for the deep-sleep command returns `FAILURE` for every
operation and every parameter, in every mode and under every schedule of
interrupts; it serves no interrupt, hands nothing to the transport and changes
nothing but the command buffer. -/
theorem deep_sleep_always_fails (len : Nat) (desc : at_desc) (op : cmd_operation)
    (param : Option in_param) (env : schedule) :
    ∃ d, at_run_cmd len desc at_cmd.AT_DEEP_SLEEP op param env =
        Except.ok { ret := ret_code.FAILURE, desc := d, out_result := false, env := env } ∧
      d.uart = desc.uart ∧ d = { desc with cmd_buff := d.cmd_buff, cmd_len := d.cmd_len } := by
  by_cases hop : (g_map at_cmd.AT_DEEP_SLEEP).2 &&& op.val = 0
  · refine ⟨desc, ?_, rfl, rfl⟩
    unfold at_run_cmd
    rw [if_pos hop]
  · by_cases hm : desc.callback_state = callback_state_t.READING_UNVARNISHED
    · refine ⟨desc, ?_, rfl, rfl⟩
      unfold at_run_cmd
      rw [if_neg hop]
      simp only [hm, if_true, reduceCtorEq, if_false]
    · have hfit : (wire_cmd desc at_cmd.AT_DEEP_SLEEP op param).length ≤ CMD_BUFF_LEN := by
        unfold wire_cmd CMD_BUFF_LEN
        cases param with
        | none =>
          cases op <;>
            simp only [List.length_append, List.length_cons, List.length_nil, g_map, op_suffix] <;>
            omega
        | some p =>
          have := itoa_length (to_i32 p.deep_sleep_time_ms) (to_i32_range _).1 (to_i32_range _).2
          cases op <;>
            simp only [List.length_append, List.length_cons, List.length_nil, g_map, op_suffix,
              set_args, List.map, comma_join, render_arg] <;> omega
      have hb := build_cmd_eq desc at_cmd.AT_DEEP_SLEEP op param (fun h => absurd h (by decide))
      rw [cmd_strcat_ok _ _ (by show 0 + _ ≤ CMD_BUFF_LEN; omega)] at hb
      generalize wire_cmd desc at_cmd.AT_DEEP_SLEEP op param = W at hb
      refine ⟨{ desc with cmd_buff := buff_writes desc.cmd_buff 0 W, cmd_len := 0 + W.length },
        ?_, rfl, rfl⟩
      unfold at_run_cmd
      rw [if_neg hop]
      simp only [hm, if_false, hb, true_or, if_true, handle_special]

/-- C21: the code at the failing inputs. The disconnect-network command, run
with a parameter object from an empty response buffer; the module answers
`"\r\nOK\r\n"` in the first millisecond. (1) If nothing follows, so that
`"WIFI DISCONNECT\r\n"` is seen at none of the eleven polls of `parse_result`,
`at_run_cmd` returns `SUCCESS`. (2) If the notice arrives in the last
millisecond of the window of ten waits of 100 ms, so that it is seen at the last
poll and at no poll before, `at_run_cmd` returns `FAILURE`. (3) If it arrives in
the millisecond after the `OK`, it is seen at the second poll and `at_run_cmd`
returns `SUCCESS`, the notice copied to the result circular buffer when it has
room for it. -/
theorem disconnect_ack_misjudged (len : Nat) (desc d1 : at_desc) (p : in_param)
    (ha : awaiting_char desc) (hempty : desc.result_len = 0)
    (hctr : desc.match_idx = [0, 0, 0, 0])
    (hb : build_cmd desc at_cmd.AT_DISCONNECT_NETWORK cmd_operation.AT_EXECUTE_OP (some p)
      = some d1) :
    (∃ out, at_run_cmd len desc at_cmd.AT_DISCONNECT_NETWORK cmd_operation.AT_EXECUTE_OP
          (some p) ([irq.tx_done] :: (responses 1).map irq.rx :: []) = Except.ok out ∧
        out.ret = ret_code.SUCCESS ∧ out.desc.cb_response = desc.cb_response) ∧
    (∃ out, at_run_cmd len desc at_cmd.AT_DISCONNECT_NETWORK cmd_operation.AT_EXECUTE_OP
          (some p) ([irq.tx_done] :: (responses 1).map irq.rx ::
            (List.replicate 999 [] ++ [str_WIFI_DISCONNECT.map irq.rx])) = Except.ok out ∧
        out.ret = ret_code.FAILURE) ∧
    (desc.cb_response.length + 17 ≤ RESULT_BUFF_LEN →
      ∃ out, at_run_cmd len desc at_cmd.AT_DISCONNECT_NETWORK cmd_operation.AT_EXECUTE_OP
          (some p) ([irq.tx_done] :: (responses 1).map irq.rx ::
            [str_WIFI_DISCONNECT.map irq.rx]) = Except.ok out ∧
        out.ret = ret_code.SUCCESS ∧
        out.desc.cb_response = desc.cb_response ++ str_WIFI_DISCONNECT) := by
  have hde := dispatched_eq desc d1 _ _ _ hb
  have ha2 : awaiting_char (dispatched d1) := by rw [hde]; exact ha
  have hcb2 : (dispatched d1).cb_response = desc.cb_response := by rw [hde]
  have hns := notice_not_seen _ (answered_first (dispatched d1))
  obtain ⟨d7, hf, hseen, hl7, hv7, hcb7⟩ := notice_received len _
    (answered_awaiting (dispatched d1) [] 1 ha2) (answered_len _ _ _) (answered_idx _ _ _)
  rw [answered_cb] at hcb7
  refine ⟨?_, ?_, ?_⟩
  · rw [disconnect_answered len desc d1 p [] ha hempty hctr hb, run_cmd_update_disconnect,
      parse_wait_loop_never len _ hns 10]
    simp only []
    rw [if_neg (by decide), if_neg (by rw [answered_len]; decide)]
    exact ⟨_, rfl, rfl, (answered_cb _ _ _).trans hcb2⟩
  · have e : List.replicate 999 ([] : List irq) ++ [str_WIFI_DISCONNECT.map irq.rx] =
        List.replicate (100 * 9) [] ++
          (List.replicate 99 [] ++ str_WIFI_DISCONNECT.map irq.rx :: []) := by
      rw [← List.append_assoc, ← List.replicate_add]
    rw [disconnect_answered len desc d1 p _ ha hempty hctr hb, run_cmd_update_disconnect, e,
      show (10 : Nat) = 1 + 9 from rfl, parse_wait_loop_idles len _ _ hns 9 1]
    have h1 : parse_wait_loop len 1 (answered (dispatched d1) [] 1)
        (List.replicate 99 [] ++ str_WIFI_DISCONNECT.map irq.rx :: []) =
        Except.ok (0, d7, []) := by
      conv_lhs => unfold parse_wait_loop
      rw [if_neg hns, mdelay_idle_then len _ d7 _ [] hf 99]
      exact parse_wait_loop_seen len 0 d7 [] hseen
    rw [h1]
    exact ⟨_, rfl, rfl⟩
  · intro hroom
    have h1 : parse_wait_loop len 10 (answered (dispatched d1) [] 1)
        [str_WIFI_DISCONNECT.map irq.rx] = Except.ok (9, d7, []) := by
      conv_lhs => unfold parse_wait_loop
      rw [if_neg hns, mdelay_then_nil len _ d7 _ hf 99]
      exact parse_wait_loop_seen len 9 d7 [] hseen
    rw [disconnect_answered len desc d1 p _ ha hempty hctr hb, run_cmd_update_disconnect, h1]
    simp only []
    have hvl : (result_view d7).length = 17 := by rw [hv7]; rfl
    have hcw : cb_write d7.cb_response (result_view d7) =
        (ret_code.SUCCESS, d7.cb_response ++ result_view d7) := by
      unfold cb_write
      rw [if_pos (by rw [hvl, hcb7, hcb2]; exact hroom)]
    rw [if_neg (by decide), if_pos (by rw [hl7]; decide), if_pos (by rw [hl7]; decide), hcw]
    refine ⟨_, rfl, rfl, ?_⟩
    show d7.cb_response ++ result_view d7 = _
    rw [hv7, hcb7, hcb2]

/-- C21, the failing inputs: the command sent from a descriptor at rest. -/
theorem disconnect_ack_misjudged_witness :
    (∃ out, at_run_cmd 0 (idle_desc false 64) at_cmd.AT_DISCONNECT_NETWORK
          cmd_operation.AT_EXECUTE_OP (some in_param_zero)
          ([irq.tx_done] :: (responses 1).map irq.rx :: []) = Except.ok out ∧
        out.ret = ret_code.SUCCESS ∧ out.desc.cb_response = (idle_desc false 64).cb_response) ∧
    (∃ out, at_run_cmd 0 (idle_desc false 64) at_cmd.AT_DISCONNECT_NETWORK
          cmd_operation.AT_EXECUTE_OP (some in_param_zero)
          ([irq.tx_done] :: (responses 1).map irq.rx ::
            (List.replicate 999 [] ++ [str_WIFI_DISCONNECT.map irq.rx])) = Except.ok out ∧
        out.ret = ret_code.FAILURE) ∧
    ((idle_desc false 64).cb_response.length + 17 ≤ RESULT_BUFF_LEN →
      ∃ out, at_run_cmd 0 (idle_desc false 64) at_cmd.AT_DISCONNECT_NETWORK
          cmd_operation.AT_EXECUTE_OP (some in_param_zero)
          ([irq.tx_done] :: (responses 1).map irq.rx ::
            [str_WIFI_DISCONNECT.map irq.rx]) = Except.ok out ∧
        out.ret = ret_code.SUCCESS ∧
        out.desc.cb_response = (idle_desc false 64).cb_response ++ str_WIFI_DISCONNECT) :=
  disconnect_ack_misjudged 0 (idle_desc false 64)
    { idle_desc false 64 with
      cmd_buff := [65, 84, 43, 67, 87, 81, 65, 80, 13, 10], cmd_len := 10 }
    in_param_zero ⟨rfl, rfl, rfl, rfl⟩ rfl rfl (by decide)

/-- C22. `replace_buffer` with a null driver or a null new buffer returns
`FAILURE`, stores nothing through the output pointers and leaves the descriptor
as it was. Otherwise it returns `SUCCESS`, stores the buffer installed before and
its `data.len` through the output pointers, installs the new buffer with the new
capacity and `data.len` zero, and changes nothing else: the Pending Payload
Counter, the mode, the response buffer and the progress counters in
particular. -/
theorem replace_buffer_swaps :
    (∀ (in_buff : Option (List Nat)) (n : Nat) (ob os : Bool),
      replace_buffer none in_buff n ob os = (ret_code.FAILURE, none, none, none)) ∧
    (∀ (d : at_desc) (n : Nat) (ob os : Bool),
      replace_buffer (some d) none n ob os = (ret_code.FAILURE, some d, none, none)) ∧
    ∀ (d : at_desc) (b : List Nat) (n : Nat),
      ∃ d1, replace_buffer (some d) (some b) n true true =
          (ret_code.SUCCESS, some d1, some d.app_data.data_buff, some d.app_data.data_len) ∧
        d1.app_data.data_buff = b ∧ d1.app_data.size = n ∧ d1.app_data.data_len = 0 ∧
        d1.app_data.pending = d.app_data.pending ∧ d1.callback_state = d.callback_state ∧
        d1.result_buff = d.result_buff ∧ d1.result_len = d.result_len ∧
        d1.match_idx = d.match_idx ∧
        d1 = { d with app_data := { d.app_data with data_buff := b, data_len := 0, size := n } } := by
  refine ⟨?_, ?_, ?_⟩
  · intro in_buff n ob os; cases in_buff <;> rfl
  · intro d n ob os; rfl
  · intro d b n
    exact ⟨_, rfl, rfl, rfl, rfl, rfl, rfl, rfl, rfl, rfl, rfl⟩

/-- C23: the code on the failing inputs. For the set-access-point command with a
channel and an encryption of one decimal digit each, the command on the wire is
`20 + |ssid| + |pwd|` bytes long plus one byte for every `'"'`, `','` and
backslash of the two strings; `build_cmd` stays inside the command buffer when
this is at most `CMD_BUFF_LEN` and writes past it otherwise; it stays inside for
an SSID of at most 32 and a password of at most 64 bytes with at most four such
bytes between them. -/
theorem access_point_cmd_overflows (desc : at_desc) (p : in_param)
    (hch : 0 ≤ p.ap.ch_id ∧ p.ap.ch_id ≤ 9)
    (henc : 0 ≤ p.ap.encription ∧ p.ap.encription ≤ 9) :
    (wire_cmd desc at_cmd.AT_SET_ACCESS_POINT cmd_operation.AT_SET_OP (some p)).length =
      20 + p.ap.ssid.length + p.ap.pwd.length +
        p.ap.ssid.countP (fun b => b = 34 ∨ b = 44 ∨ b = 92) +
        p.ap.pwd.countP (fun b => b = 34 ∨ b = 44 ∨ b = 92) ∧
    (build_cmd desc at_cmd.AT_SET_ACCESS_POINT cmd_operation.AT_SET_OP (some p) = none ↔
      CMD_BUFF_LEN <
        (wire_cmd desc at_cmd.AT_SET_ACCESS_POINT cmd_operation.AT_SET_OP (some p)).length) ∧
    (p.ap.ssid.length ≤ 32 → p.ap.pwd.length ≤ 64 →
      p.ap.ssid.countP (fun b => b = 34 ∨ b = 44 ∨ b = 92) +
        p.ap.pwd.countP (fun b => b = 34 ∨ b = 44 ∨ b = 92) ≤ 4 →
      ∃ d1, build_cmd desc at_cmd.AT_SET_ACCESS_POINT cmd_operation.AT_SET_OP (some p)
        = some d1) := by
  have hl : (wire_cmd desc at_cmd.AT_SET_ACCESS_POINT cmd_operation.AT_SET_OP (some p)).length =
      20 + p.ap.ssid.length + p.ap.pwd.length +
        p.ap.ssid.countP (fun b => b = 34 ∨ b = 44 ∨ b = 92) +
        p.ap.pwd.countP (fun b => b = 34 ∨ b = 44 ∨ b = 92) := by
    unfold wire_cmd
    simp only [op_suffix, set_args, g_map, List.map, comma_join, render_arg, List.length_append,
      List.length_cons, List.length_nil, escape_str_length, itoa_digit _ hch.1 hch.2,
      itoa_digit _ henc.1 henc.2]
    omega
  have hiff : build_cmd desc at_cmd.AT_SET_ACCESS_POINT cmd_operation.AT_SET_OP (some p) = none ↔
      CMD_BUFF_LEN <
        (wire_cmd desc at_cmd.AT_SET_ACCESS_POINT cmd_operation.AT_SET_OP (some p)).length := by
    rw [build_cmd_eq desc _ _ (some p) (fun hc => absurd hc (by decide)),
      cmd_strcat_none_iff _ _ (by
        intro h
        have := congrArg List.length h
        rw [hl] at this
        simp at this)]
    show CMD_BUFF_LEN < 0 + _ ↔ _
    rw [Nat.zero_add]
  refine ⟨hl, hiff, ?_⟩
  intro h1 h2 h3
  cases hq : build_cmd desc at_cmd.AT_SET_ACCESS_POINT cmd_operation.AT_SET_OP (some p) with
  | some d1 => exact ⟨d1, rfl⟩
  | none =>
    have := hiff.1 hq
    rw [hl] at this
    have h120 : CMD_BUFF_LEN = 120 := rfl
    omega

set_option maxRecDepth 100000 in
/-- C23, the failing input: an SSID of 32 letters and a password of 64 commas
make a command of 180 bytes; `build_cmd` writes past the 120 bytes of the
command buffer. -/
theorem access_point_cmd_overflows_witness :
    build_cmd (idle_desc false 64) at_cmd.AT_SET_ACCESS_POINT cmd_operation.AT_SET_OP
      (some { in_param_zero with
        ap := { ssid := List.replicate 32 97, pwd := List.replicate 64 44,
                ch_id := 1, encription := 3 } }) = none ∧
    (wire_cmd (idle_desc false 64) at_cmd.AT_SET_ACCESS_POINT cmd_operation.AT_SET_OP
      (some { in_param_zero with
        ap := { ssid := List.replicate 32 97, pwd := List.replicate 64 44,
                ch_id := 1, encription := 3 } })).length = 180 :=
  ⟨(access_point_cmd_overflows (idle_desc false 64)
      { in_param_zero with
        ap := { ssid := List.replicate 32 97, pwd := List.replicate 64 44,
                ch_id := 1, encription := 3 } } (by decide) (by decide)).2.1.mpr (by decide),
   by decide⟩

/-- C24: the code on the failing input. The send-data command, once built and
transmitted, waits for the prompt `'>'` in a loop without a timeout: when the
module sends nothing, however many milliseconds `n` pass, `at_run_cmd` does not
return (neither `FAILURE` nor anything else). -/
theorem send_waits_forever (len : Nat) (desc d1 : at_desc) (p : in_param) (n : Nat)
    (hmode : desc.callback_state ≠ callback_state_t.READING_UNVARNISHED)
    (hb : build_cmd desc at_cmd.AT_SEND cmd_operation.AT_SET_OP (some p) = some d1) :
    at_run_cmd len desc at_cmd.AT_SEND cmd_operation.AT_SET_OP (some p)
      ([irq.tx_done] :: List.replicate n []) = Except.error fault.HANG := by
  have hlen := (build_cmd_frame desc d1 _ _ _ hb).2.1
  unfold at_run_cmd
  rw [if_neg (by decide), if_neg hmode]
  simp only [hb]
  rw [if_neg (by decide), write_cmd_done len { d1 with waiting_send := true } _ hlen]
  simp only [if_true]
  rw [busy_wait_stuck len _ _ rfl n]

/-- C24, the failing input: two bytes to send on the open connection 0, and a
module that stays silent for 30000 ms (the timeout of a response is 20000). -/
theorem send_waits_forever_witness :
    at_run_cmd 0 (idle_desc false 64) at_cmd.AT_SEND cmd_operation.AT_SET_OP
      (some { in_param_zero with send_data := { id := 0, data := [104, 105], remote_ip := [],
                                                remote_port := 0 } })
      ([irq.tx_done] :: List.replicate 30000 []) = Except.error fault.HANG :=
  send_waits_forever 0 (idle_desc false 64)
    { idle_desc false 64 with
      cmd_buff := [65, 84, 43, 67, 73, 80, 83, 69, 78, 68, 61, 50, 13, 10], cmd_len := 14 }
    _ 30000 (by decide) (by decide)

/-- C25. From all progress counters zero, after every sequence of received
bytes, in every mode and through the extraction of `+IPD` headers, wherever the
byte-received path is defined: the four counters are below 9, 6, 11 and 8, the
lengths of their patterns; hence the loop of `refresh_status`, run from these
counters on any byte, does not reach the "Driver implementation error"
statement. -/
theorem counters_below_pattern_length (len : Nat) (bs : List Nat) (d d1 : at_desc)
    (h0 : d.match_idx = [0, 0, 0, 0]) (hf : feed len d bs = some d1) :
    (∃ m0 m1 m2 m3, d1.match_idx = [m0, m1, m2, m3] ∧ m0 < 9 ∧ m1 < 6 ∧ m2 < 11 ∧ m3 < 8) ∧
    ∀ (c : Nat) (d2 : at_desc), d2.match_idx = d1.match_idx →
      reports_error c NB_RESPONSES 0 d2 = false := by
  have hb := feed_below len bs d d1 (ctrs_below_zero d h0) hf
  refine ⟨hb, ?_⟩
  intro c d2 h2
  exact reports_error_below c NB_RESPONSES 0 d2 (by decide) (ctrs_below_of_idx d1 d2 h2 hb)

/-- Witness of C25: the bytes `"\r\nOK\r"` received by a descriptor at rest. -/
theorem counters_below_pattern_length_witness :
    feed 0 (idle_desc false 64) [13, 10, 79, 75, 13] =
      some { idle_desc false 64 with
        read_ch := 13, result_buff := [13, 10, 79, 75, 13], result_len := 5
        match_idx := [1, 5, 1, 0] } ∧
    ((∃ m0 m1 m2 m3, ([1, 5, 1, 0] : List Nat) = [m0, m1, m2, m3] ∧
        m0 < 9 ∧ m1 < 6 ∧ m2 < 11 ∧ m3 < 8) ∧
      ∀ (c : Nat) (d2 : at_desc), d2.match_idx = [1, 5, 1, 0] →
        reports_error c NB_RESPONSES 0 d2 = false) :=
  ⟨by decide,
   counters_below_pattern_length 0 [13, 10, 79, 75, 13] (idle_desc false 64)
    { idle_desc false 64 with
        read_ch := 13, result_buff := [13, 10, 79, 75, 13], result_len := 5
        match_idx := [1, 5, 1, 0] }
    rfl (by decide)⟩

/-- C26. For every byte sequence `w` appended to the response buffer from
counters all zero (the fresh state, or the state a completed pattern leaves),
while no pattern is completed: each of the four progress counters is the length
of the longest beginning of its pattern that ends `w`. And one update of a
counter is one transition of the single-pattern prefix automaton: from the
state `m` (the first `m` bytes of the pattern matched) on the byte `b`, when the
pattern is not complete, the new counter is the length of the longest beginning
of the pattern that ends these `m` bytes followed by `b`. -/
theorem counters_are_longest_match :
    (∀ (w : List Nat) (d d1 : at_desc), d.match_idx = [0, 0, 0, 0] →
      append_chars d w = some d1 → d1.matched = d.matched →
      ∃ m0 m1 m2 m3, d1.match_idx = [m0, m1, m2, m3] ∧
        Tracks (responses 0) w m0 ∧ Tracks (responses 1) w m1 ∧
        Tracks (responses 2) w m2 ∧ Tracks (responses 3) w m3) ∧
    (∀ i < 4, ∀ m < (responses i).length, ∀ b,
      ctr_step (responses i) m b ≠ (responses i).length →
      Tracks (responses i) ((responses i).take m ++ [b]) (ctr_step (responses i) m b)) := by
  constructor
  · intro w d d1 h0 hf hq
    have := (append_chars_track w d d1 [] (ctrs_track_zero d h0) hf hq).1
    simpa using this
  · intro i hi m hm b hne
    have h2 : 2 ≤ (responses i).length := by interval_cases i <;> decide
    apply Tracks_step _ _ m b h2 (border_ok_responses i hi) (Tracks_take _ m hm)
    intro hs
    have hc := Tracks_complete _ _ m b h2 (Tracks_take _ m hm) hs
    exact hne (by rw [ctr_step_hit _ m b hc.2]; exact hc.1)

/-- Witness of C26: after `"\r\nOK\r"` the counters are 1, 5, 1 and 0. -/
theorem counters_are_longest_match_witness :
    append_chars (idle_desc false 64) [13, 10, 79, 75, 13] =
      some { idle_desc false 64 with
        read_ch := 13, result_buff := [13, 10, 79, 75, 13], result_len := 5
        match_idx := [1, 5, 1, 0] } ∧
    ∃ m0 m1 m2 m3, ([1, 5, 1, 0] : List Nat) = [m0, m1, m2, m3] ∧
      Tracks (responses 0) [13, 10, 79, 75, 13] m0 ∧ Tracks (responses 1) [13, 10, 79, 75, 13] m1 ∧
      Tracks (responses 2) [13, 10, 79, 75, 13] m2 ∧ Tracks (responses 3) [13, 10, 79, 75, 13] m3 :=
  ⟨by decide,
   counters_are_longest_match.1 [13, 10, 79, 75, 13] (idle_desc false 64)
    { idle_desc false 64 with
      read_ch := 13, result_buff := [13, 10, 79, 75, 13], result_len := 5
      match_idx := [1, 5, 1, 0] } rfl (by decide) rfl⟩

/-- C27, as stated, fails: from a descriptor at rest the stream
`"CLOSED\r\nOK\r\n"` (no `':'`, no `'>'`, 12 bytes) ends with `"\r\nOK\r\n"`, but
the completion of `"CLOSED\r\n"` at the eighth byte resets every counter, the
`"\r\n"` it shares with the next pattern is lost, and no `OK` is reported: the
log holds the one entry for `CLOSED` and Result Status is still awaiting. -/
theorem terminator_missed_after_match :
    responses 1 <:+ [67, 76, 79, 83, 69, 68, 13, 10, 79, 75, 13, 10] ∧
    (feed 0 (idle_desc false 64) [67, 76, 79, 83, 69, 68, 13, 10, 79, 75, 13, 10]).map
      (fun d => (d.matched, d.result_status, d.match_idx)) =
      some ([3], result_status_t.WAITING_RESULT, [2, 2, 2, 0]) := by
  constructor <;> decide

/-- C27, amended. In module-message mode from counters all zero (the fresh state,
or the state the previous completion leaves), for a stream without `':'` and
`'>'` that fits the buffer: at the first position where the bytes fed since then
end with one of the four patterns, the matcher reports that pattern at that
byte, resets the counters, and sets Result Status to error for `ERROR` and to
available for `OK` and `SEND OK` (the pattern `CLOSED` in single-connection
mode). -/
theorem terminator_found_after_reset (d : at_desc) (len : Nat) (s : List Nat) (b t : Nat)
    (ha : awaiting_char d) (hctr : d.match_idx = [0, 0, 0, 0])
    (hcap : d.result_len + s.length < RESULT_BUFF_LEN)
    (hbytes : ∀ x ∈ s ++ [b], x ≠ 58 ∧ x ≠ 62)
    (ht4 : t < 4) (hmode : d.multiple_conections = false ∨ t < 3)
    (hyes : responses t <:+ s ++ [b])
    (hno : ∀ u, u <+: s → u ≠ [] → no_response_ends u) :
    ∃ d1, feed len d (s ++ [b]) = some d1 ∧ d1.matched = d.matched ++ [t] ∧
      d1.match_idx = [0, 0, 0, 0] ∧
      (t = 0 → d1.result_status = result_status_t.RESULT_ERROR) ∧
      (t = 1 ∨ t = 2 → d1.result_status = result_status_t.RESULT_AVAILABE) := by
  obtain ⟨dm, hf, hdm⟩ := feed_until_match len d [] s b t ha (ctrs_track_zero d hctr) hcap
    hbytes (by simpa using hno) ht4 (by simpa using hyes)
  rw [hf]
  have hma : dm.matched = d.matched := by
    have := congrArg at_desc.matched hdm
    simp only [] at this
    exact this
  have hmu : dm.multiple_conections = d.multiple_conections := by
    have := congrArg at_desc.multiple_conections hdm
    simp only [] at this
    exact this
  interval_cases t
  · exact ⟨_, rfl, by show dm.matched ++ _ = _; rw [hma], rfl, fun _ => rfl,
      fun h => by omega⟩
  · exact ⟨_, rfl, by show dm.matched ++ _ = _; rw [hma], rfl, fun h => by omega,
      fun _ => rfl⟩
  · exact ⟨_, rfl, by show dm.matched ++ _ = _; rw [hma], rfl, fun h => by omega,
      fun _ => rfl⟩
  · have hs : dm.multiple_conections = false := by
      rcases hmode with h | h
      · rw [hmu]; exact h
      · omega
    rw [on_match_closed_single dm hs]
    exact ⟨_, rfl, by show dm.matched ++ _ = _; rw [hma], rfl, fun h => by omega,
      fun h => by omega⟩

/-- Witness of C27, amended: `"OK\r\n\r\nOK\r\n"` from a descriptor at rest; the
first `"OK\r\n"` completes nothing, the `OK` that follows is reported. -/
theorem terminator_found_after_reset_witness :
    ∃ d1, feed 0 (idle_desc false 64) ([79, 75, 13, 10, 13, 10, 79, 75, 13] ++ [10]) = some d1 ∧
      d1.matched = (idle_desc false 64).matched ++ [1] ∧ d1.match_idx = [0, 0, 0, 0] ∧
      (1 = 0 → d1.result_status = result_status_t.RESULT_ERROR) ∧
      (1 = 1 ∨ 1 = 2 → d1.result_status = result_status_t.RESULT_AVAILABE) :=
  terminator_found_after_reset (idle_desc false 64) 0 [79, 75, 13, 10, 13, 10, 79, 75, 13] 10 1
    ⟨rfl, rfl, rfl, rfl⟩ rfl (by decide) (by decide) (by decide) (Or.inl rfl) (by decide)
    (no_ends_of_take [] _ (by decide))

/-- C28. One byte appended to the response buffer completes at most one pattern
(the log of completions is unchanged or grows by one entry). From counters all
zero, after the bytes `w` were appended without a completion, a completion of
pattern `i` at the next byte `b` is reported only if `w ++ [b]` ends with
pattern `i`; no other pattern ends `w ++ [b]`, and all counters are zero
afterwards, so that the bytes of this pattern count for no later completion.
And this is what the byte-received path does in module-message mode with room
in the buffer: for every byte but `':'` (a `'>'` awaited as prompt apart), and
for a `':'` before which the backward scan finds no header. -/
theorem match_events_sound :
    (∀ (d d1 : at_desc) (b : Nat), append_char d b = some d1 →
      d1.matched = d.matched ∨ ∃ i < 4, d1.matched = d.matched ++ [i]) ∧
    (∀ (w : List Nat) (d d1 d2 : at_desc) (b i : Nat), d.match_idx = [0, 0, 0, 0] →
      append_chars d w = some d1 → d1.matched = d.matched →
      append_char d1 b = some d2 → d2.matched = d1.matched ++ [i] →
      responses i <:+ w ++ [b] ∧ (∀ j < 4, j ≠ i → ¬ responses j <:+ w ++ [b]) ∧
        d2.match_idx = [0, 0, 0, 0]) ∧
    (∀ (d : at_desc) (len b : Nat), awaiting_char d → d.result_len < RESULT_BUFF_LEN →
      b ≠ 58 → b ≠ 62 ∨ d.waiting_send = false → uart_rx_byte d len b = append_char d b) ∧
    (∀ (d : at_desc) (len i : Nat), awaiting_char d → d.result_len < RESULT_BUFF_LEN →
      ipd_scan d.result_buff max_ch_search (sub32 d.result_len 1) = some (i, false) →
      uart_rx_byte d len 58 = append_char d 58) := by
  refine ⟨?_, ?_, rx_is_append, rx_colon_is_append⟩
  · intro d d1 b h
    rcases append_char_log d d1 b h with h1 | ⟨t, ht, h1, _⟩
    · exact Or.inl h1
    · exact Or.inr ⟨t, ht, h1⟩
  · intro w d d1 d2 b i h0 hf hq hb hi
    have ht := (append_chars_track w d d1 [] (ctrs_track_zero d h0) hf hq).1
    rw [List.nil_append] at ht
    rcases append_char_track d1 d2 b w ht hb with ⟨_, hm, _⟩ | ⟨t, ht4, hyes, hm, hz⟩
    · exfalso
      rw [hm] at hi
      have := congrArg List.length hi
      simp at this
    · rw [hm] at hi
      have hti : t = i := by
        have := List.append_cancel_left hi
        simpa using this
      subst hti
      exact ⟨hyes, fun j hj hne => responses_not_nested t j ht4 hj hne _ hyes, hz⟩

/-- Witness of C28: `"A\r\nOK\r"` appended to the buffer of a descriptor at rest,
then the byte `'\n'`, which completes `OK`. -/
theorem match_events_sound_witness :
    append_chars (idle_desc false 64) [65, 13, 10, 79, 75, 13] =
      some { idle_desc false 64 with
        read_ch := 13, result_buff := [65, 13, 10, 79, 75, 13], result_len := 6
        match_idx := [1, 5, 1, 0] } ∧
    append_char { idle_desc false 64 with
        read_ch := 13, result_buff := [65, 13, 10, 79, 75, 13], result_len := 6
        match_idx := [1, 5, 1, 0] } 10 =
      some { idle_desc false 64 with
        read_ch := 10, result_buff := [65, 13, 10, 79, 75, 13, 10], result_len := 1
        result_status := result_status_t.RESULT_AVAILABE, matched := [1] } ∧
    responses 1 <:+ [65, 13, 10, 79, 75, 13] ++ [10] ∧
    (∀ j < 4, j ≠ 1 → ¬ responses j <:+ [65, 13, 10, 79, 75, 13] ++ [10]) ∧
    ([0, 0, 0, 0] : List Nat) = [0, 0, 0, 0] :=
  ⟨by decide, by decide,
   match_events_sound.2.1 [65, 13, 10, 79, 75, 13] (idle_desc false 64)
    { idle_desc false 64 with
      read_ch := 13, result_buff := [65, 13, 10, 79, 75, 13], result_len := 6
      match_idx := [1, 5, 1, 0] }
    { idle_desc false 64 with
      read_ch := 10, result_buff := [65, 13, 10, 79, 75, 13, 10], result_len := 1
      result_status := result_status_t.RESULT_AVAILABE, matched := [1] }
    10 1 rfl (by decide) rfl (by decide) rfl⟩

/-- C29: the code on the failing inputs. When the header `"+IPD,<digits>"` ends
the response buffer and begins at index `p`, `process_ipd_msg` succeeds and
leaves the length `p - 2` computed on 32 bits: `p - 2` for `p >= 2`, but
`2^32 - 2` for `p = 0` and `2^32 - 1` for `p = 1`, which is more than `p` and
more than the capacity of the buffer. -/
theorem ipd_header_cut_wraps (d : at_desc) (len p : Nat) (ds : List Nat)
    (hlen : d.result_len = p + 5 + ds.length) (hcap : d.result_len ≤ RESULT_BUFF_LEN)
    (hslice : buff_slice d.result_buff p (5 + ds.length) = at_ipd ++ ds)
    (hd : ∀ x ∈ ds, 48 ≤ x ∧ x ≤ 57) (hl : ds.length ≤ 12) :
    ∃ d1 L, process_ipd_msg d len = some (ret_code.SUCCESS, d1, L) ∧
      d1.result_len = (if 2 ≤ p then p - 2 else U32 - 2 + p) ∧
      (p < 2 → p < d1.result_len ∧ RESULT_BUFF_LEN ≤ d1.result_len) := by
  have hscan := ipd_scan_single d.result_buff p ds (by rw [← hlen]; exact hcap) hslice hd hl
  rw [← hlen] at hscan
  have hf := process_ipd_found d len p ds hlen hcap hslice hscan
  refine ⟨_, _, hf, ?_, ?_⟩
  · show sub32 p 2 = _
    have h5 : d.result_len ≤ 500 := hcap
    split
    · exact sub32_small p 2 (by omega) (by unfold U32; omega)
    · rename_i h2
      have : p = 0 ∨ p = 1 := by omega
      rcases this with h | h <;> subst h <;> decide
  · intro hp
    show p < sub32 p 2 ∧ RESULT_BUFF_LEN ≤ sub32 p 2
    have : p = 0 ∨ p = 1 := by omega
    rcases this with h | h <;> subst h <;> decide

/-- C29, the failing input: the buffer holds `"+IPD,1"` from index 0 (the
executor cleared it after the `"\r\n"` that precedes the header). The header is
cut to a length of `2^32 - 2`; after `':'`, the payload byte and its
notification, the following `"\r\nOK\r\n"` meets a buffer that counts as full:
Result Status becomes overflow and no `OK` is seen. -/
theorem ipd_header_cut_wraps_witness :
    (∃ d1 L, process_ipd_msg
        { idle_desc false 64 with result_buff := [43, 73, 80, 68, 44, 49], result_len := 6 } 0
        = some (ret_code.SUCCESS, d1, L) ∧
      d1.result_len = (if 2 ≤ 0 then 0 - 2 else U32 - 2 + 0) ∧
      (0 < 2 → 0 < d1.result_len ∧ RESULT_BUFF_LEN ≤ d1.result_len)) ∧
    (feed 0 { idle_desc false 64 with result_buff := [43, 73, 80, 68, 44, 49], result_len := 6 }
        [58, 88, 13, 10, 79, 75, 13, 10]).map
      (fun d => (d.callback_state, d.result_len, d.result_status, d.app_notified, d.matched)) =
      some (callback_state_t.READING_MODULE_MSG, 4294967294,
        result_status_t.OVERFLOW_ERROR, [1], []) :=
  ⟨ipd_header_cut_wraps
    { idle_desc false 64 with result_buff := [43, 73, 80, 68, 44, 49], result_len := 6 } 0 0 [49]
    rfl (by decide) (by decide) (by decide) (by decide), by decide⟩

/-- C30: the code on the failing inputs. With an empty response buffer the
backward scan of `process_ipd_msg` starts at index `0 - 1 = 2^32 - 1` and reads
outside the buffer; so does the byte-received path when `':'` arrives then.
With `"D,"` in the buffer the comparison with `"+IPD,"` goes on below index 0,
and with `"1"` the scan does. -/
theorem ipd_read_before_buffer :
    (∀ (d : at_desc) (len : Nat), d.result_len = 0 → process_ipd_msg d len = none) ∧
    (∀ (d : at_desc) (len : Nat), awaiting_char d → d.result_len = 0 →
      uart_rx_byte d len 58 = none) ∧
    process_ipd_msg { idle_desc false 64 with result_buff := [68, 44], result_len := 2 } 0 = none ∧
    process_ipd_msg { idle_desc false 64 with result_buff := [49], result_len := 1 } 0 = none := by
  refine ⟨process_ipd_empty, ?_, by decide, by decide⟩
  intro d len ha h0
  rw [rx_awaiting d len 58 ha]
  exact at_callback_colon_undefined _ len ha.1 rfl (process_ipd_empty _ len h0)

/-- C30, the failing input: a descriptor at rest (empty response buffer) that
receives `':'`. -/
theorem ipd_read_before_buffer_witness :
    process_ipd_msg (idle_desc false 64) 0 = none ∧
    uart_rx_byte (idle_desc false 64) 0 58 = none :=
  ⟨ipd_read_before_buffer.1 (idle_desc false 64) 0 rfl,
   ipd_read_before_buffer.2.1 (idle_desc false 64) 0 ⟨rfl, rfl, rfl, rfl⟩ rfl⟩

/-- C31. The index cleared when `"CLOSED\r\n"` completes is not always below
`MAX_CONNECTIONS`. In single-connection mode it is 0. In multiplexed mode it is
what `get_conn_id` returns for the buffer from which the pattern was trimmed,
and `refresh_status` only prints a message when it is above 4 before it writes
`connections[id].active`: with fewer than two bytes left, or a byte that is not
a digit before the comma, the index is `2^32 - 1` (the `-1` of `get_conn_id`
stored in a `uint32_t`); with a digit `c` it is `c`, so 4 to 9 for those
digits. In each of these cases the write is outside the four-entry table (no
result in the model). The last three conjuncts are complete streams in
multiplexed mode from the state at rest: `"CLOSED\r\n"` alone, `"5,CLOSED\r\n"`
and `"x,CLOSED\r\n"`. -/
theorem closed_index_out_of_table :
    (∀ d : at_desc, d.multiple_conections = false → closed_index d = some 0) ∧
    (∀ d : at_desc, d.multiple_conections = true → d.result_len < 2 →
      closed_index d = some (U32 - 1) ∧ on_match d 3 = none) ∧
    (∀ (d : at_desc) (n : Nat), d.multiple_conections = true → d.result_len = n + 2 →
      n + 2 ≤ RESULT_BUFF_LEN →
      d.result_buff.getD n 0 < 48 ∨ d.result_buff.getD n 0 > 57 →
      closed_index d = some (U32 - 1) ∧ on_match d 3 = none) ∧
    (∀ (d : at_desc) (n c : Nat), d.multiple_conections = true → d.result_len = n + 2 →
      n + 2 ≤ RESULT_BUFF_LEN → d.result_buff.getD n 0 = 48 + c → c ≤ 9 →
      closed_index d = some c ∧ (4 ≤ c → on_match d 3 = none)) ∧
    feed 0 (idle_desc true 64) [67, 76, 79, 83, 69, 68, 13, 10] = none ∧
    feed 0 (idle_desc true 64) [53, 44, 67, 76, 79, 83, 69, 68, 13, 10] = none ∧
    feed 0 (idle_desc true 64) [120, 44, 67, 76, 79, 83, 69, 68, 13, 10] = none := by
  refine ⟨?_, ?_, ?_, ?_, by decide, by decide, by decide⟩
  · intro d hm
    unfold closed_index
    rw [hm]; rfl
  · intro d hm hl
    have hg := get_conn_id_short d hl
    refine ⟨?_, on_match_closed_out d d _ hm hg (by decide)⟩
    unfold closed_index
    rw [hm, hg]; rfl
  · intro d n hm hl hcap hch
    have hg := get_conn_id_other d n hl hcap hch
    refine ⟨?_, on_match_closed_out d d _ hm hg (by decide)⟩
    unfold closed_index
    rw [hm, hg]; rfl
  · intro d n c hm hl hcap hch hc
    have hg := get_conn_id_digit d n c hl hcap hch hc
    refine ⟨?_, fun h4 => on_match_closed_out d _ _ hm hg h4⟩
    unfold closed_index
    rw [hm, hg]; rfl

/-- Witness of C31: multiplexed mode, nothing left in the response buffer once
`"CLOSED\r\n"` is trimmed. -/
theorem closed_index_out_of_table_witness :
    closed_index { idle_desc true 64 with result_buff := [67, 76, 79, 83, 69, 68, 13, 10] }
      = some (U32 - 1) ∧
    on_match { idle_desc true 64 with result_buff := [67, 76, 79, 83, 69, 68, 13, 10] } 3 = none :=
  closed_index_out_of_table.2.1
    { idle_desc true 64 with result_buff := [67, 76, 79, 83, 69, 68, 13, 10] } rfl (by decide)

/-- C32 (as stated). The pending counter is zero before the final notification:
128 bytes announced, a destination of 100 bytes; after the first 100 payload
bytes one notification of 100 bytes has fired, the mode is still payload-reading
and the counter is already 0; it stays 0 while the last 28 bytes arrive (here
after 110 bytes). -/
theorem pending_zero_before_last_notice :
    (feed 0 { idle_desc false 100 with
          result_buff := [13, 10, 43, 73, 80, 68, 44, 49, 50, 56], result_len := 10 }
        (58 :: List.replicate 100 120)).map
      (fun d => (d.callback_state, d.app_data.pending, d.app_notified)) =
      some (callback_state_t.READING_PAYLOAD, 0, [100]) ∧
    (feed 0 { idle_desc false 100 with
          result_buff := [13, 10, 43, 73, 80, 68, 44, 49, 50, 56], result_len := 10 }
        (58 :: List.replicate 110 120)).map
      (fun d => (d.callback_state, d.app_data.pending, d.app_notified)) =
      some (callback_state_t.READING_PAYLOAD, 0, [100]) := by
  decide

/-- C32 (amended). In single-connection and module-message mode, with an
application callback installed, for every payload length `L` with
`1 <= L < 2^31` announced by `"\r\n+IPD,<L>:"` and every fixed destination
capacity `s` with `1 <= s < L`: the pending counter is decremented when a read
is submitted, not when bytes are copied. After `k < L` payload bytes,
`k / s` notifications of `s` bytes have fired, the mode is payload-reading and
the counter is `L - (k / s + 1) * s`, the bytes that follow the read now
outstanding (0 when that read is the last one); so the counter is non-zero
until the read of the last chunk is submitted and 0 during the whole last
chunk. After the `L` bytes the counter is 0 and the mode is module-message. -/
theorem pending_counts_unsubmitted (d : at_desc) (len L : Nat) (pre pl : List Nat)
    (ha : awaiting_char d) (hm : d.multiple_conections = false)
    (hcb : d.app_callback = true)
    (hs1 : 1 ≤ d.app_data.size) (hsL : d.app_data.size < L) (hL : L < 2147483648)
    (hcap : d.result_len ≤ RESULT_BUFF_LEN)
    (hview : result_view d = pre ++ [13, 10] ++ at_ipd ++ decimal L)
    (hpl : pl.length = L) :
    (∀ k < L, ∃ dk, feed len d (58 :: pl.take k) = some dk ∧
        dk.callback_state = callback_state_t.READING_PAYLOAD ∧
        dk.app_data.pending = L - (k / d.app_data.size + 1) * d.app_data.size ∧
        (dk.app_data.pending ≠ 0 ↔ (k / d.app_data.size + 1) * d.app_data.size < L) ∧
        dk.app_notified =
          d.app_notified ++ List.replicate (k / d.app_data.size) d.app_data.size) ∧
    ∃ d2, feed len d (58 :: pl) = some d2 ∧
      d2.callback_state = callback_state_t.READING_MODULE_MSG ∧
      d2.app_data.pending = 0 := by
  obtain ⟨hne, hd, hval, hlen⟩ := decimal_spec L
  have hv : result_view d =
      (pre ++ [13, 10]) ++ (at_ipd ++ ipd_body d.multiple_conections 0 (decimal L)) := by
    rw [hview, hm]
    simp [ipd_body]
  obtain ⟨d1, hf, hst, hcb1, hsz, hnot, _⟩ := rx_colon_header d len 0 pre (decimal L) ha hv hcap
    (by decide) hne hd (hlen 10 (by decide) (by omega)) (by rw [hval]; omega)
  rw [hval] at hst
  have hcb2 : d1.app_callback = true := by rw [hcb1]; exact hcb
  constructor
  · intro k hk
    have hkl : (pl.take k).length = k := by rw [List.length_take]; omega
    obtain ⟨dk, hfk, hmode, hpend, hn⟩ := payload_pending_run len d.app_data.size hs1
      (pl.take k) d1 L hst hcb2 hsz (by unfold U32; omega) (by rw [hkl]; exact hk)
    rw [hkl] at hpend hn
    refine ⟨dk, ?_, hmode, hpend, ?_, ?_⟩
    · rw [feed_cons len d d1 58 _ hf]; exact hfk
    · rw [hpend]; omega
    · rw [hn, hnot]
  · rw [Nat.min_eq_left (by omega)] at hst
    obtain ⟨d2, N, hf2, hm2, _, _, _, _, hp2⟩ :=
      payload_run_all len pl d1 _ _ [] hst hcb2 (by rw [hsz]; exact hs1)
        (by simpa using hs1) (by rw [hsz]) (by unfold U32; omega)
        (by simp only [List.length_nil]; omega)
    exact ⟨d2, by rw [feed_cons len d d1 58 _ hf]; exact hf2, hm2, hp2⟩

/-- Witness of C32 (amended): 128 bytes announced, a destination of 50 bytes. -/
theorem pending_counts_unsubmitted_witness :
    (∀ k < 128, ∃ dk, feed 0 { idle_desc false 50 with
            result_buff := [13, 10, 43, 73, 80, 68, 44, 49, 50, 56], result_len := 10 }
          (58 :: (List.replicate 128 120).take k) = some dk ∧
        dk.callback_state = callback_state_t.READING_PAYLOAD ∧
        dk.app_data.pending = 128 - (k / 50 + 1) * 50 ∧
        (dk.app_data.pending ≠ 0 ↔ (k / 50 + 1) * 50 < 128) ∧
        dk.app_notified = [] ++ List.replicate (k / 50) 50) ∧
    ∃ d2, feed 0 { idle_desc false 50 with
            result_buff := [13, 10, 43, 73, 80, 68, 44, 49, 50, 56], result_len := 10 }
          (58 :: List.replicate 128 120) = some d2 ∧
      d2.callback_state = callback_state_t.READING_MODULE_MSG ∧
      d2.app_data.pending = 0 :=
  pending_counts_unsubmitted
    { idle_desc false 50 with
      result_buff := [13, 10, 43, 73, 80, 68, 44, 49, 50, 56], result_len := 10 }
    0 128 [] (List.replicate 128 120) ⟨rfl, rfl, rfl, rfl⟩ rfl rfl (by decide) (by decide)
    (by decide) (by decide) (by decide) (by simp)

/-- C33 (as stated). Result Status is changed out of the states other than
awaiting as well: with the status available, the bytes `"\r\nERROR\r\n"` set
it to error; with the status error, `"\r\nOK\r\n"` sets it to available; with
the status available and the response buffer full, one more byte sets it to
overflow. -/
theorem status_changed_when_not_awaiting :
    ((feed 0 { idle_desc false 64 with result_status := result_status_t.RESULT_AVAILABE }
        (responses 0)).map (fun x => x.result_status) =
      some result_status_t.RESULT_ERROR) ∧
    ((feed 0 { idle_desc false 64 with result_status := result_status_t.RESULT_ERROR }
        (responses 1)).map (fun x => x.result_status) =
      some result_status_t.RESULT_AVAILABE) ∧
    ((uart_rx_byte
        { idle_desc false 64 with
            result_status := result_status_t.RESULT_AVAILABE, result_len := RESULT_BUFF_LEN }
        0 65).map (fun x => x.result_status) =
      some result_status_t.OVERFLOW_ERROR) := by
  decide

/-- C33 (amended). The byte-received path changes Result Status from any state,
and only in two ways. Whenever a received byte is served, either the status is
what it was; or the byte completed `"\r\nERROR\r\n"`, `"\r\nOK\r\n"` or
`"\r\nSEND OK\r\n"` (the completion is logged) and the status is error for
the first and available for the other two; or the mode was module-message, the
response buffer was full and the status is overflow. -/
theorem status_changes_on_events (d d1 : at_desc) (len b : Nat)
    (h : uart_rx_byte d len b = some d1) : status_step d d1 :=
  uart_rx_byte_status d d1 len b h

/-- Witness of C33 (amended): the last byte of `"\r\nOK\r\n"` with the status
error. -/
theorem status_changes_on_events_witness :
    status_step
      { idle_desc false 64 with
          result_status := result_status_t.RESULT_ERROR
          result_buff := [13, 10, 79, 75, 13], result_len := 5, match_idx := [2, 5, 2, 0] }
      { idle_desc false 64 with
          result_status := result_status_t.RESULT_AVAILABE
          result_buff := [13, 10, 79, 75, 13, 10], result_len := 0, read_ch := 10
          matched := [1] } :=
  status_changes_on_events _ _ 0 10 (by decide)

set_option maxRecDepth 100000 in
/-- C34, as stated, fails in two cases. With no application callback installed
(`app_callback` null) the byte is queued and nobody is notified; with the result
circular buffer full (500 bytes queued) the byte is not queued and the
application is notified with the unchanged size 500. -/
theorem unvarnished_byte_unnoticed_or_lost :
    ((uart_rx_byte
        { idle_desc false 64 with
            callback_state := callback_state_t.READING_UNVARNISHED, app_callback := false }
        0 120).map (fun d => (d.cb_response, d.app_notified)) = some ([120], [])) ∧
    ((uart_rx_byte
        { idle_desc false 64 with
            callback_state := callback_state_t.READING_UNVARNISHED
            cb_response := List.replicate 500 97 }
        0 120).map (fun d => (d.cb_response, d.app_notified)) =
      some (List.replicate 500 97, [500])) := by
  constructor <;> decide

/-- C34, amended. In unvarnished mode, with the one-byte read outstanding, every
received byte value is served: the byte is queued in the result circular buffer
when the buffer has room for it, the application callback, when installed, is
called with the size of the circular buffer after the write, the mode stays
unvarnished with the next one-byte read submitted, and the response buffer, its
length, the match counters, Result Status, the application buffer with its
pending counter, the connection table, the multiplexed flag and the log of
completed responses are unchanged. -/
theorem unvarnished_byte_passed (d : at_desc) (len b : Nat) (ha : awaiting_raw d) :
    ∃ d1, uart_rx_byte d len b = some d1 ∧
      (d.cb_response.length < RESULT_BUFF_LEN → d1.cb_response = d.cb_response ++ [b]) ∧
      (d.app_callback = true → d1.app_notified = d.app_notified ++ [d1.cb_response.length]) ∧
      d1.callback_state = callback_state_t.READING_UNVARNISHED ∧
      d1.result_buff = d.result_buff ∧ d1.result_len = d.result_len ∧
      d1.match_idx = d.match_idx ∧ d1.result_status = d.result_status ∧
      d1.app_data = d.app_data ∧ d1.connections = d.connections ∧
      d1.multiple_conections = d.multiple_conections ∧ d1.matched = d.matched ∧
      awaiting_raw d1 := by
  rw [rx_raw d len b ha]
  refine ⟨_, rfl, ?_⟩
  have hcw : d.cb_response.length < RESULT_BUFF_LEN →
      (cb_write d.cb_response [b]).2 = d.cb_response ++ [b] := by
    intro h
    have h5 : d.cb_response.length + [b].length ≤ RESULT_BUFF_LEN := h
    unfold cb_write
    rw [if_pos h5]
  unfold call_app_callback
  split
  · exact ⟨hcw, fun _ => rfl, ha.1, rfl, rfl, rfl, rfl, rfl, rfl, rfl, rfl, ha⟩
  · rename_i hc
    exact ⟨hcw, fun h => absurd h hc, ha.1, rfl, rfl, rfl, rfl, rfl, rfl, rfl, rfl, ha⟩

/-- Witness of C34 (amended): the byte `':'` in unvarnished mode is queued and notified
with size 1. -/
theorem unvarnished_byte_passed_witness :
    ∃ d1, uart_rx_byte
        { idle_desc false 64 with callback_state := callback_state_t.READING_UNVARNISHED } 0 58
        = some d1 ∧
      d1.cb_response = [58] ∧ d1.app_notified = [1] ∧
      d1.callback_state = callback_state_t.READING_UNVARNISHED ∧ d1.result_len = 0 := by
  obtain ⟨d1, h, h1, h2, h3, _, h4, _⟩ := unvarnished_byte_passed
    { idle_desc false 64 with callback_state := callback_state_t.READING_UNVARNISHED } 0 58
    ⟨rfl, rfl, rfl, rfl⟩
  have e1 := h1 (by decide)
  have e2 := h2 rfl
  rw [e1] at e2
  exact ⟨d1, h, e1, e2, h3, h4⟩

/-- C35. The prompt flag is not reserved to the send-data command: `at_run_cmd`
sets it before the response of every command it transmits (deep sleep, reset and
send-data are handled apart), so the first `'>'` of the response of any such
command is taken as the prompt and dropped. For a permitted command other than
send-data, run with a parameter object from an empty response buffer and
answered `P1 ++ ">" ++ P2 ++ "\r\nOK\r\n"`, the call returns `SUCCESS` and
the bytes republished in the result circular buffer are `P1 ++ P2`: the `'>'`
was consumed although no send-data command was waiting for it, and the flag is
false afterwards. -/
theorem prompt_taken_from_any_response (len : Nat) (desc d1 : at_desc) (cmd : at_cmd)
    (op : cmd_operation) (p : in_param) (P1 P2 : List Nat) (rest : schedule)
    (ha : awaiting_char desc) (hempty : desc.result_len = 0)
    (hctr : desc.match_idx = [0, 0, 0, 0])
    (hperm : (g_map cmd).2 &&& op.val ≠ 0)
    (hc1 : cmd ≠ at_cmd.AT_DEEP_SLEEP) (hc2 : cmd ≠ at_cmd.AT_RESET)
    (hc3 : cmd ≠ at_cmd.AT_SEND) (hc4 : cmd ≠ at_cmd.AT_DISCONNECT_NETWORK)
    (hb : build_cmd desc cmd op (some p) = some d1)
    (hid : cmd = at_cmd.AT_START_CONNECTION → op = cmd_operation.AT_SET_OP →
      (if desc.multiple_conections then p.connection.id else 0) < MAX_CONNECTIONS)
    (hP : ∀ b ∈ P1 ++ P2, b ≠ 58 ∧ b ≠ 62)
    (hcap : P1.length + P2.length + 6 ≤ RESULT_BUFF_LEN)
    (hno : ∀ k < (P1 ++ P2 ++ responses 1).length, ∀ i < 4,
      ¬ responses i <:+ (P1 ++ P2 ++ responses 1).take k)
    (hcb : desc.cb_response.length + (P1.length + P2.length) ≤ RESULT_BUFF_LEN) :
    (dispatched d1).waiting_send = true ∧
    ∃ out, at_run_cmd len desc cmd op (some p)
          ([irq.tx_done] :: (P1 ++ [62] ++ P2 ++ responses 1).map irq.rx :: rest) =
        Except.ok out ∧
      out.ret = ret_code.SUCCESS ∧
      out.desc.cb_response = desc.cb_response ++ (P1 ++ P2) ∧
      out.desc.waiting_send = false := by
  refine ⟨rfl, ?_⟩
  have hmode : desc.callback_state ≠ callback_state_t.READING_UNVARNISHED := by
    rw [ha.1]; decide
  have hde := dispatched_eq desc d1 cmd op (some p) hb
  have ha2 : awaiting_char (dispatched d1) := by rw [hde]; exact ha
  have hempty2 : (dispatched d1).result_len = 0 := by rw [hde]; exact hempty
  have hctr2 : (dispatched d1).match_idx = [0, 0, 0, 0] := by rw [hde]; exact hctr
  obtain ⟨F, hF, hst, hlen, hview, hcbF, hmc, _, hws, _⟩ :=
    feed_prompt_dropped len (dispatched d1) P1 P2 ha2 hempty2 hctr2 rfl hP hcap hno
  have hcb0 : F.cb_response = desc.cb_response := by rw [hcbF, hde]
  have hm0 : F.multiple_conections = desc.multiple_conections := by rw [hmc, hde]
  have hw : wait_for_response len (dispatched d1)
      ((P1 ++ [62] ++ P2 ++ responses 1).map irq.rx :: rest) = Except.ok (F, rest) := by
    unfold wait_for_response
    exact wait_loop_hit len _ _ F _ rest rfl hF (by rw [hst]; decide)
  obtain ⟨f1, f2, f3⟩ := conn_update_frame F cmd op p
  have hview2 : result_view (conn_update F cmd op p) = P1 ++ P2 := by
    unfold result_view
    rw [f1, f2]
    exact hview
  have hws2 : (conn_update F cmd op p).waiting_send = false := by
    rw [← hws]
    unfold conn_update
    simp only []
    split <;> split <;> split <;> rfl
  have hcmd1 : (if op = cmd_operation.AT_SET_OP then at_cmd.AT_GET_VERSION else cmd) ≠
      at_cmd.AT_DISCONNECT_NETWORK := by
    split
    · decide
    · exact hc4
  rw [run_cmd_dispatch len desc d1 cmd op (some p) _ hperm hmode hc1 hc2 hc3 hb, hw]
  simp only [hst, ne_eq, not_true_eq_false, if_false]
  rw [run_cmd_update_some len _ cmd op p rest (by rw [hm0]; exact hid),
    parse_result_copy len _ _ rest hcmd1
      (by rw [f1, hlen]; have : RESULT_BUFF_LEN = 500 := rfl; omega)
      (by rw [f1, f3, hcb0, hlen]; exact hcb)]
  refine ⟨_, rfl, rfl, ?_, hws2⟩
  show (conn_update F cmd op p).cb_response ++ result_view (conn_update F cmd op p) = _
  rw [hview2, f3, hcb0]

/-- Witness of C35: the version query answered `"a>b\r\nOK\r\n"`: the call
succeeds and `"ab"` is republished. -/
theorem prompt_taken_from_any_response_witness :
    ∃ out, at_run_cmd 0 (idle_desc false 64) at_cmd.AT_GET_VERSION
          cmd_operation.AT_EXECUTE_OP (some in_param_zero)
          ([irq.tx_done] :: ([97] ++ [62] ++ [98] ++ responses 1).map irq.rx :: []) =
        Except.ok out ∧
      out.ret = ret_code.SUCCESS ∧
      out.desc.cb_response = (idle_desc false 64).cb_response ++ ([97] ++ [98]) ∧
      out.desc.waiting_send = false :=
  (prompt_taken_from_any_response 0 (idle_desc false 64)
    { idle_desc false 64 with cmd_buff := [65, 84, 43, 71, 77, 82, 13, 10], cmd_len := 8 }
    at_cmd.AT_GET_VERSION cmd_operation.AT_EXECUTE_OP in_param_zero [97] [98] []
    ⟨rfl, rfl, rfl, rfl⟩ rfl rfl (by decide) (by decide) (by decide) (by decide) (by decide)
    rfl (fun h => absurd h (by decide)) (by decide) (by decide) (by decide) (by decide)).2

/-- C36. `at_run_cmd` has no statement for `AT_STOP_CONNECTION` among its
updates after the response: whenever it succeeds for this command, with any
operation and parameter and under any schedule, the connection table is the one
before the call unless a closure notice was completed by the matcher meanwhile.
And the successful run exists: with the set operation and a parameter object,
from an empty response buffer, answered `P ++ "\r\nOK\r\n"` with no closure
notice in it, the call returns `SUCCESS`, the log gains the `OK` only and the
table is unchanged, so the connection that was closed is still marked active. -/
theorem stop_connection_leaves_table (len : Nat) (desc : at_desc) :
    (∀ (op : cmd_operation) (param : Option in_param) (env : schedule) (out : run_out),
      at_run_cmd len desc at_cmd.AT_STOP_CONNECTION op param env = Except.ok out →
      out.ret = ret_code.SUCCESS →
      out.desc.matched.count 3 = desc.matched.count 3 →
      out.desc.connections = desc.connections) ∧
    ∀ (p : in_param) (d1 : at_desc) (P : List Nat) (rest : schedule),
      awaiting_char desc → desc.result_len = 0 → desc.match_idx = [0, 0, 0, 0] →
      build_cmd desc at_cmd.AT_STOP_CONNECTION cmd_operation.AT_SET_OP (some p) = some d1 →
      (∀ b ∈ P, b ≠ 58 ∧ b ≠ 62) →
      P.length + (responses 1).length ≤ RESULT_BUFF_LEN →
      (∀ k < (P ++ responses 1).length, ∀ i < 4,
        ¬ responses i <:+ (P ++ responses 1).take k) →
      desc.cb_response.length + P.length ≤ RESULT_BUFF_LEN →
      ∃ out, at_run_cmd len desc at_cmd.AT_STOP_CONNECTION cmd_operation.AT_SET_OP (some p)
            ([irq.tx_done] :: (P ++ responses 1).map irq.rx :: rest) = Except.ok out ∧
        out.ret = ret_code.SUCCESS ∧ out.desc.connections = desc.connections ∧
        out.desc.matched = desc.matched ++ [1] := by
  constructor
  · intro op param env out h hs hcount
    obtain ⟨d6, env6, k, _, hu⟩ :=
      run_cmd_reaches_update len desc _ op param env out h hs (by decide)
    have k2 := run_cmd_update_kept len d6 _ op param env6 out (by decide)
      (fun hc => absurd hc (by decide)) hu
    exact (conn_kept_trans _ _ _ k k2).2.2.2.1 hcount
  · intro p d1 P rest ha hempty hctr hb hP hcap hno hcb
    have hde := dispatched_eq desc d1 _ _ _ hb
    have hc0 : (answered (dispatched d1) P 1).connections = desc.connections := by
      show (dispatched d1).connections = _
      rw [hde]
    have hcb0 : (answered (dispatched d1) P 1).cb_response = desc.cb_response := by
      show (dispatched d1).cb_response = _
      rw [hde]
    have hma0 : (answered (dispatched d1) P 1).matched = desc.matched ++ [1] := by
      show (dispatched d1).matched ++ [1] = _
      rw [hde]
    obtain ⟨f1, f2, f3⟩ := conn_update_frame (answered (dispatched d1) P 1)
      at_cmd.AT_STOP_CONNECTION cmd_operation.AT_SET_OP p
    have hrl : (conn_update (answered (dispatched d1) P 1) at_cmd.AT_STOP_CONNECTION
        cmd_operation.AT_SET_OP p).result_len = P.length := f1
    have hcu : conn_update (answered (dispatched d1) P 1) at_cmd.AT_STOP_CONNECTION
        cmd_operation.AT_SET_OP p = answered (dispatched d1) P 1 := by
      unfold conn_update
      simp only [reduceCtorEq, if_false, false_and]
    have h := run_cmd_answered len desc d1 at_cmd.AT_STOP_CONNECTION cmd_operation.AT_SET_OP
      (some p) P 1 [] (P ++ responses 1) rest (by decide) ha hempty hctr (by decide)
      (by decide) (by decide) (by decide) hb hP hcap hno rfl (by simp [responses]) (by decide)
    rw [if_neg (by decide)] at h
    have h' : at_run_cmd len desc at_cmd.AT_STOP_CONNECTION cmd_operation.AT_SET_OP (some p)
        ([irq.tx_done] :: (P ++ responses 1).map irq.rx :: rest) =
        at_run_cmd_update len (answered (dispatched d1) P 1) at_cmd.AT_STOP_CONNECTION
          cmd_operation.AT_SET_OP (some p) rest := h
    rw [h', run_cmd_update_some len _ _ _ p rest (fun hc => absurd hc (by decide)),
      parse_result_copy len _ _ rest (by decide)
        (by rw [hrl]; have : RESULT_BUFF_LEN = 500 := rfl; omega)
        (by rw [hrl, f3, hcb0]; exact hcb)]
    refine ⟨_, rfl, rfl, ?_, ?_⟩
    · show (conn_update (answered (dispatched d1) P 1) at_cmd.AT_STOP_CONNECTION
        cmd_operation.AT_SET_OP p).connections = _
      rw [hcu, hc0]
    · show (conn_update (answered (dispatched d1) P 1) at_cmd.AT_STOP_CONNECTION
        cmd_operation.AT_SET_OP p).matched = _
      rw [hcu, hma0]

/-- Witness of C36: connection 0 active, `AT+CIPCLOSE=0` answered
`"\r\nOK\r\n"`. -/
theorem stop_connection_leaves_table_witness :
    ∃ out, at_run_cmd 0
          { idle_desc false 64 with
            connections := [{ active := true, type := socket_type.SOCKET_TCP },
                            { active := false, type := socket_type.SOCKET_TCP },
                            { active := false, type := socket_type.SOCKET_TCP },
                            { active := false, type := socket_type.SOCKET_TCP }] }
          at_cmd.AT_STOP_CONNECTION cmd_operation.AT_SET_OP (some in_param_zero)
          ([irq.tx_done] :: ([] ++ responses 1).map irq.rx :: []) = Except.ok out ∧
      out.ret = ret_code.SUCCESS ∧
      out.desc.connections =
        ({ idle_desc false 64 with
            connections := [{ active := true, type := socket_type.SOCKET_TCP },
                            { active := false, type := socket_type.SOCKET_TCP },
                            { active := false, type := socket_type.SOCKET_TCP },
                            { active := false, type := socket_type.SOCKET_TCP }] }
          : at_desc).connections ∧
      out.desc.matched =
        ({ idle_desc false 64 with
            connections := [{ active := true, type := socket_type.SOCKET_TCP },
                            { active := false, type := socket_type.SOCKET_TCP },
                            { active := false, type := socket_type.SOCKET_TCP },
                            { active := false, type := socket_type.SOCKET_TCP }] }
          : at_desc).matched ++ [1] :=
  (stop_connection_leaves_table 0
      { idle_desc false 64 with
        connections := [{ active := true, type := socket_type.SOCKET_TCP },
                        { active := false, type := socket_type.SOCKET_TCP },
                        { active := false, type := socket_type.SOCKET_TCP },
                        { active := false, type := socket_type.SOCKET_TCP }] }).2
    in_param_zero
    { idle_desc false 64 with
      connections := [{ active := true, type := socket_type.SOCKET_TCP },
                      { active := false, type := socket_type.SOCKET_TCP },
                      { active := false, type := socket_type.SOCKET_TCP },
                      { active := false, type := socket_type.SOCKET_TCP }]
      cmd_buff := [65, 84, 43, 67, 73, 80, 67, 76, 79, 83, 69, 61, 48, 13, 10], cmd_len := 15 }
    [] [] ⟨rfl, rfl, rfl, rfl⟩ rfl rfl (by decide) (by decide) (by decide) (by decide)
    (by decide)

/-- C37. The executor clears the response buffer without resetting the progress
counters, so a pattern begun before the clear completes over a buffer shorter
than the pattern and the trimming wraps. From zero counters, for a terminator
pattern `i` and a cut `0 < k < |pattern|`: the first `k` bytes of the pattern are
appended; the buffer length is set to 0 (the statement `desc->result.len = 0` of
`at_run_cmd` and `parse_result`); the rest of the pattern arrives. The pattern
completes (it is logged) with the buffer holding `|pattern| - k` bytes, and the
length after trimming is `2^32 - k`, above `RESULT_BUFF_LEN`; the next byte then
sets the overflow status. The last conjunct is such an interleaving produced by
`at_run_cmd` itself: the attention command answered `"\r\nOK\r\nCLO"` in one
millisecond returns `SUCCESS` with length 0 and the counter of `"CLOSED\r\n"`
at 3, and `"SED\r\n"` then leaves the length `2^32 - 3`. -/
theorem trim_underflows_after_clear (len : Nat) (d : at_desc) (i k : Nat)
    (ha : awaiting_char d) (hctr : d.match_idx = [0, 0, 0, 0])
    (hcap : d.result_len + k ≤ RESULT_BUFF_LEN) (hi : i < 3) (hk0 : 0 < k)
    (hk : k < (responses i).length) :
    (∃ D1 D2, feed len d ((responses i).take k) = some D1 ∧
      D1.result_len = d.result_len + k ∧
      feed len { D1 with result_len := 0 } ((responses i).drop k) = some D2 ∧
      D2.matched = d.matched ++ [i] ∧ D2.result_len = U32 - k ∧
      RESULT_BUFF_LEN < D2.result_len ∧
      ∀ b, b ≠ 58 → b ≠ 62 →
        (uart_rx_byte D2 len b).map (fun x => x.result_status) =
          some result_status_t.OVERFLOW_ERROR) ∧
    (match at_run_cmd 0 (idle_desc false 64) at_cmd.AT_ATTENTION cmd_operation.AT_EXECUTE_OP
        none [[irq.tx_done], [13, 10, 79, 75, 13, 10, 67, 76, 79].map irq.rx] with
      | Except.ok out =>
        some (out.ret, out.desc.result_len, out.desc.match_idx,
          (feed 0 out.desc [83, 69, 68, 13, 10]).map (fun x => (x.result_len, x.matched)))
      | Except.error _ => none) =
      some (ret_code.SUCCESS, 0, [0, 0, 0, 3], some (4294967293, [1, 3])) := by
  refine ⟨?_, by decide⟩
  have h500 : RESULT_BUFF_LEN = 500 := rfl
  have hlen6 : (responses i).length ≤ 14 := by
    interval_cases i <;> decide
  have htl : ((responses i).take k).length = k := by
    rw [List.length_take]; omega
  obtain ⟨D1, hf1, ht1, hD1⟩ := feed_nomatch len ((responses i).take k) d [] ha
    (ctrs_track_zero d hctr) (by rw [htl]; exact hcap)
    (fun b hb => pattern_bytes i hi b (List.mem_of_mem_take hb))
    (no_ends_of_take [] _ (by
      intro j hj t ht
      rw [htl] at hj
      rw [List.nil_append, List.take_take, Nat.min_eq_left (by omega)]
      exact pattern_head_clean i hi (j + 1) (by omega) t ht))
  rw [List.nil_append] at ht1
  have ha1 : awaiting_char D1 := by rw [hD1]; exact ha
  have hl1 : D1.result_len = d.result_len + k := by
    rw [hD1]; show d.result_len + _ = _; rw [htl]
  have hm1 : D1.matched = d.matched := by rw [hD1]
  obtain ⟨s, b, hsb, hsl⟩ := pattern_split i hi k hk
  have hfull : (responses i).take k ++ s ++ [b] = responses i := by
    rw [List.append_assoc, ← hsb, List.take_append_drop]
  obtain ⟨dm, hf3, hdm⟩ := feed_until_match len { D1 with result_len := 0 }
    ((responses i).take k) s b i ha1 ht1
    (by show 0 + s.length < 500; omega)
    (by
      intro x hx
      rw [← hsb] at hx
      exact pattern_bytes i hi x (List.mem_of_mem_drop hx))
    (no_ends_of_take _ s (by
      intro j hj t ht
      have e : (responses i).take k ++ s.take (j + 1) = (responses i).take (k + (j + 1)) := by
        conv_rhs => rw [← hfull, List.append_assoc]
        have := take_append_take ((responses i).take k) (s ++ [b]) (j + 1)
        rw [htl] at this
        rw [this, List.take_append_of_le_length (by omega)]
      rw [e]
      exact pattern_head_clean i hi _ (by omega) t ht))
    (by omega) (by rw [hfull])
  have e_len : dm.result_len = U32 - k := by
    have := congrArg at_desc.result_len hdm
    simp only [] at this
    rw [this]
    unfold sub32 U32
    unfold U32 at *
    rw [Nat.mod_eq_of_lt (by omega), Nat.mod_eq_of_lt (by omega), if_neg (by omega)]
    omega
  have e_ma : dm.matched = d.matched := by
    have := congrArg at_desc.matched hdm
    simp only [] at this
    rw [this, hm1]
  have e_cs : awaiting_char dm := by
    have h1 := congrArg at_desc.callback_state hdm
    have h2 := congrArg at_desc.uart hdm
    simp only [] at h1 h2
    exact ⟨by rw [h1]; exact ha1.1, by rw [h2]; exact ha1.2.1, by rw [h2]; exact ha1.2.2.1,
      by rw [h2]; exact ha1.2.2.2⟩
  have hom : on_match dm i = some { dm with result_status :=
      if i = 0 then result_status_t.RESULT_ERROR else result_status_t.RESULT_AVAILABE } := by
    interval_cases i <;> rfl
  rw [hom, ← hsb] at hf3
  have hD2 : ∃ D2, feed len { D1 with result_len := 0 } ((responses i).drop k) = some D2 ∧
      D2.matched = dm.matched ++ [i] ∧ D2.result_len = dm.result_len ∧ awaiting_char D2 :=
    ⟨_, hf3, rfl, rfl, ⟨e_cs.1, rfl, rfl, rfl⟩⟩
  obtain ⟨D2, hf4, hma, hl2, ha2⟩ := hD2
  have hbig : RESULT_BUFF_LEN < D2.result_len := by
    rw [hl2, e_len, h500]; unfold U32; omega
  refine ⟨D1, D2, hf1, hl1, hf4, by rw [hma, e_ma], by rw [hl2, e_len], hbig, ?_⟩
  intro b h58 h62
  rw [rx_overflow D2 len b ha2 (Nat.le_of_lt hbig) (Or.inl h62) (fun h => absurd h h58)]
  rfl

/-- Witness of C37: `"\r\nO"` before the clear, `"K\r\n"` after it. -/
theorem trim_underflows_after_clear_witness :
    ∃ D1 D2, feed 0 (idle_desc false 64) ((responses 1).take 3) = some D1 ∧
      D1.result_len = (idle_desc false 64).result_len + 3 ∧
      feed 0 { D1 with result_len := 0 } ((responses 1).drop 3) = some D2 ∧
      D2.matched = (idle_desc false 64).matched ++ [1] ∧ D2.result_len = U32 - 3 ∧
      RESULT_BUFF_LEN < D2.result_len ∧
      ∀ b, b ≠ 58 → b ≠ 62 →
        (uart_rx_byte D2 0 b).map (fun x => x.result_status) =
          some result_status_t.OVERFLOW_ERROR :=
  (trim_underflows_after_clear 0 (idle_desc false 64) 1 3 ⟨rfl, rfl, rfl, rfl⟩ rfl
    (by decide) (by decide) (by decide) (by decide)).1

/-- C38. The updates of `at_run_cmd` after the response do not look at the
operation for two commands. A successful query of the connection type
(`AT+CIPMUX?`) needs a parameter object and leaves the multiplexed flag equal
to `conn_type != 0` of that object, whatever the flag was and whatever the
module answered; a successful query of the transport mode (`AT+CIPMODE?`) with
`transport_mode = UNVARNISHED_MODE` in the object switches the mode to
unvarnished. For the query and test operations of every other command the
multiplexed flag is unchanged, and the connection table too unless a closure
notice was completed meanwhile. The fourth part shows that the successful
query of the connection type exists for every answer `P ++ "\r\nOK\r\n"`; the
last is the run from the state at rest (single-connection mode) with
`conn_type = 1` in the object, answered `"+CIPMUX:0\r\n\r\nOK\r\n"`: the
flag is true afterwards. -/
theorem query_writes_connection_state (len : Nat) (desc : at_desc) :
    (∀ (param : Option in_param) (env : schedule) (out : run_out),
      at_run_cmd len desc at_cmd.AT_SET_CONNECTION_TYPE cmd_operation.AT_QUERY_OP param env =
        Except.ok out → out.ret = ret_code.SUCCESS →
      ∃ p, param = some p ∧ out.desc.multiple_conections = decide (p.conn_type ≠ 0)) ∧
    (∀ (param : Option in_param) (env : schedule) (out : run_out),
      at_run_cmd len desc at_cmd.AT_SET_TRANSPORT_MODE cmd_operation.AT_QUERY_OP param env =
        Except.ok out → out.ret = ret_code.SUCCESS →
      ∃ p, param = some p ∧ (p.transport_mode = cipmode_param.UNVARNISHED_MODE →
        out.desc.callback_state = callback_state_t.READING_UNVARNISHED)) ∧
    (∀ (cmd : at_cmd) (op : cmd_operation) (param : Option in_param) (env : schedule)
      (out : run_out), op = cmd_operation.AT_QUERY_OP ∨ op = cmd_operation.AT_TEST_OP →
      cmd ≠ at_cmd.AT_SET_CONNECTION_TYPE →
      at_run_cmd len desc cmd op param env = Except.ok out → out.ret = ret_code.SUCCESS →
      out.desc.multiple_conections = desc.multiple_conections ∧
      (out.desc.matched.count 3 = desc.matched.count 3 →
        out.desc.connections = desc.connections)) ∧
    (∀ (p : in_param) (d1 : at_desc) (P : List Nat) (rest : schedule),
      awaiting_char desc → desc.result_len = 0 → desc.match_idx = [0, 0, 0, 0] →
      build_cmd desc at_cmd.AT_SET_CONNECTION_TYPE cmd_operation.AT_QUERY_OP (some p) = some d1 →
      (∀ b ∈ P, b ≠ 58 ∧ b ≠ 62) →
      P.length + (responses 1).length ≤ RESULT_BUFF_LEN →
      (∀ k < (P ++ responses 1).length, ∀ i < 4,
        ¬ responses i <:+ (P ++ responses 1).take k) →
      desc.cb_response.length + P.length ≤ RESULT_BUFF_LEN →
      ∃ out, at_run_cmd len desc at_cmd.AT_SET_CONNECTION_TYPE cmd_operation.AT_QUERY_OP
            (some p) ([irq.tx_done] :: (P ++ responses 1).map irq.rx :: rest) = Except.ok out ∧
        out.ret = ret_code.SUCCESS ∧
        out.desc.multiple_conections = decide (p.conn_type ≠ 0)) ∧
    (match at_run_cmd 0 (idle_desc false 64) at_cmd.AT_SET_CONNECTION_TYPE
        cmd_operation.AT_QUERY_OP (some { in_param_zero with conn_type := 1 })
        [[irq.tx_done],
         [43, 67, 73, 80, 77, 85, 88, 58, 48, 13, 10, 13, 10, 79, 75, 13, 10].map irq.rx] with
      | Except.ok out => some (out.ret, out.desc.multiple_conections, out.desc.cb_response)
      | Except.error _ => none) =
      some (ret_code.SUCCESS, true, [43, 67, 73, 80, 77, 85, 88, 58, 48, 13, 10]) := by
  refine ⟨?_, ?_, ?_, ?_, by decide⟩
  · intro param env out h hs
    obtain ⟨d6, env6, _, _, hu⟩ :=
      run_cmd_reaches_update len desc _ _ param env out h hs (by decide)
    exact run_cmd_update_type len d6 _ param env6 out hu
  · intro param env out h hs
    obtain ⟨d6, env6, _, _, hu⟩ :=
      run_cmd_reaches_update len desc _ _ param env out h hs (by decide)
    obtain ⟨p, hp, hc⟩ := run_cmd_update_mode len d6 _ param env6 out (by decide) hu
    exact ⟨p, hp, fun hm => by rw [hc, if_pos hm]⟩
  · intro cmd op param env out hop hc h hs
    by_cases hr : cmd = at_cmd.AT_RESET
    · exfalso
      subst hr
      unfold at_run_cmd at h
      rw [if_pos (by rcases hop with h | h <;> subst h <;> decide)] at h
      cases h
      cases hs
    · obtain ⟨d6, env6, k, _, hu⟩ :=
        run_cmd_reaches_update len desc cmd op param env out h hs hr
      have k2 := run_cmd_update_kept len d6 cmd op param env6 out hc
        (fun _ => by rcases hop with h | h <;> subst h <;> decide) hu
      have k3 := conn_kept_trans _ _ _ k k2
      exact ⟨k3.1, k3.2.2.2.1⟩
  · intro p d1 P rest ha hempty hctr hb hP hcap hno hcb
    have hde := dispatched_eq desc d1 _ _ _ hb
    have hcb0 : (answered (dispatched d1) P 1).cb_response = desc.cb_response := by
      show (dispatched d1).cb_response = _
      rw [hde]
    obtain ⟨f1, f2, f3⟩ := conn_update_frame (answered (dispatched d1) P 1)
      at_cmd.AT_SET_CONNECTION_TYPE cmd_operation.AT_QUERY_OP p
    have hrl : (conn_update (answered (dispatched d1) P 1) at_cmd.AT_SET_CONNECTION_TYPE
        cmd_operation.AT_QUERY_OP p).result_len = P.length := f1
    have hmul : (conn_update (answered (dispatched d1) P 1) at_cmd.AT_SET_CONNECTION_TYPE
        cmd_operation.AT_QUERY_OP p).multiple_conections = decide (p.conn_type ≠ 0) := by
      unfold conn_update
      simp only [if_true, reduceCtorEq, false_and, if_false]
    have h := run_cmd_answered len desc d1 at_cmd.AT_SET_CONNECTION_TYPE
      cmd_operation.AT_QUERY_OP (some p) P 1 [] (P ++ responses 1) rest (by decide) ha hempty
      hctr (by decide) (by decide) (by decide) (by decide) hb hP hcap hno rfl
      (by simp [responses]) (by decide)
    rw [if_neg (by decide)] at h
    have h' : at_run_cmd len desc at_cmd.AT_SET_CONNECTION_TYPE cmd_operation.AT_QUERY_OP
        (some p) ([irq.tx_done] :: (P ++ responses 1).map irq.rx :: rest) =
        at_run_cmd_update len (answered (dispatched d1) P 1) at_cmd.AT_SET_CONNECTION_TYPE
          cmd_operation.AT_QUERY_OP (some p) rest := h
    rw [h', run_cmd_update_some len _ _ _ p rest (fun hc => absurd hc (by decide)),
      parse_result_copy len _ _ rest (by decide)
        (by rw [hrl]; have : RESULT_BUFF_LEN = 500 := rfl; omega)
        (by rw [hrl, f3, hcb0]; exact hcb)]
    exact ⟨_, rfl, rfl, hmul⟩

/-- Witness of C38: `AT+CIPMUX?` with `conn_type = 1` in the parameter object,
answered `"\r\nOK\r\n"`. -/
theorem query_writes_connection_state_witness :
    ∃ out, at_run_cmd 0 (idle_desc false 64) at_cmd.AT_SET_CONNECTION_TYPE
          cmd_operation.AT_QUERY_OP (some { in_param_zero with conn_type := 1 })
          ([irq.tx_done] :: ([] ++ responses 1).map irq.rx :: []) = Except.ok out ∧
      out.ret = ret_code.SUCCESS ∧
      out.desc.multiple_conections =
        decide (({ in_param_zero with conn_type := 1 } : in_param).conn_type ≠ 0) :=
  (query_writes_connection_state 0 (idle_desc false 64)).2.2.2.1
    { in_param_zero with conn_type := 1 }
    { idle_desc false 64 with
      cmd_buff := [65, 84, 43, 67, 73, 80, 77, 85, 88, 63, 13, 10], cmd_len := 12 }
    [] [] ⟨rfl, rfl, rfl, rfl⟩ rfl rfl (by decide) (by decide) (by decide) (by decide)
    (by decide)

end AtDriver
